import Mathlib

/-!
# Quorumnet: blink submission, originator promise table and quorum checks

A shallow embedding of `src/cryptonote_protocol/quorumnet.cpp`, with the blink branch of
`src/rpc/core_rpc_server.cpp` and the portions arithmetic of
`src/cryptonote_core/service_node_rules.cpp`.

Conventions of the embedding:

* `uint64_t` values are natural numbers below `U64 = 2 ^ 64`; arithmetic that can
  wrap is reduced modulo `U64` explicitly.
* `std::string` is `String`, one character per byte, so `String.length` is `size()`.
* `bt_dict` (a `std::map`) is an association list written in key order.
* unordered containers are lists; only membership and lookup are used in theorems.
* steady-clock time points are natural numbers of clock ticks.
* code that throws returns `Except.error` with the exception text.
-/

namespace quorumnet

/-! ## Machine integers -/

/-- Number of values of a `uint64_t`. -/
def U64 : Nat := 2 ^ 64

/-- Unsigned 64-bit subtraction `a - b` for `a, b < 2 ^ 64`: the difference when
`b <= a`, and the wrapped value `2 ^ 64 - (b - a)` otherwise. -/
def u64_sub (a b : Nat) : Nat := if b ≤ a then a - b else U64 - (b - a)

/-- Unsigned 64-bit addition `a + b`. -/
def u64_add (a b : Nat) : Nat := (a + b) % U64

/-! ## Height window of `handle_blink` (quorumnet.cpp:856-872) -/

/-- Outcome of the two comparisons at quorumnet.cpp:860 and :865. -/
inductive height_verdict
  | too_low
  | too_high
  | valid
deriving DecidableEq, Repr

/-- The test `blink_height < local_height - 2`, else `blink_height > local_height + 2`,
both computed in `uint64_t`. -/
def blink_height_check (blink_height local_height : Nat) : height_verdict :=
  if blink_height < u64_sub local_height 2 then height_verdict.too_low
  else if blink_height > u64_add local_height 2 then height_verdict.too_high
  else height_verdict.valid

/-! ## Wire values -/

/-- An element of a `bt_list` as used by the quorum messages. -/
inductive bt_scalar
  | int (n : Int)
  | str (s : String)
deriving DecidableEq, Repr

/-- A `bt_value` as used by the quorum messages: integer, byte string or list. -/
inductive bt_value
  | int (n : Int)
  | str (s : String)
  | list (l : List bt_scalar)
deriving DecidableEq, Repr

/-- A `bt_dict`, in key order. -/
abbrev bt_dict := List (String × bt_value)

/-- Lookup `d.find(key)`. -/
def bt_dict.find (d : bt_dict) (key : String) : Option bt_value :=
  match d with
  | [] => none
  | (k, v) :: rest => if k = key then some v else bt_dict.find rest key

/-- The codec check `get_int<uint64_t>`: the value is an integer in range. -/
def get_int_u64 (v : bt_value) : Except String Nat :=
  match v with
  | bt_value.int (Int.ofNat n) => if n < U64 then Except.ok n
                                  else Except.error "integer out of range"
  | bt_value.int (Int.negSucc _) => Except.error "integer out of range"
  | _ => Except.error "not an integer"

/-- The lookup `d.at(key)`, which throws `std::out_of_range` on a missing key. -/
def bt_dict.at (d : bt_dict) (key : String) : Except String bt_value :=
  match d.find key with
  | some v => Except.ok v
  | none => Except.error "map::at"

/-- The helper `get_or<uint64_t>(d, key, fallback)` (quorumnet.cpp:571-579). -/
def get_or_u64 (d : bt_dict) (key : String) (fallback : Nat) : Nat :=
  match d.find key with
  | some v =>
    match get_int_u64 v with
    | Except.ok n => n
    | Except.error _ => fallback
  | none => fallback

/-! ## Connections and sent messages -/

/-- The transport connection id: `id` is `SN_ID = -1` for a service-node connection,
`0` for a default-constructed (invalid) one. -/
structure ConnectionID where
  id : Int
  pk : String
  route : String
deriving DecidableEq, Repr

/-- A default-constructed `ConnectionID`. -/
def ConnectionID.none : ConnectionID := ⟨0, "", ""⟩

/-- The conversion of a pubkey string to a service-node `ConnectionID`. -/
def ConnectionID.of_pubkey (pk : String) : ConnectionID := ⟨-1, pk, ""⟩

/-- The test `operator bool` of a connection id. -/
def ConnectionID.valid (c : ConnectionID) : Bool := c.id != 0

/-- Options of `lmq.send`. -/
inductive send_option
  | plain
  | optional
  | hint (addr : String)
deriving DecidableEq, Repr

/-- One call of `lmq.send` / `m.send_back`. -/
structure Sent where
  dest : ConnectionID
  cmd : String
  data : bt_dict
  opt : send_option
deriving DecidableEq, Repr

/-! ## Originator promise table (quorumnet.cpp:1231-1419) -/

/-- The enum `cryptonote::blink_result`. -/
inductive blink_result
  | rejected
  | accepted
  | timeout
deriving DecidableEq, Repr

/-- The pair `blink_response`. -/
abbrev blink_response := blink_result × String

/-- Shared state of a `std::promise` / `std::future` pair. -/
inductive promise_state
  | unset
  | value (r : blink_response)
  | exception (what : String)
deriving DecidableEq, Repr

/-- The effect of `promise.set_value(r)`: `none` is the `std::future_error` thrown when
the shared state is already satisfied. -/
def promise_state.set_value (p : promise_state) (r : blink_response) : Option promise_state :=
  match p with
  | promise_state.unset => some (promise_state.value r)
  | _ => none

/-- The struct `blink_result_data`. The two counters are `int`s that only ever
hold non-negative values (a `size()` and a count of increments from zero). -/
structure blink_result_data where
  hash : String
  promise : promise_state
  expiry : Nat
  remote_count : Nat
  nostart_count : Nat
deriving DecidableEq, Repr

/-- The map `pending_blink_results`, keyed by tag. -/
abbrev promise_table := List (Nat × blink_result_data)

/-- Lookup `pending_blink_results.find(tag)`. -/
def promise_table.find (t : promise_table) (tag : Nat) : Option blink_result_data :=
  match t with
  | [] => none
  | (k, v) :: rest => if k = tag then some v else promise_table.find rest tag

/-- Removal `pending_blink_results.erase(tag)`. -/
def promise_table.erase (t : promise_table) (tag : Nat) : promise_table :=
  t.filter (fun kv => kv.1 ≠ tag)

/-- In-place update of the entry stored under `tag`. -/
def promise_table.modify (t : promise_table) (tag : Nat)
    (f : blink_result_data → blink_result_data) : promise_table :=
  t.map (fun kv => if kv.1 = tag then (kv.1, f kv.2) else kv)

/-- Keys of a table are pairwise distinct, as in any `std::unordered_map`. -/
def promise_table.wf (t : promise_table) : Prop := (t.map Prod.fst).Nodup

instance promise_table.wf_decidable (t : promise_table) : Decidable t.wf := by
  unfold promise_table.wf
  infer_instance

/-- Result of handling one originator reply. -/
structure response_outcome where
  table : promise_table
  resolved : List (Nat × blink_response)
deriving DecidableEq, Repr

/-- The function `common_blink_response` (quorumnet.cpp:1321-1355). `resolved` lists the
promises whose `set_value` succeeded, by tag. -/
def common_blink_response (t : promise_table) (tag : Nat) (res : blink_result) (msg : String)
    (nostart : Bool) : response_outcome :=
  match t.find tag with
  | none => ⟨t, []⟩
  | some pbr =>
    let count := pbr.nostart_count + 1
    let t1 := if nostart then t.modify tag (fun e => { e with nostart_count := count }) else t
    let forward_response : Bool := if nostart then decide (count > pbr.remote_count / 2) else true
    if forward_response then
      match pbr.promise.set_value (res, msg) with
      | some _ => ⟨t1.erase tag, [(tag, (res, msg))]⟩
      | none => ⟨t1, []⟩
    else ⟨t1, []⟩

/-- The table after the `bl.nostart` replies with the error texts `errs`, all carrying
`tag`, have been handled in order by `common_blink_response`. -/
def after_nostart_replies (t : promise_table) (tag : Nat) : List String → promise_table
  | [] => t
  | err :: rest =>
    after_nostart_replies (common_blink_response t tag blink_result.rejected err true).table tag rest

/-- A decoded originator reply message: its data parts. -/
structure reply_message where
  data : List bt_dict
deriving DecidableEq, Repr

/-- The codec read `std::get<std::string>` of a value. -/
def get_string (v : bt_value) : Except String String :=
  match v with
  | bt_value.str s => Except.ok s
  | _ => Except.error "bad variant access"

/-- The handler `handle_blink_not_started` (quorumnet.cpp:1365-1377). -/
def handle_blink_not_started (t : promise_table) (m : reply_message) :
    Except String response_outcome :=
  match m.data with
  | [data] => do
    let tag ← (← data.at "!") |> get_int_u64
    let error ← (← data.at "e") |> get_string
    pure (common_blink_response t tag blink_result.rejected error true)
  | _ => pure ⟨t, []⟩

/-- The handler `handle_blink_failure` (quorumnet.cpp:1384-1401). -/
def handle_blink_failure (t : promise_table) (m : reply_message) :
    Except String response_outcome :=
  match m.data with
  | [data] => do
    let tag ← (← data.at "!") |> get_int_u64
    pure (common_blink_response t tag blink_result.rejected "Transaction rejected by quorum" false)
  | _ => pure ⟨t, []⟩

/-- The handler `handle_blink_success` (quorumnet.cpp:1408-1419). -/
def handle_blink_success (t : promise_table) (m : reply_message) :
    Except String response_outcome :=
  match m.data with
  | [data] => do
    let tag ← (← data.at "!") |> get_int_u64
    pure (common_blink_response t tag blink_result.accepted "" false)
  | _ => pure ⟨t, []⟩

/-! ## Quorums and the service-node registry view -/

/-- A `crypto::public_key`; `0` is the null key. -/
abbrev public_key := Nat

/-- The struct `service_nodes::quorum`. -/
structure quorum where
  validators : List public_key
  workers : List public_key
deriving DecidableEq, Repr

/-- The enum `service_nodes::quorum_type`. -/
inductive quorum_type
  | obligations
  | checkpointing
  | blink
  | pulse
deriving DecidableEq, Repr

/-- Software version triple of an uptime proof (`std::array<uint16_t, 3>`). -/
abbrev version_t := Nat × Nat × Nat

/-- Lexicographic `operator>` of `std::array<uint16_t, 3>`. -/
def version_gt (a b : version_t) : Bool :=
  decide (a.1 > b.1) || (decide (a.1 = b.1) &&
    (decide (a.2.1 > b.2.1) || (decide (a.2.1 = b.2.1) && decide (a.2.2 > b.2.2))))

/-- The null `crypto::x25519_public_key`: 32 zero bytes. -/
def x25519_null : String := String.mk (List.replicate 32 (Char.ofNat 0))

/-- The function `x25519_from_string` (quorumnet.cpp:109-114); keys are kept as their
32 raw bytes. -/
def x25519_from_string (pubkey : String) : String :=
  if pubkey.length = 32 then pubkey else x25519_null

/-- The fields of `proof_info` read by quorumnet. -/
structure proof_info where
  version : version_t
  pubkey_x25519 : String
  public_ip : Nat
  quorumnet_port : Nat
deriving DecidableEq, Repr

/-- The part of `service_node_info` read by quorumnet. -/
structure service_node_info where
  is_active : Bool
deriving DecidableEq, Repr

/-- The registry interface `service_node_list` as used by quorumnet. -/
structure service_node_list where
  get_quorum : quorum_type → Nat → Option quorum
  info_and_proof : public_key → Option (service_node_info × proof_info)
  get_pubkey_from_x25519 : String → public_key

/-- Constants and helpers that quorumnet takes from headers outside this file. -/
structure blink_config where
  BLINK_MIN_VOTES : Nat
  BLINK_SUBQUORUM_SIZE : Nat
  HF_VERSION_BLINK : Nat
  quorum_height : Nat → Nat → Nat
  quorum_checksum : List public_key → Nat → Nat
  get_ip_string_from_int32 : Nat → String

/-- The constant `NUM_BLINK_QUORUMS`: the subquorums `Q` and `Q'`. -/
def NUM_BLINK_QUORUMS : Nat := 2

/-- The `std::array` type `quorum_array`, as the list of its `NUM_BLINK_QUORUMS` slots. -/
abbrev quorum_array := List quorum

/-- Body of the loop of `get_blink_quorums` (quorumnet.cpp:592-603) over the remaining
subquorum indices `qis`, with the quorums found so far and the running checksum. -/
def get_blink_quorums_loop (cfg : blink_config) (snl : service_node_list) (blink_height : Nat) :
    List Nat → quorum_array → Nat → Except String (quorum_array × Nat)
  | [], result, local_checksum => Except.ok (result, local_checksum)
  | qi :: rest, result, local_checksum =>
    let height := cfg.quorum_height blink_height qi
    if height = 0 then Except.error "too early in blockchain to create a quorum"
    else
      match snl.get_quorum quorum_type.blink height with
      | none => Except.error "failed to obtain a blink quorum"
      | some q =>
        if q.validators.length < cfg.BLINK_MIN_VOTES ∨
            q.validators.length > cfg.BLINK_SUBQUORUM_SIZE then
          Except.error "not enough blink nodes to form a quorum"
        else
          get_blink_quorums_loop cfg snl blink_height rest (result ++ [q])
            (u64_add local_checksum (cfg.quorum_checksum q.validators (qi * cfg.BLINK_SUBQUORUM_SIZE)))

/-- The function `get_blink_quorums` (quorumnet.cpp:585-616). The second component of the
result is `local_checksum`, the value stored through `output_checksum` when one is given. -/
def get_blink_quorums (cfg : blink_config) (blink_height : Nat) (snl : service_node_list)
    (input_checksum : Option Nat) : Except String (quorum_array × Nat) :=
  match get_blink_quorums_loop cfg snl blink_height (List.range NUM_BLINK_QUORUMS) [] 0 with
  | Except.error e => Except.error e
  | Except.ok (result, local_checksum) =>
    match input_checksum with
    | some c =>
      if c ≠ local_checksum then
        Except.error ("wrong quorum checksum: expected " ++ toString local_checksum ++
          ", received " ++ toString c)
      else Except.ok (result, local_checksum)
    | none => Except.ok (result, local_checksum)

/-! ## Subset fan-out (quorumnet.cpp:142-210) -/

/-- The struct `prepared_relay_destinations`. -/
structure prepared_relay_destinations where
  x25519_string : String
  connect_string : String
deriving DecidableEq, Repr

/-- The connect string `"tcp://" + ip + ":" + port` built at quorumnet.cpp:178 and :300. -/
def connect_string (cfg : blink_config) (proof : proof_info) : String :=
  "tcp://" ++ cfg.get_ip_string_from_int32 proof.public_ip ++ ":" ++ toString proof.quorumnet_port

/-- The lambda at quorumnet.cpp:167-180: the remote tuple of a candidate, if it is kept. -/
def subset_remote (cfg : blink_config) (snl : service_node_list) (pubkey : public_key) :
    Option (String × String × version_t) :=
  match snl.info_and_proof pubkey with
  | none => none
  | some (info, proof) =>
    if !info.is_active then none
    else if proof.pubkey_x25519 = x25519_null ∨ proof.quorumnet_port = 0 ∨ proof.public_ip = 0 then none
    else some (proof.pubkey_x25519, connect_string cfg proof, proof.version)

/-- The function `peer_prepare_relay_to_quorum_subset` (quorumnet.cpp:152-202). `shuffle` is
the outcome of `std::shuffle` on the index vector. -/
def peer_prepare_relay_to_quorum_subset (cfg : blink_config) (snl : service_node_list)
    (quorums : List quorum) (num_peers : Nat) (shuffle : List Nat → List Nat) :
    List prepared_relay_destinations :=
  let candidates := (quorums.flatMap (fun q => q.validators)).dedup
  let remotes := candidates.filterMap (subset_remote cfg snl)
  let indices := shuffle (List.range remotes.length)
  let version_of : Nat → version_t := fun i =>
    match remotes.get? i with
    | some r => r.2.2
    | none => (0, 0, 0)
  let sorted := List.insertionSort (fun a b => version_gt (version_of b) (version_of a) = false) indices
  let chosen := sorted.take num_peers
  chosen.filterMap (fun i =>
    match remotes.get? i with
    | some r => some ⟨r.1, r.2.1⟩
    | none => none)

/-- The function `peer_relay_to_prepared_destinations` (quorumnet.cpp:204-210). -/
def peer_relay_to_prepared_destinations (destinations : List prepared_relay_destinations)
    (command : String) (data : bt_dict) : List Sent :=
  destinations.map (fun d =>
    ⟨ConnectionID.of_pubkey d.x25519_string, command, data, send_option.hint d.connect_string⟩)

/-! ## Originator submission `send_blink` (quorumnet.cpp:1242-1319) -/

/-- The constant `MAX_ACTIVE_PROMISES`. -/
def MAX_ACTIVE_PROMISES : Nat := 1000

/-- Thirty seconds in clock ticks (nanoseconds). -/
def THIRTY_SECONDS : Nat := 30000000000

/-- State threaded through the sweep loop at quorumnet.cpp:1260-1271. -/
structure sweep_state where
  table : promise_table
  resolved : List (Nat × blink_response)
  found : Bool
deriving DecidableEq, Repr

/-- The loop at quorumnet.cpp:1260-1271 over the entries of the table: an entry with
`expiry >= now` has its promise set to the timeout response and is erased; any other
entry is kept and compared with `tx_hash`. -/
def send_blink_sweep (now : Nat) (tx_hash : String) : promise_table → sweep_state
  | [] => ⟨[], [], false⟩
  | (tag, b_results) :: rest =>
    let s := send_blink_sweep now tx_hash rest
    if b_results.expiry ≥ now then
      match b_results.promise.set_value (blink_result.timeout, "Blink quorum timeout") with
      | some _ => ⟨s.table, (tag, (blink_result.timeout, "Blink quorum timeout")) :: s.resolved, s.found⟩
      | none => ⟨s.table, s.resolved, s.found⟩
    else
      ⟨(tag, b_results) :: s.table, s.resolved, s.found || decide (b_results.hash = tx_hash)⟩

/-- The loop at quorumnet.cpp:1277-1285 choosing the tag: the first draw of `tools::rng`
that is non-zero and not a key of the table; `none` when the given draws run out. -/
def pick_blink_tag (t : promise_table) : List Nat → Option Nat
  | [] => none
  | r :: rest => if r = 0 ∨ (t.find r).isSome then pick_blink_tag t rest else some r

/-- The parts of `cryptonote::core` read by `send_blink`. `lmq_send_throws` is the transport
`core.get_lmq().send` (LokiMQ, not under `src/`): the text of the exception that the call
throws for a message, `none` when it returns. -/
structure originator_core where
  parse_and_validate_tx_from_blob : String → Option String
  get_current_blockchain_height : Nat
  snl : service_node_list
  lmq_send_throws : Sent → Option String

/-- What a call of `send_blink` leaves behind. `future` is the shared state of the
returned future (`unset` while it waits on table entry `blink_tag`), `resolved` the older
promises given a value by the sweep, `sent` the messages handed to the transport. -/
structure send_blink_outcome where
  table : promise_table
  blink_tag : Nat
  future : promise_state
  resolved : List (Nat × blink_response)
  sent : List Sent
deriving DecidableEq, Repr

/-- The loop of `peer_relay_to_prepared_destinations` (quorumnet.cpp:204-210) on a transport
whose `send` may throw: the messages handed over before the first throw, and the text of that
exception if there is one. -/
def relay_until_throw (send_throws : Sent → Option String) : List Sent → List Sent × Option String
  | [] => ([], none)
  | m :: rest =>
    match send_throws m with
    | some what => ([], some what)
    | none =>
      (m :: (relay_until_throw send_throws rest).1, (relay_until_throw send_throws rest).2)

/-- The body of the `try` block of `send_blink` (quorumnet.cpp:1291-1306): the value stored
in `remote_count` if that statement is reached, the messages handed to the transport, and the
text of the exception that ends the block, if one is thrown by the quorum lookup or by a
send. -/
def send_blink_try (cfg : blink_config) (core : originator_core) (blink_tag : Nat)
    (tx_hash tx_blob : String) (shuffle : List Nat → List Nat) :
    Option Nat × List Sent × Option String :=
  let height := core.get_current_blockchain_height
  match get_blink_quorums cfg height core.snl none with
  | Except.ok (quorums, checksum) =>
    let data : bt_dict := [
      ("!", bt_value.int blink_tag),
      ("#", bt_value.str tx_hash),
      ("h", bt_value.int height),
      ("q", bt_value.int checksum),
      ("t", bt_value.str tx_blob)]
    let destinations := peer_prepare_relay_to_quorum_subset cfg core.snl quorums 4 shuffle
    let relay := relay_until_throw core.lmq_send_throws
      (peer_relay_to_prepared_destinations destinations "blink.submit" data)
    (some destinations.length, relay.1, relay.2)
  | Except.error what => (none, [], some what)

/-- The `catch (...)` block of `send_blink` (quorumnet.cpp:1308-1316): the promise of the
entry, if it is still there and not yet satisfied, gets the exception. -/
def send_blink_catch (t : promise_table) (blink_tag : Nat) (what : String) :
    promise_table × promise_state :=
  match t.find blink_tag with
  | some e =>
    match e.promise with
    | promise_state.unset =>
      (t.modify blink_tag (fun e => { e with promise := promise_state.exception what }),
        promise_state.exception what)
    | p => (t, p)
  | none => (t, promise_state.unset)

/-- The `try` block of `send_blink` with its `catch` (quorumnet.cpp:1291-1316) for a stored
promise. -/
def send_blink_fanout (cfg : blink_config) (core : originator_core) (t : promise_table)
    (blink_tag : Nat) (tx_hash tx_blob : String) (shuffle : List Nat → List Nat) :
    promise_table × promise_state × List Sent :=
  let r := send_blink_try cfg core blink_tag tx_hash tx_blob shuffle
  let t1 :=
    match r.1 with
    | some remote_count => t.modify blink_tag (fun e => { e with remote_count := remote_count })
    | none => t
  match r.2.2 with
  | none => (t1, promise_state.unset, r.2.1)
  | some what => ((send_blink_catch t1 blink_tag what).1, (send_blink_catch t1 blink_tag what).2,
      r.2.1)

/-- The function `send_blink` (quorumnet.cpp:1245-1319), called at clock reading `now`
(line 1257) with `now_store` the later reading of line 1284 and `rng` the draws of
`tools::rng`. `none` only when the draws run out before a tag is found. -/
def send_blink (cfg : blink_config) (core : originator_core) (t : promise_table)
    (tx_blob : String) (now now_store : Nat) (rng : List Nat) (shuffle : List Nat → List Nat) :
    Option send_blink_outcome :=
  match core.parse_and_validate_tx_from_blob tx_blob with
  | none =>
    some ⟨t, 0, promise_state.value (blink_result.rejected, "Could not parse transaction data"), [], []⟩
  | some tx_hash =>
    let s := send_blink_sweep now tx_hash t
    if s.found then
      some ⟨s.table, 0,
        promise_state.value (blink_result.rejected, "Transaction was already submitted"), s.resolved, []⟩
    else if s.table.length ≥ MAX_ACTIVE_PROMISES then
      some ⟨s.table, 0,
        promise_state.value (blink_result.rejected, "Node is busy, try again later"), s.resolved, []⟩
    else
      match pick_blink_tag s.table rng with
      | none => none
      | some blink_tag =>
        let brd : blink_result_data :=
          ⟨tx_hash, promise_state.unset, now_store + THIRTY_SECONDS, 0, 0⟩
        let t1 := s.table ++ [(blink_tag, brd)]
        let r := send_blink_fanout cfg core t1 blink_tag tx_hash tx_blob shuffle
        some ⟨r.1, blink_tag, r.2.1, s.resolved, r.2.2⟩

/-! ## Blink transactions and the per-node blink cache (quorumnet.cpp:62-86) -/

/-- The tuple `pending_signature`: approval, subquorum, subquorum position, signature.
A `crypto::signature` is kept as its 64 raw bytes. -/
structure pending_signature where
  approval : Bool
  subquorum : Nat
  position : Int
  signature : String
deriving DecidableEq, Repr

/-- The type `pending_signature_set`: an `std::unordered_set` with the default equality
of the tuple. -/
abbrev pending_signature_set := List pending_signature

/-- Insertion `set.insert(sig)`: nothing changes when an equal element is present. -/
def pending_signature_set.insert (s : pending_signature_set) (x : pending_signature) :
    pending_signature_set :=
  if x ∈ s then s else s ++ [x]

/-- The enum `blink_tx::signature_status`. -/
inductive signature_status
  | none
  | rejected
  | approved
deriving DecidableEq, Repr

/-- The fields of `cryptonote::transaction` read by quorumnet. -/
structure transaction where
  version : Nat
  blob : String
deriving DecidableEq, Repr

/-- Modelled from the spec: the class `blink_tx` of `tx_blink.h` (not in this file) as
the record of section 3, with its height, its transaction and one status per slot of
each subquorum. -/
structure blink_tx where
  height : Nat
  tx : transaction
  sigs : List (List signature_status)
deriving DecidableEq, Repr

/-- The struct `QnetState::blink_metadata`. -/
structure blink_metadata where
  btxptr : Option blink_tx
  pending_sigs : pending_signature_set
  reply_conn : ConnectionID
  reply_tag : Nat
deriving DecidableEq, Repr

/-- A default-constructed `blink_metadata`. -/
def blink_metadata.empty : blink_metadata := ⟨none, [], ConnectionID.none, 0⟩

/-- The map `QnetState::blinks`, keyed by height and tx hash. -/
abbrev blink_cache := List ((Nat × String) × blink_metadata)

/-- Lookup of `blinks.find(height)` followed by `find(tx_hash)`. -/
def blink_cache.find (c : blink_cache) (key : Nat × String) : Option blink_metadata :=
  match c with
  | [] => none
  | (k, v) :: rest => if k = key then some v else blink_cache.find rest key

/-- Store `v` under `key`: overwrite the entry if there is one, add it otherwise. -/
def blink_cache.set (c : blink_cache) (key : Nat × String) (v : blink_metadata) : blink_cache :=
  match c with
  | [] => [(key, v)]
  | (k, w) :: rest => if k = key then (k, v) :: rest else (k, w) :: blink_cache.set rest key v

/-- The access `blinks[height][tx_hash]`, which yields a default entry when there is none. -/
def blink_cache.get_or_default (c : blink_cache) (key : Nat × String) : blink_metadata :=
  match c.find key with
  | some v => v
  | none => blink_metadata.empty

/-! ## Matrix fan-out: `peer_info` (quorumnet.cpp:213-444) -/

/-- The connection matrix of `quorumnet_conn_matrix.h`, a header outside this file. -/
structure conn_matrix where
  quorum_outgoing_conns : Nat → Nat → List Nat
  quorum_incoming_conns : Nat → Nat → List Nat

/-- The data members of `peer_info`. -/
structure peer_info where
  remotes : List (public_key × (String × String))
  peers : List (String × String)
  strong_peers : Int
  my_position : List Int
  my_position_count : Int
deriving DecidableEq, Repr

/-- Lookup in an association list, as `unordered_map::find`. -/
def assoc_find {α β : Type} [DecidableEq α] (l : List (α × β)) (key : α) : Option β :=
  match l with
  | [] => none
  | (k, v) :: rest => if k = key then some v else assoc_find rest key

/-- Replace the value stored under an existing key. -/
def assoc_replace {α β : Type} [DecidableEq α] (l : List (α × β)) (key : α) (v : β) :
    List (α × β) :=
  l.map (fun kv => if kv.1 = key then (kv.1, v) else kv)

/-- The method `peer_info::add_peer` (quorumnet.cpp:328-344). -/
def peer_info.add_peer (p : peer_info) (pubkey : public_key) (strong : Bool) : peer_info × Bool :=
  match assoc_find p.remotes pubkey with
  | some (x25519, addr) =>
    let remote_addr := if strong then addr else ""
    match assoc_find p.peers x25519 with
    | some existing =>
      if strong ∧ existing = "" then
        ({ p with peers := assoc_replace p.peers x25519 addr, strong_peers := p.strong_peers + 1 }, true)
      else (p, false)
    | none =>
      let p1 := { p with peers := p.peers ++ [(x25519, remote_addr)] }
      if strong then ({ p1 with strong_peers := p1.strong_peers + 1 }, true) else (p1, true)
  | none => (p, false)

/-- Call `add_peer(validators[j])`; an index outside the list, which is out of contract
for `operator[]`, adds nothing. -/
def peer_info.add_peer_at (p : peer_info) (validators : List public_key) (j : Nat) (strong : Bool) :
    peer_info :=
  match validators.get? j with
  | some pk => (p.add_peer pk strong).1
  | none => p

/-- Position of `my_pubkey` found by the loop at quorumnet.cpp:278-283: the last index
holding it, `-1` when there is none. -/
def find_my_position (my_pubkey : public_key) (v : List public_key) : Int :=
  (List.range v.length).foldl
    (fun my_pos i => if v.get? i = some my_pubkey then (i : Int) else my_pos) (-1)

/-- The body of the loop of `compute_validator_peers` (quorumnet.cpp:359-429) for the
quorum at index `i`. -/
def peer_info.compute_validator_peers_step (cm : conn_matrix) (quorums : List quorum)
    (p : peer_info) (i : Nat) : peer_info :=
  let my_pos := p.my_position.getD i (-1)
  if my_pos < 0 then p
  else
    let validators := (quorums.getD i ⟨[], []⟩).validators
    let p1 := (cm.quorum_outgoing_conns my_pos.toNat validators.length).foldl
      (fun acc j => acc.add_peer_at validators j true) p
    let p2 := (cm.quorum_incoming_conns my_pos.toNat validators.length).foldl
      (fun acc j => acc.add_peer_at validators j false) p1
    let p3 :=
      if i + 1 < quorums.length ∧ p.my_position.getD (i + 1) (-1) < 0 then
        let next_validators := (quorums.getD (i + 1) ⟨[], []⟩).validators
        let half : Int := ((min validators.length next_validators.length) / 2 : Nat)
        if my_pos ≥ half ∧ my_pos < half * 2 then
          p2.add_peer_at next_validators (my_pos - half).toNat true
        else p2
      else p2
    if 0 < i ∧ p.my_position.getD (i - 1) (-1) < 0 then
      let prev_validators := (quorums.getD (i - 1) ⟨[], []⟩).validators
      let half : Int := ((min validators.length prev_validators.length) / 2 : Nat)
      if my_pos < half then
        p3.add_peer_at prev_validators (half + my_pos).toNat true
      else p3
    else p3

/-- The method `peer_info::compute_validator_peers` (quorumnet.cpp:351-430). -/
def peer_info.compute_validator_peers (cm : conn_matrix) (quorums : List quorum) (p : peer_info) :
    peer_info :=
  (List.range quorums.length).foldl (peer_info.compute_validator_peers_step cm quorums)
    { p with strong_peers := 0 }

/-- The lambda at quorumnet.cpp:297-301: the `remotes` entry of a needed pubkey. -/
def matrix_remote (cfg : blink_config) (snl : service_node_list) (pubkey : public_key) :
    Option (public_key × (String × String)) :=
  match snl.info_and_proof pubkey with
  | none => none
  | some (info, proof) =>
    if info.is_active ∧ proof.pubkey_x25519 ≠ x25519_null ∧ proof.quorumnet_port ≠ 0 ∧
        proof.public_ip ≠ 0 then
      some (pubkey, (proof.pubkey_x25519, connect_string cfg proof))
    else none

/-- The constructor of `peer_info` (quorumnet.cpp:256-312). The flag `opportunistic` is
passed on to `compute_validator_peers`, which does not read it. -/
def peer_info.create (cfg : blink_config) (cm : conn_matrix) (snl : service_node_list)
    (my_pubkey : public_key) (quorums : List quorum) (exclude : List public_key)
    (include_workers : Bool) : peer_info :=
  let exclude := exclude ++ [my_pubkey]
  let my_position := quorums.map (fun q => find_my_position my_pubkey q.validators)
  let my_position_count : Int := (my_position.filter (fun x => decide (x ≥ 0))).length
  let need_remotes := (quorums.flatMap (fun q =>
    (q.validators.filter (fun pk => decide (pk ≠ my_pubkey) && !(exclude.contains pk))) ++
    (if include_workers then q.workers.filter (fun pk => !(exclude.contains pk)) else []))).dedup
  let remotes := need_remotes.filterMap (matrix_remote cfg snl)
  let p0 : peer_info := ⟨remotes, [], 0, my_position, my_position_count⟩
  let p1 := p0.compute_validator_peers cm quorums
  if include_workers then
    quorums.foldl (fun acc q => q.workers.foldl (fun a w => (a.add_peer w true).1) acc) p1
  else p1

/-- The method `peer_info::relay_to_peers` (quorumnet.cpp:316-319, 433-442). -/
def peer_info.relay_to_peers (p : peer_info) (cmd : String) (data : bt_dict) : List Sent :=
  p.peers.map (fun peer =>
    if peer.2 = "" then ⟨ConnectionID.of_pubkey peer.1, cmd, data, send_option.optional⟩
    else ⟨ConnectionID.of_pubkey peer.1, cmd, data, send_option.hint peer.2⟩)

/-! ## Blink submission intake `handle_blink` (quorumnet.cpp:822-1070) -/

/-- The parts of `cryptonote::core`, of the mempool and of `blink_tx` that a quorum member
reads while handling blink messages. -/
structure member_core where
  service_node : Bool
  my_pubkey : public_key
  hf_version : Nat
  get_current_blockchain_height : Nat
  snl : service_node_list
  cm : conn_matrix
  parse_and_validate_tx_from_blob : String → Option (transaction × String)
  min_version_for_hf : Nat → Nat
  max_version_for_hf : Nat → Nat
  add_new_blink : blink_tx → Bool
  generate_signature : String → String
  approved : blink_tx → Bool
  rejected : blink_tx → Bool
  hash : blink_tx → Bool → String
  limit_signatures : blink_tx → Nat → Nat → blink_tx

/-- An inbound transport message: the connection it came on and its decoded data parts. -/
structure Message where
  conn : ConnectionID
  data : List bt_dict
deriving DecidableEq, Repr

/-- The arguments of one call of `process_blink_signatures` (quorumnet.cpp:642-645). -/
structure process_blink_signatures_args where
  btx : blink_tx
  blink_quorums : quorum_array
  quorum_checksum : Nat
  signatures : List pending_signature
  reply_tag : Nat
  reply_conn : ConnectionID
  received_from : String
deriving DecidableEq, Repr

/-- What a blink handler leaves behind: the cache, the messages handed to the transport
in order, the hashes given to `generate_signature`, and the call of
`process_blink_signatures` it ends with, if it gets there. -/
structure blink_outcome where
  blinks : blink_cache
  sent : List Sent
  signed : List String
  process : Option process_blink_signatures_args
deriving DecidableEq, Repr

/-- The statement `if (tag) m.send_back("bl.nostart", {"!": tag, "e": e}); return;`. -/
def nostart_return (blinks : blink_cache) (m : Message) (tag : Nat) (e : String) : blink_outcome :=
  ⟨blinks,
    if tag ≠ 0 then
      [⟨m.conn, "bl.nostart", [("!", bt_value.int tag), ("e", bt_value.str e)], send_option.plain⟩]
    else [],
    [], none⟩

/-- Modelled from the spec: the constructor `blink_tx(height)` of `tx_blink.h` (not in this
file): no transaction yet, every slot of both subquorums in state `none`. -/
def blink_tx.create (cfg : blink_config) (height : Nat) : blink_tx :=
  ⟨height, ⟨0, ""⟩,
    List.replicate NUM_BLINK_QUORUMS (List.replicate cfg.BLINK_SUBQUORUM_SIZE signature_status.none)⟩

/-- Own signatures appended by the loop at quorumnet.cpp:1065-1067. -/
def own_signatures (my_position : List Int) (approved : Bool) (sig : String) :
    List pending_signature :=
  (List.range NUM_BLINK_QUORUMS).filterMap (fun qi =>
    let pos := my_position.getD qi (-1)
    if pos ≥ 0 then some ⟨approved, qi, pos, sig⟩ else none)

/-- Lines 998-1069 of `handle_blink`: store the blink tx, relay the submission, decide,
sign, and hand the signatures to `process_blink_signatures`. -/
def handle_blink_store (core : member_core) (blinks : blink_cache) (m : Message) (tag : Nat)
    (blink_height : Nat) (checksum : Nat) (tx_data tx_hash_str : String)
    (blink_quorums : quorum_array) (pinfo : peer_info) (btx : blink_tx) : blink_outcome :=
  let key := (blink_height, tx_hash_str)
  let bl_info := blinks.get_or_default key
  if bl_info.btxptr.isSome then ⟨blinks.set key bl_info, [], [], none⟩
  else
    let signatures := bl_info.pending_sigs
    let bl_info1 : blink_metadata :=
      if tag > 0 then ⟨some btx, [], m.conn, tag⟩
      else ⟨some btx, [], bl_info.reply_conn, bl_info.reply_tag⟩
    let blinks1 := blinks.set key bl_info1
    let blink_data : bt_dict := [
      ("#", bt_value.str tx_hash_str),
      ("h", bt_value.int blink_height),
      ("q", bt_value.int checksum),
      ("t", bt_value.str tx_data)]
    let relayed := pinfo.relay_to_peers "blink.submit" blink_data
    let min := core.min_version_for_hf core.hf_version
    let max := core.max_version_for_hf core.hf_version
    let approved := if btx.tx.version < min ∨ btx.tx.version > max then false
                    else core.add_new_blink btx
    let hash_to_sign := core.hash btx approved
    let sig := core.generate_signature hash_to_sign
    let signatures1 := signatures ++ own_signatures pinfo.my_position approved sig
    ⟨blinks1, relayed, [hash_to_sign],
      some ⟨btx, blink_quorums, checksum, signatures1, tag, ConnectionID.of_pubkey m.conn.pk, ""⟩⟩

/-- Lines 937-996 of `handle_blink`: quorum lookup with checksum, membership, tx parse and
hash match, strong-peer check. -/
def handle_blink_quorum (cfg : blink_config) (core : member_core) (blinks : blink_cache)
    (m : Message) (data : bt_dict) (tag : Nat) (blink_height : Nat)
    (tx_data tx_hash_str : String) : Except String blink_outcome := do
  let checksum ← get_int_u64 (← data.at "q")
  match get_blink_quorums cfg blink_height core.snl (some checksum) with
  | Except.error what =>
    pure (nostart_return blinks m tag ("Unable to retrieve blink quorum: " ++ what))
  | Except.ok (blink_quorums, _) =>
    let pinfo := peer_info.create cfg core.cm core.snl core.my_pubkey blink_quorums
      [core.snl.get_pubkey_from_x25519 (x25519_from_string m.conn.pk)] false
    if ¬ pinfo.my_position_count > 0 then
      pure (nostart_return blinks m tag "Blink tx relayed to non-blink quorum member")
    else
      let btx0 := (List.range blink_quorums.length).foldl
        (fun b qi => core.limit_signatures b qi (blink_quorums.getD qi ⟨[], []⟩).validators.length)
        (blink_tx.create cfg blink_height)
      match core.parse_and_validate_tx_from_blob tx_data with
      | none => pure (nostart_return blinks m tag "Failed to parse transaction data")
      | some (tx, tx_hash_actual) =>
        if tx_hash_str ≠ tx_hash_actual then
          pure (nostart_return blinks m tag "Invalid transaction hash")
        else if pinfo.strong_peers = 0 then
          pure (nostart_return blinks m tag "No quorum peers are currently reachable")
        else
          pure (handle_blink_store core blinks m tag blink_height checksum tx_data tx_hash_str
            blink_quorums pinfo { btx0 with tx := tx })

/-- Lines 889-935 of `handle_blink`: the hash-length check and the cache lookup. The result
is `none` when processing goes on to the quorum lookup. -/
def handle_blink_cache_lookup (core : member_core) (blinks : blink_cache) (m : Message)
    (tag : Nat) (blink_height : Nat) (tx_hash_str : String) : Option blink_outcome :=
  if tx_hash_str.length = 32 then
    match blinks.find (blink_height, tx_hash_str) with
    | some entry =>
      match entry.btxptr with
      | some btx =>
        if tag ≠ 0 then
          let already_approved := core.approved btx
          let already_rejected := !already_approved && core.rejected btx
          if already_approved || already_rejected then
            some ⟨blinks,
              [⟨m.conn, if already_approved then "bl.good" else "bl.bad",
                [("!", bt_value.int tag)], send_option.optional⟩], [], none⟩
          else
            some ⟨blinks.set (blink_height, tx_hash_str)
              { entry with reply_tag := tag, reply_conn := m.conn }, [], [], none⟩
        else some ⟨blinks, [], [], none⟩
      | none => none
    | none => none
  else some (nostart_return blinks m tag "Invalid transaction hash")

/-- Lines 875-935 of `handle_blink`, followed by the rest of the handler: read the tx blob
and the hash, look the submission up in the cache, and go on to the quorum lookup when it is
not a cache hit. -/
def handle_blink_payload (cfg : blink_config) (core : member_core) (blinks : blink_cache)
    (m : Message) (data : bt_dict) (tag : Nat) (blink_height : Nat) :
    Except String blink_outcome :=
  match data.find "t" with
  | none => pure (nostart_return blinks m tag "No transaction included in blink request")
  | some t_value => do
    let tx_data ← get_string t_value
    let tx_hash_str ← get_string (← data.at "#")
    match handle_blink_cache_lookup core blinks m tag blink_height tx_hash_str with
    | some out => pure out
    | none => handle_blink_quorum cfg core blinks m data tag blink_height tx_data tx_hash_str

/-- The handler `handle_blink` (quorumnet.cpp:822-1070) on a service node whose blink cache
is `blinks`. -/
def handle_blink (cfg : blink_config) (core : member_core) (blinks : blink_cache) (m : Message) :
    Except String blink_outcome :=
  if !core.service_node then pure ⟨blinks, [], [], none⟩
  else
    match m.data with
    | [data] =>
      let tag := get_or_u64 data "!" 0
      if core.hf_version < cfg.HF_VERSION_BLINK then
        pure (nostart_return blinks m tag "Invalid blink authorization height")
      else do
        let blink_height ← get_int_u64 (← data.at "h")
        let local_height := core.get_current_blockchain_height
        match blink_height_check blink_height local_height with
        | height_verdict.too_low =>
          pure (nostart_return blinks m tag "Invalid blink authorization height")
        | height_verdict.too_high =>
          pure (nostart_return blinks m tag "Invalid blink authorization height")
        | height_verdict.valid => handle_blink_payload cfg core blinks m data tag blink_height
    | _ => pure ⟨blinks, [], [], none⟩

/-! ## Signature bundles `handle_blink_signature` (quorumnet.cpp:1072-1228) -/

/-- The constant `sizeof(crypto::signature)`. -/
def SIGNATURE_SIZE : Nat := 64

/-- A value-initialised `crypto::signature`: 64 zero bytes. -/
def signature_null : String := String.mk (List.replicate SIGNATURE_SIZE (Char.ofNat 0))

/-- The codec read `consume_integer<T>` for an integer type with the given bounds. -/
def consume_integer (lo hi : Int) (v : bt_scalar) : Except String Int :=
  match v with
  | bt_scalar.int n => if lo ≤ n ∧ n ≤ hi then Except.ok n
                       else Except.error "integer out of range"
  | bt_scalar.str _ => Except.error "next value is not an integer"

/-- The loop at quorumnet.cpp:1147-1153 over the list `i`. -/
def parse_quorum_indices : List bt_scalar → Except String (List pending_signature)
  | [] => Except.ok []
  | x :: rest => do
    let q ← consume_integer 0 255 x
    if q ≥ (NUM_BLINK_QUORUMS : Int) then
      throw ("Invalid blink signature data: invalid quorum index " ++ toString q)
    let tail ← parse_quorum_indices rest
    pure (⟨false, q.toNat, 0, signature_null⟩ :: tail)

/-- The loop of `extract_signature_values` (quorumnet.cpp:1072-1082) over a list already
found in the dictionary: `consume` reads one element, `assign` stores it in the tuple. -/
def extract_signature_values {α : Type} (key : String) (consume : bt_scalar → Except String α)
    (assign : pending_signature → α → pending_signature) :
    List bt_scalar → List pending_signature → Except String (List pending_signature)
  | [], [] => Except.ok []
  | [], _ :: _ => Except.error ("Invalid blink signature data: " ++ key ++ " size < i size")
  | _ :: _, [] => Except.error ("Invalid blink signature data: " ++ key ++ " size > i size")
  | x :: xs, s :: ss => do
    let v ← consume x
    let rest ← extract_signature_values key consume assign xs ss
    pure (assign s v :: rest)

/-- The lambda at quorumnet.cpp:1156-1161 reading one position. -/
def consume_position (cfg : blink_config) (x : bt_scalar) : Except String Int := do
  let pos ← consume_integer (-2147483648) 2147483647 x
  if pos < 0 ∨ pos ≥ (cfg.BLINK_SUBQUORUM_SIZE : Int) then
    throw ("Invalid blink signature data: invalid quorum position " ++ toString pos)
  pure pos

/-- The lambda at quorumnet.cpp:1176 reading one result with `consume_integer<bool>`. -/
def consume_result (x : bt_scalar) : Except String Bool := do
  let r ← consume_integer 0 1 x
  pure (decide (r = 1))

/-- The function `convert_string_view_bytes_to_signature` (quorumnet.cpp:1084-1094). -/
def convert_string_view_bytes_to_signature (sig_str : String) : Except String String :=
  if sig_str.length ≠ SIGNATURE_SIZE then
    Except.error ("Invalid signature data size: " ++ toString sig_str.length)
  else if sig_str = signature_null then
    Except.error "Invalid signature data: null signature given"
  else Except.ok sig_str

/-- The lambda at quorumnet.cpp:1179-1181 reading one signature. -/
def consume_signature (x : bt_scalar) : Except String String :=
  match x with
  | bt_scalar.str s => convert_string_view_bytes_to_signature s
  | bt_scalar.int _ => Except.error "next value is not a string"

/-- The step `skip_until(key)` followed by `consume_list_consumer()`. -/
def required_list (data : bt_dict) (key : String) : Except String (List bt_scalar) :=
  match data.find key with
  | none => Except.error ("Invalid blink signature data: missing required field '" ++ key ++ "'")
  | some (bt_value.list l) => Except.ok l
  | some _ => Except.error "next value is not a list"

/-- The parsed fields of a `quorum.blink_sign` payload. -/
structure blink_sign_fields where
  tx_hash : String
  blink_height : Nat
  checksum : Nat
  signatures : List pending_signature
deriving DecidableEq, Repr

/-- Lines 1126-1181 of `handle_blink_signature`: read `#`, `h`, `i`, `p`, `q`, `r`, `s` in
that order. A negative `q`, the integer `-(n + 1)`, is read as `int64_t` and cast to
`uint64_t`, which gives `2 ^ 64 - (n + 1)`. -/
def parse_blink_sign (cfg : blink_config) (data : bt_dict) : Except String blink_sign_fields := do
  let hash_str ←
    match data.find "#" with
    | none => Except.error "Invalid blink signature data: missing required field '#'"
    | some v => get_string v
  if hash_str.length ≠ 32 then throw "Invalid blink signature data: invalid tx hash"
  let blink_height ←
    match data.find "h" with
    | none => Except.error "Invalid blink signature data: missing required field 'h'"
    | some v => get_int_u64 v
  if blink_height = 0 then throw "Invalid blink signature data: height cannot be 0"
  let quorum_indices ← required_list data "i"
  let sigs0 ← parse_quorum_indices quorum_indices
  let p_list ← required_list data "p"
  let sigs1 ← extract_signature_values "p" (consume_position cfg)
    (fun s pos => { s with position := pos }) p_list sigs0
  let checksum ←
    match data.find "q" with
    | none => Except.error "Invalid blink signature data: missing required field 'q'"
    | some (bt_value.int (Int.ofNat n)) =>
      if n < U64 then Except.ok n else Except.error "integer out of range"
    | some (bt_value.int (Int.negSucc n)) =>
      if n < 2 ^ 63 then Except.ok (U64 - (n + 1)) else Except.error "integer out of range"
    | some _ => Except.error "next value is not an integer"
  let r_list ← required_list data "r"
  let sigs2 ← extract_signature_values "r" consume_result
    (fun s r => { s with approval := r }) r_list sigs1
  let s_list ← required_list data "s"
  let sigs3 ← extract_signature_values "s" consume_signature
    (fun s sig => { s with signature := sig }) s_list sigs2
  pure ⟨hash_str, blink_height, checksum, sigs3⟩

/-- The handler `handle_blink_signature` (quorumnet.cpp:1118-1228). -/
def handle_blink_signature (cfg : blink_config) (core : member_core) (blinks : blink_cache)
    (m : Message) : Except String blink_outcome :=
  match m.data with
  | [data] => do
    let f ← parse_blink_sign cfg data
    let (blink_quorums, _) ← get_blink_quorums cfg f.blink_height core.snl (some f.checksum)
    let key := (f.blink_height, f.tx_hash)
    match blinks.find key with
    | some ⟨some btx, _, reply_conn, reply_tag⟩ =>
      pure ⟨blinks, [], [],
        some ⟨btx, blink_quorums, f.checksum, f.signatures, reply_tag, reply_conn, m.conn.pk⟩⟩
    | _ =>
      let entry := blinks.get_or_default key
      let delayed := f.signatures.foldl pending_signature_set.insert entry.pending_sigs
      pure ⟨blinks.set key { entry with pending_sigs := delayed }, [], [], none⟩
  | _ => Except.error ("Rejecting blink signature: expected one data entry not " ++
      toString m.data.length)

/-! ## A small concrete network, used to run the code on explicit inputs -/

/-- Raw bytes of the x25519 key of service node `pk` in the example network. -/
def example_x25519 (pk : Nat) : String := String.mk (List.replicate 32 (Char.ofNat (65 + pk)))

/-- Example registry: the blink quorum at height `h` has validators `h+1, h+2, h+3`; every
node is active and has a full proof. -/
def example_snl : service_node_list where
  get_quorum := fun _ h => some ⟨[h + 1, h + 2, h + 3], []⟩
  info_and_proof := fun pk => some (⟨true⟩, ⟨(9, 0, 0), example_x25519 pk, 16777343, 22020⟩)
  get_pubkey_from_x25519 := fun _ => 0

/-- Example constants: subquorums of at most 3 validators, at least 2 votes. -/
def example_config : blink_config where
  BLINK_MIN_VOTES := 2
  BLINK_SUBQUORUM_SIZE := 3
  HF_VERSION_BLINK := 14
  quorum_height := fun h qi => h + 10 * qi
  quorum_checksum := fun v offset => v.sum + offset
  get_ip_string_from_int32 := fun _ => "127.0.0.1"

/-- Example originator: every blob parses and hashes to itself; the chain is at height 100. -/
def example_originator : originator_core where
  parse_and_validate_tx_from_blob := fun blob => some blob
  get_current_blockchain_height := 100
  snl := example_snl
  lmq_send_throws := fun _ => none

/-- Example registry without any quorum. -/
def example_empty_snl : service_node_list where
  get_quorum := fun _ _ => none
  info_and_proof := fun _ => none
  get_pubkey_from_x25519 := fun _ => 0

/-- Example originator on a chain that has no blink quorum. -/
def example_originator_no_quorum : originator_core where
  parse_and_validate_tx_from_blob := fun blob => some blob
  get_current_blockchain_height := 100
  snl := example_empty_snl
  lmq_send_throws := fun _ => none

/-- The table left by `send_blink` on the chain without a blink quorum: one entry whose
promise already holds the exception of the failed quorum lookup. -/
def example_failed_table : promise_table :=
  [(42, ⟨"tx", promise_state.exception "failed to obtain a blink quorum", 30000000000, 0, 0⟩)]

/-- A table with one promise whose deadline (tick 100) is still ahead at tick 50 and one
whose deadline (tick 10) has passed by then. -/
def example_two_deadlines : promise_table :=
  [(1, ⟨"a", promise_state.unset, 100, 4, 0⟩), (2, ⟨"b", promise_state.unset, 10, 4, 0⟩)]

/-- Example connection matrix: a ring, each position sends to its successor and hears
from its predecessor. -/
def example_conn_matrix : conn_matrix where
  quorum_outgoing_conns := fun i n => [(i + 1) % n]
  quorum_incoming_conns := fun i n => [(i + n - 1) % n]

/-- A 32-byte tx hash. -/
def example_tx_hash : String := String.mk (List.replicate 32 (Char.ofNat 104))

/-- A 64-byte signature. -/
def example_signature : String := String.mk (List.replicate 64 (Char.ofNat 115))

/-- Example quorum member: service node 101 (position 0 of the quorum of height 100) on a
chain of height `tip`. Every blob parses to a version-4 transaction with hash
`example_tx_hash`; the mempool accepts it; a blink tx counts as approved when its first
slot is approved and as rejected when its first slot is rejected. -/
def example_member (tip : Nat) : member_core where
  service_node := true
  my_pubkey := 101
  hf_version := 14
  get_current_blockchain_height := tip
  snl := example_snl
  cm := example_conn_matrix
  parse_and_validate_tx_from_blob := fun blob => some (⟨4, blob⟩, example_tx_hash)
  min_version_for_hf := fun _ => 4
  max_version_for_hf := fun _ => 4
  add_new_blink := fun _ => true
  generate_signature := fun _ => example_signature
  approved := fun b => decide (b.sigs.head? = some [signature_status.approved])
  rejected := fun b => decide (b.sigs.head? = some [signature_status.rejected])
  hash := fun b approved => (if approved then "A" else "R") ++ b.tx.blob
  limit_signatures := fun b _ _ => b

/-- An approved blink tx of height 100. -/
def example_approved_btx : blink_tx := ⟨100, ⟨4, "tx"⟩, [[signature_status.approved]]⟩

/-- A cache holding the approved blink tx under height 100 and `example_tx_hash`. -/
def example_cache_approved : blink_cache :=
  [((100, example_tx_hash), ⟨some example_approved_btx, [], ConnectionID.none, 0⟩)]

/-- A connection of an external (non service node) submitter. -/
def example_submitter : ConnectionID := ⟨5, "wallet", "r"⟩

/-- A tagged `blink.submit` for height 100 with the checksum of the example network. -/
def example_submit (tag : Int) (checksum : Int) : Message where
  conn := example_submitter
  data := [[("!", bt_value.int tag), ("#", bt_value.str example_tx_hash),
    ("h", bt_value.int 100), ("q", bt_value.int checksum), ("t", bt_value.str "tx")]]

/-- A `blink.submit` forwarded by service node 102: no tag. -/
def example_forward : Message where
  conn := ConnectionID.of_pubkey (example_x25519 102)
  data := [[("#", bt_value.str example_tx_hash),
    ("h", bt_value.int 100), ("q", bt_value.int 645), ("t", bt_value.str "tx")]]

/-- A `quorum.blink_sign` bundle from service node 102 for height 100 carrying one approval
of position 1 of subquorum 0. -/
def example_blink_sign : Message where
  conn := ConnectionID.of_pubkey (example_x25519 102)
  data := [[("#", bt_value.str example_tx_hash), ("h", bt_value.int 100),
    ("i", bt_value.list [bt_scalar.int 0]), ("p", bt_value.list [bt_scalar.int 1]),
    ("q", bt_value.int 645), ("r", bt_value.list [bt_scalar.int 1]),
    ("s", bt_value.list [bt_scalar.str example_signature])]]

/-- A tagged `blink.submit` for height `h` with the checksum of the example network. -/
def example_submit_at (h : Int) : Message where
  conn := example_submitter
  data := [[("!", bt_value.int 42), ("#", bt_value.str example_tx_hash),
    ("h", bt_value.int h), ("q", bt_value.int 645), ("t", bt_value.str "tx")]]

/-- A `quorum.blink_sign` bundle from service node 102 for height 100 whose two elements
carry the same signature for subquorum 0: an approval at position 1 and a rejection at
position 2. -/
def example_blink_sign_twice : Message where
  conn := ConnectionID.of_pubkey (example_x25519 102)
  data := [[("#", bt_value.str example_tx_hash), ("h", bt_value.int 100),
    ("i", bt_value.list [bt_scalar.int 0, bt_scalar.int 0]),
    ("p", bt_value.list [bt_scalar.int 1, bt_scalar.int 2]),
    ("q", bt_value.int 645), ("r", bt_value.list [bt_scalar.int 1, bt_scalar.int 0]),
    ("s", bt_value.list [bt_scalar.str example_signature, bt_scalar.str example_signature])]]

/-- Example registry whose blink quorums have two validators, `h+1` and `h+2`: exactly
`BLINK_MIN_VOTES` of `example_config`. -/
def example_min_snl : service_node_list where
  get_quorum := fun _ h => some ⟨[h + 1, h + 2], []⟩
  info_and_proof := fun pk => some (⟨true⟩, ⟨(9, 0, 0), example_x25519 pk, 16777343, 22020⟩)
  get_pubkey_from_x25519 := fun _ => 0

/-- Example registry whose second blink subquorum (the one of height `h + 10`, for
`h = 100`) has a single validator, one less than `BLINK_MIN_VOTES` of `example_config`. -/
def example_short_snl : service_node_list where
  get_quorum := fun _ h => if h = 110 then some ⟨[h + 1], []⟩ else some ⟨[h + 1, h + 2, h + 3], []⟩
  info_and_proof := fun pk => some (⟨true⟩, ⟨(9, 0, 0), example_x25519 pk, 16777343, 22020⟩)
  get_pubkey_from_x25519 := fun _ => 0

/-- The example quorum member on the registry `example_short_snl`. -/
def example_member_short : member_core := { example_member 100 with snl := example_short_snl }

/-- A full promise table: the tags 1 to 1000, entry `i + 1` waiting for the tx whose hash is
`tx` followed by the decimal text of `i`, every deadline at tick 10. -/
def example_full_table : promise_table :=
  (List.range 1000).map (fun i => (i + 1, ⟨"tx" ++ toString i, promise_state.unset, 10, 4, 0⟩))

/-- The blink tx built at quorumnet.cpp:959-966: a fresh `blink_tx` of the height with the
signature slots limited to the size of each subquorum. -/
def limited_blink_tx (cfg : blink_config) (core : member_core) (blink_height : Nat)
    (blink_quorums : quorum_array) : blink_tx :=
  (List.range blink_quorums.length).foldl
    (fun b qi => core.limit_signatures b qi (blink_quorums.getD qi ⟨[], []⟩).validators.length)
    (blink_tx.create cfg blink_height)

/-- A 32-byte hash that is not the hash of the example transaction. -/
def example_other_hash : String := String.mk (List.replicate 32 (Char.ofNat 120))

/-- A tagged `blink.submit` for height 100 with the checksum of the example network and
`hash` as the announced tx hash. -/
def example_submit_hash (hash : String) : Message where
  conn := example_submitter
  data := [[("!", bt_value.int 42), ("#", bt_value.str hash),
    ("h", bt_value.int 100), ("q", bt_value.int 645), ("t", bt_value.str "tx")]]

/-- The list whose `k`-th element is the tuple `(r[k], i[k], p[k], s[k])`, for lists of one
length: what a `quorum.blink_sign` payload stands for. -/
def signature_tuples : List Bool → List Nat → List Int → List String → List pending_signature
  | r :: rs, i :: is, p :: ps, s :: ss => ⟨r, i, p, s⟩ :: signature_tuples rs is ps ss
  | _, _, _, _ => []

/-- The wire form of one result of the list `r`: `1` for approved, `0` for rejected. -/
def result_scalar (b : Bool) : bt_scalar := bt_scalar.int (if b then 1 else 0)

/-- The integer carried by a wire scalar; `0` for a string. -/
def bt_scalar.int_value : bt_scalar → Int
  | bt_scalar.int n => n
  | bt_scalar.str _ => 0

/-- The string carried by a wire scalar; empty for an integer. -/
def bt_scalar.str_value : bt_scalar → String
  | bt_scalar.str s => s
  | bt_scalar.int _ => ""

/-- Whether a wire scalar is the integer `1`. -/
def bt_scalar.is_one (x : bt_scalar) : Bool := decide (x = bt_scalar.int 1)

/-- A `quorum.blink_sign` bundle like `example_blink_sign` whose list `p` is empty, so
shorter than the list `i`. -/
def example_blink_sign_short : Message where
  conn := ConnectionID.of_pubkey (example_x25519 102)
  data := [[("#", bt_value.str example_tx_hash), ("h", bt_value.int 100),
    ("i", bt_value.list [bt_scalar.int 0]), ("p", bt_value.list []),
    ("q", bt_value.int 645), ("r", bt_value.list [bt_scalar.int 1]),
    ("s", bt_value.list [bt_scalar.str example_signature])]]

/-! ## The blink branch of the RPC `send_raw_transaction` (core_rpc_server.cpp:1186-1212) -/

/-- The fields of `SEND_RAW_TX::response` written by the blink branch. -/
structure send_raw_tx_response where
  status : String
  reason : String
  blink_status : blink_result
deriving DecidableEq, Repr

/-- The blink branch of `core_rpc_server::invoke(SEND_RAW_TX::request&&)`
(core_rpc_server.cpp:1186-1212) on the shared state of the future returned for the
submission, as it is when `wait_for(10s)` returns; `unset` is a future that is not ready.
`status_ok` is the constant `STATUS_OK`, defined in a header that is not under `src/`. -/
def rpc_send_raw_tx_blink (status_ok : String) (future : promise_state) : send_raw_tx_response :=
  match future with
  | promise_state.unset => ⟨"Failed", "Blink quorum timeout", blink_result.timeout⟩
  | promise_state.value (first, second) =>
    if first = blink_result.accepted then ⟨status_ok, "", first⟩
    else
      ⟨"Failed",
        if second ≠ "" then second
        else if first = blink_result.timeout then "Blink quorum timeout"
        else "Transaction rejected by blink quorum",
        first⟩
  | promise_state.exception what =>
    ⟨"Failed", "Transaction failed: " ++ what, blink_result.rejected⟩

/-- The candidate set of `peer_prepare_relay_to_quorum_subset` (quorumnet.cpp:158-160): the
validators of the given quorums, each once. -/
def subset_candidates (quorums : List quorum) : List public_key :=
  (quorums.flatMap (fun q => q.validators)).dedup

/-- The vector `remotes` of `peer_prepare_relay_to_quorum_subset` (quorumnet.cpp:164-180):
the candidates whose connection details are known. -/
def subset_remotes (cfg : blink_config) (snl : service_node_list) (quorums : List quorum) :
    List (String × String × version_t) :=
  (subset_candidates quorums).filterMap (subset_remote cfg snl)

/-- The version `get<2>(remotes[i])` compared by the sort at quorumnet.cpp:190-191. -/
def subset_version (cfg : blink_config) (snl : service_node_list) (quorums : List quorum)
    (i : Nat) : version_t :=
  match (subset_remotes cfg snl quorums).get? i with
  | some r => r.2.2
  | none => (0, 0, 0)

/-- The index vector of `peer_prepare_relay_to_quorum_subset` after the shuffle, the stable
sort and the cut to `num_peers` (quorumnet.cpp:184-194). -/
def subset_chosen (cfg : blink_config) (snl : service_node_list) (quorums : List quorum)
    (num_peers : Nat) (shuffle : List Nat → List Nat) : List Nat :=
  (List.insertionSort
    (fun a b => version_gt (subset_version cfg snl quorums b) (subset_version cfg snl quorums a)
      = false)
    (shuffle (List.range (subset_remotes cfg snl quorums).length))).take num_peers

/-- Example registry in which service node 102 runs version 10.0.0, every other node
9.0.0, and service node 103 has no quorumnet port. -/
def example_versions_snl : service_node_list where
  get_quorum := fun _ h => some ⟨[h + 1, h + 2, h + 3], []⟩
  info_and_proof := fun pk =>
    some (⟨true⟩, ⟨(if pk = 102 then 10 else 9, 0, 0), example_x25519 pk, 16777343,
      if pk = 103 then 0 else 22020⟩)
  get_pubkey_from_x25519 := fun _ => 0

/-- The set `need_remotes` built by the constructor of `peer_info` (quorumnet.cpp:275-293):
the validators other than this node that are not excluded and, with `include_workers`, the
workers that are not excluded, each once; this node's key always counts as excluded. -/
def matrix_candidates (my_pubkey : public_key) (quorums : List quorum)
    (exclude : List public_key) (include_workers : Bool) : List public_key :=
  (quorums.flatMap (fun q =>
    (q.validators.filter (fun pk =>
      decide (pk ≠ my_pubkey) && !((exclude ++ [my_pubkey]).contains pk))) ++
    (if include_workers then q.workers.filter (fun pk => !((exclude ++ [my_pubkey]).contains pk))
      else []))).dedup

/-- Example registry in which service node 102 is not active, 103 has no x25519 key, 111 has
no public IP and 112 has no quorumnet port. -/
def example_partial_snl : service_node_list where
  get_quorum := fun _ h => some ⟨[h + 1, h + 2, h + 3], []⟩
  info_and_proof := fun pk =>
    some (⟨decide (pk ≠ 102)⟩,
      ⟨(9, 0, 0), if pk = 103 then x25519_null else example_x25519 pk,
        if pk = 111 then 0 else 16777343, if pk = 112 then 0 else 22020⟩)
  get_pubkey_from_x25519 := fun _ => 0

/-! ## Pulse relay `pulse_relay_message_to_quorum` (quorumnet.cpp:1443-1525) -/

/-- Modelled from the spec: the enum `pulse::message_type` of `pulse.h` (not under
`src/`), the tags of the variant of section 3 and `invalid`. -/
inductive pulse_message_type
  | invalid
  | block_template
  | handshake
  | handshake_bitset
  | random_value_hash
  | random_value
deriving DecidableEq, Repr

/-- Modelled from the spec: the struct `pulse::message` of `pulse.h` (not under
`src/`) with the fields that quorumnet reads; byte arrays are kept as their raw
bytes. -/
structure pulse_message where
  type : pulse_message_type
  quorum_position : Nat
  signature : String
  validator_bitset : Nat
  block_template_blob : String
  random_value_hash : String
  random_value : String
deriving DecidableEq, Repr

/-- What the `switch` of `pulse_relay_message_to_quorum` (quorumnet.cpp:1450-1507) sets. -/
structure pulse_relay_plan where
  relay_exclude : List public_key
  include_block_producer : Bool
  command : String
  data : bt_dict
deriving DecidableEq, Repr

/-- The element `quorum.validators[msg.quorum_position]` inserted into `relay_exclude`; a
position outside the list, which the assertion at quorumnet.cpp:1467 rules out, inserts
nothing. -/
def pulse_sender (msg : pulse_message) (q : quorum) : List public_key :=
  match q.validators.get? msg.quorum_position with
  | some v => [v]
  | none => []

/-- The `switch` of `pulse_relay_message_to_quorum` (quorumnet.cpp:1450-1507). -/
def pulse_relay_switch (msg : pulse_message) (q : quorum) : pulse_relay_plan :=
  match msg.type with
  | pulse_message_type.invalid => ⟨[], false, "", []⟩
  | pulse_message_type.block_template =>
    ⟨[], false, "pulse.block_template",
      [("s", bt_value.str msg.signature), ("t", bt_value.str msg.block_template_blob)]⟩
  | pulse_message_type.handshake =>
    ⟨pulse_sender msg q, false, "pulse.validator_bit",
      [("q", bt_value.int msg.quorum_position), ("s", bt_value.str msg.signature)]⟩
  | pulse_message_type.handshake_bitset =>
    ⟨pulse_sender msg q, true, "pulse.validator_bitset",
      [("b", bt_value.int msg.validator_bitset), ("q", bt_value.int msg.quorum_position),
        ("s", bt_value.str msg.signature)]⟩
  | pulse_message_type.random_value_hash =>
    ⟨[], false, "pulse.random_value_hash",
      [("#", bt_value.str msg.random_value_hash), ("q", bt_value.int msg.quorum_position),
        ("s", bt_value.str msg.signature)]⟩
  | pulse_message_type.random_value =>
    ⟨[], false, "pulse.random_value",
      [("q", bt_value.int msg.quorum_position), ("r", bt_value.str msg.random_value),
        ("s", bt_value.str msg.signature)]⟩

/-- The function `pulse_relay_message_to_quorum` (quorumnet.cpp:1443-1525): the messages it
hands to the transport. -/
def pulse_relay_message_to_quorum (cfg : blink_config) (core : member_core) (msg : pulse_message)
    (q : quorum) (block_producer : Bool) (shuffle : List Nat → List Nat) : List Sent :=
  let plan := pulse_relay_switch msg q
  if block_producer then
    let destinations := peer_prepare_relay_to_quorum_subset cfg core.snl [q] 4 shuffle
    peer_relay_to_prepared_destinations destinations plan.command plan.data
  else
    (peer_info.create cfg core.cm core.snl core.my_pubkey [q] plan.relay_exclude
      plan.include_block_producer).relay_to_peers plan.command plan.data

/-- A pulse message of the given type from the validator at position 1. -/
def example_pulse_message (type : pulse_message_type) : pulse_message :=
  ⟨type, 1, example_signature, 7, "blob", example_tx_hash, example_other_hash⟩

/-! ## Signature processing `process_blink_signatures` (quorumnet.cpp:640-798) -/

/-- The methods of `blink_tx` (tx_blink.h, not under `src/`) and of `crypto` that
`process_blink_signatures` calls. `add_prechecked_signature` gives the blink tx with the
signature stored, or `none` where the method returns `false`. -/
structure signature_core where
  get_signature_status : blink_tx → Nat → Int → signature_status
  add_prechecked_signature : blink_tx → Nat → Int → Bool → String → Option blink_tx
  check_signature : String → public_key → String → Bool
  get_txhash : blink_tx → String

/-- Calls on the mempool made when a blink tx becomes approved (quorumnet.cpp:743-751). -/
inductive pool_event
  | add_existing_blink (btx : blink_tx)
  | set_relayable (tx_hash : String)
  | relay_txpool_transactions
deriving DecidableEq, Repr

/-- What a call of `process_blink_signatures` leaves behind: the blink tx, the signatures
still in the list at the end (the newly recorded ones), the two transition flags, the
mempool calls and the messages handed to the transport. -/
structure process_outcome where
  btx : blink_tx
  recorded : List pending_signature
  became_approved : Bool
  became_rejected : Bool
  pool : List pool_event
  sent : List Sent
deriving DecidableEq, Repr

/-- The validators `blink_quorums[qi]->validators`. -/
def quorum_validators (blink_quorums : quorum_array) (qi : Nat) : List public_key :=
  (blink_quorums.getD qi ⟨[], []⟩).validators

/-- The test of the first loop (quorumnet.cpp:652-667): the position is inside the
subquorum and the slot is still empty. -/
def signature_slot_open (sc : signature_core) (btx : blink_tx) (blink_quorums : quorum_array)
    (s : pending_signature) : Bool :=
  if s.position < 0 ∨ s.position ≥ ((quorum_validators blink_quorums s.subquorum).length : Int)
  then false
  else if sc.get_signature_status btx s.subquorum s.position ≠ signature_status.none then false
  else true

/-- The test of the second loop (quorumnet.cpp:673-688): the signature verifies against
`hash(approval)` under the key of the validator at that position. -/
def signature_verifies (core : member_core) (sc : signature_core) (btx : blink_tx)
    (blink_quorums : quorum_array) (s : pending_signature) : Bool :=
  sc.check_signature (core.hash btx s.approval)
    ((quorum_validators blink_quorums s.subquorum).getD s.position.toNat 0) s.signature

/-- The third loop (quorumnet.cpp:704-722): store each signature in turn; one that is not
stored is erased from the list. -/
def add_signatures (sc : signature_core) :
    blink_tx → List pending_signature → blink_tx × List pending_signature
  | btx, [] => (btx, [])
  | btx, s :: rest =>
    match sc.add_prechecked_signature btx s.subquorum s.position s.approval s.signature with
    | some btx1 => ((add_signatures sc btx1 rest).1, s :: (add_signatures sc btx1 rest).2)
    | none => add_signatures sc btx rest

/-- The dictionary `blink_sign_data` (quorumnet.cpp:776-784), keys in sorted order. -/
def blink_sign_data (sc : signature_core) (btx : blink_tx) (quorum_checksum : Nat)
    (signatures : List pending_signature) : bt_dict :=
  [("#", bt_value.str (sc.get_txhash btx)),
    ("h", bt_value.int btx.height),
    ("i", bt_value.list (signatures.map (fun s => bt_scalar.int (s.subquorum : Int)))),
    ("p", bt_value.list (signatures.map (fun s => bt_scalar.int s.position))),
    ("q", bt_value.int quorum_checksum),
    ("r", bt_value.list (signatures.map (fun s => result_scalar s.approval))),
    ("s", bt_value.list (signatures.map (fun s => bt_scalar.str s.signature)))]

/-- The function `process_blink_signatures` (quorumnet.cpp:642-798), run without
interference from other threads. -/
def process_blink_signatures (cfg : blink_config) (core : member_core) (sc : signature_core)
    (a : process_blink_signatures_args) : process_outcome :=
  let sigs1 := a.signatures.filter (signature_slot_open sc a.btx a.blink_quorums)
  if sigs1 = [] then ⟨a.btx, [], false, false, [], []⟩
  else
    let sigs2 := sigs1.filter (signature_verifies core sc a.btx a.blink_quorums)
    if sigs2 = [] then ⟨a.btx, [], false, false, [], []⟩
    else
      let already_approved := core.approved a.btx
      let already_rejected := !already_approved && core.rejected a.btx
      let added := add_signatures sc a.btx sigs2
      let btx := added.1
      let signatures := added.2
      let fresh := signatures ≠ [] ∧ already_approved = false ∧ already_rejected = false
      let became_approved : Bool := decide fresh && core.approved btx
      let became_rejected : Bool := decide fresh && !core.approved btx && core.rejected btx
      let pool :=
        if became_approved then
          [pool_event.add_existing_blink btx, pool_event.set_relayable (sc.get_txhash btx),
            pool_event.relay_txpool_transactions]
        else []
      if signatures = [] then ⟨btx, [], became_approved, became_rejected, pool, []⟩
      else
        let relay_exclude :=
          if a.received_from ≠ "" then
            let pubkey := core.snl.get_pubkey_from_x25519 (x25519_from_string a.received_from)
            if pubkey ≠ 0 then [pubkey] else []
          else []
        let pinfo := peer_info.create cfg core.cm core.snl core.my_pubkey a.blink_quorums
          relay_exclude false
        let relayed := pinfo.relay_to_peers "quorum.blink_sign"
          (blink_sign_data sc btx a.quorum_checksum signatures)
        let reply :=
          if a.reply_tag ≠ 0 ∧ a.reply_conn.valid then
            if became_approved then
              [⟨a.reply_conn, "bl.good", [("!", bt_value.int a.reply_tag)], send_option.optional⟩]
            else if became_rejected then
              [⟨a.reply_conn, "bl.bad", [("!", bt_value.int a.reply_tag)], send_option.optional⟩]
            else []
          else []
        ⟨btx, signatures, became_approved, became_rejected, pool, relayed ++ reply⟩

/-- Modelled from the spec: the one-shot signature slots of `blink_tx` (section 3):
`add_prechecked_signature` stores into a slot whose status is `none`, and a successful call
leaves the status of every other slot as it was. -/
def signature_core.one_shot (sc : signature_core) : Prop :=
  (∀ b q p a s, sc.get_signature_status b q p = signature_status.none →
    (sc.add_prechecked_signature b q p a s).isSome = true) ∧
  (∀ b q p a s b1, sc.add_prechecked_signature b q p a s = some b1 →
    ∀ q1 p1, (q1 ≠ q ∨ p1 ≠ p) →
      sc.get_signature_status b1 q1 p1 = sc.get_signature_status b q1 p1)

/-- The example quorum member with a parser that fails on every blob. -/
def example_member_unparsed : member_core :=
  { example_member 100 with parse_and_validate_tx_from_blob := fun _ => none }

/-- The example quorum member with a mempool that rejects every blink tx. -/
def example_member_rejecting : member_core :=
  { example_member 100 with add_new_blink := fun _ => false }

/-- Example slots and signatures: the status of a slot is read from `sigs` (`rejected`
outside of it), a signature is stored into an empty slot only, and the one valid signature
is `example_signature`. -/
def example_signature_core : signature_core where
  get_signature_status := fun b q p =>
    if p < 0 then signature_status.rejected
    else (b.sigs.getD q []).getD p.toNat signature_status.rejected
  add_prechecked_signature := fun b q p a _ =>
    if (if p < 0 then signature_status.rejected
        else (b.sigs.getD q []).getD p.toNat signature_status.rejected) = signature_status.none
    then
      some { b with sigs := b.sigs.set q ((b.sigs.getD q []).set p.toNat
        (if a then signature_status.approved else signature_status.rejected)) }
    else none
  check_signature := fun _ _ sig => decide (sig = example_signature)
  get_txhash := fun _ => example_tx_hash

/-! ## Inbound pulse messages (quorumnet.cpp:1527-1710) -/

/-- What an inbound pulse handler gives to `pulse::handle_message` through `lmq.job`: the
message type and the values of the handler's local variables, as read from the wire, before
they are stored in the members of `pulse::message` (a type of `pulse.h`, not under `src/`).
A field that the handler does not set keeps its value-initialised content, written here as
`0` or the empty string. -/
structure pulse_job where
  type : pulse_message_type
  quorum_position : Int
  validator_bitset : Int
  signature : String
  random_value_hash : String
  random_value : String
  block_template_blob : String
deriving DecidableEq, Repr

/-- The step `data.skip_until(key)` with its `else throw` branch. -/
def pulse_required (pre : String) (data : bt_dict) (key : String) : Except String bt_value :=
  match data.find key with
  | some v => Except.ok v
  | none => Except.error (pre ++ key ++ "'")

/-- The codec read `consume_string_view` of a dictionary value. -/
def consume_dict_string (v : bt_value) : Except String String :=
  match v with
  | bt_value.str s => Except.ok s
  | _ => Except.error "next value is not a string"

/-- The codec read `consume_integer<T>` of a dictionary value, for an integer type with the
given bounds. -/
def consume_dict_integer (lo hi : Int) (v : bt_value) : Except String Int :=
  match v with
  | bt_value.int n => if lo ≤ n ∧ n ≤ hi then Except.ok n else Except.error "integer out of range"
  | _ => Except.error "next value is not an integer"

/-- The read of the field `s`: a string converted by
`convert_string_view_bytes_to_signature`. -/
def pulse_signature (pre : String) (data : bt_dict) : Except String String := do
  let v ← pulse_required pre data "s"
  let sig_str ← consume_dict_string v
  convert_string_view_bytes_to_signature sig_str

/-- The read of the field `q` with `consume_integer<int>`. -/
def pulse_position (pre : String) (data : bt_dict) : Except String Int := do
  let v ← pulse_required pre data "q"
  consume_dict_integer (-2147483648) 2147483647 v

/-- The handler `handle_pulse_participation_bit_or_bitset` (quorumnet.cpp:1531-1593). -/
def handle_pulse_participation_bit_or_bitset (m : Message) (bitset : Bool) :
    Except String pulse_job :=
  match m.data with
  | [data] =>
    if bitset then do
      let b ← pulse_required "Invalid pulse validator bitset: missing required field '" data "b"
      let validator_bitset ← consume_dict_integer 0 65535 b
      let quorum_position ←
        pulse_position "Invalid pulse validator bitset: missing required field '" data
      let signature ←
        pulse_signature "Invalid pulse validator bitset: missing required field '" data
      pure ⟨pulse_message_type.handshake_bitset, quorum_position, validator_bitset, signature,
        "", "", ""⟩
    else do
      let quorum_position ←
        pulse_position "Invalid pulse validator bit: missing required field '" data
      let signature ← pulse_signature "Invalid pulse validator bit: missing required field '" data
      pure ⟨pulse_message_type.handshake, quorum_position, 0, signature, "", "", ""⟩
  | _ => Except.error ("Rejecting pulse participation " ++
      (if bitset then "bitset" else "handshake") ++ ": expected one data entry not " ++
      toString m.data.length)

/-- The read of the field `t` in `handle_pulse_block_template`. The text for a missing `t`
names the field `q`, as in the source. -/
def pulse_template_blob (data : bt_dict) : Except String String :=
  match data.find "t" with
  | some v => consume_dict_string v
  | none => Except.error "Invalid pulse block template: missing required field 'q'"

/-- The handler `handle_pulse_block_template` (quorumnet.cpp:1595-1620). -/
def handle_pulse_block_template (m : Message) : Except String pulse_job :=
  match m.data with
  | [data] => do
    let signature ← pulse_signature "Invalid pulse block template: missing required field '" data
    let blob ← pulse_template_blob data
    pure ⟨pulse_message_type.block_template, 0, 0, signature, "", "", blob⟩
  | _ => Except.error ("Rejecting pulse block template expected one data entry not " ++
      toString m.data.length)

/-- The size check before the `std::memcpy` of a fixed-size payload: a string of another
size throws the given text followed by the size. -/
def pulse_fixed_size (text : String) (size : Nat) (str : String) : Except String String :=
  if str.length ≠ size then Except.error (text ++ toString str.length) else Except.ok str

/-- The handler `handle_pulse_random_value_hash` (quorumnet.cpp:1622-1663). -/
def handle_pulse_random_value_hash (m : Message) : Except String pulse_job :=
  match m.data with
  | [data] => do
    let v ← pulse_required "Invalid pulse random value hash: missing required field '" data "#"
    let str ← consume_dict_string v
    let random_value_hash ← pulse_fixed_size "Invalid hash data size: " 32 str
    let quorum_position ←
      pulse_position "Invalid pulse random value hash: missing required field '" data
    let signature ←
      pulse_signature "Invalid pulse random value hash: missing required field '" data
    pure ⟨pulse_message_type.random_value_hash, quorum_position, 0, signature,
      random_value_hash, "", ""⟩
  | _ => Except.error ("Rejecting pulse random value hash expected one data entry not " ++
      toString m.data.length)

/-- The handler `handle_pulse_random_value` (quorumnet.cpp:1665-1706). `value_size` is
`sizeof(cryptonote::pulse_random_value)`, a type declared in a header that is not under
`src/`. -/
def handle_pulse_random_value (value_size : Nat) (m : Message) : Except String pulse_job :=
  match m.data with
  | [data] => do
    let quorum_position ←
      pulse_position "Invalid pulse random value: missing required field '" data
    let v ← pulse_required "Invalid pulse random value: missing required field '" data "r"
    let str ← consume_dict_string v
    let random_value ← pulse_fixed_size "Invalid data size: " value_size str
    let signature ← pulse_signature "Invalid pulse random value: missing required field '" data
    pure ⟨pulse_message_type.random_value, quorum_position, 0, signature, "",
      random_value, ""⟩
  | _ => Except.error ("Rejecting pulse random value expected one data entry not " ++
      toString m.data.length)

/-- A `pulse.validator_bit` message whose position is `q`, with a valid signature. -/
def example_validator_bit (q : Int) : Message where
  conn := ConnectionID.of_pubkey (example_x25519 102)
  data := [[("q", bt_value.int q), ("s", bt_value.str example_signature)]]

/-! ## Obligation votes (quorumnet.cpp:445-529) -/

/-- Enumerator values and underlying ranges of `quorum_type`, `quorum_group` and
`new_state`, enums declared in headers that are not under `src/`: the values of the
enumerators that quorumnet.cpp names, each `_count`, and the largest value of each underlying
integer type. -/
structure vote_enums where
  obligations : Nat
  checkpointing : Nat
  quorum_type_count : Nat
  quorum_type_max : Nat
  group_invalid : Nat
  quorum_group_count : Nat
  quorum_group_max : Nat
  new_state_count : Nat
  new_state_max : Nat

/-- The members of `service_nodes::quorum_vote_t` that quorumnet.cpp reads and writes. An
enum member holds its underlying integer; `block_hash` is `checkpoint.block_hash`,
`worker_index` and `state` are the members of `state_change`. -/
structure quorum_vote_t where
  version : Nat
  type : Nat
  block_height : Nat
  group : Nat
  index_in_group : Nat
  signature : String
  block_hash : String
  worker_index : Nat
  state : Nat
deriving DecidableEq, Repr

/-- The function `serialize_vote` (quorumnet.cpp:447-463); the dictionary is in key order.
The casts `static_cast<uint8_t>` of `type` and `group` keep the low eight bits. -/
def serialize_vote (E : vote_enums) (vote : quorum_vote_t) : bt_dict :=
  if vote.type = E.checkpointing then
    [("bh", bt_value.str vote.block_hash),
     ("g", bt_value.int ((vote.group % 256 : Nat) : Int)),
     ("h", bt_value.int (vote.block_height : Int)),
     ("i", bt_value.int (vote.index_in_group : Int)),
     ("s", bt_value.str vote.signature),
     ("t", bt_value.int ((vote.type % 256 : Nat) : Int)),
     ("v", bt_value.int (vote.version : Int))]
  else
    [("g", bt_value.int ((vote.group % 256 : Nat) : Int)),
     ("h", bt_value.int (vote.block_height : Int)),
     ("i", bt_value.int (vote.index_in_group : Int)),
     ("s", bt_value.str vote.signature),
     ("sc", bt_value.int (vote.state : Int)),
     ("t", bt_value.int ((vote.type % 256 : Nat) : Int)),
     ("v", bt_value.int (vote.version : Int)),
     ("wi", bt_value.int (vote.worker_index : Int))]

/-- One round of the loop of `relay_obligation_votes` (quorumnet.cpp:497-526): `none` when
the vote is skipped by a `continue`, else the messages relayed for it. The quorum is looked
up only for a vote whose type is `obligations`. -/
def relay_obligation_vote (cfg : blink_config) (E : vote_enums) (core : member_core)
    (min_votes_for_quorum_type : Nat → Nat) (vote : quorum_vote_t) : Option (List Sent) :=
  if vote.type ≠ E.obligations then none
  else
    match core.snl.get_quorum quorum_type.obligations vote.block_height with
    | none => none
    | some quorum =>
      if quorum.validators.length < min_votes_for_quorum_type vote.type then none
      else
        let pinfo := peer_info.create cfg core.cm core.snl core.my_pubkey [quorum] [] false
        if pinfo.my_position_count = 0 then none
        else some (pinfo.relay_to_peers "quorum.vote_ob" (serialize_vote E vote))

/-- What `relay_obligation_votes` does: the messages sent and the list given to
`core.set_service_node_votes_relayed`. -/
structure relay_votes_outcome where
  sent : List Sent
  relayed_votes : List quorum_vote_t
deriving DecidableEq, Repr

/-- The function `relay_obligation_votes` (quorumnet.cpp:489-529). -/
def relay_obligation_votes (cfg : blink_config) (E : vote_enums) (core : member_core)
    (min_votes_for_quorum_type : Nat → Nat) (votes : List quorum_vote_t) :
    relay_votes_outcome :=
  votes.foldl (fun acc vote =>
    match relay_obligation_vote cfg E core min_votes_for_quorum_type vote with
    | none => acc
    | some sent => ⟨acc.sent ++ sent, acc.relayed_votes ++ [vote]⟩) ⟨[], []⟩

/-- Enumerator values used in the examples: four quorum types from `obligations = 0`, three
quorum groups from `invalid = 0`, four states, with 8-bit, 8-bit and 16-bit underlying
types. -/
def example_vote_enums : vote_enums where
  obligations := 0
  checkpointing := 1
  quorum_type_count := 4
  quorum_type_max := 255
  group_invalid := 0
  quorum_group_count := 3
  quorum_group_max := 255
  new_state_count := 4
  new_state_max := 65535

/-- An obligations vote at the given height. -/
def example_vote (height : Nat) : quorum_vote_t :=
  ⟨0, 0, height, 1, 0, example_signature, "", 2, 1⟩

/-! ## Inter-quorum edges of `compute_validator_peers` (quorumnet.cpp:382-428) -/

/-- The peers added from the connection matrix of the node's own quorum
(quorumnet.cpp:362-380): strong outgoing, then weak incoming. -/
def peer_info.intra_quorum_peers (cm : conn_matrix) (validators : List public_key)
    (my_pos : Int) (p : peer_info) : peer_info :=
  (cm.quorum_incoming_conns my_pos.toNat validators.length).foldl
    (fun acc j => acc.add_peer_at validators j false)
    ((cm.quorum_outgoing_conns my_pos.toNat validators.length).foldl
      (fun acc j => acc.add_peer_at validators j true) p)

/-- The arguments of the two inter-quorum `add_peer` calls of the loop body for the quorum at
index `i` (quorumnet.cpp:392-428), as pairs of the index of the target quorum and the index
in its validators: first the edge to the next quorum, then the edge to the previous one. -/
def strong_inter_quorum_edges (quorums : List quorum) (my_position : List Int) (i : Nat) :
    List (Nat × Nat) :=
  let my_pos := my_position.getD i (-1)
  if my_pos < 0 then []
  else
    let validators := (quorums.getD i ⟨[], []⟩).validators
    (if i + 1 < quorums.length ∧ my_position.getD (i + 1) (-1) < 0 then
      let next_validators := (quorums.getD (i + 1) ⟨[], []⟩).validators
      let half : Int := ((min validators.length next_validators.length) / 2 : Nat)
      if my_pos ≥ half ∧ my_pos < half * 2 then [(i + 1, (my_pos - half).toNat)] else []
    else []) ++
    (if 0 < i ∧ my_position.getD (i - 1) (-1) < 0 then
      let prev_validators := (quorums.getD (i - 1) ⟨[], []⟩).validators
      let half : Int := ((min validators.length prev_validators.length) / 2 : Nat)
      if my_pos < half then [(i - 1, (half + my_pos).toNat)] else []
    else [])

/-- Two quorums of three validators with no common member. -/
def example_first_quorum : quorum := ⟨[101, 102, 103], []⟩

/-- The second quorum of the example pair. -/
def example_second_quorum : quorum := ⟨[111, 112, 113], []⟩

/-! ## Strong peer accounting of `add_peer` (quorumnet.cpp:223-228, 324-344) -/

/-- A sequence of `add_peer(pubkey, strong)` calls, the return values ignored. -/
def peer_info.add_peers (p : peer_info) (calls : List (public_key × Bool)) : peer_info :=
  calls.foldl (fun acc c => (acc.add_peer c.1 c.2).1) p

/-- The number of entries of `peers` whose address is not empty. -/
def strong_entries (peers : List (String × String)) : Nat :=
  (peers.filter (fun e => decide (e.2 ≠ ""))).length

/-- The state of a `peer_info` when the constructor has looked up the remotes of the needed
pubkeys and `compute_validator_peers` has reset the counter: no peers, `strong_peers = 0`. -/
def peer_info.start (cfg : blink_config) (snl : service_node_list)
    (need_remotes : List public_key) (my_position : List Int) (my_position_count : Int) :
    peer_info :=
  ⟨need_remotes.filterMap (matrix_remote cfg snl), [], 0, my_position, my_position_count⟩

/-! ## Decision transitions of `process_blink_signatures` (quorumnet.cpp:695-750, 789-797) -/

/-- The signatures left in the list after the first two loops of `process_blink_signatures`
(quorumnet.cpp:649-690). -/
def verified_signatures (core : member_core) (sc : signature_core)
    (a : process_blink_signatures_args) : List pending_signature :=
  (a.signatures.filter (signature_slot_open sc a.btx a.blink_quorums)).filter
    (signature_verifies core sc a.btx a.blink_quorums)

/-- The test `cmd == "bl.good" || cmd == "bl.bad"` on a sent message: a decision reply to the
submitter. -/
def is_decision_reply (m : Sent) : Bool :=
  decide (m.cmd = "bl.good") || decide (m.cmd = "bl.bad")

/-- A call of `process_blink_signatures` that set `became_approved` or `became_rejected`. -/
def process_outcome.detected (o : process_outcome) : Bool :=
  o.became_approved || o.became_rejected

/-- A sequence of calls of `process_blink_signatures` on one blink tx: each call works on the
blink tx as the call before left it; the other arguments are those of the list. -/
def process_blink_signatures_sequence (cfg : blink_config) (core : member_core)
    (sc : signature_core) : blink_tx → List process_blink_signatures_args → List process_outcome
  | _, [] => []
  | btx, a :: rest =>
    process_blink_signatures cfg core sc { a with btx := btx } ::
      process_blink_signatures_sequence cfg core sc
        (process_blink_signatures cfg core sc { a with btx := btx }).btx rest

/-- The assumption that a decision never reverts: storing a signature keeps a blink tx
approved if it was approved and rejected if it was rejected. -/
def decision_persists (core : member_core) (sc : signature_core) : Prop :=
  ∀ b q p a s b1, sc.add_prechecked_signature b q p a s = some b1 →
    (core.approved b = true → core.approved b1 = true) ∧
    (core.rejected b = true → core.rejected b1 = true)

/-- A blink tx of height 100 with one empty slot in each subquorum. -/
def example_open_btx : blink_tx := ⟨100, ⟨4, "tx"⟩, [[signature_status.none], [signature_status.none]]⟩

/-- A call that brings one approval for the slot at position 0 of subquorum `qi`, with a
reply tag and the connection of the submitter. -/
def example_process_args (qi : Nat) : process_blink_signatures_args where
  btx := example_open_btx
  blink_quorums := [example_first_quorum, example_second_quorum]
  quorum_checksum := 0
  signatures := [⟨true, qi, 0, example_signature⟩]
  reply_tag := 7
  reply_conn := example_submitter
  received_from := ""

/-! ## Reply connection of an accepted submission (quorumnet.cpp:1012-1015, 1069) -/

/-- The example quorum member with the decision rule of subquorums of three validators and
two votes: approved when each subquorum holds two approvals, rejected when a subquorum holds
two rejections. -/
def example_member_counting : member_core :=
  { example_member 100 with
    approved := fun b => b.sigs.all (fun q => decide (2 ≤ q.count signature_status.approved))
    rejected := fun b => b.sigs.any (fun q => decide (2 ≤ q.count signature_status.rejected)) }

/-- A cache in which three approvals for the blink tx of height 100 wait for the tx:
position 1 of the first subquorum, positions 0 and 1 of the second. -/
def example_cache_waiting : blink_cache :=
  [((100, example_tx_hash),
    ⟨none, [⟨true, 0, 1, example_signature⟩, ⟨true, 1, 0, example_signature⟩,
      ⟨true, 1, 1, example_signature⟩], ConnectionID.none, 0⟩)]

/-! ## Vote deserialisation (quorumnet.cpp:131-140, 465-487) -/

/-- The codec check `get_int<T>` for an unsigned type `T` with largest value `max`: the value
is an integer in range. -/
def get_int (max : Nat) (v : bt_value) : Except String Nat :=
  match v with
  | bt_value.int (Int.ofNat n) => if n ≤ max then Except.ok n
                                  else Except.error "integer out of range"
  | bt_value.int (Int.negSucc _) => Except.error "integer out of range"
  | _ => Except.error "not an integer"

/-- The helper `get_enum<E>` (quorumnet.cpp:131-140) for an enum with the given `_count`
whose underlying type has the largest value `max`. -/
def get_enum (count max : Nat) (d : bt_dict) (key : String) : Except String Nat := do
  let v ← d.at key
  let result ← get_int max v
  if result < count then Except.ok result
  else Except.error ("invalid enum value for field " ++ key)

/-- The function `deserialize_vote` (quorumnet.cpp:465-487) on the decoded dictionary. The
members of the union that the vote's type does not use are left unset in the source; here
they are the empty string and zero. -/
def deserialize_vote (E : vote_enums) (d : bt_dict) : Except String quorum_vote_t := do
  let v ← d.at "v"
  let version ← get_int 255 v
  let type ← get_enum E.quorum_type_count E.quorum_type_max d "t"
  let h ← d.at "h"
  let block_height ← get_int_u64 h
  let group ← get_enum E.quorum_group_count E.quorum_group_max d "g"
  if group = E.group_invalid then Except.error "invalid vote group"
  else do
    let i ← d.at "i"
    let index_in_group ← get_int 65535 i
    let s ← d.at "s"
    let sig ← get_string s
    if sig.length ≠ SIGNATURE_SIZE then Except.error "invalid vote signature size"
    else if type = E.checkpointing then do
      let b ← d.at "bh"
      let bh ← get_string b
      if bh.length ≠ 32 then Except.error "invalid vote checkpoint block hash"
      else Except.ok ⟨version, type, block_height, group, index_in_group, sig, bh, 0, 0⟩
    else do
      let w ← d.at "wi"
      let worker_index ← get_int 65535 w
      let state ← get_enum E.new_state_count E.new_state_max d "sc"
      Except.ok ⟨version, type, block_height, group, index_in_group, sig, "", worker_index,
        state⟩

/-- What the C++ declarations of the enums give: `_count` is a value of each enum, so it
fits the underlying type, and the values of `quorum_type` and `quorum_group` fit the
`uint8_t` that `serialize_vote` casts them to. -/
def vote_enums.fits (E : vote_enums) : Prop :=
  E.quorum_type_count ≤ E.quorum_type_max ∧ E.quorum_type_count ≤ 256 ∧
  E.quorum_group_count ≤ E.quorum_group_max ∧ E.quorum_group_count ≤ 256 ∧
  E.new_state_count ≤ E.new_state_max

instance (E : vote_enums) : Decidable E.fits := by
  unfold vote_enums.fits
  infer_instance

/-- The ranges that the member types of `quorum_vote_t` give: `uint8_t` version, `uint64_t`
height, `uint16_t` indices, a signature of `SIGNATURE_SIZE` bytes and, in a checkpointing
vote, a block hash of 32 bytes. -/
def quorum_vote_t.in_range (E : vote_enums) (vote : quorum_vote_t) : Prop :=
  vote.version ≤ 255 ∧ vote.block_height < U64 ∧ vote.index_in_group ≤ 65535 ∧
  vote.worker_index ≤ 65535 ∧ vote.signature.length = SIGNATURE_SIZE ∧
  (vote.type = E.checkpointing → vote.block_hash.length = 32)

instance (E : vote_enums) (vote : quorum_vote_t) : Decidable (vote.in_range E) := by
  unfold quorum_vote_t.in_range
  infer_instance

/-- A checkpointing vote at the given height, with a 32-byte block hash. -/
def example_checkpoint_vote (height : Nat) : quorum_vote_t :=
  ⟨0, 1, height, 1, 2, example_signature, example_tx_hash, 0, 0⟩

/-! ## Portions arithmetic (`src/cryptonote_core/service_node_rules.cpp:91-97, 190-199`) -/

/-- Modelled from the spec: the helper `mul128` of `int-util.h` (not under `src/`) as the
exact 128-bit product of two `uint64_t`, given as the pair of its high and low 64-bit
words. -/
def mul128 (multiplier multiplicand : Nat) : Nat × Nat :=
  ((multiplier * multiplicand) / U64, (multiplier * multiplicand) % U64)

/-- Modelled from the spec: the helper `div128_64` of `int-util.h` (not under `src/`) as the
quotient of the 128-bit dividend `hi * 2^64 + lo` by a 64-bit divisor, given as the pair of
the high and low 64-bit words of the quotient. -/
def div128_64 (dividend_hi dividend_lo divisor : Nat) : Nat × Nat :=
  (((dividend_hi * U64 + dividend_lo) / divisor) / U64 % U64,
    ((dividend_hi * U64 + dividend_lo) / divisor) % U64)

/-- The function `portions_to_amount` (service_node_rules.cpp:91-97); `STAKING_PORTIONS` is
a constant of a header that is not under `src/`. -/
def portions_to_amount (STAKING_PORTIONS : Nat) (portions staking_requirement : Nat) : Nat :=
  let hi := (mul128 staking_requirement portions).1
  let lo := (mul128 staking_requirement portions).2
  (div128_64 hi lo STAKING_PORTIONS).2

/-- The function `get_portions_to_make_amount` (service_node_rules.cpp:190-199), every step
in `uint64_t`. -/
def get_portions_to_make_amount (staking_requirement amount max_portions : Nat) : Nat :=
  let hi := (mul128 amount max_portions).1
  let lo := (mul128 amount max_portions).2
  let hi1 := if lo > u64_sub (U64 - 1) (u64_sub staking_requirement 1) then u64_add hi 1 else hi
  let lo1 := u64_add lo (u64_sub staking_requirement 1)
  (div128_64 hi1 lo1 staking_requirement).2

/-- Example originator whose transport throws on the send to service node 103: the third
of the four destinations of the example submission. -/
def example_originator_failing_send : originator_core where
  parse_and_validate_tx_from_blob := fun blob => some blob
  get_current_blockchain_height := 100
  snl := example_snl
  lmq_send_throws := fun m =>
    if m.dest = ConnectionID.of_pubkey (example_x25519 103) then some "send failed" else none

/-- Example registry in which the service nodes 101 and 102 are registered with the same
x25519 key and the same address. -/
def example_shared_snl : service_node_list where
  get_quorum := fun _ h => some ⟨[h + 1, h + 2, h + 3], []⟩
  info_and_proof := fun pk =>
    some (⟨true⟩, ⟨(9, 0, 0), example_x25519 (if pk = 102 then 101 else pk), 16777343, 22020⟩)
  get_pubkey_from_x25519 := fun _ => 0

/-! # Theorems -/

/-! ## Height window -/

theorem u64_sub_eq_mod (a b : Nat) (ha : a < U64) (hb : b < U64) :
    u64_sub a b = (a + U64 - b) % U64 := by
  unfold u64_sub
  have hU : U64 = 18446744073709551616 := by norm_num [U64]
  rw [hU] at ha hb ⊢
  split_ifs <;> omega

theorem blink_height_check_valid_iff (h tip : Nat) (h2 : 2 ≤ tip) (hb : tip + 2 < U64) :
    blink_height_check h tip = height_verdict.valid ↔ (tip - 2 ≤ h ∧ h ≤ tip + 2) := by
  unfold blink_height_check u64_sub u64_add
  have e2 : (tip + 2) % U64 = tip + 2 := Nat.mod_eq_of_lt hb
  rw [if_pos h2, e2]
  split_ifs <;> simp <;> omega

theorem blink_height_check_valid_window (h tip : Nat) (hh : h < U64) (ht : tip < U64)
    (hv : blink_height_check h tip = height_verdict.valid) : tip ≤ h + 2 ∧ h ≤ tip + 2 := by
  unfold blink_height_check u64_sub u64_add at hv
  have hU : U64 = 18446744073709551616 := by norm_num [U64]
  rw [hU] at hv hh ht
  split_ifs at hv <;> omega

theorem blink_height_check_near_genesis (tip h : Nat) (ht : tip < 2) :
    blink_height_check h tip ≠ height_verdict.valid := by
  intro hv
  unfold blink_height_check u64_sub u64_add at hv
  have hU : U64 = 18446744073709551616 := by norm_num [U64]
  rw [hU] at hv
  split_ifs at hv <;> omega

/-- C1, at the failing inputs. On a chain of height 0 or 1 the subtraction
`local_height - 2` wraps around, so the height check rejects as too low the heights
`tip`, `tip + 1` and `tip + 2`, and `handle_blink` answers a submission for height 1 on a
chain of height 1 with `bl.nostart`; indeed no height at all passes the check on a chain
of height below 2. -/
theorem C1_height_check_rejects_near_genesis :
    blink_height_check 1 1 = height_verdict.too_low ∧
    blink_height_check 3 1 = height_verdict.too_low ∧
    blink_height_check 0 0 = height_verdict.too_low ∧
    blink_height_check 2 0 = height_verdict.too_low ∧
    handle_blink example_config (example_member 1) [] (example_submit_at 1) =
      Except.ok ⟨[], [⟨example_submitter, "bl.nostart",
        [("!", bt_value.int 42), ("e", bt_value.str "Invalid blink authorization height")],
        send_option.plain⟩], [], none⟩ ∧
    (∀ (tip : Fin 2) (h : Nat), blink_height_check h tip.val ≠ height_verdict.valid) := by
  exact ⟨by decide, by decide, by decide, by decide, rfl,
    fun tip h => blink_height_check_near_genesis tip.val h tip.isLt⟩

/-! ## Promise table lemmas -/

theorem promise_table.find_cons (k : Nat) (v : blink_result_data) (rest : promise_table)
    (tag : Nat) :
    promise_table.find ((k, v) :: rest) tag = if k = tag then some v else promise_table.find rest tag :=
  rfl

theorem promise_table.erase_cons (k : Nat) (v : blink_result_data) (rest : promise_table)
    (tag : Nat) :
    promise_table.erase ((k, v) :: rest) tag =
      if k = tag then promise_table.erase rest tag else (k, v) :: promise_table.erase rest tag := by
  by_cases hk : k = tag <;> simp [promise_table.erase, List.filter, hk]

theorem promise_table.modify_cons (k : Nat) (v : blink_result_data) (rest : promise_table)
    (tag : Nat) (f : blink_result_data → blink_result_data) :
    promise_table.modify ((k, v) :: rest) tag f =
      (if k = tag then (k, f v) else (k, v)) :: promise_table.modify rest tag f :=
  rfl

theorem promise_table.find_erase_self (t : promise_table) (tag : Nat) :
    (t.erase tag).find tag = none := by
  induction t with
  | nil => rfl
  | cons kv rest ih =>
    obtain ⟨k, v⟩ := kv
    rw [promise_table.erase_cons]
    by_cases hk : k = tag
    · rw [if_pos hk]; exact ih
    · rw [if_neg hk, promise_table.find_cons, if_neg hk]; exact ih

theorem promise_table.find_erase_ne (t : promise_table) (tag other : Nat) (hne : other ≠ tag) :
    (t.erase tag).find other = t.find other := by
  induction t with
  | nil => rfl
  | cons kv rest ih =>
    obtain ⟨k, v⟩ := kv
    rw [promise_table.erase_cons, promise_table.find_cons]
    by_cases hk : k = tag
    · have hko : ¬ k = other := fun h => hne (h.symm.trans hk)
      rw [if_pos hk, if_neg hko]; exact ih
    · rw [if_neg hk, promise_table.find_cons, ih]

theorem promise_table.find_modify_self (t : promise_table) (tag : Nat)
    (f : blink_result_data → blink_result_data) (e : blink_result_data)
    (hfind : t.find tag = some e) : (t.modify tag f).find tag = some (f e) := by
  induction t with
  | nil => simp [promise_table.find] at hfind
  | cons kv rest ih =>
    obtain ⟨k, v⟩ := kv
    rw [promise_table.find_cons] at hfind
    rw [promise_table.modify_cons]
    by_cases hk : k = tag
    · rw [if_pos hk] at hfind
      rw [if_pos hk, promise_table.find_cons, if_pos hk]
      injection hfind with hv
      rw [hv]
    · rw [if_neg hk] at hfind
      rw [if_neg hk, promise_table.find_cons, if_neg hk]
      exact ih hfind

theorem promise_table.find_modify_ne (t : promise_table) (tag other : Nat)
    (f : blink_result_data → blink_result_data) (hne : other ≠ tag) :
    (t.modify tag f).find other = t.find other := by
  induction t with
  | nil => rfl
  | cons kv rest ih =>
    obtain ⟨k, v⟩ := kv
    rw [promise_table.modify_cons, promise_table.find_cons]
    by_cases hk : k = tag
    · have hko : ¬ k = other := fun h => hne (h.symm.trans hk)
      rw [if_pos hk, promise_table.find_cons, if_neg hko, if_neg hko]; exact ih
    · rw [if_neg hk, promise_table.find_cons, ih]

theorem promise_table.find_none_of_not_mem (t : promise_table) (tag : Nat)
    (h : tag ∉ t.map Prod.fst) : t.find tag = none := by
  induction t with
  | nil => rfl
  | cons kv rest ih =>
    obtain ⟨k, v⟩ := kv
    rw [List.map_cons, List.mem_cons, not_or] at h
    have hk : ¬ k = tag := fun e => h.1 e.symm
    rw [promise_table.find_cons, if_neg hk]
    exact ih h.2

theorem promise_table.erase_of_find_none (t : promise_table) (tag : Nat)
    (h : t.find tag = none) : t.erase tag = t := by
  induction t with
  | nil => rfl
  | cons kv rest ih =>
    obtain ⟨k, v⟩ := kv
    rw [promise_table.find_cons] at h
    by_cases hk : k = tag
    · rw [if_pos hk] at h; exact absurd h (by simp)
    · rw [if_neg hk] at h
      rw [promise_table.erase_cons, if_neg hk, ih h]

theorem promise_table.length_erase (t : promise_table) (tag : Nat) (e : blink_result_data)
    (hwf : t.wf) (hfind : t.find tag = some e) : (t.erase tag).length + 1 = t.length := by
  induction t with
  | nil => simp [promise_table.find] at hfind
  | cons kv rest ih =>
    obtain ⟨k, v⟩ := kv
    have hnd : k ∉ rest.map Prod.fst ∧ (rest.map Prod.fst).Nodup := by
      simpa [promise_table.wf] using hwf
    rw [promise_table.find_cons] at hfind
    rw [promise_table.erase_cons]
    by_cases hk : k = tag
    · have hrest : promise_table.find rest tag = none :=
        promise_table.find_none_of_not_mem rest tag (hk ▸ hnd.1)
      rw [if_pos hk, promise_table.erase_of_find_none rest tag hrest]
      rfl
    · rw [if_neg hk] at hfind
      rw [if_neg hk]
      have := ih hnd.2 hfind
      simp [this]

/-! ## Originator replies -/

theorem get_int_u64_of_nat (n : Nat) (hn : n < U64) :
    get_int_u64 (bt_value.int n) = Except.ok n := by
  show (if n < U64 then Except.ok n else Except.error "integer out of range") = Except.ok n
  rw [if_pos hn]

theorem handle_blink_not_started_of (t : promise_table) (d : bt_dict) (v w : bt_value)
    (tag : Nat) (err : String) (hv : d.at "!" = Except.ok v) (htag : get_int_u64 v = Except.ok tag)
    (hw : d.at "e" = Except.ok w) (herr : get_string w = Except.ok err) :
    handle_blink_not_started t ⟨[d]⟩ =
      Except.ok (common_blink_response t tag blink_result.rejected err true) := by
  unfold handle_blink_not_started
  simp only [hv, htag, hw, herr, bind, Except.bind, pure, Except.pure]

theorem handle_blink_failure_of (t : promise_table) (d : bt_dict) (v : bt_value) (tag : Nat)
    (hv : d.at "!" = Except.ok v) (htag : get_int_u64 v = Except.ok tag) :
    handle_blink_failure t ⟨[d]⟩ =
      Except.ok (common_blink_response t tag blink_result.rejected
        "Transaction rejected by quorum" false) := by
  unfold handle_blink_failure
  simp only [hv, htag, bind, Except.bind, pure, Except.pure]

theorem handle_blink_success_of (t : promise_table) (d : bt_dict) (v : bt_value) (tag : Nat)
    (hv : d.at "!" = Except.ok v) (htag : get_int_u64 v = Except.ok tag) :
    handle_blink_success t ⟨[d]⟩ =
      Except.ok (common_blink_response t tag blink_result.accepted "" false) := by
  unfold handle_blink_success
  simp only [hv, htag, bind, Except.bind, pure, Except.pure]

theorem handle_blink_not_started_eq (t : promise_table) (tag : Nat) (err : String)
    (htag : tag < U64) :
    handle_blink_not_started t ⟨[[("!", bt_value.int tag), ("e", bt_value.str err)]]⟩ =
      Except.ok (common_blink_response t tag blink_result.rejected err true) :=
  handle_blink_not_started_of t _ (bt_value.int tag) (bt_value.str err) tag err
    (by simp [bt_dict.at, bt_dict.find]) (get_int_u64_of_nat tag htag)
    (by simp [bt_dict.at, bt_dict.find]) rfl

theorem handle_blink_failure_eq (t : promise_table) (tag : Nat) (htag : tag < U64) :
    handle_blink_failure t ⟨[[("!", bt_value.int tag)]]⟩ =
      Except.ok (common_blink_response t tag blink_result.rejected
        "Transaction rejected by quorum" false) :=
  handle_blink_failure_of t _ _ tag (by simp [bt_dict.at, bt_dict.find])
    (get_int_u64_of_nat tag htag)

theorem handle_blink_success_eq (t : promise_table) (tag : Nat) (htag : tag < U64) :
    handle_blink_success t ⟨[[("!", bt_value.int tag)]]⟩ =
      Except.ok (common_blink_response t tag blink_result.accepted "" false) :=
  handle_blink_success_of t _ _ tag (by simp [bt_dict.at, bt_dict.find])
    (get_int_u64_of_nat tag htag)

theorem common_blink_response_absent (t : promise_table) (tag : Nat) (res : blink_result)
    (msg : String) (nostart : Bool) (h : t.find tag = none) :
    common_blink_response t tag res msg nostart = ⟨t, []⟩ := by
  simp [common_blink_response, h]

theorem common_blink_response_immediate (t : promise_table) (tag : Nat) (res : blink_result)
    (msg : String) (e : blink_result_data) (hfind : t.find tag = some e)
    (hunset : e.promise = promise_state.unset) :
    common_blink_response t tag res msg false = ⟨t.erase tag, [(tag, (res, msg))]⟩ := by
  simp [common_blink_response, hfind, hunset, promise_state.set_value]

theorem strict_majority_iff (k n : Nat) : k > n / 2 ↔ 2 * k > n := by
  omega

theorem common_blink_response_nostart_keep (t : promise_table) (tag : Nat) (err : String)
    (e : blink_result_data) (hfind : t.find tag = some e)
    (hbelow : ¬ e.nostart_count + 1 > e.remote_count / 2) :
    common_blink_response t tag blink_result.rejected err true =
      ⟨t.modify tag (fun x => { x with nostart_count := e.nostart_count + 1 }), []⟩ := by
  simp [common_blink_response, hfind, hbelow]

theorem common_blink_response_nostart_resolve (t : promise_table) (tag : Nat) (err : String)
    (e : blink_result_data) (hfind : t.find tag = some e)
    (hpending : e.promise = promise_state.unset)
    (hmaj : e.nostart_count + 1 > e.remote_count / 2) :
    common_blink_response t tag blink_result.rejected err true =
      ⟨(t.modify tag (fun x => { x with nostart_count := e.nostart_count + 1 })).erase tag,
        [(tag, (blink_result.rejected, err))]⟩ := by
  simp [common_blink_response, hfind, hpending, promise_state.set_value, hmaj]

theorem after_nostart_replies_pending (tag : Nat) (earlier : List String) :
    ∀ (t : promise_table) (e : blink_result_data), t.find tag = some e →
      e.nostart_count + earlier.length ≤ e.remote_count / 2 →
      (after_nostart_replies t tag earlier).find tag =
        some { e with nostart_count := e.nostart_count + earlier.length } ∧
      ∀ other, other ≠ tag → (after_nostart_replies t tag earlier).find other = t.find other := by
  induction earlier with
  | nil => intro t e hfind _; exact ⟨hfind, fun _ _ => rfl⟩
  | cons err rest ih =>
    intro t e hfind hle
    rw [List.length_cons] at hle
    have hbelow : ¬ e.nostart_count + 1 > e.remote_count / 2 := by omega
    have hstep := common_blink_response_nostart_keep t tag err e hfind hbelow
    have hfind1 := promise_table.find_modify_self t tag
      (fun x => { x with nostart_count := e.nostart_count + 1 }) e hfind
    obtain ⟨h1, h2⟩ := ih (t.modify tag (fun x => { x with nostart_count := e.nostart_count + 1 }))
      { e with nostart_count := e.nostart_count + 1 } hfind1 (by simp only; omega)
    have hunf : after_nostart_replies t tag (err :: rest) =
        after_nostart_replies
          (t.modify tag (fun x => { x with nostart_count := e.nostart_count + 1 })) tag rest := by
      rw [after_nostart_replies, hstep]
    rw [hunf]
    refine ⟨?_, ?_⟩
    · rw [h1, List.length_cons]
      simp only [Option.some.injEq, blink_result_data.mk.injEq, true_and]
      omega
    · intro other hne
      rw [h2 other hne]
      exact promise_table.find_modify_ne t tag other _ hne

/-- C3. Take a pending promise stored under `tag` with fan-out size `n = remote_count` and
no `bl.nostart` counted yet, and let `k - 1` earlier `bl.nostart` replies for the tag have
left it pending (`k - 1 <= n / 2`). Then the entry still sits in the table with count
`k - 1`, and the `k`-th `bl.nostart` resolves the promise as rejected with the received
error text and removes it exactly when `k > n / 2`, which is the same as `2 * k > n`;
otherwise it only records the count `k` and the promise stays pending in the table. No
other entry changes. -/
theorem C3_nostart_strict_majority (t : promise_table) (tag : Nat) (e : blink_result_data)
    (earlier : List String) (err : String) (htag : tag < U64)
    (hfind : t.find tag = some e) (hpending : e.promise = promise_state.unset)
    (hfresh : e.nostart_count = 0) (hearlier : earlier.length ≤ e.remote_count / 2) :
    (after_nostart_replies t tag earlier).find tag =
      some { e with nostart_count := earlier.length } ∧
    (earlier.length + 1 > e.remote_count / 2 ↔ 2 * (earlier.length + 1) > e.remote_count) ∧
    ∃ out,
      handle_blink_not_started (after_nostart_replies t tag earlier)
        ⟨[[("!", bt_value.int tag), ("e", bt_value.str err)]]⟩ = Except.ok out ∧
      (out.resolved = [(tag, (blink_result.rejected, err))] ↔
        earlier.length + 1 > e.remote_count / 2) ∧
      (earlier.length + 1 > e.remote_count / 2 →
        out.resolved = [(tag, (blink_result.rejected, err))] ∧ out.table.find tag = none) ∧
      (¬ earlier.length + 1 > e.remote_count / 2 →
        out.resolved = [] ∧
        out.table.find tag = some { e with nostart_count := earlier.length + 1 }) ∧
      (∀ other, other ≠ tag → out.table.find other = t.find other) := by
  obtain ⟨hcur, hothers⟩ := after_nostart_replies_pending tag earlier t e hfind (by omega)
  rw [hfresh, Nat.zero_add] at hcur
  refine ⟨hcur, strict_majority_iff _ _, _,
    handle_blink_not_started_eq _ tag err htag, ?_⟩
  have hself := promise_table.find_modify_self (after_nostart_replies t tag earlier) tag
    (fun x => { x with nostart_count := earlier.length + 1 })
    { e with nostart_count := earlier.length } hcur
  have hrest : ∀ other, other ≠ tag →
      ((after_nostart_replies t tag earlier).modify tag
        (fun x => { x with nostart_count := earlier.length + 1 })).find other = t.find other :=
    fun other hne => (promise_table.find_modify_ne _ tag other _ hne).trans (hothers other hne)
  by_cases hmaj : earlier.length + 1 > e.remote_count / 2
  · have hres := common_blink_response_nostart_resolve (after_nostart_replies t tag earlier) tag
      err { e with nostart_count := earlier.length } hcur hpending hmaj
    rw [hres]
    refine ⟨⟨fun _ => hmaj, fun _ => rfl⟩, fun _ => ⟨rfl, promise_table.find_erase_self _ _⟩,
      fun h => absurd hmaj h, ?_⟩
    intro other hne
    exact (promise_table.find_erase_ne _ tag other hne).trans (hrest other hne)
  · have hres := common_blink_response_nostart_keep (after_nostart_replies t tag earlier) tag
      err { e with nostart_count := earlier.length } hcur hmaj
    rw [hres]
    exact ⟨⟨fun h => by simp at h, fun h => absurd h hmaj⟩, fun h => absurd h hmaj,
      fun _ => ⟨rfl, hself⟩, hrest⟩

/-- C3 at fan-out size 4: the first and the second `bl.nostart` leave the promise pending
in the table, the third resolves it as rejected with the received text. -/
theorem C3_nostart_strict_majority_witness :
    (∃ out, handle_blink_not_started [(7, ⟨"h", promise_state.unset, 100, 4, 0⟩)]
        ⟨[[("!", bt_value.int 7), ("e", bt_value.str "bad height")]]⟩ = Except.ok out ∧
      out.resolved = [] ∧
      out.table.find 7 = some ⟨"h", promise_state.unset, 100, 4, 1⟩) ∧
    (∃ out, handle_blink_not_started [(7, ⟨"h", promise_state.unset, 100, 4, 1⟩)]
        ⟨[[("!", bt_value.int 7), ("e", bt_value.str "bad height")]]⟩ = Except.ok out ∧
      out.resolved = [] ∧
      out.table.find 7 = some ⟨"h", promise_state.unset, 100, 4, 2⟩) ∧
    (∃ out, handle_blink_not_started [(7, ⟨"h", promise_state.unset, 100, 4, 2⟩)]
        ⟨[[("!", bt_value.int 7), ("e", bt_value.str "bad height")]]⟩ = Except.ok out ∧
      out.resolved = [(7, (blink_result.rejected, "bad height"))] ∧
      out.table.find 7 = none) := by
  refine ⟨?_, ?_, ?_⟩
  · obtain ⟨_, _, out, hout, _, _, hno, _⟩ :=
      C3_nostart_strict_majority [(7, ⟨"h", promise_state.unset, 100, 4, 0⟩)] 7
        ⟨"h", promise_state.unset, 100, 4, 0⟩ [] "bad height" (by decide) rfl rfl rfl (by decide)
    exact ⟨out, hout, hno (by decide)⟩
  · obtain ⟨_, _, out, hout, _, _, hno, _⟩ :=
      C3_nostart_strict_majority [(7, ⟨"h", promise_state.unset, 100, 4, 0⟩)] 7
        ⟨"h", promise_state.unset, 100, 4, 0⟩ ["bad height"] "bad height" (by decide) rfl rfl rfl
        (by decide)
    exact ⟨out, hout, hno (by decide)⟩
  · obtain ⟨_, _, out, hout, _, hyes, _, _⟩ :=
      C3_nostart_strict_majority [(7, ⟨"h", promise_state.unset, 100, 4, 0⟩)] 7
        ⟨"h", promise_state.unset, 100, 4, 0⟩ ["bad height", "bad height"] "bad height"
        (by decide) rfl rfl rfl (by decide)
    exact ⟨out, hout, hyes (by decide)⟩

/-- C4, counterexample. The table left by a `send_blink` whose quorum lookup threw holds
tag 42 with a promise that already carries the exception; `bl.good` and `bl.bad` for tag 42
then resolve nothing and remove nothing. -/
theorem C4_counterexample_promise_already_satisfied :
    (send_blink example_config example_originator_no_quorum [] "tx" 0 0 [42] id).map
        (fun o => o.table) = some example_failed_table ∧
    (example_failed_table.find 42).isSome = true ∧
    handle_blink_success example_failed_table ⟨[[("!", bt_value.int 42)]]⟩ =
      Except.ok ⟨example_failed_table, []⟩ ∧
    handle_blink_failure example_failed_table ⟨[[("!", bt_value.int 42)]]⟩ =
      Except.ok ⟨example_failed_table, []⟩ := by
  exact ⟨by decide, by decide, rfl, rfl⟩

/-- C4, amended. For a table with distinct keys and a tag whose promise has not been
satisfied yet, `bl.good` resolves it to `(accepted, "")` and `bl.bad` to
`(rejected, "Transaction rejected by quorum")`, whatever the two counters are; the new
table is the old one without that entry (lookup of the tag fails, every other lookup is
unchanged, the size drops by one), so a later `bl.good`, `bl.bad` or `bl.nostart` with the
same tag changes nothing. A reply whose tag is not in the table changes and resolves
nothing. -/
theorem C4_good_bad_resolve_immediately (t : promise_table) (tag : Nat) (err : String)
    (htag : tag < U64) (hwf : t.wf) :
    (∀ e, t.find tag = some e → e.promise = promise_state.unset →
      handle_blink_success t ⟨[[("!", bt_value.int tag)]]⟩ =
        Except.ok ⟨t.erase tag, [(tag, (blink_result.accepted, ""))]⟩ ∧
      handle_blink_failure t ⟨[[("!", bt_value.int tag)]]⟩ =
        Except.ok ⟨t.erase tag, [(tag, (blink_result.rejected, "Transaction rejected by quorum"))]⟩ ∧
      (t.erase tag).find tag = none ∧
      (∀ other, other ≠ tag → (t.erase tag).find other = t.find other) ∧
      (t.erase tag).length + 1 = t.length ∧
      handle_blink_success (t.erase tag) ⟨[[("!", bt_value.int tag)]]⟩ =
        Except.ok ⟨t.erase tag, []⟩ ∧
      handle_blink_failure (t.erase tag) ⟨[[("!", bt_value.int tag)]]⟩ =
        Except.ok ⟨t.erase tag, []⟩ ∧
      handle_blink_not_started (t.erase tag)
          ⟨[[("!", bt_value.int tag), ("e", bt_value.str err)]]⟩ =
        Except.ok ⟨t.erase tag, []⟩) ∧
    (t.find tag = none →
      handle_blink_success t ⟨[[("!", bt_value.int tag)]]⟩ = Except.ok ⟨t, []⟩ ∧
      handle_blink_failure t ⟨[[("!", bt_value.int tag)]]⟩ = Except.ok ⟨t, []⟩ ∧
      handle_blink_not_started t ⟨[[("!", bt_value.int tag), ("e", bt_value.str err)]]⟩ =
        Except.ok ⟨t, []⟩) := by
  have habsent : ∀ u : promise_table, u.find tag = none →
      handle_blink_success u ⟨[[("!", bt_value.int tag)]]⟩ = Except.ok ⟨u, []⟩ ∧
      handle_blink_failure u ⟨[[("!", bt_value.int tag)]]⟩ = Except.ok ⟨u, []⟩ ∧
      handle_blink_not_started u ⟨[[("!", bt_value.int tag), ("e", bt_value.str err)]]⟩ =
        Except.ok ⟨u, []⟩ := by
    intro u hu
    rw [handle_blink_success_eq u tag htag, handle_blink_failure_eq u tag htag,
      handle_blink_not_started_eq u tag err htag,
      common_blink_response_absent u tag _ _ _ hu, common_blink_response_absent u tag _ _ _ hu,
      common_blink_response_absent u tag _ _ _ hu]
    exact ⟨rfl, rfl, rfl⟩
  refine ⟨?_, habsent t⟩
  intro e hfind hunset
  have hgone := promise_table.find_erase_self t tag
  obtain ⟨h1, h2, h3⟩ := habsent (t.erase tag) hgone
  refine ⟨?_, ?_, hgone, fun other hne => promise_table.find_erase_ne t tag other hne,
    promise_table.length_erase t tag e hwf hfind, h1, h2, h3⟩
  · rw [handle_blink_success_eq t tag htag,
      common_blink_response_immediate t tag _ _ e hfind hunset]
  · rw [handle_blink_failure_eq t tag htag,
      common_blink_response_immediate t tag _ _ e hfind hunset]

/-- C4 amended, on a table of two pending promises: `bl.good` for tag 1 resolves it
whatever its counters are, and tag 3 is absent. -/
theorem C4_good_bad_resolve_immediately_witness :
    handle_blink_success example_two_deadlines ⟨[[("!", bt_value.int 1)]]⟩ =
      Except.ok ⟨example_two_deadlines.erase 1, [(1, (blink_result.accepted, ""))]⟩ ∧
    (example_two_deadlines.erase 1).length + 1 = example_two_deadlines.length ∧
    handle_blink_failure example_two_deadlines ⟨[[("!", bt_value.int 3)]]⟩ =
      Except.ok ⟨example_two_deadlines, []⟩ := by
  have h := C4_good_bad_resolve_immediately example_two_deadlines 1 "late" (by decide) (by decide)
  have h3 := C4_good_bad_resolve_immediately example_two_deadlines 3 "late" (by decide) (by decide)
  obtain ⟨hgood, _, _, _, hlen, _⟩ := h.1 ⟨"a", promise_state.unset, 100, 4, 0⟩ rfl rfl
  exact ⟨hgood, hlen, (h3.2 rfl).2.1⟩

/-! ## The sweep of `send_blink` -/

theorem send_blink_sweep_table (now : Nat) (tx_hash : String) (t : promise_table) :
    (send_blink_sweep now tx_hash t).table = t.filter (fun kv => decide (kv.2.expiry < now)) := by
  induction t with
  | nil => rfl
  | cons kv rest ih =>
    obtain ⟨tag, e⟩ := kv
    by_cases hexp : e.expiry ≥ now
    · have hlt : ¬ e.expiry < now := by omega
      have : (send_blink_sweep now tx_hash ((tag, e) :: rest)).table =
          (send_blink_sweep now tx_hash rest).table := by
        simp only [send_blink_sweep, if_pos hexp]
        cases promise_state.set_value e.promise (blink_result.timeout, "Blink quorum timeout") <;> rfl
      rw [this, ih]
      simp [List.filter, hlt]
    · have hlt : e.expiry < now := by omega
      have : (send_blink_sweep now tx_hash ((tag, e) :: rest)).table =
          (tag, e) :: (send_blink_sweep now tx_hash rest).table := by
        simp only [send_blink_sweep, if_neg hexp]
      rw [this, ih]
      simp [List.filter, hlt]

theorem send_blink_sweep_found (now : Nat) (tx_hash : String) (t : promise_table) :
    (send_blink_sweep now tx_hash t).found =
      (t.filter (fun kv => decide (kv.2.expiry < now))).any
        (fun kv => decide (kv.2.hash = tx_hash)) := by
  induction t with
  | nil => rfl
  | cons kv rest ih =>
    obtain ⟨tag, e⟩ := kv
    by_cases hexp : e.expiry ≥ now
    · have hlt : ¬ e.expiry < now := by omega
      have : (send_blink_sweep now tx_hash ((tag, e) :: rest)).found =
          (send_blink_sweep now tx_hash rest).found := by
        simp only [send_blink_sweep, if_pos hexp]
        cases promise_state.set_value e.promise (blink_result.timeout, "Blink quorum timeout") <;> rfl
      rw [this, ih]
      simp [List.filter, hlt]
    · have hlt : e.expiry < now := by omega
      have : (send_blink_sweep now tx_hash ((tag, e) :: rest)).found =
          ((send_blink_sweep now tx_hash rest).found || decide (e.hash = tx_hash)) := by
        simp only [send_blink_sweep, if_neg hexp]
      rw [this, ih]
      simp [List.filter, hlt, Bool.or_comm]

/-- C5, at the failing input. At tick 50 the sweep of `send_blink` gives the timeout
response to promise 1, whose deadline (tick 100) has not passed, and removes it, while
promise 2, whose deadline (tick 10) has passed, stays unresolved in the table. In general
the sweep keeps exactly the entries with `expiry < now`. -/
theorem C5_sweep_times_out_live_promises :
    send_blink_sweep 50 "new" example_two_deadlines =
      ⟨[(2, ⟨"b", promise_state.unset, 10, 4, 0⟩)],
        [(1, (blink_result.timeout, "Blink quorum timeout"))], false⟩ ∧
    (send_blink example_config example_originator example_two_deadlines "new" 50 50 [9] id).map
        (fun o => (o.resolved, o.table.map Prod.fst)) =
      some ([(1, (blink_result.timeout, "Blink quorum timeout"))], [2, 9]) ∧
    (∀ (now : Nat) (tx_hash : String) (t : promise_table),
      (send_blink_sweep now tx_hash t).table =
        t.filter (fun kv => decide (kv.2.expiry < now))) := by
  exact ⟨by decide, by decide, send_blink_sweep_table⟩

/-- C2, at the failing input. The blob `"tx"` is submitted at tick 0 and stored under tag
42 with deadline 30 s, unresolved. It is submitted again one second later: the sweep of
the second call gives promise 42 the timeout response and removes it, no duplicate is
found, and the second call stores a new promise under tag 43 and sends `blink.submit` to
four peers instead of resolving to `rejected("Transaction was already submitted")`. In
general the duplicate test of the sweep only sees entries with `expiry < now`. -/
theorem C2_second_submission_not_rejected :
    (send_blink example_config example_originator [] "tx" 0 0 [42] id).map
        (fun o => (o.table, o.future)) =
      some ([(42, ⟨"tx", promise_state.unset, 30000000000, 4, 0⟩)], promise_state.unset) ∧
    (send_blink example_config example_originator
        [(42, ⟨"tx", promise_state.unset, 30000000000, 4, 0⟩)] "tx"
        1000000000 1000000000 [43] id).map
        (fun o => (o.table, o.future, o.resolved, o.blink_tag, o.sent.length,
          o.sent.map (fun s => s.cmd))) =
      some ([(43, ⟨"tx", promise_state.unset, 31000000000, 4, 0⟩)], promise_state.unset,
        [(42, (blink_result.timeout, "Blink quorum timeout"))], 43, 4,
        ["blink.submit", "blink.submit", "blink.submit", "blink.submit"]) ∧
    (∀ (now : Nat) (tx_hash : String) (t : promise_table),
      (send_blink_sweep now tx_hash t).found =
        (t.filter (fun kv => decide (kv.2.expiry < now))).any
          (fun kv => decide (kv.2.hash = tx_hash))) := by
  exact ⟨by decide, rfl, send_blink_sweep_found⟩

/-! ## Blink quorums and their checksum -/

theorem range_num_blink_quorums : List.range NUM_BLINK_QUORUMS = [0, 1] := by decide

theorem get_blink_quorums_loop_two (cfg : blink_config) (snl : service_node_list)
    (blink_height : Nat) (qs : quorum_array) (c : Nat)
    (hok : get_blink_quorums_loop cfg snl blink_height [0, 1] [] 0 = Except.ok (qs, c)) :
    ∃ q0 q1,
      cfg.quorum_height blink_height 0 ≠ 0 ∧ cfg.quorum_height blink_height 1 ≠ 0 ∧
      snl.get_quorum quorum_type.blink (cfg.quorum_height blink_height 0) = some q0 ∧
      snl.get_quorum quorum_type.blink (cfg.quorum_height blink_height 1) = some q1 ∧
      (cfg.BLINK_MIN_VOTES ≤ q0.validators.length ∧
        q0.validators.length ≤ cfg.BLINK_SUBQUORUM_SIZE) ∧
      (cfg.BLINK_MIN_VOTES ≤ q1.validators.length ∧
        q1.validators.length ≤ cfg.BLINK_SUBQUORUM_SIZE) ∧
      qs = [q0, q1] ∧
      c = (cfg.quorum_checksum q0.validators (0 * cfg.BLINK_SUBQUORUM_SIZE) +
        cfg.quorum_checksum q1.validators (1 * cfg.BLINK_SUBQUORUM_SIZE)) % U64 := by
  rw [get_blink_quorums_loop] at hok
  by_cases h0 : cfg.quorum_height blink_height 0 = 0
  · simp only [h0, if_true] at hok
    cases hok
  simp only [h0, if_false] at hok
  cases hq0 : snl.get_quorum quorum_type.blink (cfg.quorum_height blink_height 0) with
  | none => simp only [hq0] at hok; cases hok
  | some q0 =>
    simp only [hq0] at hok
    by_cases hs0 : q0.validators.length < cfg.BLINK_MIN_VOTES ∨
        q0.validators.length > cfg.BLINK_SUBQUORUM_SIZE
    · simp only [hs0, if_true] at hok
      cases hok
    simp only [hs0, if_false] at hok
    rw [get_blink_quorums_loop] at hok
    by_cases h1 : cfg.quorum_height blink_height 1 = 0
    · simp only [h1, if_true] at hok
      cases hok
    simp only [h1, if_false] at hok
    cases hq1 : snl.get_quorum quorum_type.blink (cfg.quorum_height blink_height 1) with
    | none => simp only [hq1] at hok; cases hok
    | some q1 =>
      simp only [hq1] at hok
      by_cases hs1 : q1.validators.length < cfg.BLINK_MIN_VOTES ∨
          q1.validators.length > cfg.BLINK_SUBQUORUM_SIZE
      · simp only [hs1, if_true] at hok
        cases hok
      simp only [hs1, if_false] at hok
      rw [get_blink_quorums_loop] at hok
      injection hok with hok
      injection hok with hqs hc
      refine ⟨q0, q1, h0, h1, rfl, rfl, by omega, by omega, ?_, ?_⟩
      · simpa using hqs.symm
      · rw [← hc]
        simp [u64_add, Nat.add_mod]

/-- C6. Whenever `get_blink_quorums` succeeds without an input checksum, giving the
quorums `qs` and the output checksum `c`: `qs` are the two blink quorums of the view at the
two quorum heights, `c` is the sum modulo `2 ^ 64` over `qi = 0, 1` of
`quorum_checksum(validators of qs[qi], qi * BLINK_SUBQUORUM_SIZE)`, the call with input
checksum `c` succeeds with the same quorums, and the call with any other input checksum
fails. -/
theorem C6_quorum_checksum_round_trip (cfg : blink_config) (snl : service_node_list)
    (blink_height : Nat) (qs : quorum_array) (c : Nat)
    (hok : get_blink_quorums cfg blink_height snl none = Except.ok (qs, c)) :
    (∃ q0 q1, qs = [q0, q1] ∧
      snl.get_quorum quorum_type.blink (cfg.quorum_height blink_height 0) = some q0 ∧
      snl.get_quorum quorum_type.blink (cfg.quorum_height blink_height 1) = some q1 ∧
      c = (cfg.quorum_checksum q0.validators (0 * cfg.BLINK_SUBQUORUM_SIZE) +
        cfg.quorum_checksum q1.validators (1 * cfg.BLINK_SUBQUORUM_SIZE)) % U64) ∧
    get_blink_quorums cfg blink_height snl (some c) = Except.ok (qs, c) ∧
    (∀ other : Nat, other ≠ c →
      get_blink_quorums cfg blink_height snl (some other) =
        Except.error ("wrong quorum checksum: expected " ++ toString c ++ ", received " ++
          toString other)) := by
  unfold get_blink_quorums at hok
  rw [range_num_blink_quorums] at hok
  cases hloop : get_blink_quorums_loop cfg snl blink_height [0, 1] [] 0 with
  | error e => simp [hloop] at hok
  | ok r =>
    obtain ⟨qs1, c1⟩ := r
    simp only [hloop] at hok
    injection hok with hok
    injection hok with hqs hc
    subst hqs; subst hc
    obtain ⟨q0, q1, _, _, hq0, hq1, _, _, hqs, hc⟩ :=
      get_blink_quorums_loop_two cfg snl blink_height _ _ hloop
    refine ⟨⟨q0, q1, hqs, hq0, hq1, hc⟩, ?_, ?_⟩
    · unfold get_blink_quorums
      rw [range_num_blink_quorums, hloop]
      simp
    · intro other hne
      unfold get_blink_quorums
      rw [range_num_blink_quorums, hloop]
      simp [hne]

/-- C6 on the example network at height 100: the quorums are those of heights 100 and 110
and the checksum is 645. -/
theorem C6_quorum_checksum_round_trip_witness :
    get_blink_quorums example_config 100 example_snl (some 645) =
      Except.ok ([⟨[101, 102, 103], []⟩, ⟨[111, 112, 113], []⟩], 645) ∧
    get_blink_quorums example_config 100 example_snl (some 644) =
      Except.error "wrong quorum checksum: expected 645, received 644" := by
  have h := C6_quorum_checksum_round_trip example_config example_snl 100
    [⟨[101, 102, 103], []⟩, ⟨[111, 112, 113], []⟩] 645 rfl
  exact ⟨h.2.1, h.2.2 644 (by decide)⟩

/-! ## Blink cache lemmas -/

theorem blink_cache.find_head (k : Nat × String) (v : blink_metadata) (rest : blink_cache)
    (key : Nat × String) :
    blink_cache.find ((k, v) :: rest) key = if k = key then some v else blink_cache.find rest key :=
  rfl

theorem blink_cache.set_cons (k : Nat × String) (w : blink_metadata) (rest : blink_cache)
    (key : Nat × String) (v : blink_metadata) :
    blink_cache.set ((k, w) :: rest) key v =
      if k = key then (k, v) :: rest else (k, w) :: blink_cache.set rest key v :=
  rfl

theorem blink_cache.find_set_self (c : blink_cache) (key : Nat × String) (v : blink_metadata) :
    (c.set key v).find key = some v := by
  induction c with
  | nil => simp [blink_cache.set, blink_cache.find]
  | cons kv rest ih =>
    obtain ⟨k, w⟩ := kv
    rw [blink_cache.set_cons]
    by_cases hk : k = key
    · rw [if_pos hk, blink_cache.find_head, if_pos hk]
    · rw [if_neg hk, blink_cache.find_head, if_neg hk]; exact ih

theorem blink_cache.find_set_ne (c : blink_cache) (key other : Nat × String)
    (v : blink_metadata) (hne : other ≠ key) : (c.set key v).find other = c.find other := by
  induction c with
  | nil =>
    have : ¬ key = other := fun h => hne h.symm
    simp [blink_cache.set, blink_cache.find, this]
  | cons kv rest ih =>
    obtain ⟨k, w⟩ := kv
    rw [blink_cache.set_cons]
    by_cases hk : k = key
    · have hko : ¬ k = other := fun h => hne (h.symm.trans hk)
      rw [if_pos hk, blink_cache.find_head, blink_cache.find_head, if_neg hko, if_neg hko]
    · rw [if_neg hk, blink_cache.find_head, blink_cache.find_head, ih]

theorem blink_cache.set_of_find (c : blink_cache) (key : Nat × String) (v : blink_metadata)
    (h : c.find key = some v) : c.set key v = c := by
  induction c with
  | nil => simp [blink_cache.find] at h
  | cons kv rest ih =>
    obtain ⟨k, w⟩ := kv
    rw [blink_cache.find_head] at h
    rw [blink_cache.set_cons]
    by_cases hk : k = key
    · rw [if_pos hk] at h
      injection h with h
      rw [if_pos hk, h]
    · rw [if_neg hk] at h
      rw [if_neg hk, ih h]

/-! ## `handle_blink`: the checks before the cache lookup -/

theorem bt_dict.at_of_find (d : bt_dict) (key : String) (v : bt_value) (h : d.find key = some v) :
    d.at key = Except.ok v := by
  simp [bt_dict.at, h]

theorem handle_blink_unfold (cfg : blink_config) (core : member_core) (blinks : blink_cache)
    (m : Message) (data : bt_dict) (hsn : core.service_node = true) (hdata : m.data = [data]) :
    handle_blink cfg core blinks m =
      if core.hf_version < cfg.HF_VERSION_BLINK then
        Except.ok (nostart_return blinks m (get_or_u64 data "!" 0)
          "Invalid blink authorization height")
      else
        (data.at "h").bind (fun v => (get_int_u64 v).bind (fun blink_height =>
          match blink_height_check blink_height core.get_current_blockchain_height with
          | height_verdict.too_low =>
            Except.ok (nostart_return blinks m (get_or_u64 data "!" 0)
              "Invalid blink authorization height")
          | height_verdict.too_high =>
            Except.ok (nostart_return blinks m (get_or_u64 data "!" 0)
              "Invalid blink authorization height")
          | height_verdict.valid =>
            handle_blink_payload cfg core blinks m data (get_or_u64 data "!" 0) blink_height)) := by
  unfold handle_blink
  rw [hsn, hdata]
  rfl

theorem handle_blink_hf_guard (cfg : blink_config) (core : member_core) (blinks : blink_cache)
    (m : Message) (data : bt_dict) (hsn : core.service_node = true) (hdata : m.data = [data])
    (hhf : core.hf_version < cfg.HF_VERSION_BLINK) :
    handle_blink cfg core blinks m = Except.ok
      (nostart_return blinks m (get_or_u64 data "!" 0) "Invalid blink authorization height") := by
  rw [handle_blink_unfold cfg core blinks m data hsn hdata, if_pos hhf]

theorem handle_blink_height_step (cfg : blink_config) (core : member_core) (blinks : blink_cache)
    (m : Message) (data : bt_dict) (h : Nat) (hsn : core.service_node = true)
    (hdata : m.data = [data]) (hhf : ¬ core.hf_version < cfg.HF_VERSION_BLINK)
    (hh : data.find "h" = some (bt_value.int h)) (hh64 : h < U64) :
    handle_blink cfg core blinks m =
      match blink_height_check h core.get_current_blockchain_height with
      | height_verdict.too_low =>
        Except.ok (nostart_return blinks m (get_or_u64 data "!" 0)
          "Invalid blink authorization height")
      | height_verdict.too_high =>
        Except.ok (nostart_return blinks m (get_or_u64 data "!" 0)
          "Invalid blink authorization height")
      | height_verdict.valid =>
        handle_blink_payload cfg core blinks m data (get_or_u64 data "!" 0) h := by
  rw [handle_blink_unfold cfg core blinks m data hsn hdata, if_neg hhf,
    bt_dict.at_of_find data "h" _ hh]
  show (get_int_u64 (bt_value.int h)).bind _ = _
  rw [get_int_u64_of_nat h hh64]
  rfl

/-- C7. A `blink.submit` whose height `h` is further than 2 from the chain height is
answered, when its tag is non-zero, with exactly one message back to the submitter:
`bl.nostart` with `{"!": tag, "e": "Invalid blink authorization height"}`; nothing is
relayed, nothing is signed, `process_blink_signatures` is not called and the blink cache
is unchanged. When the tag is absent or zero nothing at all is sent. -/
theorem C7_height_out_of_window_nostart (cfg : blink_config) (core : member_core)
    (blinks : blink_cache) (m : Message) (data : bt_dict) (h : Nat)
    (hsn : core.service_node = true) (hdata : m.data = [data])
    (hh : data.find "h" = some (bt_value.int h)) (hh64 : h < U64)
    (htip : core.get_current_blockchain_height < U64)
    (hout : h + 2 < core.get_current_blockchain_height ∨
      core.get_current_blockchain_height + 2 < h) :
    ∃ out, handle_blink cfg core blinks m = Except.ok out ∧
      out.blinks = blinks ∧ out.signed = [] ∧ out.process = none ∧
      (∀ tag, get_or_u64 data "!" 0 = tag → tag ≠ 0 →
        out.sent = [⟨m.conn, "bl.nostart",
          [("!", bt_value.int tag), ("e", bt_value.str "Invalid blink authorization height")],
          send_option.plain⟩]) ∧
      (get_or_u64 data "!" 0 = 0 → out.sent = []) ∧
      (data.find "!" = none → out.sent = []) := by
  have hres : handle_blink cfg core blinks m = Except.ok
      (nostart_return blinks m (get_or_u64 data "!" 0) "Invalid blink authorization height") := by
    by_cases hhf : core.hf_version < cfg.HF_VERSION_BLINK
    · exact handle_blink_hf_guard cfg core blinks m data hsn hdata hhf
    · rw [handle_blink_height_step cfg core blinks m data h hsn hdata hhf hh hh64]
      cases hv : blink_height_check h core.get_current_blockchain_height with
      | too_low => rfl
      | too_high => rfl
      | valid =>
        have := blink_height_check_valid_window h _ hh64 htip hv
        omega
  refine ⟨_, hres, rfl, rfl, rfl, ?_, ?_, ?_⟩
  · intro tag htag hne
    simp [nostart_return, htag, hne]
  · intro h0
    simp [nostart_return, h0]
  · intro hnone
    have h0 : get_or_u64 data "!" 0 = 0 := by simp [get_or_u64, hnone]
    simp [nostart_return, h0]

/-- C7 on the example member at chain height 103 with a submission for height 100 and
tag 42. -/
theorem C7_height_out_of_window_nostart_witness :
    handle_blink example_config (example_member 103) [] (example_submit 42 645) =
      Except.ok ⟨[], [⟨example_submitter, "bl.nostart",
        [("!", bt_value.int 42), ("e", bt_value.str "Invalid blink authorization height")],
        send_option.plain⟩], [], none⟩ := by
  obtain ⟨out, hout, hb, hs, hp, hsent, _, _⟩ :=
    C7_height_out_of_window_nostart example_config (example_member 103) []
      (example_submit 42 645) _ 100 rfl rfl rfl (by decide) (by decide) (by decide)
  have h42 := hsent 42 rfl (by decide)
  rw [hout]
  cases out
  simp_all [example_submit]

/-! ## `handle_blink`: cache lookup and quorum checksum -/

theorem get_blink_quorums_with_input (cfg : blink_config) (snl : service_node_list)
    (blink_height : Nat) (qs : quorum_array) (c : Nat)
    (hok : get_blink_quorums cfg blink_height snl none = Except.ok (qs, c)) (q : Nat) :
    get_blink_quorums cfg blink_height snl (some q) =
      if q ≠ c then
        Except.error ("wrong quorum checksum: expected " ++ toString c ++ ", received " ++
          toString q)
      else Except.ok (qs, c) := by
  unfold get_blink_quorums at hok ⊢
  cases hloop : get_blink_quorums_loop cfg snl blink_height (List.range NUM_BLINK_QUORUMS) [] 0 with
  | error e => rw [hloop] at hok; cases hok
  | ok r =>
    obtain ⟨qs1, c1⟩ := r
    rw [hloop] at hok
    injection hok with hok
    injection hok with hqs hc
    subst hqs; subst hc
    rfl

theorem handle_blink_payload_step (cfg : blink_config) (core : member_core)
    (blinks : blink_cache) (m : Message) (data : bt_dict) (tag h : Nat)
    (tx_data tx_hash : String) (ht : data.find "t" = some (bt_value.str tx_data))
    (hhash : data.find "#" = some (bt_value.str tx_hash)) :
    handle_blink_payload cfg core blinks m data tag h =
      match handle_blink_cache_lookup core blinks m tag h tx_hash with
      | some out => Except.ok out
      | none => handle_blink_quorum cfg core blinks m data tag h tx_data tx_hash := by
  unfold handle_blink_payload
  rw [ht]
  simp only [bt_dict.at_of_find data "#" _ hhash, get_string, bind, Except.bind]
  rfl

theorem handle_blink_cache_lookup_miss (core : member_core) (blinks : blink_cache) (m : Message)
    (tag h : Nat) (tx_hash : String) (hlen : tx_hash.length = 32)
    (hmiss : ∀ entry, blinks.find (h, tx_hash) = some entry → entry.btxptr = none) :
    handle_blink_cache_lookup core blinks m tag h tx_hash = none := by
  unfold handle_blink_cache_lookup
  rw [if_pos hlen]
  cases hfind : blinks.find (h, tx_hash) with
  | none => rfl
  | some entry =>
    have := hmiss entry hfind
    simp only [this]

theorem handle_blink_quorum_error (cfg : blink_config) (core : member_core)
    (blinks : blink_cache) (m : Message) (data : bt_dict) (tag h q : Nat)
    (tx_data tx_hash what : String) (hq : data.find "q" = some (bt_value.int q))
    (hq64 : q < U64)
    (herr : get_blink_quorums cfg h core.snl (some q) = Except.error what) :
    handle_blink_quorum cfg core blinks m data tag h tx_data tx_hash =
      Except.ok (nostart_return blinks m tag ("Unable to retrieve blink quorum: " ++ what)) := by
  unfold handle_blink_quorum
  simp only [bt_dict.at_of_find data "q" _ hq, get_int_u64_of_nat q hq64, bind, Except.bind, herr]
  rfl

/-- C8. A tagged `blink.submit` that passes the hard-fork and height checks, carries a tx
blob and a 32-byte hash, and is not a cache hit, but whose checksum `q` differs from the
locally computed quorum checksum `c`, is answered with exactly one message, `bl.nostart`
whose `"e"` text is `"Unable to retrieve blink quorum: wrong quorum checksum: expected "`
followed by the decimal `c`, `", received "` and the decimal `q`; nothing is relayed,
nothing is signed and the cache is unchanged. -/
theorem C8_checksum_mismatch_nostart (cfg : blink_config) (core : member_core)
    (blinks : blink_cache) (m : Message) (data : bt_dict) (tag h q c : Nat)
    (tx_data tx_hash : String) (qs : quorum_array)
    (hsn : core.service_node = true) (hdata : m.data = [data])
    (htag : get_or_u64 data "!" 0 = tag) (htag0 : tag ≠ 0)
    (hhf : ¬ core.hf_version < cfg.HF_VERSION_BLINK)
    (hh : data.find "h" = some (bt_value.int h)) (hh64 : h < U64)
    (hvalid : blink_height_check h core.get_current_blockchain_height = height_verdict.valid)
    (ht : data.find "t" = some (bt_value.str tx_data))
    (hhash : data.find "#" = some (bt_value.str tx_hash)) (hlen : tx_hash.length = 32)
    (hmiss : ∀ entry, blinks.find (h, tx_hash) = some entry → entry.btxptr = none)
    (hq : data.find "q" = some (bt_value.int q)) (hq64 : q < U64)
    (hlocal : get_blink_quorums cfg h core.snl none = Except.ok (qs, c))
    (hne : q ≠ c) :
    handle_blink cfg core blinks m = Except.ok
      ⟨blinks,
        [⟨m.conn, "bl.nostart",
          [("!", bt_value.int tag),
            ("e", bt_value.str ("Unable to retrieve blink quorum: " ++
              ("wrong quorum checksum: expected " ++ toString c ++ ", received " ++ toString q)))],
          send_option.plain⟩],
        [], none⟩ := by
  rw [handle_blink_height_step cfg core blinks m data h hsn hdata hhf hh hh64, hvalid]
  show handle_blink_payload cfg core blinks m data (get_or_u64 data "!" 0) h = _
  rw [htag, handle_blink_payload_step cfg core blinks m data tag h tx_data tx_hash ht hhash,
    handle_blink_cache_lookup_miss core blinks m tag h tx_hash hlen hmiss]
  show handle_blink_quorum cfg core blinks m data tag h tx_data tx_hash = _
  have herr := get_blink_quorums_with_input cfg core.snl h qs c hlocal q
  rw [if_pos hne] at herr
  rw [handle_blink_quorum_error cfg core blinks m data tag h q tx_data tx_hash _ hq hq64 herr]
  simp [nostart_return, htag0]

/-- C8 on the example member: the local checksum is 645, the submission carries 644. -/
theorem C8_checksum_mismatch_nostart_witness :
    handle_blink example_config (example_member 100) [] (example_submit 42 644) = Except.ok
      ⟨[], [⟨example_submitter, "bl.nostart",
        [("!", bt_value.int 42),
          ("e", bt_value.str
            "Unable to retrieve blink quorum: wrong quorum checksum: expected 645, received 644")],
        send_option.plain⟩], [], none⟩ :=
  C8_checksum_mismatch_nostart example_config (example_member 100) [] (example_submit 42 644)
    _ 42 100 644 645 "tx" example_tx_hash [⟨[101, 102, 103], []⟩, ⟨[111, 112, 113], []⟩]
    rfl rfl rfl (by decide) (by decide) rfl (by decide) (by decide) rfl rfl (by decide)
    (by intro entry h; cases h) rfl (by decide) rfl (by decide)

theorem handle_blink_cache_lookup_hit (core : member_core) (blinks : blink_cache) (m : Message)
    (tag h : Nat) (tx_hash : String) (entry : blink_metadata) (btx : blink_tx)
    (hlen : tx_hash.length = 32) (hfind : blinks.find (h, tx_hash) = some entry)
    (hbtx : entry.btxptr = some btx) :
    handle_blink_cache_lookup core blinks m tag h tx_hash =
      if tag ≠ 0 then
        if (core.approved btx || (!core.approved btx && core.rejected btx)) = true then
          some ⟨blinks,
            [⟨m.conn, if core.approved btx = true then "bl.good" else "bl.bad",
              [("!", bt_value.int tag)], send_option.optional⟩], [], none⟩
        else
          some ⟨blinks.set (h, tx_hash) { entry with reply_tag := tag, reply_conn := m.conn },
            [], [], none⟩
      else some ⟨blinks, [], [], none⟩ := by
  unfold handle_blink_cache_lookup
  rw [if_pos hlen, hfind]
  simp only [hbtx]

/-- C9, counterexample. The cache holds an approved blink tx for height 100; the chain has
moved on to height 103. A tagged resubmission for height 100 is answered with `bl.nostart`
("Invalid blink authorization height"), not with `bl.good`, because the height check comes
before the cache lookup. -/
theorem C9_counterexample_stale_height :
    example_cache_approved.find (100, example_tx_hash) =
      some ⟨some example_approved_btx, [], ConnectionID.none, 0⟩ ∧
    (example_member 103).approved example_approved_btx = true ∧
    handle_blink example_config (example_member 103) example_cache_approved
        (example_submit 42 645) =
      Except.ok ⟨example_cache_approved,
        [⟨example_submitter, "bl.nostart",
          [("!", bt_value.int 42), ("e", bt_value.str "Invalid blink authorization height")],
          send_option.plain⟩],
        [], none⟩ := by
  exact ⟨by decide, by decide, rfl⟩

/-- C9, amended. For a `blink.submit` that passes the hard-fork and height checks and
carries a tx blob and a 32-byte hash, and whose `(height, txhash)` cache entry already holds
the blink tx: with a non-zero tag, an approved tx gives exactly one `bl.good {"!": tag}`
back, a rejected one exactly one `bl.bad {"!": tag}`, both sent as optional and with the
cache unchanged, and an undecided one sends nothing and makes the entry's `reply_tag` and
`reply_conn` the submitter's tag and connection; without a tag nothing is sent and the cache
is unchanged. In every case every message goes to the submitter's connection (nothing is
relayed), nothing is signed, `process_blink_signatures` is not called, the entry still holds
the same blink tx and the same pending signatures, and every other entry is unchanged. -/
theorem C9_cache_hit_replies (cfg : blink_config) (core : member_core)
    (blinks : blink_cache) (m : Message) (data : bt_dict) (tag h : Nat)
    (tx_data tx_hash : String) (entry : blink_metadata) (btx : blink_tx)
    (hsn : core.service_node = true) (hdata : m.data = [data])
    (htag : get_or_u64 data "!" 0 = tag)
    (hhf : ¬ core.hf_version < cfg.HF_VERSION_BLINK)
    (hh : data.find "h" = some (bt_value.int h)) (hh64 : h < U64)
    (hvalid : blink_height_check h core.get_current_blockchain_height = height_verdict.valid)
    (ht : data.find "t" = some (bt_value.str tx_data))
    (hhash : data.find "#" = some (bt_value.str tx_hash)) (hlen : tx_hash.length = 32)
    (hfind : blinks.find (h, tx_hash) = some entry) (hbtx : entry.btxptr = some btx)
    (hinv : core.approved btx = true → core.rejected btx = false) :
    ∃ out, handle_blink cfg core blinks m = Except.ok out ∧
      out.signed = [] ∧ out.process = none ∧
      (∀ s ∈ out.sent, s.dest = m.conn) ∧
      (∃ e, out.blinks.find (h, tx_hash) = some e ∧ e.btxptr = some btx ∧
        e.pending_sigs = entry.pending_sigs) ∧
      (∀ key, key ≠ (h, tx_hash) → out.blinks.find key = blinks.find key) ∧
      (tag ≠ 0 → core.approved btx = true →
        out.sent = [⟨m.conn, "bl.good", [("!", bt_value.int tag)], send_option.optional⟩] ∧
        out.blinks = blinks) ∧
      (tag ≠ 0 → core.rejected btx = true →
        out.sent = [⟨m.conn, "bl.bad", [("!", bt_value.int tag)], send_option.optional⟩] ∧
        out.blinks = blinks) ∧
      (tag ≠ 0 → core.approved btx = false → core.rejected btx = false →
        out.sent = [] ∧
        out.blinks.find (h, tx_hash) =
          some { entry with reply_tag := tag, reply_conn := m.conn }) ∧
      (tag = 0 → out.sent = [] ∧ out.blinks = blinks) := by
  have hstep : handle_blink cfg core blinks m =
      match handle_blink_cache_lookup core blinks m tag h tx_hash with
      | some out => Except.ok out
      | none => handle_blink_quorum cfg core blinks m data tag h tx_data tx_hash := by
    rw [handle_blink_height_step cfg core blinks m data h hsn hdata hhf hh hh64, hvalid]
    show handle_blink_payload cfg core blinks m data (get_or_u64 data "!" 0) h = _
    rw [htag, handle_blink_payload_step cfg core blinks m data tag h tx_data tx_hash ht hhash]
  rw [hstep, handle_blink_cache_lookup_hit core blinks m tag h tx_hash entry btx hlen hfind hbtx]
  by_cases htag0 : tag = 0
  · rw [if_neg (not_not.mpr htag0)]
    refine ⟨_, rfl, rfl, rfl, by simp, ⟨entry, hfind, hbtx, rfl⟩, fun _ _ => rfl,
      fun h => absurd htag0 h, fun h => absurd htag0 h, fun h => absurd htag0 h,
      fun _ => ⟨rfl, rfl⟩⟩
  · rw [if_pos htag0]
    cases happ : core.approved btx with
    | true =>
      have hrej := hinv happ
      refine ⟨_, rfl, rfl, rfl, by simp, ⟨entry, hfind, hbtx, rfl⟩, fun _ _ => rfl,
        fun _ _ => ⟨rfl, rfl⟩, fun _ h => ?_, fun _ h => ?_, fun h => absurd h htag0⟩
      · rw [hrej] at h; cases h
      · cases h
    | false =>
      cases hrej : core.rejected btx with
      | true =>
        refine ⟨_, rfl, rfl, rfl, by simp, ⟨entry, hfind, hbtx, rfl⟩, fun _ _ => rfl,
          fun _ h => ?_, fun _ _ => ⟨rfl, rfl⟩, fun _ _ h => ?_, fun h => absurd h htag0⟩
        · cases h
        · cases h
      | false =>
        refine ⟨_, rfl, rfl, rfl, by simp,
          ⟨_, blink_cache.find_set_self blinks (h, tx_hash) _, hbtx, rfl⟩,
          fun key hne => blink_cache.find_set_ne blinks (h, tx_hash) key _ hne,
          fun _ h => ?_, fun _ h => ?_,
          fun _ _ _ => ⟨rfl, blink_cache.find_set_self blinks (h, tx_hash) _⟩,
          fun h => absurd h htag0⟩
        · cases h
        · cases h

/-- C9 amended, on the example member at chain height 100 with the approved blink tx in
its cache: the tagged resubmission gets `bl.good`, the untagged forward is a no-op. -/
theorem C9_cache_hit_replies_witness :
    (∃ out, handle_blink example_config (example_member 100) example_cache_approved
        (example_submit 42 645) = Except.ok out ∧
      out.sent = [⟨example_submitter, "bl.good", [("!", bt_value.int 42)],
        send_option.optional⟩] ∧
      out.blinks = example_cache_approved) ∧
    (∃ out, handle_blink example_config (example_member 100) example_cache_approved
        example_forward = Except.ok out ∧
      out.sent = [] ∧ out.blinks = example_cache_approved) := by
  constructor
  · obtain ⟨out, hout, _, _, _, _, _, hgood, _⟩ :=
      C9_cache_hit_replies example_config (example_member 100) example_cache_approved
        (example_submit 42 645) _ 42 100 "tx" example_tx_hash _ example_approved_btx
        rfl rfl rfl (by decide) rfl (by decide) (by decide) rfl rfl (by decide) rfl rfl
        (by decide)
    exact ⟨out, hout, hgood (by decide) (by decide)⟩
  · obtain ⟨out, hout, _, _, _, _, _, _, _, _, hnotag⟩ :=
      C9_cache_hit_replies example_config (example_member 100) example_cache_approved
        example_forward _ 0 100 "tx" example_tx_hash _ example_approved_btx
        rfl rfl rfl (by decide) rfl (by decide) (by decide) rfl rfl (by decide) rfl rfl
        (by decide)
    exact ⟨out, hout, hnotag rfl⟩

/-! ## Signatures that arrive before the tx body -/

theorem pending_signature_set.mem_insert (s : pending_signature_set) (x y : pending_signature) :
    y ∈ s.insert x ↔ y = x ∨ y ∈ s := by
  unfold pending_signature_set.insert
  by_cases hx : x ∈ s
  · rw [if_pos hx]
    constructor
    · exact fun h => Or.inr h
    · rintro (h | h)
      · rw [h]; exact hx
      · exact h
  · rw [if_neg hx, List.mem_append, List.mem_singleton]
    exact Or.comm

theorem pending_signature_set.mem_foldl_insert (sigs : List pending_signature)
    (s : pending_signature_set) (y : pending_signature) :
    y ∈ sigs.foldl pending_signature_set.insert s ↔ y ∈ sigs ∨ y ∈ s := by
  induction sigs generalizing s with
  | nil => simp
  | cons x rest ih =>
    rw [List.foldl_cons, ih, pending_signature_set.mem_insert, List.mem_cons]
    constructor
    · rintro (h | h | h)
      · exact Or.inl (Or.inr h)
      · exact Or.inl (Or.inl h)
      · exact Or.inr h
    · rintro ((h | h) | h)
      · exact Or.inr (Or.inl h)
      · exact Or.inl h
      · exact Or.inr (Or.inr h)

theorem handle_blink_signature_stash (cfg : blink_config) (core : member_core)
    (blinks : blink_cache) (m : Message) (data : bt_dict) (f : blink_sign_fields)
    (qs : quorum_array) (c : Nat) (hdata : m.data = [data])
    (hparse : parse_blink_sign cfg data = Except.ok f)
    (hquorum : get_blink_quorums cfg f.blink_height core.snl (some f.checksum) = Except.ok (qs, c))
    (hno : ∀ entry, blinks.find (f.blink_height, f.tx_hash) = some entry → entry.btxptr = none) :
    handle_blink_signature cfg core blinks m = Except.ok
      ⟨blinks.set (f.blink_height, f.tx_hash)
        { blinks.get_or_default (f.blink_height, f.tx_hash) with
          pending_sigs := f.signatures.foldl pending_signature_set.insert
            (blinks.get_or_default (f.blink_height, f.tx_hash)).pending_sigs },
        [], [], none⟩ := by
  unfold handle_blink_signature
  rw [hdata]
  simp only [hparse, hquorum, bind, Except.bind]
  cases hfind : blinks.find (f.blink_height, f.tx_hash) with
  | none => rfl
  | some entry =>
    have hnone := hno entry hfind
    obtain ⟨btxptr, ps, rc, rt⟩ := entry
    simp only at hnone
    subst hnone
    rfl

theorem handle_blink_cache_lookup_process (core : member_core) (blinks : blink_cache)
    (m : Message) (tag h : Nat) (tx_hash : String) (out : blink_outcome)
    (hlook : handle_blink_cache_lookup core blinks m tag h tx_hash = some out) :
    out.process = none := by
  unfold handle_blink_cache_lookup at hlook
  split at hlook
  · split at hlook
    · split at hlook
      · split at hlook
        · simp only at hlook
          split at hlook
          · injection hlook with hlook; rw [← hlook]
          · injection hlook with hlook; rw [← hlook]
        · injection hlook with hlook; rw [← hlook]
      · cases hlook
    · cases hlook
  · injection hlook with hlook; rw [← hlook]; rfl

theorem handle_blink_store_process (core : member_core) (blinks : blink_cache) (m : Message)
    (tag h checksum : Nat) (tx_data tx_hash : String) (qs : quorum_array) (pinfo : peer_info)
    (btx : blink_tx) (call : process_blink_signatures_args)
    (hcall : (handle_blink_store core blinks m tag h checksum tx_data tx_hash qs pinfo btx).process
      = some call) :
    call.btx = btx ∧ call.blink_quorums = qs ∧
    (∃ approved : Bool, call.signatures =
      (blinks.get_or_default (h, tx_hash)).pending_sigs ++
        own_signatures pinfo.my_position approved
          (core.generate_signature (core.hash btx approved))) ∧
    ∃ e, (handle_blink_store core blinks m tag h checksum tx_data tx_hash qs pinfo btx).blinks.find
        (h, tx_hash) = some e ∧ e.btxptr = some btx ∧ e.pending_sigs = [] := by
  unfold handle_blink_store at hcall ⊢
  by_cases hseen : (blinks.get_or_default (h, tx_hash)).btxptr.isSome = true
  · simp only [hseen, if_true] at hcall
    cases hcall
  · simp only [hseen, if_false] at hcall ⊢
    injection hcall with hcall
    subst hcall
    refine ⟨rfl, rfl, ⟨_, rfl⟩, ?_⟩
    by_cases htag : tag > 0
    · simp only [if_pos htag]
      exact ⟨_, blink_cache.find_set_self _ _ _, rfl, rfl⟩
    · simp only [if_neg htag]
      exact ⟨_, blink_cache.find_set_self _ _ _, rfl, rfl⟩

theorem handle_blink_quorum_process (cfg : blink_config) (core : member_core)
    (blinks : blink_cache) (m : Message) (data : bt_dict) (tag h : Nat)
    (tx_data tx_hash : String) (out : blink_outcome) (call : process_blink_signatures_args)
    (hrun : handle_blink_quorum cfg core blinks m data tag h tx_data tx_hash = Except.ok out)
    (hcall : out.process = some call) :
    ∃ checksum qs btx,
      out = handle_blink_store core blinks m tag h checksum tx_data tx_hash qs
        (peer_info.create cfg core.cm core.snl core.my_pubkey qs
          [core.snl.get_pubkey_from_x25519 (x25519_from_string m.conn.pk)] false) btx := by
  unfold handle_blink_quorum at hrun
  cases hq : data.at "q" with
  | error e => simp only [hq, bind, Except.bind] at hrun; cases hrun
  | ok v =>
    cases hc : get_int_u64 v with
    | error e => simp only [hq, hc, bind, Except.bind] at hrun; cases hrun
    | ok checksum =>
      simp only [hq, hc, bind, Except.bind] at hrun
      cases hquorum : get_blink_quorums cfg h core.snl (some checksum) with
      | error what =>
        simp only [hquorum, pure, Except.pure] at hrun
        injection hrun with hrun
        rw [← hrun] at hcall
        cases hcall
      | ok r =>
        obtain ⟨qs, c⟩ := r
        simp only [hquorum, pure, Except.pure] at hrun
        split at hrun
        · injection hrun with hrun
          rw [← hrun] at hcall
          cases hcall
        · split at hrun
          · injection hrun with hrun
            rw [← hrun] at hcall
            cases hcall
          · split at hrun
            · injection hrun with hrun
              rw [← hrun] at hcall
              cases hcall
            · split at hrun
              · injection hrun with hrun
                rw [← hrun] at hcall
                cases hcall
              · injection hrun with hrun
                exact ⟨checksum, qs, _, hrun.symm⟩

theorem handle_blink_process (cfg : blink_config) (core : member_core)
    (blinks : blink_cache) (m : Message) (data : bt_dict) (h : Nat) (tx_hash : String)
    (out : blink_outcome) (call : process_blink_signatures_args)
    (hdata : m.data = [data]) (hh : data.find "h" = some (bt_value.int h))
    (hhash : data.find "#" = some (bt_value.str tx_hash))
    (hrun : handle_blink cfg core blinks m = Except.ok out)
    (hcall : out.process = some call) :
    ∃ tag checksum tx_data qs btx,
      out = handle_blink_store core blinks m tag h checksum tx_data tx_hash qs
        (peer_info.create cfg core.cm core.snl core.my_pubkey qs
          [core.snl.get_pubkey_from_x25519 (x25519_from_string m.conn.pk)] false) btx := by
  cases hsn : core.service_node with
  | false =>
    unfold handle_blink at hrun
    rw [hsn] at hrun
    injection hrun with hrun
    rw [← hrun] at hcall
    cases hcall
  | true =>
    rw [handle_blink_unfold cfg core blinks m data hsn hdata] at hrun
    split at hrun
    · injection hrun with hrun
      rw [← hrun] at hcall
      cases hcall
    · rw [bt_dict.at_of_find data "h" _ hh] at hrun
      by_cases hh64 : h < U64
      · replace hrun : (get_int_u64 (bt_value.int h)).bind _ = Except.ok out := hrun
        rw [get_int_u64_of_nat h hh64] at hrun
        replace hrun : (match blink_height_check h core.get_current_blockchain_height with
          | height_verdict.too_low => Except.ok (nostart_return blinks m (get_or_u64 data "!" 0)
              "Invalid blink authorization height")
          | height_verdict.too_high => Except.ok (nostart_return blinks m (get_or_u64 data "!" 0)
              "Invalid blink authorization height")
          | height_verdict.valid =>
            handle_blink_payload cfg core blinks m data (get_or_u64 data "!" 0) h) =
            Except.ok out := hrun
        split at hrun
        · injection hrun with hrun
          rw [← hrun] at hcall
          cases hcall
        · injection hrun with hrun
          rw [← hrun] at hcall
          cases hcall
        · unfold handle_blink_payload at hrun
          split at hrun
          · injection hrun with hrun
            rw [← hrun] at hcall
            cases hcall
          · rename_i t_value _
            cases t_value with
            | int n => simp only [get_string, bind, Except.bind] at hrun; cases hrun
            | list l => simp only [get_string, bind, Except.bind] at hrun; cases hrun
            | str tx_data =>
              simp only [bt_dict.at_of_find data "#" _ hhash, get_string, bind,
                Except.bind] at hrun
              split at hrun
              · rename_i o hlook
                injection hrun with hrun
                subst hrun
                rw [handle_blink_cache_lookup_process core blinks m _ h tx_hash o hlook] at hcall
                cases hcall
              · obtain ⟨checksum, qs, btx, hout⟩ :=
                  handle_blink_quorum_process cfg core blinks m data _ h tx_data tx_hash out call
                    hrun hcall
                exact ⟨_, checksum, tx_data, qs, btx, hout⟩
      · replace hrun : (get_int_u64 (bt_value.int h)).bind _ = Except.ok out := hrun
        have herr : get_int_u64 (bt_value.int h) = Except.error "integer out of range" := by
          show (if h < U64 then Except.ok h else Except.error "integer out of range") = _
          rw [if_neg hh64]
        rw [herr] at hrun
        cases hrun

theorem blink_cache.get_or_default_of_find (c : blink_cache) (key : Nat × String)
    (v : blink_metadata) (h : c.find key = some v) : c.get_or_default key = v := by
  simp [blink_cache.get_or_default, h]

/-- C10. When a `quorum.blink_sign` bundle parses, passes the quorum checksum check and
finds no blink tx cached under its `(height, txhash)`, the handler sends nothing, signs
nothing, does not call `process_blink_signatures`, and afterwards the entry of that key has
no blink tx and holds every signature of the bundle in `pending_sigs`; other entries are
unchanged. Whenever `handle_blink` later handles a submission for that key, on a cache whose
entry for the key still holds these signatures, and gets as far as calling
`process_blink_signatures`, the signature list it passes is exactly the entry's pending
signatures followed by the node's own signatures (one per subquorum it sits in, at its own
position), so it contains every signature of the bundle, and the entry then holds the blink
tx and an empty `pending_sigs`. -/
theorem C10_early_signatures_kept (cfg : blink_config) (core : member_core)
    (blinks : blink_cache) (m : Message) (data : bt_dict) (f : blink_sign_fields)
    (qs : quorum_array) (c : Nat) (hdata : m.data = [data])
    (hparse : parse_blink_sign cfg data = Except.ok f)
    (hquorum : get_blink_quorums cfg f.blink_height core.snl (some f.checksum) = Except.ok (qs, c))
    (hno : ∀ entry, blinks.find (f.blink_height, f.tx_hash) = some entry → entry.btxptr = none) :
    (∃ out1 e1, handle_blink_signature cfg core blinks m = Except.ok out1 ∧
      out1.sent = [] ∧ out1.signed = [] ∧ out1.process = none ∧
      out1.blinks.find (f.blink_height, f.tx_hash) = some e1 ∧ e1.btxptr = none ∧
      (∀ s ∈ f.signatures, s ∈ e1.pending_sigs) ∧
      (∀ key, key ≠ (f.blink_height, f.tx_hash) → out1.blinks.find key = blinks.find key)) ∧
    ∀ (later : blink_cache) (e : blink_metadata) (m2 : Message) (data2 : bt_dict)
      (out2 : blink_outcome) (call : process_blink_signatures_args),
      later.find (f.blink_height, f.tx_hash) = some e →
      (∀ s ∈ f.signatures, s ∈ e.pending_sigs) →
      m2.data = [data2] → data2.find "h" = some (bt_value.int f.blink_height) →
      data2.find "#" = some (bt_value.str f.tx_hash) →
      handle_blink cfg core later m2 = Except.ok out2 → out2.process = some call →
      (∃ approved : Bool, call.signatures = e.pending_sigs ++
        own_signatures
          (peer_info.create cfg core.cm core.snl core.my_pubkey call.blink_quorums
            [core.snl.get_pubkey_from_x25519 (x25519_from_string m2.conn.pk)] false).my_position
          approved (core.generate_signature (core.hash call.btx approved))) ∧
      (∀ s ∈ f.signatures, s ∈ call.signatures) ∧
      ∃ e2, out2.blinks.find (f.blink_height, f.tx_hash) = some e2 ∧
        e2.btxptr = some call.btx ∧ e2.pending_sigs = [] := by
  have hbtx : (blinks.get_or_default (f.blink_height, f.tx_hash)).btxptr = none := by
    unfold blink_cache.get_or_default
    cases hfind : blinks.find (f.blink_height, f.tx_hash) with
    | none => rfl
    | some entry => exact hno entry hfind
  have hmem : ∀ s ∈ f.signatures, s ∈ f.signatures.foldl pending_signature_set.insert
      (blinks.get_or_default (f.blink_height, f.tx_hash)).pending_sigs :=
    fun s hs => (pending_signature_set.mem_foldl_insert _ _ s).mpr (Or.inl hs)
  refine ⟨⟨_, _,
    handle_blink_signature_stash cfg core blinks m data f qs c hdata hparse hquorum hno,
    rfl, rfl, rfl, blink_cache.find_set_self _ _ _, hbtx, hmem,
    fun key hne => blink_cache.find_set_ne _ _ key _ hne⟩, ?_⟩
  intro later e m2 data2 out2 call hfind2 hkept hdata2 hh2 hhash2 hrun2 hcall2
  obtain ⟨tag, checksum, tx_data, qs2, btx, hout2⟩ :=
    handle_blink_process cfg core later m2 data2 f.blink_height f.tx_hash out2 call hdata2 hh2
      hhash2 hrun2 hcall2
  rw [hout2] at hcall2 ⊢
  obtain ⟨hcb, hcq, ⟨approved, hsigs⟩, e2, he2, he2b, he2p⟩ :=
    handle_blink_store_process core later m2 tag f.blink_height checksum tx_data f.tx_hash qs2 _
      btx call hcall2
  rw [blink_cache.get_or_default_of_find _ _ _ hfind2] at hsigs
  refine ⟨⟨approved, ?_⟩, ?_, e2, he2, ?_, he2p⟩
  · rw [hsigs, hcb, hcq]
  · intro s hs
    rw [hsigs]
    exact List.mem_append_left _ (hkept s hs)
  · rw [he2b, hcb]

/-- C10 on the example member: the bundle of `example_blink_sign` arrives first and is
stashed; the later submission hands the stashed signature and the node's own one to
`process_blink_signatures` and empties `pending_sigs`. -/
theorem C10_early_signatures_kept_witness :
    ∃ out1 out2 call,
      handle_blink_signature example_config (example_member 100) [] example_blink_sign =
        Except.ok out1 ∧
      out1.sent = [] ∧
      (out1.blinks.find (100, example_tx_hash)).map (fun e => (e.btxptr, e.pending_sigs)) =
        some (none, [⟨true, 0, 1, example_signature⟩]) ∧
      handle_blink example_config (example_member 100) out1.blinks (example_submit 42 645) =
        Except.ok out2 ∧
      out2.process = some call ∧
      (⟨true, 0, 1, example_signature⟩ : pending_signature) ∈ call.signatures ∧
      (out2.blinks.find (100, example_tx_hash)).map (fun e => e.pending_sigs) = some [] := by
  obtain ⟨⟨out1, e1, hout1, hsent, _, _, hfind1, hnone1, hmem1, _⟩, hlater⟩ :=
    C10_early_signatures_kept example_config (example_member 100) [] example_blink_sign _
      ⟨example_tx_hash, 100, 645, [⟨true, 0, 1, example_signature⟩]⟩
      [⟨[101, 102, 103], []⟩, ⟨[111, 112, 113], []⟩] 645 rfl rfl rfl
      (by intro entry h; cases h)
  have hval : handle_blink_signature example_config (example_member 100) [] example_blink_sign =
      Except.ok ⟨[((100, example_tx_hash), ⟨none, [⟨true, 0, 1, example_signature⟩],
        ConnectionID.none, 0⟩)], [], [], none⟩ := rfl
  rw [hval] at hout1
  injection hout1 with hout1
  subst hout1
  have hrun2 : ∃ out2, handle_blink example_config (example_member 100)
      [((100, example_tx_hash), ⟨none, [⟨true, 0, 1, example_signature⟩],
        ConnectionID.none, 0⟩)] (example_submit 42 645) = Except.ok out2 ∧
      out2.process.isSome = true := ⟨_, rfl, rfl⟩
  obtain ⟨out2, hrun2, hsome⟩ := hrun2
  obtain ⟨call, hcall⟩ := Option.isSome_iff_exists.mp hsome
  obtain ⟨_, hall, e2, he2, _, he2p⟩ :=
    hlater _ e1 (example_submit 42 645) _ out2 call hfind1 hmem1 rfl rfl rfl hrun2 hcall
  refine ⟨_, out2, call, rfl, rfl, by decide, hrun2, hcall,
    hall _ (List.mem_singleton.mpr rfl), ?_⟩
  rw [he2, Option.map_some', he2p]

/-! ## Identity of pending signatures -/

theorem pending_signature_set.nodup_insert (s : pending_signature_set) (x : pending_signature)
    (h : s.Nodup) : (pending_signature_set.insert s x).Nodup := by
  unfold pending_signature_set.insert
  by_cases hx : x ∈ s
  · rw [if_pos hx]; exact h
  · rw [if_neg hx]
    exact List.Nodup.append h (List.nodup_singleton x)
      (by
        intro a ha hb
        rw [List.mem_singleton] at hb
        exact hx (hb ▸ ha))

theorem pending_signature_set.nodup_foldl_insert (sigs : List pending_signature)
    (s : pending_signature_set) (h : s.Nodup) :
    (sigs.foldl pending_signature_set.insert s).Nodup := by
  induction sigs generalizing s with
  | nil => exact h
  | cons x rest ih =>
    rw [List.foldl_cons]
    exact ih _ (pending_signature_set.nodup_insert s x h)

theorem handle_blink_signature_cache (cfg : blink_config) (core : member_core)
    (blinks : blink_cache) (m : Message) (out : blink_outcome)
    (hrun : handle_blink_signature cfg core blinks m = Except.ok out) :
    out.blinks = blinks ∨ ∃ key sigs, out.blinks = blinks.set key
      { blinks.get_or_default key with
        pending_sigs := List.foldl pending_signature_set.insert
          (blinks.get_or_default key).pending_sigs sigs } := by
  unfold handle_blink_signature at hrun
  split at hrun
  · rename_i data hdata
    cases hparse : parse_blink_sign cfg data with
    | error e => simp only [hparse, bind, Except.bind] at hrun; cases hrun
    | ok f =>
      cases hq : get_blink_quorums cfg f.blink_height core.snl (some f.checksum) with
      | error e => simp only [hparse, hq, bind, Except.bind] at hrun; cases hrun
      | ok r =>
        obtain ⟨qs, c⟩ := r
        simp only [hparse, hq, bind, Except.bind] at hrun
        split at hrun
        · injection hrun with hrun
          left; rw [← hrun]
        · injection hrun with hrun
          right
          exact ⟨(f.blink_height, f.tx_hash), f.signatures, by rw [← hrun]⟩
  · cases hrun

/-- C11 (counterexample): two pending signatures with the same subquorum and the same
signature that differ in approval and position are both kept, by the set insertion and by
`handle_blink_signature` stashing a bundle that carries both. -/
theorem C11_counterexample_same_signature_stored_twice :
    pending_signature_set.insert [⟨true, 0, 1, example_signature⟩]
        ⟨false, 0, 2, example_signature⟩ =
      [⟨true, 0, 1, example_signature⟩, ⟨false, 0, 2, example_signature⟩] ∧
    handle_blink_signature example_config (example_member 100) [] example_blink_sign_twice =
      Except.ok ⟨[((100, example_tx_hash),
        ⟨none, [⟨true, 0, 1, example_signature⟩, ⟨false, 0, 2, example_signature⟩],
          ConnectionID.none, 0⟩)], [], [], none⟩ := by
  constructor
  · decide
  · rfl

/-- C11 (amended): the identity of a pending signature for deduplication is the whole tuple
(approval, subquorum, position, signature). A set without equal elements stays so under
insertion; inserting an element equal to a stored one leaves the set unchanged; an element
that differs from every stored one, be it only in approval or position, is added. The
handler `handle_blink_signature` keeps every cache entry free of equal pending signatures. -/
theorem C11_dedup_by_whole_tuple (s : pending_signature_set) (x : pending_signature)
    (cfg : blink_config) (core : member_core) (blinks : blink_cache) (m : Message)
    (hs : s.Nodup)
    (hcache : ∀ key e, blinks.find key = some e → e.pending_sigs.Nodup) :
    (pending_signature_set.insert s x).Nodup ∧
    (x ∈ s → pending_signature_set.insert s x = s) ∧
    (x ∉ s → pending_signature_set.insert s x = s ++ [x]) ∧
    (∀ out, handle_blink_signature cfg core blinks m = Except.ok out →
      ∀ key e, out.blinks.find key = some e → e.pending_sigs.Nodup) := by
  refine ⟨pending_signature_set.nodup_insert s x hs, ?_, ?_, ?_⟩
  · intro hx
    unfold pending_signature_set.insert
    rw [if_pos hx]
  · intro hx
    unfold pending_signature_set.insert
    rw [if_neg hx]
  · intro out hrun key e hfind
    rcases handle_blink_signature_cache cfg core blinks m out hrun with h | ⟨k, sigs, h⟩
    · rw [h] at hfind
      exact hcache key e hfind
    · rw [h] at hfind
      by_cases hk : key = k
      · rw [hk, blink_cache.find_set_self] at hfind
        injection hfind with hfind
        rw [← hfind]
        apply pending_signature_set.nodup_foldl_insert
        unfold blink_cache.get_or_default
        cases hf : blinks.find k with
        | none => exact List.nodup_nil
        | some v => exact hcache k v hf
      · rw [blink_cache.find_set_ne _ _ _ _ hk] at hfind
        exact hcache key e hfind

/-- C11 on the two pending signatures of the counterexample: the set of both has no equal
elements, and neither has any cache entry after the bundle carrying both was stashed. -/
theorem C11_dedup_by_whole_tuple_witness :
    (pending_signature_set.insert [⟨true, 0, 1, example_signature⟩]
        ⟨false, 0, 2, example_signature⟩).Nodup ∧
    (∀ out, handle_blink_signature example_config (example_member 100) []
        example_blink_sign_twice = Except.ok out →
      ∀ key e, out.blinks.find key = some e → e.pending_sigs.Nodup) :=
  have h := C11_dedup_by_whole_tuple [⟨true, 0, 1, example_signature⟩]
    ⟨false, 0, 2, example_signature⟩ example_config (example_member 100) []
    example_blink_sign_twice (by decide) (by intro key e hf; cases hf)
  ⟨h.1, h.2.2.2⟩

/-! ## Size bounds of the blink subquorums -/

theorem get_blink_quorums_ok_loop (cfg : blink_config) (snl : service_node_list)
    (h : Nat) (input : Option Nat) (qs : quorum_array) (c : Nat)
    (hok : get_blink_quorums cfg h snl input = Except.ok (qs, c)) :
    get_blink_quorums_loop cfg snl h [0, 1] [] 0 = Except.ok (qs, c) := by
  unfold get_blink_quorums at hok
  rw [range_num_blink_quorums] at hok
  cases hloop : get_blink_quorums_loop cfg snl h [0, 1] [] 0 with
  | error e => rw [hloop] at hok; cases hok
  | ok r =>
    obtain ⟨qs1, c1⟩ := r
    rw [hloop] at hok
    cases input with
    | none => exact hok
    | some q =>
      simp only at hok
      by_cases hq : q ≠ c1
      · rw [if_pos hq] at hok; cases hok
      · rw [if_neg hq] at hok; exact hok

theorem get_blink_quorums_loop_present (cfg : blink_config) (snl : service_node_list)
    (h : Nat) (q0 q1 : quorum)
    (hh0 : cfg.quorum_height h 0 ≠ 0) (hh1 : cfg.quorum_height h 1 ≠ 0)
    (hq0 : snl.get_quorum quorum_type.blink (cfg.quorum_height h 0) = some q0)
    (hq1 : snl.get_quorum quorum_type.blink (cfg.quorum_height h 1) = some q1)
    (hr0 : cfg.BLINK_MIN_VOTES ≤ q0.validators.length ∧
      q0.validators.length ≤ cfg.BLINK_SUBQUORUM_SIZE)
    (hr1 : cfg.BLINK_MIN_VOTES ≤ q1.validators.length ∧
      q1.validators.length ≤ cfg.BLINK_SUBQUORUM_SIZE) :
    ∃ c, get_blink_quorums_loop cfg snl h [0, 1] [] 0 = Except.ok ([q0, q1], c) := by
  have hs0 : ¬ (q0.validators.length < cfg.BLINK_MIN_VOTES ∨
      q0.validators.length > cfg.BLINK_SUBQUORUM_SIZE) := by omega
  have hs1 : ¬ (q1.validators.length < cfg.BLINK_MIN_VOTES ∨
      q1.validators.length > cfg.BLINK_SUBQUORUM_SIZE) := by omega
  rw [get_blink_quorums_loop]
  simp only [hh0, if_false, hq0, hs0]
  rw [get_blink_quorums_loop]
  simp only [hh1, if_false, hq1, hs1]
  rw [get_blink_quorums_loop]
  exact ⟨_, rfl⟩

theorem get_blink_quorums_none_of_loop (cfg : blink_config) (snl : service_node_list)
    (h : Nat) (qs : quorum_array) (c : Nat)
    (hloop : get_blink_quorums_loop cfg snl h [0, 1] [] 0 = Except.ok (qs, c)) :
    get_blink_quorums cfg h snl none = Except.ok (qs, c) := by
  unfold get_blink_quorums
  rw [range_num_blink_quorums, hloop]

theorem get_blink_quorums_error_of_size (cfg : blink_config) (snl : service_node_list)
    (h qi : Nat) (q : quorum) (hqi : qi < NUM_BLINK_QUORUMS)
    (hq : snl.get_quorum quorum_type.blink (cfg.quorum_height h qi) = some q)
    (hsize : q.validators.length < cfg.BLINK_MIN_VOTES ∨
      q.validators.length > cfg.BLINK_SUBQUORUM_SIZE) (input : Option Nat) :
    ∃ e, get_blink_quorums cfg h snl input = Except.error e := by
  cases hres : get_blink_quorums cfg h snl input with
  | error e => exact ⟨e, rfl⟩
  | ok r =>
    exfalso
    obtain ⟨qs, c⟩ := r
    obtain ⟨q0, q1, _, _, hq0, hq1, hr0, hr1, _, _⟩ :=
      get_blink_quorums_loop_two cfg snl h qs c (get_blink_quorums_ok_loop cfg snl h input qs c hres)
    have hcase : qi = 0 ∨ qi = 1 := by
      unfold NUM_BLINK_QUORUMS at hqi; omega
    rcases hcase with h0 | h1
    · rw [h0, hq0] at hq
      injection hq with hq
      rw [hq] at hr0; omega
    · rw [h1, hq1] at hq
      injection hq with hq
      rw [hq] at hr1; omega

theorem handle_blink_quorum_failure_nostart (cfg : blink_config) (core : member_core)
    (blinks : blink_cache) (m : Message) (data : bt_dict) (tag h q : Nat)
    (tx_data tx_hash what : String)
    (hsn : core.service_node = true) (hdata : m.data = [data])
    (htag : get_or_u64 data "!" 0 = tag)
    (hh : data.find "h" = some (bt_value.int h)) (hh64 : h < U64)
    (ht : data.find "t" = some (bt_value.str tx_data))
    (hhash : data.find "#" = some (bt_value.str tx_hash))
    (hmiss : ∀ entry, blinks.find (h, tx_hash) = some entry → entry.btxptr = none)
    (hq : data.find "q" = some (bt_value.int q)) (hq64 : q < U64)
    (herr : get_blink_quorums cfg h core.snl (some q) = Except.error what) :
    ∃ e, handle_blink cfg core blinks m = Except.ok (nostart_return blinks m tag e) ∧
      (¬ core.hf_version < cfg.HF_VERSION_BLINK →
        blink_height_check h core.get_current_blockchain_height = height_verdict.valid →
        tx_hash.length = 32 → e = "Unable to retrieve blink quorum: " ++ what) := by
  by_cases hhf : core.hf_version < cfg.HF_VERSION_BLINK
  · refine ⟨"Invalid blink authorization height", ?_, fun h1 => absurd hhf h1⟩
    rw [handle_blink_hf_guard cfg core blinks m data hsn hdata hhf, htag]
  · rw [handle_blink_height_step cfg core blinks m data h hsn hdata hhf hh hh64, htag]
    cases hv : blink_height_check h core.get_current_blockchain_height with
    | too_low => exact ⟨"Invalid blink authorization height", rfl, fun _ h2 => by cases h2⟩
    | too_high => exact ⟨"Invalid blink authorization height", rfl, fun _ h2 => by cases h2⟩
    | valid =>
      show ∃ e, handle_blink_payload cfg core blinks m data tag h = _ ∧ _
      rw [handle_blink_payload_step cfg core blinks m data tag h tx_data tx_hash ht hhash]
      by_cases hlen : tx_hash.length = 32
      · rw [handle_blink_cache_lookup_miss core blinks m tag h tx_hash hlen hmiss]
        refine ⟨_, ?_, fun _ _ _ => rfl⟩
        exact handle_blink_quorum_error cfg core blinks m data tag h q tx_data tx_hash what
          hq hq64 herr
      · refine ⟨"Invalid transaction hash", ?_, fun _ _ h3 => absurd h3 hlen⟩
        unfold handle_blink_cache_lookup
        rw [if_neg hlen]

/-- C12. The lookup `get_blink_quorums` succeeds only if each of the two subquorums has
between `BLINK_MIN_VOTES` and `BLINK_SUBQUORUM_SIZE` validators; when both quorums exist it
succeeds exactly then, so a subquorum of exactly `BLINK_MIN_VOTES` validators is accepted;
if either subquorum has fewer than `BLINK_MIN_VOTES` (for instance one less) or more than
`BLINK_SUBQUORUM_SIZE` validators the lookup fails whatever checksum is passed, and a
well-formed tagged `blink.submit` for that height which is not answered from the cache gets
exactly one reply, a `bl.nostart`, with nothing relayed, signed or stored; once the earlier
checks pass, its text is `"Unable to retrieve blink quorum: "` followed by the error of
the lookup. -/
theorem C12_subquorum_size_bounds (cfg : blink_config) (snl : service_node_list) (h : Nat) :
    (∀ input qs c, get_blink_quorums cfg h snl input = Except.ok (qs, c) →
      ∃ q0 q1, qs = [q0, q1] ∧
        snl.get_quorum quorum_type.blink (cfg.quorum_height h 0) = some q0 ∧
        snl.get_quorum quorum_type.blink (cfg.quorum_height h 1) = some q1 ∧
        (cfg.BLINK_MIN_VOTES ≤ q0.validators.length ∧
          q0.validators.length ≤ cfg.BLINK_SUBQUORUM_SIZE) ∧
        (cfg.BLINK_MIN_VOTES ≤ q1.validators.length ∧
          q1.validators.length ≤ cfg.BLINK_SUBQUORUM_SIZE)) ∧
    (∀ q0 q1, cfg.quorum_height h 0 ≠ 0 → cfg.quorum_height h 1 ≠ 0 →
      snl.get_quorum quorum_type.blink (cfg.quorum_height h 0) = some q0 →
      snl.get_quorum quorum_type.blink (cfg.quorum_height h 1) = some q1 →
      ((∃ c, get_blink_quorums cfg h snl none = Except.ok ([q0, q1], c)) ↔
        ((cfg.BLINK_MIN_VOTES ≤ q0.validators.length ∧
            q0.validators.length ≤ cfg.BLINK_SUBQUORUM_SIZE) ∧
          (cfg.BLINK_MIN_VOTES ≤ q1.validators.length ∧
            q1.validators.length ≤ cfg.BLINK_SUBQUORUM_SIZE)))) ∧
    (∀ qi q, qi < NUM_BLINK_QUORUMS →
      snl.get_quorum quorum_type.blink (cfg.quorum_height h qi) = some q →
      (q.validators.length < cfg.BLINK_MIN_VOTES ∨
        q.validators.length > cfg.BLINK_SUBQUORUM_SIZE) →
      (∀ input, ∃ e, get_blink_quorums cfg h snl input = Except.error e) ∧
      (∀ (core : member_core) (blinks : blink_cache) (m : Message) (data : bt_dict)
          (tag checksum : Nat) (tx_data tx_hash : String),
        core.snl = snl → core.service_node = true → m.data = [data] →
        get_or_u64 data "!" 0 = tag → tag ≠ 0 →
        data.find "h" = some (bt_value.int h) → h < U64 →
        data.find "t" = some (bt_value.str tx_data) →
        data.find "#" = some (bt_value.str tx_hash) →
        data.find "q" = some (bt_value.int checksum) → checksum < U64 →
        (∀ entry, blinks.find (h, tx_hash) = some entry → entry.btxptr = none) →
        ∃ e what, get_blink_quorums cfg h snl (some checksum) = Except.error what ∧
          handle_blink cfg core blinks m = Except.ok
            ⟨blinks,
              [⟨m.conn, "bl.nostart", [("!", bt_value.int tag), ("e", bt_value.str e)],
                send_option.plain⟩], [], none⟩ ∧
          (¬ core.hf_version < cfg.HF_VERSION_BLINK →
            blink_height_check h core.get_current_blockchain_height = height_verdict.valid →
            tx_hash.length = 32 → e = "Unable to retrieve blink quorum: " ++ what))) := by
  refine ⟨?_, ?_, ?_⟩
  · intro input qs c hok
    obtain ⟨q0, q1, _, _, hq0, hq1, hr0, hr1, hqs, _⟩ :=
      get_blink_quorums_loop_two cfg snl h qs c (get_blink_quorums_ok_loop cfg snl h input qs c hok)
    exact ⟨q0, q1, hqs, hq0, hq1, hr0, hr1⟩
  · intro q0 q1 hh0 hh1 hq0 hq1
    constructor
    · rintro ⟨c, hok⟩
      obtain ⟨p0, p1, _, _, hp0, hp1, hr0, hr1, _, _⟩ :=
        get_blink_quorums_loop_two cfg snl h _ c
          (get_blink_quorums_ok_loop cfg snl h none _ c hok)
      rw [hq0] at hp0
      rw [hq1] at hp1
      injection hp0 with hp0
      injection hp1 with hp1
      rw [hp0, hp1]
      exact ⟨hr0, hr1⟩
    · rintro ⟨hr0, hr1⟩
      obtain ⟨c, hloop⟩ := get_blink_quorums_loop_present cfg snl h q0 q1 hh0 hh1 hq0 hq1 hr0 hr1
      exact ⟨c, get_blink_quorums_none_of_loop cfg snl h _ c hloop⟩
  · intro qi q hqi hq hsize
    refine ⟨get_blink_quorums_error_of_size cfg snl h qi q hqi hq hsize, ?_⟩
    intro core blinks m data tag checksum tx_data tx_hash hsnl hsn hdata htag htag0 hh hh64 ht
      hhash hck hck64 hmiss
    obtain ⟨what, herr⟩ := get_blink_quorums_error_of_size cfg snl h qi q hqi hq hsize (some checksum)
    have herr1 : get_blink_quorums cfg h core.snl (some checksum) = Except.error what := by
      rw [hsnl]; exact herr
    obtain ⟨e, hrun, htext⟩ := handle_blink_quorum_failure_nostart cfg core blinks m data tag h
      checksum tx_data tx_hash what hsn hdata htag hh hh64 ht hhash hmiss hck hck64 herr1
    refine ⟨e, what, herr, ?_, htext⟩
    rw [hrun]
    simp [nostart_return, htag0]

/-- C12 on the example network: two validators per subquorum (exactly `BLINK_MIN_VOTES`)
are accepted; with one validator in the second subquorum the lookup fails and the tagged
submission is answered with `bl.nostart`. -/
theorem C12_subquorum_size_bounds_witness :
    (∃ c, get_blink_quorums example_config 100 example_min_snl none =
      Except.ok ([⟨[101, 102], []⟩, ⟨[111, 112], []⟩], c)) ∧
    (∃ e, get_blink_quorums example_config 100 example_short_snl (some 645) = Except.error e) ∧
    handle_blink example_config example_member_short [] (example_submit 42 645) = Except.ok
      ⟨[], [⟨example_submitter, "bl.nostart",
        [("!", bt_value.int 42), ("e", bt_value.str
          "Unable to retrieve blink quorum: not enough blink nodes to form a quorum")],
        send_option.plain⟩], [], none⟩ := by
  refine ⟨?_, ?_, ?_⟩
  · exact ((C12_subquorum_size_bounds example_config example_min_snl 100).2.1
      ⟨[101, 102], []⟩ ⟨[111, 112], []⟩ (by decide) (by decide) rfl rfl).2
      ⟨⟨by decide, by decide⟩, ⟨by decide, by decide⟩⟩
  · exact ((C12_subquorum_size_bounds example_config example_short_snl 100).2.2
      1 ⟨[111], []⟩ (by decide) rfl (Or.inl (by decide))).1 (some 645)
  · obtain ⟨e, what, herr, hrun, htext⟩ :=
      ((C12_subquorum_size_bounds example_config example_short_snl 100).2.2
        1 ⟨[111], []⟩ (by decide) rfl (Or.inl (by decide))).2
        example_member_short [] (example_submit 42 645) _ 42 645 "tx" example_tx_hash
        rfl rfl rfl (by decide) (by decide) rfl (by decide) rfl rfl rfl (by decide)
        (by intro entry hf; cases hf)
    have hwhat : what = "not enough blink nodes to form a quorum" := by
      have h2 : get_blink_quorums example_config 100 example_short_snl (some 645) =
          Except.error "not enough blink nodes to form a quorum" := rfl
      rw [h2] at herr
      injection herr with herr
      exact herr.symm
    have he := htext (by decide) (by decide) (by decide)
    rw [hrun, he, hwhat]
    rfl

/-! ## Bound on the promise table -/

theorem pick_blink_tag_some (t : promise_table) (rng : List Nat) (r : Nat)
    (h : pick_blink_tag t rng = some r) : r ≠ 0 ∧ t.find r = none ∧ r ∈ rng := by
  induction rng with
  | nil => cases h
  | cons x rest ih =>
    unfold pick_blink_tag at h
    by_cases hx : x = 0 ∨ (t.find x).isSome
    · rw [if_pos hx] at h
      obtain ⟨h1, h2, h3⟩ := ih h
      exact ⟨h1, h2, List.mem_cons_of_mem x h3⟩
    · rw [if_neg hx] at h
      injection h with h
      subst h
      refine ⟨fun h0 => hx (Or.inl h0), ?_, List.mem_cons_self _ _⟩
      cases hf : t.find x with
      | none => rfl
      | some v => exact absurd (Or.inr (by rw [hf]; rfl)) hx

theorem pick_blink_tag_exists (t : promise_table) (rng : List Nat)
    (h : ∃ r ∈ rng, r ≠ 0 ∧ t.find r = none) : ∃ r, pick_blink_tag t rng = some r := by
  induction rng with
  | nil =>
    obtain ⟨r, hr, _⟩ := h
    cases hr
  | cons x rest ih =>
    unfold pick_blink_tag
    by_cases hx : x = 0 ∨ (t.find x).isSome
    · rw [if_pos hx]
      apply ih
      obtain ⟨r, hr, hr0, hrf⟩ := h
      rcases List.mem_cons.mp hr with hrx | hrr
      · subst hrx
        rcases hx with h0 | hs
        · exact absurd h0 hr0
        · rw [hrf] at hs; cases hs
      · exact ⟨r, hrr, hr0, hrf⟩
    · rw [if_neg hx]
      exact ⟨x, rfl⟩

theorem promise_table.keys_modify (t : promise_table) (tag : Nat)
    (f : blink_result_data → blink_result_data) :
    (t.modify tag f).map Prod.fst = t.map Prod.fst := by
  unfold promise_table.modify
  rw [List.map_map]
  apply List.map_congr_left
  intro kv _
  by_cases hk : kv.1 = tag
  · simp [hk]
  · simp [hk]

theorem send_blink_catch_keys (t : promise_table) (blink_tag : Nat) (what : String) :
    (send_blink_catch t blink_tag what).1.map Prod.fst = t.map Prod.fst := by
  unfold send_blink_catch
  split
  · split
    · dsimp only
      exact promise_table.keys_modify t blink_tag _
    · rfl
  · rfl

theorem send_blink_fanout_keys (cfg : blink_config) (core : originator_core) (t : promise_table)
    (blink_tag : Nat) (tx_hash tx_blob : String) (shuffle : List Nat → List Nat) :
    (send_blink_fanout cfg core t blink_tag tx_hash tx_blob shuffle).1.map Prod.fst =
      t.map Prod.fst := by
  unfold send_blink_fanout
  dsimp only
  have ht1 : (match (send_blink_try cfg core blink_tag tx_hash tx_blob shuffle).1 with
      | some remote_count =>
        t.modify blink_tag (fun e => { e with remote_count := remote_count })
      | none => t).map Prod.fst = t.map Prod.fst := by
    cases (send_blink_try cfg core blink_tag tx_hash tx_blob shuffle).1 with
    | none => rfl
    | some n => exact promise_table.keys_modify t blink_tag _
  cases (send_blink_try cfg core blink_tag tx_hash tx_blob shuffle).2.2 with
  | none => exact ht1
  | some what =>
    dsimp only
    rw [send_blink_catch_keys]
    exact ht1

theorem send_blink_sweep_length (now : Nat) (tx_hash : String) (t : promise_table) :
    (send_blink_sweep now tx_hash t).table.length ≤ t.length := by
  rw [send_blink_sweep_table]
  exact List.length_filter_le _ _

theorem send_blink_unfold (cfg : blink_config) (core : originator_core) (t : promise_table)
    (tx_blob : String) (now now_store : Nat) (rng : List Nat) (shuffle : List Nat → List Nat)
    (tx_hash : String) (hparse : core.parse_and_validate_tx_from_blob tx_blob = some tx_hash) :
    send_blink cfg core t tx_blob now now_store rng shuffle =
      if (send_blink_sweep now tx_hash t).found = true then
        some ⟨(send_blink_sweep now tx_hash t).table, 0,
          promise_state.value (blink_result.rejected, "Transaction was already submitted"),
          (send_blink_sweep now tx_hash t).resolved, []⟩
      else if (send_blink_sweep now tx_hash t).table.length ≥ MAX_ACTIVE_PROMISES then
        some ⟨(send_blink_sweep now tx_hash t).table, 0,
          promise_state.value (blink_result.rejected, "Node is busy, try again later"),
          (send_blink_sweep now tx_hash t).resolved, []⟩
      else
        (pick_blink_tag (send_blink_sweep now tx_hash t).table rng).bind (fun blink_tag =>
          some ⟨(send_blink_fanout cfg core
              ((send_blink_sweep now tx_hash t).table ++
                [(blink_tag, ⟨tx_hash, promise_state.unset, now_store + THIRTY_SECONDS, 0, 0⟩)])
              blink_tag tx_hash tx_blob shuffle).1,
            blink_tag,
            (send_blink_fanout cfg core
              ((send_blink_sweep now tx_hash t).table ++
                [(blink_tag, ⟨tx_hash, promise_state.unset, now_store + THIRTY_SECONDS, 0, 0⟩)])
              blink_tag tx_hash tx_blob shuffle).2.1,
            (send_blink_sweep now tx_hash t).resolved,
            (send_blink_fanout cfg core
              ((send_blink_sweep now tx_hash t).table ++
                [(blink_tag, ⟨tx_hash, promise_state.unset, now_store + THIRTY_SECONDS, 0, 0⟩)])
              blink_tag tx_hash tx_blob shuffle).2.2⟩) := by
  unfold send_blink
  rw [hparse]
  simp only
  split
  · rfl
  · split
    · rfl
    · cases pick_blink_tag (send_blink_sweep now tx_hash t).table rng <;> rfl

theorem common_blink_response_length (t : promise_table) (tag : Nat) (res : blink_result)
    (msg : String) (nostart : Bool) :
    (common_blink_response t tag res msg nostart).table.length ≤ t.length := by
  have hmod : ∀ f, (t.modify tag f).length = t.length := by
    intro f
    unfold promise_table.modify
    exact List.length_map _ _
  have herase : ∀ t1 : promise_table, (t1.erase tag).length ≤ t1.length := by
    intro t1
    unfold promise_table.erase
    exact List.length_filter_le _ _
  unfold common_blink_response
  cases t.find tag with
  | none => exact Nat.le_refl _
  | some pbr =>
    cases nostart with
    | false =>
      simp only [Bool.false_eq_true, if_false, if_true]
      cases pbr.promise.set_value (res, msg) with
      | none => exact Nat.le_refl _
      | some v => exact herase t
    | true =>
      simp only [if_true]
      split
      · cases pbr.promise.set_value (res, msg) with
        | none => dsimp only; exact Nat.le_of_eq (hmod _)
        | some v => dsimp only; exact Nat.le_trans (herase _) (Nat.le_of_eq (hmod _))
      · dsimp only; exact Nat.le_of_eq (hmod _)

theorem send_blink_sweep_keep (now : Nat) (tx_hash : String) (t : promise_table)
    (hall : ∀ kv ∈ t, kv.2.expiry < now) :
    send_blink_sweep now tx_hash t =
      ⟨t, [], t.any (fun kv => decide (kv.2.hash = tx_hash))⟩ := by
  induction t with
  | nil => rfl
  | cons kv rest ih =>
    obtain ⟨tag, e⟩ := kv
    have he : ¬ e.expiry ≥ now := by
      have := hall (tag, e) (List.mem_cons_self _ _)
      simp only at this
      omega
    have hrest := ih (fun kv hkv => hall kv (List.mem_cons_of_mem _ hkv))
    simp only [send_blink_sweep, if_neg he, hrest, List.any_cons]
    rw [Bool.or_comm]

/-- C13 (counterexample): the table holds 1000 entries after the sweep and entry 8 waits
for the tx that is submitted again: the new future is resolved to "Transaction was already
submitted", not to "Node is busy, try again later". -/
theorem C13_counterexample_duplicate_on_full_table :
    example_full_table.wf ∧
    (send_blink_sweep 50 "tx7" example_full_table).table.length = 1000 ∧
    send_blink example_config example_originator example_full_table "tx7" 50 60 [43] id =
      some ⟨example_full_table, 0,
        promise_state.value (blink_result.rejected, "Transaction was already submitted"),
        [], []⟩ := by
  have hall : ∀ kv ∈ example_full_table, kv.2.expiry < 50 := by
    intro kv hkv
    unfold example_full_table at hkv
    obtain ⟨i, _, hi⟩ := List.mem_map.mp hkv
    rw [← hi]
    exact (by decide : 10 < 50)
  have hmem : ((8, ⟨"tx7", promise_state.unset, 10, 4, 0⟩) : Nat × blink_result_data) ∈
      example_full_table :=
    List.mem_map.mpr ⟨7, List.mem_range.mpr (by decide), by decide⟩
  have hany : example_full_table.any (fun kv => decide (kv.2.hash = "tx7")) = true :=
    List.any_eq_true.mpr ⟨_, hmem, by decide⟩
  have hsweep := send_blink_sweep_keep 50 "tx7" example_full_table hall
  rw [hany] at hsweep
  have hlen : example_full_table.length = 1000 := by
    unfold example_full_table
    rw [List.length_map, List.length_range]
  refine ⟨?_, ?_, ?_⟩
  · unfold promise_table.wf example_full_table
    rw [List.map_map]
    exact List.Nodup.map (fun a b hab => Nat.succ.inj hab) (List.nodup_range 1000)
  · have htable : (send_blink_sweep 50 "tx7" example_full_table).table = example_full_table := by
      rw [hsweep]
    rw [htable, hlen]
  · rw [send_blink_unfold example_config example_originator example_full_table "tx7" 50 60 [43] id
      "tx7" rfl, hsweep, if_pos rfl]

/-- C13 (amended): a call of `send_blink` leaves at most `MAX_ACTIVE_PROMISES` = 1000
entries in a table that held at most that many, and `common_blink_response` never makes the
table longer. For a tx that parses: when an entry kept by the sweep has the hash of the new tx
the future is resolved to (rejected, "Transaction was already submitted"); when none has and
the swept table holds 1000 entries or more, to (rejected, "Node is busy, try again later");
in both cases no entry is added and nothing is sent. Otherwise exactly one entry is added, a
result is produced as soon as one draw is usable, and the tag of the added entry is non-zero
and was not a key of the swept table. -/
theorem C13_promise_table_bounded (cfg : blink_config) (core : originator_core)
    (t : promise_table) (tx_blob : String) (now now_store : Nat) (rng : List Nat)
    (shuffle : List Nat → List Nat) :
    (∀ out, send_blink cfg core t tx_blob now now_store rng shuffle = some out →
      t.length ≤ MAX_ACTIVE_PROMISES → out.table.length ≤ MAX_ACTIVE_PROMISES) ∧
    (∀ tag res msg nostart,
      (common_blink_response t tag res msg nostart).table.length ≤ t.length) ∧
    (∀ tx_hash, core.parse_and_validate_tx_from_blob tx_blob = some tx_hash →
      ((send_blink_sweep now tx_hash t).found = true →
        send_blink cfg core t tx_blob now now_store rng shuffle =
          some ⟨(send_blink_sweep now tx_hash t).table, 0,
            promise_state.value (blink_result.rejected, "Transaction was already submitted"),
            (send_blink_sweep now tx_hash t).resolved, []⟩) ∧
      ((send_blink_sweep now tx_hash t).found = false →
        MAX_ACTIVE_PROMISES ≤ (send_blink_sweep now tx_hash t).table.length →
        send_blink cfg core t tx_blob now now_store rng shuffle =
          some ⟨(send_blink_sweep now tx_hash t).table, 0,
            promise_state.value (blink_result.rejected, "Node is busy, try again later"),
            (send_blink_sweep now tx_hash t).resolved, []⟩) ∧
      ((send_blink_sweep now tx_hash t).found = false →
        (send_blink_sweep now tx_hash t).table.length < MAX_ACTIVE_PROMISES →
        ((∃ r ∈ rng, r ≠ 0 ∧ (send_blink_sweep now tx_hash t).table.find r = none) →
          ∃ out, send_blink cfg core t tx_blob now now_store rng shuffle = some out) ∧
        (∀ out, send_blink cfg core t tx_blob now now_store rng shuffle = some out →
          out.blink_tag ≠ 0 ∧
          (send_blink_sweep now tx_hash t).table.find out.blink_tag = none ∧
          out.table.map Prod.fst =
            (send_blink_sweep now tx_hash t).table.map Prod.fst ++ [out.blink_tag]))) := by
  have hadd : ∀ tx_hash, core.parse_and_validate_tx_from_blob tx_blob = some tx_hash →
      (send_blink_sweep now tx_hash t).found = false →
      (send_blink_sweep now tx_hash t).table.length < MAX_ACTIVE_PROMISES →
      ∀ out, send_blink cfg core t tx_blob now now_store rng shuffle = some out →
        out.blink_tag ≠ 0 ∧
        (send_blink_sweep now tx_hash t).table.find out.blink_tag = none ∧
        out.table.map Prod.fst =
          (send_blink_sweep now tx_hash t).table.map Prod.fst ++ [out.blink_tag] := by
    intro tx_hash hparse hfound hlen out hrun
    have hnf : ¬ (send_blink_sweep now tx_hash t).found = true := by rw [hfound]; decide
    have hnl : ¬ (send_blink_sweep now tx_hash t).table.length ≥ MAX_ACTIVE_PROMISES := by omega
    rw [send_blink_unfold cfg core t tx_blob now now_store rng shuffle tx_hash hparse,
      if_neg hnf, if_neg hnl] at hrun
    cases hpick : pick_blink_tag (send_blink_sweep now tx_hash t).table rng with
    | none => rw [hpick] at hrun; cases hrun
    | some r =>
      rw [hpick] at hrun
      simp only [Option.bind] at hrun
      injection hrun with hrun
      obtain ⟨h0, hfree, _⟩ := pick_blink_tag_some _ rng r hpick
      rw [← hrun]
      refine ⟨h0, hfree, ?_⟩
      simp only
      rw [send_blink_fanout_keys, List.map_append]
      rfl
  refine ⟨?_, common_blink_response_length t, ?_⟩
  · intro out hrun hlen
    cases hparse : core.parse_and_validate_tx_from_blob tx_blob with
    | none =>
      unfold send_blink at hrun
      rw [hparse] at hrun
      injection hrun with hrun
      rw [← hrun]
      exact hlen
    | some tx_hash =>
      have hsweep := send_blink_sweep_length now tx_hash t
      by_cases hf : (send_blink_sweep now tx_hash t).found = true
      · rw [send_blink_unfold cfg core t tx_blob now now_store rng shuffle tx_hash hparse,
          if_pos hf] at hrun
        injection hrun with hrun
        rw [← hrun]
        exact Nat.le_trans hsweep hlen
      · by_cases hl : (send_blink_sweep now tx_hash t).table.length ≥ MAX_ACTIVE_PROMISES
        · rw [send_blink_unfold cfg core t tx_blob now now_store rng shuffle tx_hash hparse,
            if_neg hf, if_pos hl] at hrun
          injection hrun with hrun
          rw [← hrun]
          exact Nat.le_trans hsweep hlen
        · have hfalse : (send_blink_sweep now tx_hash t).found = false := by
            cases hb : (send_blink_sweep now tx_hash t).found with
            | true => exact absurd hb hf
            | false => rfl
          obtain ⟨_, _, hkeys⟩ := hadd tx_hash hparse hfalse (by omega) out hrun
          have hlen2 := congrArg List.length hkeys
          rw [List.length_map, List.length_append, List.length_map, List.length_singleton] at hlen2
          omega
  · intro tx_hash hparse
    refine ⟨?_, ?_, ?_⟩
    · intro hf
      rw [send_blink_unfold cfg core t tx_blob now now_store rng shuffle tx_hash hparse, if_pos hf]
    · intro hf hl
      have hnf : ¬ (send_blink_sweep now tx_hash t).found = true := by rw [hf]; decide
      rw [send_blink_unfold cfg core t tx_blob now now_store rng shuffle tx_hash hparse,
        if_neg hnf, if_pos hl]
    · intro hf hl
      refine ⟨?_, hadd tx_hash hparse hf hl⟩
      intro hdraw
      have hnf : ¬ (send_blink_sweep now tx_hash t).found = true := by rw [hf]; decide
      have hnl : ¬ (send_blink_sweep now tx_hash t).table.length ≥ MAX_ACTIVE_PROMISES := by omega
      obtain ⟨r, hr⟩ := pick_blink_tag_exists _ rng hdraw
      rw [send_blink_unfold cfg core t tx_blob now now_store rng shuffle tx_hash hparse,
        if_neg hnf, if_neg hnl, hr]
      exact ⟨_, rfl⟩


/-- C13 on the example originator: on the full table a tx that is not a duplicate is
answered "Node is busy, try again later" and nothing is added or sent; on an empty table the
draw 0 is skipped and the entry is added under the tag 43. -/
theorem C13_promise_table_bounded_witness :
    send_blink example_config example_originator example_full_table "new" 50 60 [43] id =
      some ⟨example_full_table, 0,
        promise_state.value (blink_result.rejected, "Node is busy, try again later"), [], []⟩ ∧
    (∃ out, send_blink example_config example_originator [] "tx" 50 60 [0, 43] id = some out ∧
      out.blink_tag ≠ 0 ∧ out.table.map Prod.fst = [] ++ [out.blink_tag]) := by
  have hall : ∀ kv ∈ example_full_table, kv.2.expiry < 50 := by
    intro kv hkv
    unfold example_full_table at hkv
    obtain ⟨i, _, hi⟩ := List.mem_map.mp hkv
    rw [← hi]
    exact (by decide : 10 < 50)
  have hany : example_full_table.any (fun kv => decide (kv.2.hash = "new")) = false := by
    rw [List.any_eq_false]
    intro kv hkv
    unfold example_full_table at hkv
    obtain ⟨i, _, hi⟩ := List.mem_map.mp hkv
    rw [← hi]
    have hne : ¬ ("tx" ++ toString i = "new") := by
      intro h
      have hd := congrArg String.data h
      rw [String.data_append] at hd
      injection hd with hc _
      exact absurd hc (by decide)
    simpa using hne
  have hsweep := send_blink_sweep_keep 50 "new" example_full_table hall
  rw [hany] at hsweep
  have hlen : example_full_table.length = 1000 := by
    unfold example_full_table
    rw [List.length_map, List.length_range]
  constructor
  · have hfound : (send_blink_sweep 50 "new" example_full_table).found = false := by
      rw [hsweep]
    have htab : (send_blink_sweep 50 "new" example_full_table).table = example_full_table := by
      rw [hsweep]
    have hres : (send_blink_sweep 50 "new" example_full_table).resolved = [] := by
      rw [hsweep]
    have hfull : MAX_ACTIVE_PROMISES ≤
        (send_blink_sweep 50 "new" example_full_table).table.length := by
      rw [htab, hlen]
      exact Nat.le_refl 1000
    have h := ((C13_promise_table_bounded example_config example_originator example_full_table
      "new" 50 60 [43] id).2.2 "new" rfl).2.1 hfound hfull
    rw [htab, hres] at h
    exact h
  · have hparts := ((C13_promise_table_bounded example_config example_originator []
      "tx" 50 60 [0, 43] id).2.2 "tx" rfl).2.2 (by decide) (by decide)
    obtain ⟨out, hout⟩ := hparts.1 ⟨43, by decide, by decide, by decide⟩
    obtain ⟨h0, _, hkeys⟩ := hparts.2 out hout
    exact ⟨out, hout, h0, hkeys⟩

/-! ## `handle_blink`: the checks after the quorum lookup -/

theorem handle_blink_quorum_ok (cfg : blink_config) (core : member_core)
    (blinks : blink_cache) (m : Message) (data : bt_dict) (tag h q : Nat)
    (tx_data tx_hash : String) (qs : quorum_array) (c : Nat)
    (hq : data.find "q" = some (bt_value.int q)) (hq64 : q < U64)
    (hok : get_blink_quorums cfg h core.snl (some q) = Except.ok (qs, c)) :
    handle_blink_quorum cfg core blinks m data tag h tx_data tx_hash = Except.ok
      (if ¬ (peer_info.create cfg core.cm core.snl core.my_pubkey qs
          [core.snl.get_pubkey_from_x25519 (x25519_from_string m.conn.pk)] false).my_position_count
            > 0 then
        nostart_return blinks m tag "Blink tx relayed to non-blink quorum member"
      else
        match core.parse_and_validate_tx_from_blob tx_data with
        | none => nostart_return blinks m tag "Failed to parse transaction data"
        | some (tx, tx_hash_actual) =>
          if tx_hash ≠ tx_hash_actual then
            nostart_return blinks m tag "Invalid transaction hash"
          else if (peer_info.create cfg core.cm core.snl core.my_pubkey qs
              [core.snl.get_pubkey_from_x25519 (x25519_from_string m.conn.pk)] false).strong_peers
                = 0 then
            nostart_return blinks m tag "No quorum peers are currently reachable"
          else
            handle_blink_store core blinks m tag h q tx_data tx_hash qs
              (peer_info.create cfg core.cm core.snl core.my_pubkey qs
                [core.snl.get_pubkey_from_x25519 (x25519_from_string m.conn.pk)] false)
              { limited_blink_tx cfg core h qs with tx := tx }) := by
  unfold handle_blink_quorum
  simp only [bt_dict.at_of_find data "q" _ hq, get_int_u64_of_nat q hq64, bind, Except.bind, hok]
  split
  · rfl
  · cases core.parse_and_validate_tx_from_blob tx_data with
    | none => rfl
    | some r =>
      obtain ⟨tx, actual⟩ := r
      simp only
      split
      · rfl
      · split
        · rfl
        · rfl

theorem unable_prefix_ne (what s : String) (hs : s.data.head? ≠ some 'U') :
    "Unable to retrieve blink quorum: " ++ what ≠ s := by
  intro h
  apply hs
  rw [← h, String.data_append]
  rfl

theorem handle_blink_to_payload (cfg : blink_config) (core : member_core)
    (blinks : blink_cache) (m : Message) (data : bt_dict) (tag h : Nat)
    (hsn : core.service_node = true) (hdata : m.data = [data])
    (htag : get_or_u64 data "!" 0 = tag)
    (hhf : ¬ core.hf_version < cfg.HF_VERSION_BLINK)
    (hh : data.find "h" = some (bt_value.int h)) (hh64 : h < U64)
    (hvalid : blink_height_check h core.get_current_blockchain_height = height_verdict.valid) :
    handle_blink cfg core blinks m = handle_blink_payload cfg core blinks m data tag h := by
  rw [handle_blink_height_step cfg core blinks m data h hsn hdata hhf hh hh64, hvalid, htag]

theorem handle_blink_to_quorum (cfg : blink_config) (core : member_core)
    (blinks : blink_cache) (m : Message) (data : bt_dict) (tag h : Nat)
    (tx_data tx_hash : String)
    (hsn : core.service_node = true) (hdata : m.data = [data])
    (htag : get_or_u64 data "!" 0 = tag)
    (hhf : ¬ core.hf_version < cfg.HF_VERSION_BLINK)
    (hh : data.find "h" = some (bt_value.int h)) (hh64 : h < U64)
    (hvalid : blink_height_check h core.get_current_blockchain_height = height_verdict.valid)
    (ht : data.find "t" = some (bt_value.str tx_data))
    (hhash : data.find "#" = some (bt_value.str tx_hash)) (hlen : tx_hash.length = 32)
    (hmiss : ∀ entry, blinks.find (h, tx_hash) = some entry → entry.btxptr = none) :
    handle_blink cfg core blinks m =
      handle_blink_quorum cfg core blinks m data tag h tx_data tx_hash := by
  rw [handle_blink_to_payload cfg core blinks m data tag h hsn hdata htag hhf hh hh64 hvalid,
    handle_blink_payload_step cfg core blinks m data tag h tx_data tx_hash ht hhash,
    handle_blink_cache_lookup_miss core blinks m tag h tx_hash hlen hmiss]

/-- C14 (counterexample): on the example member a tagged submission whose announced hash is
too short (the hash-length precondition) and one whose 32-byte announced hash is not the
hash of the tx (the hash-match precondition) are answered with the same error text. -/
theorem C14_counterexample_shared_error_text :
    handle_blink example_config (example_member 100) [] (example_submit_hash "short") =
      Except.ok ⟨[], [⟨example_submitter, "bl.nostart",
        [("!", bt_value.int 42), ("e", bt_value.str "Invalid transaction hash")],
        send_option.plain⟩], [], none⟩ ∧
    handle_blink example_config (example_member 100) [] (example_submit_hash example_other_hash) =
      Except.ok ⟨[], [⟨example_submitter, "bl.nostart",
        [("!", bt_value.int 42), ("e", bt_value.str "Invalid transaction hash")],
        send_option.plain⟩], [], none⟩ ∧
    example_other_hash.length = 32 ∧
    (example_member 100).parse_and_validate_tx_from_blob "tx" =
      some (⟨4, "tx"⟩, example_tx_hash) ∧
    example_other_hash ≠ example_tx_hash := by
  refine ⟨rfl, rfl, by decide, rfl, by decide⟩

/-- C14 (amended): for a tagged `blink.submit` past the hard-fork guard, each violated intake
precondition is answered with one `bl.nostart`: height freshness with "Invalid blink
authorization height", a missing tx blob with "No transaction included in blink request",
the hash length with "Invalid transaction hash", the quorum lookup or checksum with "Unable
to retrieve blink quorum: " followed by the reason, quorum membership with "Blink tx relayed
to non-blink quorum member", tx parsing with "Failed to parse transaction data", the hash
match with "Invalid transaction hash" again, and the strong-peer check with "No quorum peers
are currently reachable". These texts are pairwise distinct except that the hash-length and
the hash-match check share theirs. -/
theorem C14_nostart_error_texts (cfg : blink_config) (core : member_core)
    (blinks : blink_cache) (m : Message) (data : bt_dict) (tag h : Nat)
    (hsn : core.service_node = true) (hdata : m.data = [data])
    (htag : get_or_u64 data "!" 0 = tag) (htag0 : tag ≠ 0)
    (hhf : ¬ core.hf_version < cfg.HF_VERSION_BLINK)
    (hh : data.find "h" = some (bt_value.int h)) (hh64 : h < U64) :
    (blink_height_check h core.get_current_blockchain_height ≠ height_verdict.valid →
      handle_blink cfg core blinks m =
        Except.ok (nostart_return blinks m tag "Invalid blink authorization height")) ∧
    (blink_height_check h core.get_current_blockchain_height = height_verdict.valid →
      (data.find "t" = none →
        handle_blink cfg core blinks m =
          Except.ok (nostart_return blinks m tag "No transaction included in blink request")) ∧
      (∀ tx_data tx_hash, data.find "t" = some (bt_value.str tx_data) →
        data.find "#" = some (bt_value.str tx_hash) →
        (tx_hash.length ≠ 32 →
          handle_blink cfg core blinks m =
            Except.ok (nostart_return blinks m tag "Invalid transaction hash")) ∧
        (tx_hash.length = 32 →
          (∀ entry, blinks.find (h, tx_hash) = some entry → entry.btxptr = none) →
          ∀ q : Nat, data.find "q" = some (bt_value.int q) → q < U64 →
          (∀ what, get_blink_quorums cfg h core.snl (some q) = Except.error what →
            handle_blink cfg core blinks m = Except.ok
              (nostart_return blinks m tag ("Unable to retrieve blink quorum: " ++ what))) ∧
          (∀ qs c, get_blink_quorums cfg h core.snl (some q) = Except.ok (qs, c) →
            (¬ (peer_info.create cfg core.cm core.snl core.my_pubkey qs
                [core.snl.get_pubkey_from_x25519 (x25519_from_string m.conn.pk)]
                false).my_position_count > 0 →
              handle_blink cfg core blinks m = Except.ok
                (nostart_return blinks m tag "Blink tx relayed to non-blink quorum member")) ∧
            ((peer_info.create cfg core.cm core.snl core.my_pubkey qs
                [core.snl.get_pubkey_from_x25519 (x25519_from_string m.conn.pk)]
                false).my_position_count > 0 →
              (core.parse_and_validate_tx_from_blob tx_data = none →
                handle_blink cfg core blinks m = Except.ok
                  (nostart_return blinks m tag "Failed to parse transaction data")) ∧
              (∀ tx actual, core.parse_and_validate_tx_from_blob tx_data = some (tx, actual) →
                (tx_hash ≠ actual →
                  handle_blink cfg core blinks m = Except.ok
                    (nostart_return blinks m tag "Invalid transaction hash")) ∧
                (tx_hash = actual →
                  (peer_info.create cfg core.cm core.snl core.my_pubkey qs
                    [core.snl.get_pubkey_from_x25519 (x25519_from_string m.conn.pk)]
                    false).strong_peers = 0 →
                  handle_blink cfg core blinks m = Except.ok
                    (nostart_return blinks m tag
                      "No quorum peers are currently reachable")))))))) ∧
    (∀ e, nostart_return blinks m tag e =
      ⟨blinks, [⟨m.conn, "bl.nostart", [("!", bt_value.int tag), ("e", bt_value.str e)],
        send_option.plain⟩], [], none⟩) ∧
    ["Invalid blink authorization height", "No transaction included in blink request",
      "Invalid transaction hash", "Blink tx relayed to non-blink quorum member",
      "Failed to parse transaction data", "No quorum peers are currently reachable"].Nodup ∧
    (∀ what, "Unable to retrieve blink quorum: " ++ what ∉
      ["Invalid blink authorization height", "No transaction included in blink request",
        "Invalid transaction hash", "Blink tx relayed to non-blink quorum member",
        "Failed to parse transaction data", "No quorum peers are currently reachable"]) := by
  refine ⟨?_, ?_, ?_, by decide, ?_⟩
  · intro hv
    rw [handle_blink_height_step cfg core blinks m data h hsn hdata hhf hh hh64, htag]
    cases hc : blink_height_check h core.get_current_blockchain_height with
    | too_low => rfl
    | too_high => rfl
    | valid => exact absurd hc hv
  · intro hvalid
    have hpay := handle_blink_to_payload cfg core blinks m data tag h hsn hdata htag hhf hh hh64
      hvalid
    refine ⟨?_, ?_⟩
    · intro ht
      rw [hpay]
      unfold handle_blink_payload
      rw [ht]
      rfl
    · intro tx_data tx_hash ht hhash
      refine ⟨?_, ?_⟩
      · intro hlen
        rw [hpay, handle_blink_payload_step cfg core blinks m data tag h tx_data tx_hash ht hhash]
        unfold handle_blink_cache_lookup
        rw [if_neg hlen]
      · intro hlen hmiss q hq hq64
        have hquorum := handle_blink_to_quorum cfg core blinks m data tag h tx_data tx_hash hsn
          hdata htag hhf hh hh64 hvalid ht hhash hlen hmiss
        refine ⟨?_, ?_⟩
        · intro what herr
          rw [hquorum]
          exact handle_blink_quorum_error cfg core blinks m data tag h q tx_data tx_hash what
            hq hq64 herr
        · intro qs c hok
          have hstep := handle_blink_quorum_ok cfg core blinks m data tag h q tx_data tx_hash
            qs c hq hq64 hok
          refine ⟨?_, ?_⟩
          · intro hcount
            rw [hquorum, hstep, if_pos hcount]
          · intro hcount
            have hncount : ¬ ¬ (peer_info.create cfg core.cm core.snl core.my_pubkey qs
                [core.snl.get_pubkey_from_x25519 (x25519_from_string m.conn.pk)]
                false).my_position_count > 0 := fun hn => hn hcount
            refine ⟨?_, ?_⟩
            · intro hparse
              rw [hquorum, hstep, if_neg hncount, hparse]
            · intro tx actual hparse
              refine ⟨?_, ?_⟩
              · intro hne
                rw [hquorum, hstep, if_neg hncount, hparse]
                simp only
                rw [if_pos hne]
              · intro heq hstrong
                have hnne : ¬ tx_hash ≠ actual := fun hn => hn heq
                rw [hquorum, hstep, if_neg hncount, hparse]
                simp only
                rw [if_neg hnne, if_pos hstrong]
  · intro e
    simp [nostart_return, htag0]
  · intro what hmem
    simp only [List.mem_cons, List.mem_singleton, List.not_mem_nil, or_false] at hmem
    rcases hmem with h1 | h1 | h1 | h1 | h1 | h1 <;>
      exact unable_prefix_ne what _ (by decide) h1

/-- C14 on the example member: the hash-match check answers "Invalid transaction hash", a
wrong checksum answers with the text of the quorum lookup. -/
theorem C14_nostart_error_texts_witness :
    handle_blink example_config (example_member 100) [] (example_submit_hash example_other_hash) =
      Except.ok (nostart_return [] (example_submit_hash example_other_hash) 42
        "Invalid transaction hash") ∧
    handle_blink example_config (example_member 100) [] (example_submit 42 644) =
      Except.ok (nostart_return [] (example_submit 42 644) 42
        ("Unable to retrieve blink quorum: " ++
          "wrong quorum checksum: expected 645, received 644")) := by
  constructor
  · have hall := C14_nostart_error_texts example_config (example_member 100) []
      (example_submit_hash example_other_hash) _ 42 100 rfl rfl rfl (by decide) (by decide) rfl
      (by decide)
    have hq := ((hall.2.1 (by decide)).2 "tx" example_other_hash rfl rfl).2 (by decide)
      (by intro e hf; cases hf) 645 rfl (by decide)
    have hm := (hq.2 [⟨[101, 102, 103], []⟩, ⟨[111, 112, 113], []⟩] 645 rfl).2 (by decide)
    exact (hm.2 ⟨4, "tx"⟩ example_tx_hash rfl).1 (by decide)
  · have hall := C14_nostart_error_texts example_config (example_member 100) []
      (example_submit 42 644) _ 42 100 rfl rfl rfl (by decide) (by decide) rfl (by decide)
    have hq := ((hall.2.1 (by decide)).2 "tx" example_tx_hash rfl rfl).2 (by decide)
      (by intro e hf; cases hf) 644 rfl (by decide)
    exact hq.1 "wrong quorum checksum: expected 645, received 644" rfl

/-! ## Parsing of `quorum.blink_sign` -/

theorem extract_signature_values_ok {α : Type} (key : String)
    (consume : bt_scalar → Except String α)
    (assign : pending_signature → α → pending_signature) (val : bt_scalar → α)
    (xs : List bt_scalar) (sigs : List pending_signature)
    (hlen : xs.length = sigs.length) (hall : ∀ x ∈ xs, consume x = Except.ok (val x)) :
    extract_signature_values key consume assign xs sigs =
      Except.ok (List.zipWith (fun s x => assign s (val x)) sigs xs) := by
  induction xs generalizing sigs with
  | nil =>
    cases sigs with
    | nil => rfl
    | cons s ss => cases hlen
  | cons x rest ih =>
    cases sigs with
    | nil => cases hlen
    | cons s ss =>
      have hrest := ih ss (by simpa using hlen) (fun y hy => hall y (List.mem_cons_of_mem _ hy))
      have hx := hall x (List.mem_cons_self _ _)
      simp only [extract_signature_values, hx, hrest, bind, Except.bind, pure, Except.pure,
        List.zipWith_cons_cons]

theorem extract_signature_values_error {α : Type} (key : String)
    (consume : bt_scalar → Except String α)
    (assign : pending_signature → α → pending_signature)
    (xs : List bt_scalar) (sigs : List pending_signature)
    (hbad : xs.length ≠ sigs.length ∨ ∃ x ∈ xs, ∃ e, consume x = Except.error e) :
    ∃ e, extract_signature_values key consume assign xs sigs = Except.error e := by
  induction xs generalizing sigs with
  | nil =>
    cases sigs with
    | nil =>
      rcases hbad with h | ⟨x, hx, _⟩
      · exact absurd rfl h
      · cases hx
    | cons s ss => exact ⟨_, rfl⟩
  | cons x rest ih =>
    cases sigs with
    | nil => exact ⟨_, rfl⟩
    | cons s ss =>
      cases hx : consume x with
      | error e =>
        exact ⟨e, by simp only [extract_signature_values, hx, bind, Except.bind]⟩
      | ok v =>
        have hrest : rest.length ≠ ss.length ∨ ∃ y ∈ rest, ∃ e, consume y = Except.error e := by
          rcases hbad with h | ⟨y, hy, e, he⟩
          · left
            intro hl
            apply h
            simp [hl]
          · rcases List.mem_cons.mp hy with hyx | hyr
            · rw [hyx, hx] at he
              cases he
            · exact Or.inr ⟨y, hyr, e, he⟩
        obtain ⟨e, he⟩ := ih ss hrest
        exact ⟨e, by simp only [extract_signature_values, hx, he, bind, Except.bind]⟩

theorem parse_quorum_indices_ok (is : List Nat) (hall : ∀ x ∈ is, x < NUM_BLINK_QUORUMS) :
    parse_quorum_indices (is.map (fun x : Nat => bt_scalar.int (x : Int))) =
      Except.ok (is.map (fun x => ⟨false, x, 0, signature_null⟩)) := by
  induction is with
  | nil => rfl
  | cons x rest ih =>
    have hx : x < NUM_BLINK_QUORUMS := hall x (List.mem_cons_self _ _)
    have hrest := ih (fun y hy => hall y (List.mem_cons_of_mem _ hy))
    have h2 : x < 2 := hx
    have hrange : (0 : Int) ≤ (x : Int) ∧ (x : Int) ≤ 255 := by omega
    have hnot : ¬ ((x : Int) ≥ (NUM_BLINK_QUORUMS : Int)) := by
      unfold NUM_BLINK_QUORUMS; omega
    simp only [List.map_cons, parse_quorum_indices, consume_integer, if_pos hrange, bind,
      Except.bind, hnot, if_false, hrest, pure, Except.pure, Int.toNat_ofNat]

theorem parse_quorum_indices_error (is : List Nat) (hbad : ∃ x ∈ is, ¬ x < NUM_BLINK_QUORUMS) :
    ∃ e, parse_quorum_indices (is.map (fun x : Nat => bt_scalar.int (x : Int))) = Except.error e := by
  induction is with
  | nil =>
    obtain ⟨x, hx, _⟩ := hbad
    cases hx
  | cons x rest ih =>
    by_cases hrange : (0 : Int) ≤ (x : Int) ∧ (x : Int) ≤ 255
    · by_cases hq : (x : Int) ≥ (NUM_BLINK_QUORUMS : Int)
      · exact ⟨_, by
          simp only [List.map_cons, parse_quorum_indices, consume_integer, if_pos hrange, bind,
            Except.bind, hq, if_true]
          rfl⟩
      · have hrest : ∃ y ∈ rest, ¬ y < NUM_BLINK_QUORUMS := by
          obtain ⟨y, hy, hny⟩ := hbad
          rcases List.mem_cons.mp hy with hyx | hyr
          · exfalso
            apply hny
            rw [hyx]
            unfold NUM_BLINK_QUORUMS at hq ⊢
            omega
          · exact ⟨y, hyr, hny⟩
        obtain ⟨e, he⟩ := ih hrest
        exact ⟨e, by
          simp only [List.map_cons, parse_quorum_indices, consume_integer, if_pos hrange, bind,
            Except.bind, hq, if_false, he]
          rfl⟩
    · exact ⟨"integer out of range", by
        simp only [List.map_cons, parse_quorum_indices, consume_integer, if_neg hrange, bind,
          Except.bind]⟩

theorem consume_position_ok (cfg : blink_config) (p : Int)
    (hsize : cfg.BLINK_SUBQUORUM_SIZE ≤ 2147483648)
    (hp : 0 ≤ p ∧ p < (cfg.BLINK_SUBQUORUM_SIZE : Int)) :
    consume_position cfg (bt_scalar.int p) = Except.ok p := by
  have hrange : (-2147483648 : Int) ≤ p ∧ p ≤ 2147483647 := by omega
  have hnot : ¬ (p < 0 ∨ p ≥ (cfg.BLINK_SUBQUORUM_SIZE : Int)) := by omega
  simp only [consume_position, consume_integer, if_pos hrange, bind, Except.bind, hnot, if_false]
  rfl

theorem consume_position_error (cfg : blink_config) (p : Int)
    (hp : ¬ (0 ≤ p ∧ p < (cfg.BLINK_SUBQUORUM_SIZE : Int))) :
    ∃ e, consume_position cfg (bt_scalar.int p) = Except.error e := by
  by_cases hrange : (-2147483648 : Int) ≤ p ∧ p ≤ 2147483647
  · have hbad : p < 0 ∨ p ≥ (cfg.BLINK_SUBQUORUM_SIZE : Int) := by omega
    exact ⟨"Invalid blink signature data: invalid quorum position " ++ toString p, by
      simp only [consume_position, consume_integer, if_pos hrange, bind, Except.bind, hbad,
        if_true]⟩
  · exact ⟨"integer out of range", by
      simp only [consume_position, consume_integer, if_neg hrange, bind, Except.bind]⟩

theorem consume_result_ok (b : Bool) : consume_result (result_scalar b) = Except.ok b := by
  cases b <;> rfl

theorem consume_signature_ok (s : String) (hs : s.length = SIGNATURE_SIZE ∧ s ≠ signature_null) :
    consume_signature (bt_scalar.str s) = Except.ok s := by
  have h1 : ¬ s.length ≠ SIGNATURE_SIZE := fun h => h hs.1
  simp only [consume_signature, convert_string_view_bytes_to_signature, if_neg h1, if_neg hs.2]

theorem consume_signature_error (s : String)
    (hs : ¬ (s.length = SIGNATURE_SIZE ∧ s ≠ signature_null)) :
    ∃ e, consume_signature (bt_scalar.str s) = Except.error e := by
  by_cases h1 : s.length ≠ SIGNATURE_SIZE
  · exact ⟨"Invalid signature data size: " ++ toString s.length, by
      simp only [consume_signature, convert_string_view_bytes_to_signature, if_pos h1]⟩
  · have h2 : s = signature_null := by
      by_contra hne
      exact hs ⟨not_not.mp h1, hne⟩
    exact ⟨"Invalid signature data: null signature given", by
      simp only [consume_signature, convert_string_view_bytes_to_signature, if_neg h1, if_pos h2]⟩

theorem parse_blink_sign_unfold (cfg : blink_config) (data : bt_dict) (hash : String)
    (h q : Nat) (il pl rl sl : List bt_scalar)
    (hhash : data.find "#" = some (bt_value.str hash)) (hlen : hash.length = 32)
    (hh : data.find "h" = some (bt_value.int h)) (hh0 : h ≠ 0) (hh64 : h < U64)
    (hq : data.find "q" = some (bt_value.int q)) (hq64 : q < U64)
    (hi : data.find "i" = some (bt_value.list il))
    (hp : data.find "p" = some (bt_value.list pl))
    (hr : data.find "r" = some (bt_value.list rl))
    (hs : data.find "s" = some (bt_value.list sl)) :
    parse_blink_sign cfg data =
      (parse_quorum_indices il).bind (fun sigs0 =>
        (extract_signature_values "p" (consume_position cfg)
          (fun s pos => { s with position := pos }) pl sigs0).bind (fun sigs1 =>
          (extract_signature_values "r" consume_result
            (fun s r => { s with approval := r }) rl sigs1).bind (fun sigs2 =>
            (extract_signature_values "s" consume_signature
              (fun s sig => { s with signature := sig }) sl sigs2).bind (fun sigs3 =>
              Except.ok ⟨hash, h, q, sigs3⟩)))) := by
  have hl : ¬ hash.length ≠ 32 := fun hne => hne hlen
  unfold parse_blink_sign
  simp only [hhash, get_string, hh, get_int_u64_of_nat h hh64, hq, required_list, hi, hp, hr, hs,
    bind, Except.bind, hl, hh0, if_false, pure, Except.pure]
  cases parse_quorum_indices il with
  | error e => rfl
  | ok sigs0 =>
    simp only
    cases extract_signature_values "p" (consume_position cfg)
        (fun s pos => { s with position := pos }) pl sigs0 with
    | error e => rfl
    | ok sigs1 =>
      simp only
      rw [if_pos hq64]

theorem signature_tuples_zip (is : List Nat) (ps : List Int) (rs : List Bool) (ss : List String)
    (vp : bt_scalar → Int) (vr : bt_scalar → Bool) (vs : bt_scalar → String)
    (hvp : ∀ p, vp (bt_scalar.int p) = p) (hvr : ∀ b, vr (result_scalar b) = b)
    (hvs : ∀ s, vs (bt_scalar.str s) = s)
    (h1 : ps.length = is.length) (h2 : rs.length = is.length) (h3 : ss.length = is.length) :
    List.zipWith (fun (s : pending_signature) x => { s with signature := vs x })
      (List.zipWith (fun (s : pending_signature) x => { s with approval := vr x })
        (List.zipWith (fun (s : pending_signature) x => { s with position := vp x })
          (is.map (fun x => (⟨false, x, 0, signature_null⟩ : pending_signature)))
          (ps.map bt_scalar.int))
        (rs.map result_scalar))
      (ss.map bt_scalar.str) = signature_tuples rs is ps ss := by
  induction is generalizing ps rs ss with
  | nil =>
    cases rs <;> simp [signature_tuples]
  | cons i rest ih =>
    cases ps with
    | nil => cases h1
    | cons p ps1 =>
      cases rs with
      | nil => cases h2
      | cons r rs1 =>
        cases ss with
        | nil => cases h3
        | cons s ss1 =>
          have := ih ps1 rs1 ss1 (by simpa using h1) (by simpa using h2) (by simpa using h3)
          simp only [List.map_cons, List.zipWith_cons_cons, signature_tuples, hvp, hvr, hvs, this]

theorem handle_blink_signature_parse_error (cfg : blink_config) (core : member_core)
    (blinks : blink_cache) (m : Message) (data : bt_dict) (e : String)
    (hdata : m.data = [data]) (hparse : parse_blink_sign cfg data = Except.error e) :
    handle_blink_signature cfg core blinks m = Except.error e := by
  unfold handle_blink_signature
  rw [hdata]
  simp only [hparse, bind, Except.bind]

/-- C17. For a `quorum.blink_sign` payload with a 32-byte hash, a non-zero height and a
checksum, whose lists `i`, `p`, `r`, `s` are given as `is`, `ps`, `rs`, `ss`: parsing yields
the list whose `k`-th element is `(rs[k], is[k], ps[k], ss[k])` exactly when `ps`, `rs` and
`ss` have the length of `is`, every index is below `NUM_BLINK_QUORUMS`, every position is at
least 0 and below `BLINK_SUBQUORUM_SIZE`, and every signature is 64 bytes and not all zero;
otherwise parsing fails and the handler ends with that error, without an outcome: the cache
is neither read nor changed and nothing is sent. -/
theorem C17_blink_sign_parse (cfg : blink_config) (data : bt_dict) (hash : String)
    (h q : Nat) (is : List Nat) (ps : List Int) (rs : List Bool) (ss : List String)
    (hsize : cfg.BLINK_SUBQUORUM_SIZE ≤ 2147483648)
    (hhash : data.find "#" = some (bt_value.str hash)) (hlen : hash.length = 32)
    (hh : data.find "h" = some (bt_value.int h)) (hh0 : h ≠ 0) (hh64 : h < U64)
    (hq : data.find "q" = some (bt_value.int q)) (hq64 : q < U64)
    (hi : data.find "i" = some (bt_value.list (is.map (fun x : Nat => bt_scalar.int (x : Int)))))
    (hp : data.find "p" = some (bt_value.list (ps.map bt_scalar.int)))
    (hr : data.find "r" = some (bt_value.list (rs.map result_scalar)))
    (hs : data.find "s" = some (bt_value.list (ss.map bt_scalar.str))) :
    ((ps.length = is.length ∧ rs.length = is.length ∧ ss.length = is.length ∧
        (∀ x ∈ is, x < NUM_BLINK_QUORUMS) ∧
        (∀ p ∈ ps, 0 ≤ p ∧ p < (cfg.BLINK_SUBQUORUM_SIZE : Int)) ∧
        (∀ s ∈ ss, s.length = SIGNATURE_SIZE ∧ s ≠ signature_null)) →
      parse_blink_sign cfg data = Except.ok ⟨hash, h, q, signature_tuples rs is ps ss⟩ ∧
      (signature_tuples rs is ps ss).length = is.length) ∧
    (¬ (ps.length = is.length ∧ rs.length = is.length ∧ ss.length = is.length ∧
        (∀ x ∈ is, x < NUM_BLINK_QUORUMS) ∧
        (∀ p ∈ ps, 0 ≤ p ∧ p < (cfg.BLINK_SUBQUORUM_SIZE : Int)) ∧
        (∀ s ∈ ss, s.length = SIGNATURE_SIZE ∧ s ≠ signature_null)) →
      ∃ e, parse_blink_sign cfg data = Except.error e ∧
        ∀ (core : member_core) (blinks : blink_cache) (m : Message), m.data = [data] →
          handle_blink_signature cfg core blinks m = Except.error e) := by
  have hunfold := parse_blink_sign_unfold cfg data hash h q _ _ _ _ hhash hlen hh hh0 hh64 hq hq64
    hi hp hr hs
  have hposval : ∀ p, bt_scalar.int_value (bt_scalar.int p) = p := fun _ => rfl
  have hresval : ∀ b, bt_scalar.is_one (result_scalar b) = b := by
    intro b; cases b <;> decide
  have hsigval : ∀ s, bt_scalar.str_value (bt_scalar.str s) = s := fun _ => rfl
  have hstage_r : ∀ sigs : List pending_signature, rs.length = sigs.length →
      extract_signature_values "r" consume_result
        (fun s r => { s with approval := r }) (rs.map result_scalar) sigs =
      Except.ok (List.zipWith (fun (s : pending_signature) x =>
        { s with approval := bt_scalar.is_one x }) sigs (rs.map result_scalar)) := by
    intro sigs hl
    apply extract_signature_values_ok "r" consume_result _
      bt_scalar.is_one _ sigs (by simpa using hl)
    intro x hx
    obtain ⟨b, _, hb⟩ := List.mem_map.mp hx
    rw [← hb, consume_result_ok, hresval]
  constructor
  · rintro ⟨h1, h2, h3, hig, hpg, hsg⟩
    have hzip := signature_tuples_zip is ps rs ss bt_scalar.int_value bt_scalar.is_one
      bt_scalar.str_value hposval hresval hsigval h1 h2 h3
    have hlen_out : (signature_tuples rs is ps ss).length = is.length := by
      rw [← hzip]
      simp [List.length_zipWith, h1, h2, h3]
    refine ⟨?_, hlen_out⟩
    have hstage_p := extract_signature_values_ok "p" (consume_position cfg)
      (fun s pos => { s with position := pos })
      bt_scalar.int_value
      (ps.map bt_scalar.int)
      (is.map (fun x => (⟨false, x, 0, signature_null⟩ : pending_signature)))
      (by simp [h1])
      (by
        intro x hx
        obtain ⟨p, hpm, hpe⟩ := List.mem_map.mp hx
        rw [← hpe]
        exact consume_position_ok cfg p hsize (hpg p hpm))
    have hstage_s := extract_signature_values_ok "s" consume_signature
      (fun s sig => { s with signature := sig })
      bt_scalar.str_value
      (ss.map bt_scalar.str)
      (List.zipWith (fun (s : pending_signature) x =>
          { s with approval := bt_scalar.is_one x })
        (List.zipWith (fun (s : pending_signature) x => { s with position := bt_scalar.int_value x })
          (is.map (fun x => (⟨false, x, 0, signature_null⟩ : pending_signature)))
          (ps.map bt_scalar.int))
        (rs.map result_scalar))
      (by simp [List.length_zipWith, h1, h2, h3])
      (by
        intro x hx
        obtain ⟨s, hsm, hse⟩ := List.mem_map.mp hx
        rw [← hse]
        exact consume_signature_ok s (hsg s hsm))
    rw [hunfold, parse_quorum_indices_ok is hig]
    simp only [Except.bind]
    rw [hstage_p]
    simp only
    rw [hstage_r _ (by simp [List.length_zipWith, h1, h2])]
    simp only
    rw [hstage_s]
    simp only
    rw [hzip]
  · intro hbad
    have herr : ∃ e, parse_blink_sign cfg data = Except.error e := by
      rw [hunfold]
      by_cases hig : ∀ x ∈ is, x < NUM_BLINK_QUORUMS
      · rw [parse_quorum_indices_ok is hig]
        simp only [Except.bind]
        by_cases hpg : ps.length = is.length ∧ ∀ p ∈ ps, 0 ≤ p ∧ p < (cfg.BLINK_SUBQUORUM_SIZE : Int)
        · have hstage_p := extract_signature_values_ok "p" (consume_position cfg)
            (fun s pos => { s with position := pos })
            bt_scalar.int_value
            (ps.map bt_scalar.int)
            (is.map (fun x => (⟨false, x, 0, signature_null⟩ : pending_signature)))
            (by simp [hpg.1])
            (by
              intro x hx
              obtain ⟨p, hpm, hpe⟩ := List.mem_map.mp hx
              rw [← hpe]
              exact consume_position_ok cfg p hsize (hpg.2 p hpm))
          rw [hstage_p]
          simp only
          by_cases hrg : rs.length = is.length
          · rw [hstage_r _ (by simp [List.length_zipWith, hpg.1, hrg])]
            simp only
            have hsb : ¬ (ss.length = is.length ∧
                ∀ s ∈ ss, s.length = SIGNATURE_SIZE ∧ s ≠ signature_null) :=
              fun hsg => hbad ⟨hpg.1, hrg, hsg.1, hig, hpg.2, hsg.2⟩
            obtain ⟨e, he⟩ := extract_signature_values_error "s" consume_signature
              (fun s sig => { s with signature := sig }) (ss.map bt_scalar.str)
              (List.zipWith (fun (s : pending_signature) x =>
                  { s with approval := bt_scalar.is_one x })
                (List.zipWith (fun (s : pending_signature) x => { s with position := bt_scalar.int_value x })
                  (is.map (fun x => (⟨false, x, 0, signature_null⟩ : pending_signature)))
                  (ps.map bt_scalar.int))
                (rs.map result_scalar))
              (by
                by_cases hsl : ss.length = is.length
                · right
                  have hex : ∃ s ∈ ss, ¬ (s.length = SIGNATURE_SIZE ∧ s ≠ signature_null) := by
                    by_contra hno
                    push_neg at hno
                    exact hsb ⟨hsl, fun s hs => hno s hs⟩
                  obtain ⟨s, hsm, hsn⟩ := hex
                  obtain ⟨e, he⟩ := consume_signature_error s hsn
                  exact ⟨bt_scalar.str s, List.mem_map.mpr ⟨s, hsm, rfl⟩, e, he⟩
                · left
                  simp [List.length_zipWith, hpg.1, hrg, hsl])
            rw [he]
            exact ⟨e, rfl⟩
          · obtain ⟨e, he⟩ := extract_signature_values_error "r" consume_result
              (fun s r => { s with approval := r }) (rs.map result_scalar)
              (List.zipWith (fun (s : pending_signature) x => { s with position := bt_scalar.int_value x })
                (is.map (fun x => (⟨false, x, 0, signature_null⟩ : pending_signature)))
                (ps.map bt_scalar.int))
              (Or.inl (by simp [List.length_zipWith, hpg.1, hrg]))
            rw [he]
            exact ⟨e, rfl⟩
        · obtain ⟨e, he⟩ := extract_signature_values_error "p" (consume_position cfg)
            (fun s pos => { s with position := pos }) (ps.map bt_scalar.int)
            (is.map (fun x => (⟨false, x, 0, signature_null⟩ : pending_signature)))
            (by
              by_cases hpl : ps.length = is.length
              · right
                have hex : ∃ p ∈ ps, ¬ (0 ≤ p ∧ p < (cfg.BLINK_SUBQUORUM_SIZE : Int)) := by
                  by_contra hno
                  push_neg at hno
                  exact hpg ⟨hpl, fun p hp => hno p hp⟩
                obtain ⟨p, hpm, hpn⟩ := hex
                obtain ⟨e, he⟩ := consume_position_error cfg p hpn
                exact ⟨bt_scalar.int p, List.mem_map.mpr ⟨p, hpm, rfl⟩, e, he⟩
              · left
                simp [hpl])
          rw [he]
          exact ⟨e, rfl⟩
      · have hex : ∃ x ∈ is, ¬ x < NUM_BLINK_QUORUMS := by
          by_contra hno
          push_neg at hno
          exact hig (fun x hx => hno x hx)
        obtain ⟨e, he⟩ := parse_quorum_indices_error is hex
        rw [he]
        exact ⟨e, rfl⟩
    obtain ⟨e, he⟩ := herr
    exact ⟨e, he, fun core blinks m hdata =>
      handle_blink_signature_parse_error cfg core blinks m data e hdata he⟩

/-- C17 on the example bundles: the bundle with one element of each list parses to the one
tuple; the bundle whose list `p` is empty makes the handler fail. -/
theorem C17_blink_sign_parse_witness :
    parse_blink_sign example_config
        [("#", bt_value.str example_tx_hash), ("h", bt_value.int 100),
          ("i", bt_value.list [bt_scalar.int 0]), ("p", bt_value.list [bt_scalar.int 1]),
          ("q", bt_value.int 645), ("r", bt_value.list [bt_scalar.int 1]),
          ("s", bt_value.list [bt_scalar.str example_signature])] =
      Except.ok ⟨example_tx_hash, 100, 645, [⟨true, 0, 1, example_signature⟩]⟩ ∧
    (∃ e, handle_blink_signature example_config (example_member 100) example_cache_approved
      example_blink_sign_short = Except.error e) := by
  constructor
  · exact ((C17_blink_sign_parse example_config
      [("#", bt_value.str example_tx_hash), ("h", bt_value.int 100),
        ("i", bt_value.list [bt_scalar.int 0]), ("p", bt_value.list [bt_scalar.int 1]),
        ("q", bt_value.int 645), ("r", bt_value.list [bt_scalar.int 1]),
        ("s", bt_value.list [bt_scalar.str example_signature])]
      example_tx_hash 100 645 [0] [1] [true]
      [example_signature] (by decide) rfl (by decide) rfl (by decide) (by decide) rfl (by decide)
      rfl rfl rfl rfl).1 ⟨rfl, rfl, rfl, by decide, by decide, by decide⟩).1
  · obtain ⟨e, _, he⟩ := (C17_blink_sign_parse example_config
      [("#", bt_value.str example_tx_hash), ("h", bt_value.int 100),
        ("i", bt_value.list [bt_scalar.int 0]), ("p", bt_value.list []),
        ("q", bt_value.int 645), ("r", bt_value.list [bt_scalar.int 1]),
        ("s", bt_value.list [bt_scalar.str example_signature])]
      example_tx_hash 100 645 [0] []
      [true] [example_signature] (by decide) rfl (by decide) rfl (by decide) (by decide) rfl
      (by decide) rfl rfl rfl rfl).2 (by decide)
    exact ⟨e, he (example_member 100) example_cache_approved example_blink_sign_short rfl⟩

/-! ## A failed quorum lookup in `send_blink` -/

theorem promise_table.find_append_new (t : promise_table) (tag : Nat) (v : blink_result_data)
    (hnone : t.find tag = none) : promise_table.find (t ++ [(tag, v)]) tag = some v := by
  induction t with
  | nil => simp [promise_table.find]
  | cons kv rest ih =>
    obtain ⟨k, w⟩ := kv
    rw [promise_table.find_cons] at hnone
    by_cases hk : k = tag
    · rw [if_pos hk] at hnone; cases hnone
    · rw [if_neg hk] at hnone
      rw [List.cons_append, promise_table.find_cons, if_neg hk]
      exact ih hnone

theorem send_blink_try_lookup_error (cfg : blink_config) (core : originator_core)
    (blink_tag : Nat) (tx_hash tx_blob what : String) (shuffle : List Nat → List Nat)
    (herr : get_blink_quorums cfg core.get_current_blockchain_height core.snl none =
      Except.error what) :
    send_blink_try cfg core blink_tag tx_hash tx_blob shuffle = (none, [], some what) := by
  unfold send_blink_try
  simp only [herr]

theorem send_blink_try_relay (cfg : blink_config) (core : originator_core)
    (blink_tag : Nat) (tx_hash tx_blob : String) (shuffle : List Nat → List Nat)
    (quorums : quorum_array) (checksum : Nat)
    (hok : get_blink_quorums cfg core.get_current_blockchain_height core.snl none =
      Except.ok (quorums, checksum)) :
    send_blink_try cfg core blink_tag tx_hash tx_blob shuffle =
      (some (peer_prepare_relay_to_quorum_subset cfg core.snl quorums 4 shuffle).length,
        relay_until_throw core.lmq_send_throws
          (peer_relay_to_prepared_destinations
            (peer_prepare_relay_to_quorum_subset cfg core.snl quorums 4 shuffle) "blink.submit"
            [("!", bt_value.int blink_tag), ("#", bt_value.str tx_hash),
              ("h", bt_value.int core.get_current_blockchain_height),
              ("q", bt_value.int checksum), ("t", bt_value.str tx_blob)])) := by
  unfold send_blink_try
  simp only [hok]

theorem relay_until_throw_spec (send_throws : Sent → Option String) (msgs : List Sent) :
    (∃ rest, msgs = (relay_until_throw send_throws msgs).1 ++ rest) ∧
    (∀ m ∈ (relay_until_throw send_throws msgs).1, send_throws m = none) ∧
    ((relay_until_throw send_throws msgs).2 = none →
      (relay_until_throw send_throws msgs).1 = msgs) ∧
    (∀ what, (relay_until_throw send_throws msgs).2 = some what →
      ∃ m rest, msgs = (relay_until_throw send_throws msgs).1 ++ m :: rest ∧
        send_throws m = some what) := by
  induction msgs with
  | nil =>
    refine ⟨⟨[], rfl⟩, fun m hm => absurd hm (List.not_mem_nil m), fun _ => rfl, ?_⟩
    intro what h
    cases h
  | cons m rest ih =>
    cases hm : send_throws m with
    | some w =>
      simp only [relay_until_throw, hm]
      refine ⟨⟨m :: rest, rfl⟩, fun x hx => absurd hx (List.not_mem_nil x), ?_, ?_⟩
      · intro h
        cases h
      · intro what h
        injection h with h
        exact ⟨m, rest, rfl, by rw [hm, h]⟩
    | none =>
      simp only [relay_until_throw, hm]
      obtain ⟨⟨r, hr⟩, hsent, hall, hthrow⟩ := ih
      refine ⟨⟨r, by rw [List.cons_append, ← hr]⟩, ?_, ?_, ?_⟩
      · intro x hx
        rcases List.mem_cons.mp hx with h | h
        · rw [h]; exact hm
        · exact hsent x h
      · intro h
        rw [hall h]
      · intro what h
        obtain ⟨x, r2, hx, hx2⟩ := hthrow what h
        exact ⟨x, r2, by rw [List.cons_append, ← hx], hx2⟩

theorem send_blink_catch_unset (t : promise_table) (blink_tag : Nat) (what : String)
    (e : blink_result_data) (hfind : t.find blink_tag = some e)
    (hunset : e.promise = promise_state.unset) :
    (send_blink_catch t blink_tag what).2 = promise_state.exception what ∧
      (send_blink_catch t blink_tag what).1.find blink_tag =
        some { e with promise := promise_state.exception what } := by
  unfold send_blink_catch
  simp only [hfind, hunset]
  exact ⟨trivial, promise_table.find_modify_self t blink_tag
    (fun e => { e with promise := promise_state.exception what }) e hfind⟩

theorem send_blink_fanout_failed (cfg : blink_config) (core : originator_core)
    (t : promise_table) (blink_tag : Nat) (tx_hash tx_blob what : String)
    (shuffle : List Nat → List Nat) (e : blink_result_data)
    (hfail : (send_blink_try cfg core blink_tag tx_hash tx_blob shuffle).2.2 = some what)
    (hfind : t.find blink_tag = some e) (hunset : e.promise = promise_state.unset) :
    (send_blink_fanout cfg core t blink_tag tx_hash tx_blob shuffle).2.1 =
        promise_state.exception what ∧
      (∃ e1, (send_blink_fanout cfg core t blink_tag tx_hash tx_blob shuffle).1.find blink_tag =
        some e1 ∧ e1.promise = promise_state.exception what) ∧
      (send_blink_fanout cfg core t blink_tag tx_hash tx_blob shuffle).2.2 =
        (send_blink_try cfg core blink_tag tx_hash tx_blob shuffle).2.1 := by
  have ht1 : ∃ e0, (match (send_blink_try cfg core blink_tag tx_hash tx_blob shuffle).1 with
      | some remote_count =>
        t.modify blink_tag (fun e => { e with remote_count := remote_count })
      | none => t).find blink_tag = some e0 ∧ e0.promise = promise_state.unset := by
    cases (send_blink_try cfg core blink_tag tx_hash tx_blob shuffle).1 with
    | none => exact ⟨e, hfind, hunset⟩
    | some n =>
      exact ⟨_, promise_table.find_modify_self t blink_tag
        (fun e => { e with remote_count := n }) e hfind, hunset⟩
  obtain ⟨e0, hfind0, hunset0⟩ := ht1
  have hcatch := send_blink_catch_unset _ blink_tag what e0 hfind0 hunset0
  unfold send_blink_fanout
  dsimp only
  rw [hfail]
  exact ⟨hcatch.1, ⟨_, hcatch.2, rfl⟩, rfl⟩

theorem send_blink_stored (cfg : blink_config) (core : originator_core)
    (t : promise_table) (tx_blob : String) (now now_store : Nat) (rng : List Nat)
    (shuffle : List Nat → List Nat) (out : send_blink_outcome) (tx_hash : String)
    (hparse : core.parse_and_validate_tx_from_blob tx_blob = some tx_hash)
    (hrun : send_blink cfg core t tx_blob now now_store rng shuffle = some out)
    (hstored : out.blink_tag ≠ 0) :
    ∃ t1 e, t1.find out.blink_tag = some e ∧ e.promise = promise_state.unset ∧
      out.table = (send_blink_fanout cfg core t1 out.blink_tag tx_hash tx_blob shuffle).1 ∧
      out.future = (send_blink_fanout cfg core t1 out.blink_tag tx_hash tx_blob shuffle).2.1 ∧
      out.sent = (send_blink_fanout cfg core t1 out.blink_tag tx_hash tx_blob shuffle).2.2 := by
  rw [send_blink_unfold cfg core t tx_blob now now_store rng shuffle tx_hash hparse] at hrun
  by_cases hf : (send_blink_sweep now tx_hash t).found = true
  · rw [if_pos hf] at hrun
    injection hrun with hrun
    rw [← hrun] at hstored
    exact absurd rfl hstored
  · rw [if_neg hf] at hrun
    by_cases hl : (send_blink_sweep now tx_hash t).table.length ≥ MAX_ACTIVE_PROMISES
    · rw [if_pos hl] at hrun
      injection hrun with hrun
      rw [← hrun] at hstored
      exact absurd rfl hstored
    · rw [if_neg hl] at hrun
      cases hpick : pick_blink_tag (send_blink_sweep now tx_hash t).table rng with
      | none => rw [hpick] at hrun; cases hrun
      | some r =>
        rw [hpick] at hrun
        simp only [Option.bind] at hrun
        injection hrun with hrun
        obtain ⟨_, hfree, _⟩ := pick_blink_tag_some _ rng r hpick
        have hfind := promise_table.find_append_new (send_blink_sweep now tx_hash t).table r
          ⟨tx_hash, promise_state.unset, now_store + THIRTY_SECONDS, 0, 0⟩ hfree
        rw [← hrun]
        exact ⟨_, _, hfind, rfl, rfl, rfl, rfl⟩
/-- C16 (counterexample): on the chain without a blink quorum the lookup inside `send_blink`
throws after the promise was stored under tag 42; the returned future then holds the
exception `failed to obtain a blink quorum`, not a value `(rejected, reason)`. The same
happens when the transport throws on the third send of the fan-out: the future holds the
exception `send failed`. -/
theorem C16_counterexample_future_holds_exception :
    (send_blink example_config example_originator_no_quorum [] "tx" 0 0 [42] id).map
        (fun o => (o.blink_tag, o.future)) =
      some (42, promise_state.exception "failed to obtain a blink quorum") ∧
    (send_blink example_config example_originator_failing_send [] "tx" 0 0 [42] id).map
        (fun o => (o.blink_tag, o.future)) =
      some (42, promise_state.exception "send failed") ∧
    ∀ what reason : String,
      promise_state.exception what ≠ promise_state.value (blink_result.rejected, reason) := by
  refine ⟨by decide, by decide, ?_⟩
  intro what reason h
  cases h

/-- C16 (amended): when the `try` block of `send_blink` ends with an exception after the
promise was stored, thrown by the quorum lookup or by a send of the fan-out, the promise of
the stored entry and with it the returned future are satisfied with that exception, not with
a value; the messages handed to the transport before the exception stay sent, none when the
lookup fails; the RPC submission path, which gets the exception from the future, reports
`blink_status` rejected with status "Failed" and the reason "Transaction failed: " followed
by the text of the exception. The block ends with the exception of the lookup when the lookup
throws, and else with the exception of the first send that throws. -/
theorem C16_failed_submission_sets_exception (cfg : blink_config) (core : originator_core)
    (t : promise_table) (tx_blob : String) (now now_store : Nat) (rng : List Nat)
    (shuffle : List Nat → List Nat) (out : send_blink_outcome) (tx_hash what : String)
    (hparse : core.parse_and_validate_tx_from_blob tx_blob = some tx_hash)
    (hrun : send_blink cfg core t tx_blob now now_store rng shuffle = some out)
    (hstored : out.blink_tag ≠ 0)
    (hfail : (send_blink_try cfg core out.blink_tag tx_hash tx_blob shuffle).2.2 = some what) :
    out.future = promise_state.exception what ∧
    (∃ e, out.table.find out.blink_tag = some e ∧ e.promise = promise_state.exception what) ∧
    out.sent = (send_blink_try cfg core out.blink_tag tx_hash tx_blob shuffle).2.1 ∧
    (∀ reason, out.future ≠ promise_state.value (blink_result.rejected, reason)) ∧
    (∀ status_ok, rpc_send_raw_tx_blink status_ok out.future =
      ⟨"Failed", "Transaction failed: " ++ what, blink_result.rejected⟩) ∧
    (∀ w, get_blink_quorums cfg core.get_current_blockchain_height core.snl none =
        Except.error w →
      what = w ∧ out.sent = []) ∧
    (∀ quorums checksum,
      get_blink_quorums cfg core.get_current_blockchain_height core.snl none =
        Except.ok (quorums, checksum) →
      ∃ m rest,
        peer_relay_to_prepared_destinations
            (peer_prepare_relay_to_quorum_subset cfg core.snl quorums 4 shuffle) "blink.submit"
            [("!", bt_value.int out.blink_tag), ("#", bt_value.str tx_hash),
              ("h", bt_value.int core.get_current_blockchain_height),
              ("q", bt_value.int checksum), ("t", bt_value.str tx_blob)] =
          out.sent ++ m :: rest ∧
        core.lmq_send_throws m = some what ∧
        ∀ x ∈ out.sent, core.lmq_send_throws x = none) := by
  obtain ⟨t1, e, hfind, hunset, htable, hfuture, hsent⟩ :=
    send_blink_stored cfg core t tx_blob now now_store rng shuffle out tx_hash hparse hrun hstored
  obtain ⟨hfut, ⟨e1, he1, he1p⟩, hs⟩ :=
    send_blink_fanout_failed cfg core t1 out.blink_tag tx_hash tx_blob what shuffle e hfail
      hfind hunset
  have hfut2 : out.future = promise_state.exception what := hfuture.trans hfut
  have hsent2 : out.sent = (send_blink_try cfg core out.blink_tag tx_hash tx_blob shuffle).2.1 :=
    hsent.trans hs
  refine ⟨hfut2, ⟨e1, by rw [htable]; exact he1, he1p⟩, hsent2, ?_, ?_, ?_, ?_⟩
  · intro reason h
    rw [hfut2] at h
    cases h
  · intro status_ok
    rw [hfut2]
    rfl
  · intro w herr
    have htry := send_blink_try_lookup_error cfg core out.blink_tag tx_hash tx_blob w shuffle herr
    rw [htry] at hfail
    rw [hsent2, htry]
    injection hfail with hfail
    exact ⟨hfail.symm, rfl⟩
  · intro quorums checksum hok
    have htry := send_blink_try_relay cfg core out.blink_tag tx_hash tx_blob shuffle quorums
      checksum hok
    rw [htry] at hfail
    rw [hsent2, htry]
    have hspec := relay_until_throw_spec core.lmq_send_throws
      (peer_relay_to_prepared_destinations
        (peer_prepare_relay_to_quorum_subset cfg core.snl quorums 4 shuffle) "blink.submit"
        [("!", bt_value.int out.blink_tag), ("#", bt_value.str tx_hash),
          ("h", bt_value.int core.get_current_blockchain_height),
          ("q", bt_value.int checksum), ("t", bt_value.str tx_blob)])
    obtain ⟨m, rest, hm, hm2⟩ := hspec.2.2.2 what hfail
    exact ⟨m, rest, hm, hm2, hspec.2.1⟩

/-- C16 (witness): on the chain without a blink quorum the lookup throws and nothing is sent;
on the example chain with a transport that throws on the send to service node 103, two
messages are sent before the exception. In both cases the RPC path reports the failure. -/
theorem C16_failed_submission_sets_exception_witness :
    (∃ out, send_blink example_config example_originator_no_quorum [] "tx" 0 0 [42] id =
        some out ∧
      out.future = promise_state.exception "failed to obtain a blink quorum" ∧
      out.sent = [] ∧
      rpc_send_raw_tx_blink "OK" out.future =
        ⟨"Failed", "Transaction failed: failed to obtain a blink quorum",
          blink_result.rejected⟩) ∧
    (∃ out, send_blink example_config example_originator_failing_send [] "tx" 0 0 [42] id =
        some out ∧
      out.future = promise_state.exception "send failed" ∧
      out.sent.map (fun m => m.dest) =
        [ConnectionID.of_pubkey (example_x25519 101),
          ConnectionID.of_pubkey (example_x25519 102)] ∧
      rpc_send_raw_tx_blink "OK" out.future =
        ⟨"Failed", "Transaction failed: send failed", blink_result.rejected⟩) := by
  constructor
  · have hrun : send_blink example_config example_originator_no_quorum [] "tx" 0 0 [42] id =
        some ⟨example_failed_table, 42,
          promise_state.exception "failed to obtain a blink quorum", [], []⟩ := by decide
    have h := C16_failed_submission_sets_exception example_config example_originator_no_quorum
      [] "tx" 0 0 [42] id _ "tx" "failed to obtain a blink quorum" rfl hrun (by decide) rfl
    exact ⟨_, hrun, h.1, (h.2.2.2.2.2.1 "failed to obtain a blink quorum" rfl).2,
      h.2.2.2.2.1 "OK"⟩
  · cases hrun : send_blink example_config example_originator_failing_send [] "tx" 0 0 [42] id with
    | none => exact absurd hrun (by decide)
    | some out =>
      have htag : out.blink_tag = 42 := by
        have h : (send_blink example_config example_originator_failing_send [] "tx" 0 0 [42]
            id).map (fun o => o.blink_tag) = some 42 := by decide
        rw [hrun] at h
        exact Option.some.inj h
      have hdest : out.sent.map (fun m => m.dest) =
          [ConnectionID.of_pubkey (example_x25519 101),
            ConnectionID.of_pubkey (example_x25519 102)] := by
        have h : (send_blink example_config example_originator_failing_send [] "tx" 0 0 [42]
            id).map (fun o => o.sent.map (fun m => m.dest)) =
            some [ConnectionID.of_pubkey (example_x25519 101),
              ConnectionID.of_pubkey (example_x25519 102)] := by decide
        rw [hrun] at h
        exact Option.some.inj h
      have h := C16_failed_submission_sets_exception example_config
        example_originator_failing_send [] "tx" 0 0 [42] id out "tx" "send failed" rfl hrun
        (by rw [htag]; decide) (by rw [htag]; decide)
      exact ⟨out, rfl, h.1, hdest, h.2.2.2.2.1 "OK"⟩

/-! ## The subset planner -/

theorem version_gt_total (a b : version_t) : version_gt b a = false ∨ version_gt a b = false := by
  obtain ⟨a1, a2, a3⟩ := a
  obtain ⟨b1, b2, b3⟩ := b
  simp only [version_gt, Bool.or_eq_false_iff, Bool.and_eq_false_iff, decide_eq_false_iff_not]
  omega

theorem version_gt_trans (a b c : version_t) (hab : version_gt b a = false)
    (hbc : version_gt c b = false) : version_gt c a = false := by
  obtain ⟨a1, a2, a3⟩ := a
  obtain ⟨b1, b2, b3⟩ := b
  obtain ⟨c1, c2, c3⟩ := c
  simp only [version_gt, Bool.or_eq_false_iff, Bool.and_eq_false_iff,
    decide_eq_false_iff_not] at hab hbc ⊢
  omega

theorem peer_prepare_relay_to_quorum_subset_eq (cfg : blink_config) (snl : service_node_list)
    (quorums : List quorum) (num_peers : Nat) (shuffle : List Nat → List Nat) :
    peer_prepare_relay_to_quorum_subset cfg snl quorums num_peers shuffle =
      (subset_chosen cfg snl quorums num_peers shuffle).filterMap (fun i =>
        match (subset_remotes cfg snl quorums).get? i with
        | some r => some ⟨r.1, r.2.1⟩
        | none => none) := rfl

theorem subset_sorted_spec (ver : Nat → version_t) (l : List Nat) (num_peers : Nat) :
    ((List.insertionSort (fun a b => version_gt (ver b) (ver a) = false) l).take num_peers).Perm
        ((List.insertionSort (fun a b => version_gt (ver b) (ver a) = false) l).take num_peers) ∧
    (List.insertionSort (fun a b => version_gt (ver b) (ver a) = false) l).Perm l ∧
    (List.insertionSort (fun a b => version_gt (ver b) (ver a) = false) l).Pairwise
      (fun a b => version_gt (ver b) (ver a) = false) := by
  haveI : IsTotal Nat (fun a b => version_gt (ver b) (ver a) = false) :=
    ⟨fun a b => version_gt_total (ver a) (ver b)⟩
  haveI : IsTrans Nat (fun a b => version_gt (ver b) (ver a) = false) :=
    ⟨fun a b c hab hbc => version_gt_trans (ver a) (ver b) (ver c) hab hbc⟩
  exact ⟨List.Perm.refl _, List.perm_insertionSort _ l, List.sorted_insertionSort _ l⟩

theorem filterMap_eq_pmap_of_some {D : Type} (g : Nat → Option D) (n : Nat)
    (h : (i : Nat) → i < n → D) (hg : ∀ i hi, g i = some (h i hi)) (chosen : List Nat)
    (hbound : ∀ i ∈ chosen, i < n) : chosen.filterMap g = chosen.pmap h hbound := by
  induction chosen with
  | nil => rfl
  | cons i rest ih =>
    have hi := hbound i (List.mem_cons_self _ _)
    rw [List.filterMap_cons, List.pmap, hg i hi]
    simp only
    rw [ih (fun j hj => hbound j (List.mem_cons_of_mem _ hj))]

theorem pmap_get_map_some {R D : Type} (remotes : List R) (f : R → D) (chosen : List Nat)
    (hbound : ∀ i ∈ chosen, i < remotes.length) :
    (chosen.pmap (fun i (hi : i < remotes.length) => f (remotes.get ⟨i, hi⟩)) hbound).map some =
      chosen.map (fun i => (remotes.get? i).map f) := by
  induction chosen with
  | nil => rfl
  | cons i rest ih =>
    have hi := hbound i (List.mem_cons_self _ _)
    simp only [List.pmap, List.map_cons, List.get?_eq_get hi, Option.map_some']
    rw [ih (fun j hj => hbound j (List.mem_cons_of_mem _ hj))]

/-- C18 (counterexample): the candidates 101 and 102 are registered with the same x25519 key
and address; both resolve, and the two destinations returned are equal, for the identity and
for the reversal as the outcome of the shuffle. -/
theorem C18_counterexample_equal_destinations :
    peer_prepare_relay_to_quorum_subset example_config example_shared_snl
        [⟨[101, 102], []⟩] 4 id =
      [⟨example_x25519 101, "tcp://127.0.0.1:22020"⟩,
        ⟨example_x25519 101, "tcp://127.0.0.1:22020"⟩] ∧
    peer_prepare_relay_to_quorum_subset example_config example_shared_snl
        [⟨[101, 102], []⟩] 4 List.reverse =
      [⟨example_x25519 101, "tcp://127.0.0.1:22020"⟩,
        ⟨example_x25519 101, "tcp://127.0.0.1:22020"⟩] ∧
    (subset_remotes example_config example_shared_snl [⟨[101, 102], []⟩]).length = 2 ∧
    ¬ (peer_prepare_relay_to_quorum_subset example_config example_shared_snl
        [⟨[101, 102], []⟩] 4 id).Nodup := by
  refine ⟨by decide, by decide, by decide, by decide⟩

/-- C18 (amended). Whatever the candidates, the number `N` and the outcome of the shuffle (a
permutation of the indices of the resolved remotes), `peer_prepare_relay_to_quorum_subset`
returns exactly `min N (number of resolved remotes)` destinations; they are the resolved
remotes at pairwise distinct indices, and pairwise distinct as values whenever the resolved
remotes have pairwise distinct key and address; they are listed in non-increasing software
version, and no resolved remote left out has a version strictly greater than a returned
one. -/
theorem C18_subset_selection (cfg : blink_config) (snl : service_node_list)
    (quorums : List quorum) (num_peers : Nat) (shuffle : List Nat → List Nat)
    (hshuffle : (shuffle (List.range (subset_remotes cfg snl quorums).length)).Perm
      (List.range (subset_remotes cfg snl quorums).length)) :
    (peer_prepare_relay_to_quorum_subset cfg snl quorums num_peers shuffle).length =
      min num_peers (subset_remotes cfg snl quorums).length ∧
    (subset_chosen cfg snl quorums num_peers shuffle).Nodup ∧
    (∀ i ∈ subset_chosen cfg snl quorums num_peers shuffle,
      i < (subset_remotes cfg snl quorums).length) ∧
    (peer_prepare_relay_to_quorum_subset cfg snl quorums num_peers shuffle).map some =
      (subset_chosen cfg snl quorums num_peers shuffle).map (fun i =>
        ((subset_remotes cfg snl quorums).get? i).map (fun r => ⟨r.1, r.2.1⟩)) ∧
    (∀ d ∈ peer_prepare_relay_to_quorum_subset cfg snl quorums num_peers shuffle,
      ∃ r ∈ subset_remotes cfg snl quorums, d = ⟨r.1, r.2.1⟩) ∧
    (((subset_remotes cfg snl quorums).map (fun r => (r.1, r.2.1))).Nodup →
      (peer_prepare_relay_to_quorum_subset cfg snl quorums num_peers shuffle).Nodup) ∧
    (subset_chosen cfg snl quorums num_peers shuffle).Pairwise (fun a b =>
      version_gt (subset_version cfg snl quorums b) (subset_version cfg snl quorums a) = false) ∧
    (∀ i, i < (subset_remotes cfg snl quorums).length →
      i ∉ subset_chosen cfg snl quorums num_peers shuffle →
      ∀ j ∈ subset_chosen cfg snl quorums num_peers shuffle,
        version_gt (subset_version cfg snl quorums i) (subset_version cfg snl quorums j) =
          false) := by
  obtain ⟨_, hperm, hsorted⟩ := subset_sorted_spec (subset_version cfg snl quorums)
    (shuffle (List.range (subset_remotes cfg snl quorums).length)) num_peers
  have hperm2 := hperm.trans hshuffle
  have hchosen : subset_chosen cfg snl quorums num_peers shuffle =
      (List.insertionSort (fun a b => version_gt (subset_version cfg snl quorums b)
        (subset_version cfg snl quorums a) = false)
        (shuffle (List.range (subset_remotes cfg snl quorums).length))).take num_peers := rfl
  have hnodup : (subset_chosen cfg snl quorums num_peers shuffle).Nodup := by
    rw [hchosen]
    exact ((hperm2.nodup_iff).mpr (List.nodup_range _)).sublist (List.take_sublist _ _)
  have hbound : ∀ i ∈ subset_chosen cfg snl quorums num_peers shuffle,
      i < (subset_remotes cfg snl quorums).length := by
    intro i hi
    rw [hchosen] at hi
    exact List.mem_range.mp ((hperm2.mem_iff).mp (List.mem_of_mem_take hi))
  have hmap : peer_prepare_relay_to_quorum_subset cfg snl quorums num_peers shuffle =
      (subset_chosen cfg snl quorums num_peers shuffle).pmap
        (fun i (hi : i < (subset_remotes cfg snl quorums).length) =>
          (⟨((subset_remotes cfg snl quorums).get ⟨i, hi⟩).1,
            ((subset_remotes cfg snl quorums).get ⟨i, hi⟩).2.1⟩ : prepared_relay_destinations))
        hbound := by
    rw [peer_prepare_relay_to_quorum_subset_eq]
    apply filterMap_eq_pmap_of_some
    intro i hi
    rw [List.get?_eq_get hi]
  have hlen : (peer_prepare_relay_to_quorum_subset cfg snl quorums num_peers shuffle).length =
      min num_peers (subset_remotes cfg snl quorums).length := by
    rw [hmap, List.length_pmap, hchosen, List.length_take, hperm2.length_eq, List.length_range]
  refine ⟨hlen, hnodup, hbound, ?_, ?_, ?_, ?_, ?_⟩
  · rw [hmap]
    exact pmap_get_map_some (subset_remotes cfg snl quorums)
      (fun r => (⟨r.1, r.2.1⟩ : prepared_relay_destinations)) _ hbound
  · intro d hd
    rw [hmap] at hd
    obtain ⟨i, hi, hdi⟩ := List.mem_pmap.mp hd
    exact ⟨_, List.get_mem _ i (hbound i hi), hdi.symm⟩
  · intro hdistinct
    rw [hmap]
    apply List.Nodup.pmap _ hnodup
    intro a ha b hb hab
    have hpair : ((List.map (fun r => (r.1, r.2.1)) (subset_remotes cfg snl quorums)).get
        ⟨a, by rw [List.length_map]; exact ha⟩) =
        ((List.map (fun r => (r.1, r.2.1)) (subset_remotes cfg snl quorums)).get
        ⟨b, by rw [List.length_map]; exact hb⟩) := by
      simp only [List.get_eq_getElem, List.getElem_map]
      simp only [List.get_eq_getElem] at hab
      injection hab with h1 h2
      rw [h1, h2]
    have := (List.Nodup.get_inj_iff hdistinct).mp hpair
    simpa using this
  · rw [hchosen]
    exact hsorted.sublist (List.take_sublist _ _)
  · intro i hi hnot j hj
    rw [hchosen] at hnot hj
    have hmem : i ∈ List.insertionSort (fun a b => version_gt (subset_version cfg snl quorums b)
        (subset_version cfg snl quorums a) = false)
        (shuffle (List.range (subset_remotes cfg snl quorums).length)) :=
      (hperm2.mem_iff).mpr (List.mem_range.mpr hi)
    rw [← List.take_append_drop num_peers (List.insertionSort _ _)] at hmem hsorted
    rcases List.mem_append.mp hmem with h1 | h2
    · exact absurd h1 hnot
    · exact (List.pairwise_append.mp hsorted).2.2 j hj i h2

/-- C18 (witness) on the example registry with the reversal as the outcome of the shuffle:
of the six candidates five resolve, and the four destinations start with the one of version
10.0.0. -/
theorem C18_subset_selection_witness :
    (peer_prepare_relay_to_quorum_subset example_config example_versions_snl
        [⟨[101, 102, 103], []⟩, ⟨[111, 112, 113], []⟩] 4 List.reverse).length =
      min 4 (subset_remotes example_config example_versions_snl
        [⟨[101, 102, 103], []⟩, ⟨[111, 112, 113], []⟩]).length ∧
    subset_chosen example_config example_versions_snl
        [⟨[101, 102, 103], []⟩, ⟨[111, 112, 113], []⟩] 4 List.reverse = [1, 4, 3, 2] ∧
    (subset_remotes example_config example_versions_snl
        [⟨[101, 102, 103], []⟩, ⟨[111, 112, 113], []⟩]).length = 5 ∧
    (∀ j ∈ subset_chosen example_config example_versions_snl
        [⟨[101, 102, 103], []⟩, ⟨[111, 112, 113], []⟩] 4 List.reverse,
      version_gt (subset_version example_config example_versions_snl
          [⟨[101, 102, 103], []⟩, ⟨[111, 112, 113], []⟩] 0)
        (subset_version example_config example_versions_snl
          [⟨[101, 102, 103], []⟩, ⟨[111, 112, 113], []⟩] j) = false) := by
  have h := C18_subset_selection example_config example_versions_snl
    [⟨[101, 102, 103], []⟩, ⟨[111, 112, 113], []⟩] 4 List.reverse (List.reverse_perm _)
  refine ⟨h.1, by decide, by decide, ?_⟩
  exact h.2.2.2.2.2.2.2 0 (by decide) (by decide)

/-! ## The peer resolvers -/

theorem peer_info.add_peer_remotes (p : peer_info) (pubkey : public_key) (strong : Bool) :
    (p.add_peer pubkey strong).1.remotes = p.remotes := by
  unfold peer_info.add_peer
  cases assoc_find p.remotes pubkey with
  | none => rfl
  | some r =>
    obtain ⟨x25519, addr⟩ := r
    dsimp only
    cases assoc_find p.peers x25519 with
    | none =>
      dsimp only
      split <;> rfl
    | some existing =>
      dsimp only
      split <;> rfl

theorem peer_info.add_peer_at_remotes (p : peer_info) (validators : List public_key) (j : Nat)
    (strong : Bool) : (p.add_peer_at validators j strong).remotes = p.remotes := by
  unfold peer_info.add_peer_at
  split
  · exact peer_info.add_peer_remotes p _ strong
  · rfl

theorem foldl_remotes {α : Type} (f : peer_info → α → peer_info)
    (hf : ∀ p a, (f p a).remotes = p.remotes) (l : List α) (p : peer_info) :
    (l.foldl f p).remotes = p.remotes := by
  induction l generalizing p with
  | nil => rfl
  | cons a rest ih => rw [List.foldl_cons, ih, hf]

theorem peer_info.compute_validator_peers_step_remotes (cm : conn_matrix) (quorums : List quorum)
    (p : peer_info) (i : Nat) :
    (peer_info.compute_validator_peers_step cm quorums p i).remotes = p.remotes := by
  have h1 : ∀ (l : List Nat) (v : List public_key) (s : Bool) (q : peer_info),
      (l.foldl (fun acc j => acc.add_peer_at v j s) q).remotes = q.remotes :=
    fun l v s q => foldl_remotes _ (fun a j => peer_info.add_peer_at_remotes a v j s) l q
  unfold peer_info.compute_validator_peers_step
  dsimp only
  split_ifs <;> simp only [peer_info.add_peer_at_remotes, h1]

theorem peer_info.create_remotes (cfg : blink_config) (cm : conn_matrix)
    (snl : service_node_list) (my_pubkey : public_key) (quorums : List quorum)
    (exclude : List public_key) (include_workers : Bool) :
    (peer_info.create cfg cm snl my_pubkey quorums exclude include_workers).remotes =
      (matrix_candidates my_pubkey quorums exclude include_workers).filterMap
        (matrix_remote cfg snl) := by
  have hcompute : ∀ p : peer_info, (p.compute_validator_peers cm quorums).remotes = p.remotes := by
    intro p
    unfold peer_info.compute_validator_peers
    rw [foldl_remotes _ (peer_info.compute_validator_peers_step_remotes cm quorums)]
  have hworkers : ∀ p : peer_info,
      (quorums.foldl (fun acc q => q.workers.foldl (fun a w => (a.add_peer w true).1) acc)
        p).remotes = p.remotes := by
    intro p
    apply foldl_remotes
    intro a q
    apply foldl_remotes
    intro b w
    exact peer_info.add_peer_remotes b w true
  cases include_workers with
  | false =>
    unfold peer_info.create matrix_candidates
    simp only [Bool.false_eq_true, if_false]
    rw [hcompute]
  | true =>
    unfold peer_info.create matrix_candidates
    simp only [if_true]
    rw [hworkers, hcompute]

/-- C19. Both peer resolvers, the one of the subset planner and the one of `peer_info`, emit
an entry for a candidate pubkey if and only if the registry knows it, its info is active and
its latest proof has a non-null x25519 key, a non-zero public IP and a non-zero quorumnet
port; the entry then carries that x25519 key and the address `tcp://`, the IP string of the
public IP, `:` and the decimal port (the subset planner adds the version, `peer_info` keys
the entry by the pubkey). The resolved remotes of either resolver are exactly the entries
emitted for its candidates, so a candidate failing a predicate contributes nothing. -/
theorem C19_peer_resolver_predicate (cfg : blink_config) (snl : service_node_list) :
    (∀ pubkey entry, subset_remote cfg snl pubkey = some entry ↔
      ∃ info proof, snl.info_and_proof pubkey = some (info, proof) ∧
        info.is_active = true ∧ proof.pubkey_x25519 ≠ x25519_null ∧ proof.public_ip ≠ 0 ∧
        proof.quorumnet_port ≠ 0 ∧
        entry = (proof.pubkey_x25519,
          "tcp://" ++ cfg.get_ip_string_from_int32 proof.public_ip ++ ":" ++
            toString proof.quorumnet_port,
          proof.version)) ∧
    (∀ pubkey entry, matrix_remote cfg snl pubkey = some entry ↔
      ∃ info proof, snl.info_and_proof pubkey = some (info, proof) ∧
        info.is_active = true ∧ proof.pubkey_x25519 ≠ x25519_null ∧ proof.public_ip ≠ 0 ∧
        proof.quorumnet_port ≠ 0 ∧
        entry = (pubkey, (proof.pubkey_x25519,
          "tcp://" ++ cfg.get_ip_string_from_int32 proof.public_ip ++ ":" ++
            toString proof.quorumnet_port))) ∧
    (∀ quorums entry, entry ∈ subset_remotes cfg snl quorums ↔
      ∃ pk ∈ subset_candidates quorums, subset_remote cfg snl pk = some entry) ∧
    (∀ cm my_pubkey quorums exclude include_workers entry,
      entry ∈ (peer_info.create cfg cm snl my_pubkey quorums exclude include_workers).remotes ↔
        ∃ pk ∈ matrix_candidates my_pubkey quorums exclude include_workers,
          matrix_remote cfg snl pk = some entry) := by
  refine ⟨?_, ?_, ?_, ?_⟩
  · intro pubkey entry
    unfold subset_remote connect_string
    cases hfind : snl.info_and_proof pubkey with
    | none =>
      constructor
      · intro h; cases h
      · rintro ⟨info, proof, h, _⟩; cases h
    | some r =>
      obtain ⟨info, proof⟩ := r
      dsimp only
      constructor
      · intro h
        by_cases hact : info.is_active = true
        · by_cases hbad : proof.pubkey_x25519 = x25519_null ∨ proof.quorumnet_port = 0 ∨
              proof.public_ip = 0
          · simp only [hact, Bool.not_true, Bool.false_eq_true, if_false, hbad, if_true] at h
            cases h
          · simp only [hact, Bool.not_true, Bool.false_eq_true, if_false, hbad] at h
            injection h with h
            push_neg at hbad
            exact ⟨info, proof, rfl, hact, hbad.1, hbad.2.2, hbad.2.1, h.symm⟩
        · have hf : info.is_active = false := by
            cases hb : info.is_active with
            | true => exact absurd hb hact
            | false => rfl
          simp only [hf, Bool.not_false, if_true] at h
          cases h
      · rintro ⟨info1, proof1, h, hact, hx, hip, hport, hentry⟩
        injection h with h
        injection h with h1 h2
        subst h1; subst h2
        have hbad : ¬ (proof.pubkey_x25519 = x25519_null ∨ proof.quorumnet_port = 0 ∨
            proof.public_ip = 0) := by
          push_neg
          exact ⟨hx, hport, hip⟩
        simp only [hact, Bool.not_true, Bool.false_eq_true, if_false, hbad, hentry]
  · intro pubkey entry
    unfold matrix_remote connect_string
    cases hfind : snl.info_and_proof pubkey with
    | none =>
      constructor
      · intro h; cases h
      · rintro ⟨info, proof, h, _⟩; cases h
    | some r =>
      obtain ⟨info, proof⟩ := r
      dsimp only
      constructor
      · intro h
        by_cases hgood : info.is_active = true ∧ proof.pubkey_x25519 ≠ x25519_null ∧
            proof.quorumnet_port ≠ 0 ∧ proof.public_ip ≠ 0
        · rw [if_pos hgood] at h
          injection h with h
          exact ⟨info, proof, rfl, hgood.1, hgood.2.1, hgood.2.2.2, hgood.2.2.1, h.symm⟩
        · rw [if_neg hgood] at h
          cases h
      · rintro ⟨info1, proof1, h, hact, hx, hip, hport, hentry⟩
        injection h with h
        injection h with h1 h2
        subst h1; subst h2
        rw [if_pos ⟨hact, hx, hport, hip⟩, hentry]
  · intro quorums entry
    unfold subset_remotes
    rw [List.mem_filterMap]
  · intro cm my_pubkey quorums exclude include_workers entry
    rw [peer_info.create_remotes, List.mem_filterMap]

/-- On the example registry `example_partial_snl` the inactive node 102, the node 103
without x25519 key, the node 111 without public IP and the node 112 without port contribute
nothing to either resolver; node 101 gets the address of its IP and port. -/
theorem peer_resolver_examples :
    subset_remotes example_config example_partial_snl
        [⟨[101, 102, 103], []⟩, ⟨[111, 112, 113], []⟩] =
      [(example_x25519 101, "tcp://127.0.0.1:22020", (9, 0, 0)),
        (example_x25519 113, "tcp://127.0.0.1:22020", (9, 0, 0))] ∧
    (peer_info.create example_config example_conn_matrix example_partial_snl 113
        [⟨[101, 102, 103], []⟩, ⟨[111, 112, 113], []⟩] [] false).remotes =
      [(101, (example_x25519 101, "tcp://127.0.0.1:22020"))] := by
  constructor <;> decide

/-! ## Pulse relay -/

/-- C20. Validator 101, at position 0 of the pulse quorum 101, 102, 103 with worker 104,
relays messages that came from the validator at position 1, which is 102, as a
non-block-producer. For `handshake` and `handshake_bitset` the sender 102 is in the exclude
set and gets nothing; for `random_value_hash` and `random_value` the exclude set stays empty
and the message is sent back to 102. For every message the exclude set holds the sender
exactly for the two handshake types, and workers are included exactly for
`handshake_bitset`. -/
theorem C20_random_value_relayed_to_sender :
    pulse_sender (example_pulse_message pulse_message_type.random_value)
      ⟨[101, 102, 103], [104]⟩ = [102] ∧
    (pulse_relay_message_to_quorum example_config (example_member 100)
        (example_pulse_message pulse_message_type.random_value) ⟨[101, 102, 103], [104]⟩
        false id).map (fun s => s.dest) =
      [ConnectionID.of_pubkey (example_x25519 102), ConnectionID.of_pubkey (example_x25519 103)] ∧
    (pulse_relay_message_to_quorum example_config (example_member 100)
        (example_pulse_message pulse_message_type.random_value_hash) ⟨[101, 102, 103], [104]⟩
        false id).map (fun s => s.dest) =
      [ConnectionID.of_pubkey (example_x25519 102), ConnectionID.of_pubkey (example_x25519 103)] ∧
    (pulse_relay_message_to_quorum example_config (example_member 100)
        (example_pulse_message pulse_message_type.handshake) ⟨[101, 102, 103], [104]⟩
        false id).map (fun s => s.dest) =
      [ConnectionID.of_pubkey (example_x25519 103)] ∧
    (pulse_relay_message_to_quorum example_config (example_member 100)
        (example_pulse_message pulse_message_type.handshake_bitset) ⟨[101, 102, 103], [104]⟩
        false id).map (fun s => s.dest) =
      [ConnectionID.of_pubkey (example_x25519 103), ConnectionID.of_pubkey (example_x25519 104)] ∧
    (∀ (msg : pulse_message) (q : quorum),
      (pulse_relay_switch msg q).relay_exclude =
        if msg.type = pulse_message_type.handshake ∨
            msg.type = pulse_message_type.handshake_bitset then pulse_sender msg q
        else []) ∧
    (∀ (msg : pulse_message) (q : quorum),
      (pulse_relay_switch msg q).include_block_producer =
        decide (msg.type = pulse_message_type.handshake_bitset)) := by
  refine ⟨by decide, by decide, by decide, by decide, by decide, ?_, ?_⟩
  · intro msg q
    obtain ⟨type, pos, sig, bits, blob, hash, value⟩ := msg
    cases type <;> simp [pulse_relay_switch]
  · intro msg q
    obtain ⟨type, pos, sig, bits, blob, hash, value⟩ := msg
    cases type <;> simp [pulse_relay_switch]

/-! ## Rejection signatures of `handle_blink` -/

theorem peer_info.add_peer_my_position (p : peer_info) (pubkey : public_key) (strong : Bool) :
    (p.add_peer pubkey strong).1.my_position = p.my_position := by
  unfold peer_info.add_peer
  cases assoc_find p.remotes pubkey with
  | none => rfl
  | some r =>
    obtain ⟨x25519, addr⟩ := r
    dsimp only
    cases assoc_find p.peers x25519 with
    | none =>
      dsimp only
      split <;> rfl
    | some existing =>
      dsimp only
      split <;> rfl

theorem peer_info.add_peer_at_my_position (p : peer_info) (validators : List public_key)
    (j : Nat) (strong : Bool) :
    (p.add_peer_at validators j strong).my_position = p.my_position := by
  unfold peer_info.add_peer_at
  split
  · exact peer_info.add_peer_my_position p _ strong
  · rfl

theorem foldl_my_position {α : Type} (f : peer_info → α → peer_info)
    (hf : ∀ p a, (f p a).my_position = p.my_position) (l : List α) (p : peer_info) :
    (l.foldl f p).my_position = p.my_position := by
  induction l generalizing p with
  | nil => rfl
  | cons a rest ih => rw [List.foldl_cons, ih, hf]

theorem peer_info.compute_validator_peers_step_my_position (cm : conn_matrix)
    (quorums : List quorum) (p : peer_info) (i : Nat) :
    (peer_info.compute_validator_peers_step cm quorums p i).my_position = p.my_position := by
  have h1 : ∀ (l : List Nat) (v : List public_key) (s : Bool) (q : peer_info),
      (l.foldl (fun acc j => acc.add_peer_at v j s) q).my_position = q.my_position :=
    fun l v s q => foldl_my_position _ (fun a j => peer_info.add_peer_at_my_position a v j s) l q
  unfold peer_info.compute_validator_peers_step
  dsimp only
  split_ifs <;> simp only [peer_info.add_peer_at_my_position, h1]

theorem peer_info.create_my_position (cfg : blink_config) (cm : conn_matrix)
    (snl : service_node_list) (my_pubkey : public_key) (quorums : List quorum)
    (exclude : List public_key) (include_workers : Bool) :
    (peer_info.create cfg cm snl my_pubkey quorums exclude include_workers).my_position =
      quorums.map (fun q => find_my_position my_pubkey q.validators) := by
  have hcompute : ∀ p : peer_info,
      (p.compute_validator_peers cm quorums).my_position = p.my_position := by
    intro p
    unfold peer_info.compute_validator_peers
    rw [foldl_my_position _ (peer_info.compute_validator_peers_step_my_position cm quorums)]
  have hworkers : ∀ p : peer_info,
      (quorums.foldl (fun acc q => q.workers.foldl (fun a w => (a.add_peer w true).1) acc)
        p).my_position = p.my_position := by
    intro p
    apply foldl_my_position
    intro a q
    apply foldl_my_position
    intro b w
    exact peer_info.add_peer_my_position b w true
  cases include_workers with
  | false =>
    unfold peer_info.create
    simp only [Bool.false_eq_true, if_false]
    rw [hcompute]
  | true =>
    unfold peer_info.create
    simp only [if_true]
    rw [hworkers, hcompute]

theorem find_my_position_spec (my_pubkey : public_key) (v : List public_key) :
    find_my_position my_pubkey v = -1 ∨
      (0 ≤ find_my_position my_pubkey v ∧
        find_my_position my_pubkey v < (v.length : Int) ∧
        v.get? (find_my_position my_pubkey v).toNat = some my_pubkey) := by
  unfold find_my_position
  have hgen : ∀ n : Nat, n ≤ v.length →
      ((List.range n).foldl
          (fun (my_pos : Int) i => if v.get? i = some my_pubkey then (i : Int) else my_pos)
          (-1) = -1) ∨
      (0 ≤ (List.range n).foldl
          (fun (my_pos : Int) i => if v.get? i = some my_pubkey then (i : Int) else my_pos) (-1) ∧
        (List.range n).foldl
          (fun (my_pos : Int) i => if v.get? i = some my_pubkey then (i : Int) else my_pos) (-1)
            < (v.length : Int) ∧
        v.get? ((List.range n).foldl
          (fun (my_pos : Int) i => if v.get? i = some my_pubkey then (i : Int) else my_pos)
            (-1)).toNat = some my_pubkey) := by
    intro n
    induction n with
    | zero => intro _; left; rfl
    | succ k ih =>
      intro hk
      rw [List.range_succ, List.foldl_append, List.foldl_cons, List.foldl_nil]
      by_cases hget : v.get? k = some my_pubkey
      · rw [if_pos hget]
        right
        refine ⟨by omega, by omega, ?_⟩
        rw [Int.toNat_ofNat]
        exact hget
      · rw [if_neg hget]
        exact ih (by omega)
  exact hgen v.length (Nat.le_refl _)

theorem add_signatures_mem (sc : signature_core) (hlaw : sc.one_shot) (x : pending_signature)
    (l : List pending_signature) (b : blink_tx) (hx : x ∈ l)
    (hfree : sc.get_signature_status b x.subquorum x.position = signature_status.none)
    (honly : ∀ y ∈ l, y.subquorum = x.subquorum → y.position = x.position → y = x) :
    x ∈ (add_signatures sc b l).2 := by
  induction l generalizing b with
  | nil => cases hx
  | cons y rest ih =>
    by_cases hslot : y.subquorum = x.subquorum ∧ y.position = x.position
    · have hyx : y = x := honly y (List.mem_cons_self _ _) hslot.1 hslot.2
      have hsome := hlaw.1 b x.subquorum x.position x.approval x.signature hfree
      cases hadd : sc.add_prechecked_signature b x.subquorum x.position x.approval x.signature with
      | none => rw [hadd] at hsome; cases hsome
      | some b1 =>
        rw [hyx]
        simp only [add_signatures, hadd]
        exact List.mem_cons_self _ _
    · have hne : x ≠ y := by
        intro h
        apply hslot
        rw [h]
        exact ⟨rfl, rfl⟩
      have hxr : x ∈ rest := by
        rcases List.mem_cons.mp hx with h | h
        · exact absurd h hne
        · exact h
      have honly1 : ∀ z ∈ rest, z.subquorum = x.subquorum → z.position = x.position → z = x :=
        fun z hz => honly z (List.mem_cons_of_mem _ hz)
      cases hadd : sc.add_prechecked_signature b y.subquorum y.position y.approval y.signature with
      | none =>
        simp only [add_signatures, hadd]
        exact ih b hxr hfree honly1
      | some b1 =>
        simp only [add_signatures, hadd]
        apply List.mem_cons_of_mem
        apply ih b1 hxr _ honly1
        rw [hlaw.2 b y.subquorum y.position y.approval y.signature b1 hadd x.subquorum x.position
          (by
            by_cases hq : x.subquorum = y.subquorum
            · right
              intro hp
              exact hslot ⟨hq.symm, hp.symm⟩
            · left
              exact hq)]
        exact hfree

theorem process_blink_signatures_recorded (cfg : blink_config) (core : member_core)
    (sc : signature_core) (a : process_blink_signatures_args) (hlaw : sc.one_shot)
    (x : pending_signature) (hx : x ∈ a.signatures)
    (hopen : signature_slot_open sc a.btx a.blink_quorums x = true)
    (hverifies : signature_verifies core sc a.btx a.blink_quorums x = true)
    (honly : ∀ y ∈ a.signatures, signature_verifies core sc a.btx a.blink_quorums y = true →
      y.subquorum = x.subquorum → y.position = x.position → y = x)
    (hfrom : a.received_from = "") :
    x ∈ (process_blink_signatures cfg core sc a).recorded ∧
    ∃ reply, (process_blink_signatures cfg core sc a).sent =
      (peer_info.create cfg core.cm core.snl core.my_pubkey a.blink_quorums [] false).relay_to_peers
        "quorum.blink_sign"
        (blink_sign_data sc (process_blink_signatures cfg core sc a).btx a.quorum_checksum
          (process_blink_signatures cfg core sc a).recorded) ++ reply := by
  have hx1 : x ∈ a.signatures.filter (signature_slot_open sc a.btx a.blink_quorums) :=
    List.mem_filter.mpr ⟨hx, hopen⟩
  have hx2 : x ∈ (a.signatures.filter (signature_slot_open sc a.btx a.blink_quorums)).filter
      (signature_verifies core sc a.btx a.blink_quorums) :=
    List.mem_filter.mpr ⟨hx1, hverifies⟩
  have hfree : sc.get_signature_status a.btx x.subquorum x.position = signature_status.none := by
    unfold signature_slot_open at hopen
    by_cases hr : x.position < 0 ∨
        x.position ≥ ((quorum_validators a.blink_quorums x.subquorum).length : Int)
    · rw [if_pos hr] at hopen; cases hopen
    · rw [if_neg hr] at hopen
      by_cases hs : sc.get_signature_status a.btx x.subquorum x.position ≠ signature_status.none
      · rw [if_pos hs] at hopen; cases hopen
      · exact not_not.mp hs
  have hx3 := add_signatures_mem sc hlaw x _ a.btx hx2 hfree
    (fun y hy => honly y (List.mem_of_mem_filter (List.mem_of_mem_filter hy))
      (List.mem_filter.mp hy).2)
  have h1 : ¬ a.signatures.filter (signature_slot_open sc a.btx a.blink_quorums) = [] :=
    List.ne_nil_of_mem hx1
  have h2 : ¬ (a.signatures.filter (signature_slot_open sc a.btx a.blink_quorums)).filter
      (signature_verifies core sc a.btx a.blink_quorums) = [] := List.ne_nil_of_mem hx2
  have h3 : ¬ (add_signatures sc a.btx
      ((a.signatures.filter (signature_slot_open sc a.btx a.blink_quorums)).filter
        (signature_verifies core sc a.btx a.blink_quorums))).2 = [] := List.ne_nil_of_mem hx3
  have hnf : ¬ a.received_from ≠ "" := fun h => h hfrom
  unfold process_blink_signatures
  dsimp only
  rw [if_neg h1, if_neg h2, if_neg h3, if_neg hnf]
  exact ⟨hx3, _, rfl⟩

theorem blink_cache.get_or_default_btxptr (c : blink_cache) (key : Nat × String)
    (hmiss : ∀ entry, c.find key = some entry → entry.btxptr = none) :
    (c.get_or_default key).btxptr = none := by
  unfold blink_cache.get_or_default
  cases hf : c.find key with
  | none => rfl
  | some v => exact hmiss v hf

theorem handle_blink_store_rejected (core : member_core) (blinks : blink_cache) (m : Message)
    (tag h checksum : Nat) (tx_data tx_hash : String) (qs : quorum_array) (pinfo : peer_info)
    (btx : blink_tx)
    (hnone : (blinks.get_or_default (h, tx_hash)).btxptr = none)
    (hinvalid : (btx.tx.version < core.min_version_for_hf core.hf_version ∨
      btx.tx.version > core.max_version_for_hf core.hf_version) ∨
      core.add_new_blink btx = false) :
    (handle_blink_store core blinks m tag h checksum tx_data tx_hash qs pinfo btx).signed =
      [core.hash btx false] ∧
    (handle_blink_store core blinks m tag h checksum tx_data tx_hash qs pinfo btx).sent =
      pinfo.relay_to_peers "blink.submit"
        [("#", bt_value.str tx_hash), ("h", bt_value.int h), ("q", bt_value.int checksum),
          ("t", bt_value.str tx_data)] ∧
    (handle_blink_store core blinks m tag h checksum tx_data tx_hash qs pinfo btx).process =
      some ⟨btx, qs, checksum,
        (blinks.get_or_default (h, tx_hash)).pending_sigs ++
          own_signatures pinfo.my_position false (core.generate_signature (core.hash btx false)),
        tag, ConnectionID.of_pubkey m.conn.pk, ""⟩ := by
  have happ : (if btx.tx.version < core.min_version_for_hf core.hf_version ∨
      btx.tx.version > core.max_version_for_hf core.hf_version then false
      else core.add_new_blink btx) = false := by
    rcases hinvalid with hv | hp
    · rw [if_pos hv]
    · by_cases hv : btx.tx.version < core.min_version_for_hf core.hf_version ∨
          btx.tx.version > core.max_version_for_hf core.hf_version
      · rw [if_pos hv]
      · rw [if_neg hv, hp]
  unfold handle_blink_store
  simp only [hnone, Option.isSome_none, Bool.false_eq_true, if_false, happ]
  exact ⟨trivial, trivial, trivial⟩

theorem my_position_getD (my_pubkey : public_key) (qs : quorum_array) (qi : Nat) :
    (qs.map (fun q => find_my_position my_pubkey q.validators)).getD qi (-1) =
      find_my_position my_pubkey (quorum_validators qs qi) := by
  unfold quorum_validators
  induction qs generalizing qi with
  | nil => rfl
  | cons q rest ih =>
    cases qi with
    | zero => rfl
    | succ k =>
      simp only [List.map_cons, List.getD_cons_succ]
      exact ih k

theorem mem_own_signatures (my_position : List Int) (approved : Bool) (sig : String) (qi : Nat)
    (hqi : qi < NUM_BLINK_QUORUMS) (hpos : 0 ≤ my_position.getD qi (-1)) :
    (⟨approved, qi, my_position.getD qi (-1), sig⟩ : pending_signature) ∈
      own_signatures my_position approved sig := by
  unfold own_signatures
  rw [List.mem_filterMap]
  refine ⟨qi, List.mem_range.mpr hqi, ?_⟩
  have hge : my_position.getD qi (-1) ≥ 0 := hpos
  simp only [hge, if_true]

theorem own_signatures_slot (my_position : List Int) (approved : Bool) (sig : String)
    (y : pending_signature) (hy : y ∈ own_signatures my_position approved sig) :
    y = ⟨approved, y.subquorum, my_position.getD y.subquorum (-1), sig⟩ := by
  unfold own_signatures at hy
  rw [List.mem_filterMap] at hy
  obtain ⟨qi, _, hsome⟩ := hy
  by_cases hge : my_position.getD qi (-1) ≥ 0
  · simp only [hge, if_true] at hsome
    injection hsome with hsome
    rw [← hsome]
  · simp only [hge, if_false] at hsome
    cases hsome

/-- C15 (counterexample): the example member is in the quorum and has a strong peer, and the
tagged submissions pass the height and checksum checks. A tx blob that does not parse, and
a tx whose hash is not the announced one, are answered with `bl.nostart`; no hash is signed
and `process_blink_signatures` is not called. -/
theorem C15_counterexample_unparsed_tx_nostart :
    (peer_info.create example_config example_conn_matrix example_snl 101
      [⟨[101, 102, 103], []⟩, ⟨[111, 112, 113], []⟩] [0] false).my_position_count = 1 ∧
    (peer_info.create example_config example_conn_matrix example_snl 101
      [⟨[101, 102, 103], []⟩, ⟨[111, 112, 113], []⟩] [0] false).strong_peers = 1 ∧
    handle_blink example_config example_member_unparsed [] (example_submit 42 645) =
      Except.ok ⟨[], [⟨example_submitter, "bl.nostart",
        [("!", bt_value.int 42), ("e", bt_value.str "Failed to parse transaction data")],
        send_option.plain⟩], [], none⟩ ∧
    handle_blink example_config (example_member 100) [] (example_submit_hash example_other_hash) =
      Except.ok ⟨[], [⟨example_submitter, "bl.nostart",
        [("!", bt_value.int 42), ("e", bt_value.str "Invalid transaction hash")],
        send_option.plain⟩], [], none⟩ := by
  refine ⟨by decide, by decide, rfl, rfl⟩

/-- C15 (amended): for a submission that passed the height, checksum and membership checks
on a quorum member with at least one strong peer and whose tx parses to the announced hash,
a tx version outside the range of the hard fork and a rejection by the mempool each make the
node sign `hash(rejected)` once and pass that signature, for every subquorum it belongs to
and at its own position there, to `process_blink_signatures`; the only messages of the
handler are the `blink.submit` relays, so there is no `bl.nostart`. Provided the slots of
the blink tx are one-shot, the own slot is empty, the signature verifies under the node's key
and no stashed signature for that slot verifies, `process_blink_signatures` records the
signature and relays it to every peer of the matrix planner in a `quorum.blink_sign`
bundle. -/
theorem C15_invalid_tx_signed_rejected (cfg : blink_config) (core : member_core)
    (sc : signature_core) (blinks : blink_cache) (m : Message) (data : bt_dict)
    (tag h q c : Nat) (tx_data tx_hash : String) (qs : quorum_array) (tx : transaction)
    (hsn : core.service_node = true) (hdata : m.data = [data])
    (htag : get_or_u64 data "!" 0 = tag)
    (hhf : ¬ core.hf_version < cfg.HF_VERSION_BLINK)
    (hh : data.find "h" = some (bt_value.int h)) (hh64 : h < U64)
    (hvalid : blink_height_check h core.get_current_blockchain_height = height_verdict.valid)
    (ht : data.find "t" = some (bt_value.str tx_data))
    (hhash : data.find "#" = some (bt_value.str tx_hash)) (hlen : tx_hash.length = 32)
    (hmiss : ∀ entry, blinks.find (h, tx_hash) = some entry → entry.btxptr = none)
    (hq : data.find "q" = some (bt_value.int q)) (hq64 : q < U64)
    (hok : get_blink_quorums cfg h core.snl (some q) = Except.ok (qs, c))
    (hmember : (peer_info.create cfg core.cm core.snl core.my_pubkey qs
      [core.snl.get_pubkey_from_x25519 (x25519_from_string m.conn.pk)] false).my_position_count
        > 0)
    (hparse : core.parse_and_validate_tx_from_blob tx_data = some (tx, tx_hash))
    (hstrong : (peer_info.create cfg core.cm core.snl core.my_pubkey qs
      [core.snl.get_pubkey_from_x25519 (x25519_from_string m.conn.pk)] false).strong_peers ≠ 0)
    (hinvalid : (tx.version < core.min_version_for_hf core.hf_version ∨
        tx.version > core.max_version_for_hf core.hf_version) ∨
      core.add_new_blink { limited_blink_tx cfg core h qs with tx := tx } = false) :
    ∃ out call,
      handle_blink cfg core blinks m = Except.ok out ∧
      out.process = some call ∧
      out.signed = [core.hash call.btx false] ∧
      (∀ s ∈ out.sent, s.cmd = "blink.submit") ∧
      call.btx = { limited_blink_tx cfg core h qs with tx := tx } ∧
      call.blink_quorums = qs ∧ call.quorum_checksum = q ∧ call.received_from = "" ∧
      (∀ qi, qi < NUM_BLINK_QUORUMS →
        0 ≤ find_my_position core.my_pubkey (quorum_validators qs qi) →
        (⟨false, qi, find_my_position core.my_pubkey (quorum_validators qs qi),
            core.generate_signature (core.hash call.btx false)⟩ : pending_signature) ∈
          call.signatures ∧
        (sc.one_shot →
          sc.get_signature_status call.btx qi
            (find_my_position core.my_pubkey (quorum_validators qs qi)) = signature_status.none →
          sc.check_signature (core.hash call.btx false) core.my_pubkey
            (core.generate_signature (core.hash call.btx false)) = true →
          (∀ y ∈ (blinks.get_or_default (h, tx_hash)).pending_sigs, y.subquorum = qi →
            y.position = find_my_position core.my_pubkey (quorum_validators qs qi) →
            signature_verifies core sc call.btx qs y = false) →
          (⟨false, qi, find_my_position core.my_pubkey (quorum_validators qs qi),
              core.generate_signature (core.hash call.btx false)⟩ : pending_signature) ∈
            (process_blink_signatures cfg core sc call).recorded ∧
          ∃ reply, (process_blink_signatures cfg core sc call).sent =
            (peer_info.create cfg core.cm core.snl core.my_pubkey qs [] false).relay_to_peers
              "quorum.blink_sign"
              (blink_sign_data sc (process_blink_signatures cfg core sc call).btx q
                (process_blink_signatures cfg core sc call).recorded) ++ reply)) := by
  have hnstrong : ¬ (peer_info.create cfg core.cm core.snl core.my_pubkey qs
      [core.snl.get_pubkey_from_x25519 (x25519_from_string m.conn.pk)] false).strong_peers = 0 :=
    hstrong
  have hncount : ¬ ¬ (peer_info.create cfg core.cm core.snl core.my_pubkey qs
      [core.snl.get_pubkey_from_x25519 (x25519_from_string m.conn.pk)]
      false).my_position_count > 0 := fun hn => hn hmember
  have hnne : ¬ tx_hash ≠ tx_hash := fun hn => hn rfl
  have hrun : handle_blink cfg core blinks m = Except.ok
      (handle_blink_store core blinks m tag h q tx_data tx_hash qs
        (peer_info.create cfg core.cm core.snl core.my_pubkey qs
          [core.snl.get_pubkey_from_x25519 (x25519_from_string m.conn.pk)] false)
        { limited_blink_tx cfg core h qs with tx := tx }) := by
    rw [handle_blink_to_quorum cfg core blinks m data tag h tx_data tx_hash hsn hdata htag hhf hh
      hh64 hvalid ht hhash hlen hmiss,
      handle_blink_quorum_ok cfg core blinks m data tag h q tx_data tx_hash qs c hq hq64 hok,
      if_neg hncount, hparse]
    simp only
    rw [if_neg hnne, if_neg hnstrong]
  obtain ⟨hsigned, hsent, hprocess⟩ := handle_blink_store_rejected core blinks m tag h q tx_data
    tx_hash qs
    (peer_info.create cfg core.cm core.snl core.my_pubkey qs
      [core.snl.get_pubkey_from_x25519 (x25519_from_string m.conn.pk)] false)
    { limited_blink_tx cfg core h qs with tx := tx }
    (blink_cache.get_or_default_btxptr blinks (h, tx_hash) hmiss) hinvalid
  refine ⟨_, _, hrun, hprocess, hsigned, ?_, rfl, rfl, rfl, rfl, ?_⟩
  · intro s hs
    rw [hsent] at hs
    unfold peer_info.relay_to_peers at hs
    obtain ⟨peer, _, hpeer⟩ := List.mem_map.mp hs
    rw [← hpeer]
    split <;> rfl
  · intro qi hqi hpos
    have hmypos := peer_info.create_my_position cfg core.cm core.snl core.my_pubkey qs
      [core.snl.get_pubkey_from_x25519 (x25519_from_string m.conn.pk)] false
    have hget := my_position_getD core.my_pubkey qs qi
    have hown : (⟨false, qi, find_my_position core.my_pubkey (quorum_validators qs qi),
        core.generate_signature (core.hash { limited_blink_tx cfg core h qs with tx := tx } false)⟩ :
          pending_signature) ∈
        own_signatures (peer_info.create cfg core.cm core.snl core.my_pubkey qs
          [core.snl.get_pubkey_from_x25519 (x25519_from_string m.conn.pk)] false).my_position
          false
          (core.generate_signature
            (core.hash { limited_blink_tx cfg core h qs with tx := tx } false)) := by
      have := mem_own_signatures (peer_info.create cfg core.cm core.snl core.my_pubkey qs
        [core.snl.get_pubkey_from_x25519 (x25519_from_string m.conn.pk)] false).my_position
        false
        (core.generate_signature (core.hash { limited_blink_tx cfg core h qs with tx := tx } false))
        qi hqi (by rw [hmypos, hget]; exact hpos)
      rw [hmypos, hget] at this
      rw [hmypos]
      exact this
    have hmem := List.mem_append_right (blinks.get_or_default (h, tx_hash)).pending_sigs hown
    refine ⟨hmem, ?_⟩
    intro hlaw hfree hcheck hpending
    rcases find_my_position_spec core.my_pubkey (quorum_validators qs qi) with hneg | hspec
    · rw [hneg] at hpos
      exact absurd hpos (by decide)
    · obtain ⟨h0, hlt, hat⟩ := hspec
      apply process_blink_signatures_recorded cfg core sc _ hlaw _ hmem
      · unfold signature_slot_open
        have hr : ¬ (find_my_position core.my_pubkey (quorum_validators qs qi) < 0 ∨
            find_my_position core.my_pubkey (quorum_validators qs qi) ≥
              ((quorum_validators qs qi).length : Int)) := by omega
        have hs : ¬ sc.get_signature_status { limited_blink_tx cfg core h qs with tx := tx } qi
            (find_my_position core.my_pubkey (quorum_validators qs qi)) ≠ signature_status.none :=
          fun hn => hn hfree
        simp only [hr, hs, if_false]
      · unfold signature_verifies
        have hgetD : (quorum_validators qs qi).getD
            (find_my_position core.my_pubkey (quorum_validators qs qi)).toNat 0 =
              core.my_pubkey := by
          rw [List.getD_eq_getElem?_getD, ← List.get?_eq_getElem?, hat]
          rfl
        simp only [hgetD]
        exact hcheck
      · intro y hy hver hyq hyp
        rcases List.mem_append.mp hy with hpend | hyown
        · have := hpending y hpend hyq hyp
          rw [this] at hver
          cases hver
        · have hform := own_signatures_slot _ _ _ y hyown
          rw [hform, hyq, hmypos, hget]
      · rfl

theorem example_signature_core_one_shot : example_signature_core.one_shot := by
  constructor
  · intro b q p a s hnone
    have hnone1 : (if p < 0 then signature_status.rejected
        else (b.sigs.getD q []).getD p.toNat signature_status.rejected) =
          signature_status.none := hnone
    show (if (if p < 0 then signature_status.rejected
        else (b.sigs.getD q []).getD p.toNat signature_status.rejected) = signature_status.none
      then some _ else none : Option blink_tx).isSome = true
    rw [if_pos hnone1]
    rfl
  · intro b q p a s b1 hadd q1 p1 hne
    have hadd1 : (if (if p < 0 then signature_status.rejected
        else (b.sigs.getD q []).getD p.toNat signature_status.rejected) = signature_status.none
      then some ({ b with sigs := b.sigs.set q ((b.sigs.getD q []).set p.toNat
        (if a then signature_status.approved else signature_status.rejected)) } : blink_tx)
      else none) = some b1 := hadd
    by_cases hfree : (if p < 0 then signature_status.rejected
        else (b.sigs.getD q []).getD p.toNat signature_status.rejected) = signature_status.none
    · rw [if_pos hfree] at hadd1
      injection hadd1 with hb1
      have hp : ¬ p < 0 := by
        intro hp
        rw [if_pos hp] at hfree
        cases hfree
      show (if p1 < 0 then signature_status.rejected
          else (b1.sigs.getD q1 []).getD p1.toNat signature_status.rejected) =
        (if p1 < 0 then signature_status.rejected
          else (b.sigs.getD q1 []).getD p1.toNat signature_status.rejected)
      by_cases hp1 : p1 < 0
      · rw [if_pos hp1, if_pos hp1]
      · rw [if_neg hp1, if_neg hp1, ← hb1]
        simp only
        by_cases hq : q1 = q
        · have hpp : p1 ≠ p := by
            rcases hne with h | h
            · exact absurd hq h
            · exact h
          have hnat : p.toNat ≠ p1.toNat := by omega
          rw [hq]
          by_cases hlen : q < b.sigs.length
          · simp [List.getD_eq_getElem?_getD, List.getElem?_set, hlen, hnat]
          · have hnone : b.sigs[q]? = none := List.getElem?_eq_none (by omega)
            simp [List.getD_eq_getElem?_getD, List.getElem?_set, hlen, hnone]
        · have hqq : q ≠ q1 := fun h => hq h.symm
          simp [List.getD_eq_getElem?_getD, List.getElem?_set, hqq]
    · rw [if_neg hfree] at hadd1
      cases hadd1

/-- C15 on the example member whose mempool rejects the tx: the hash of the rejection is
signed, the node's signature for position 0 of subquorum 0 is recorded and relayed in a
`quorum.blink_sign` bundle, and no `bl.nostart` is sent. -/
theorem C15_invalid_tx_signed_rejected_witness :
    ∃ out call,
      handle_blink example_config example_member_rejecting [] (example_submit 42 645) =
        Except.ok out ∧
      out.process = some call ∧ out.signed = ["Rtx"] ∧
      (∀ s ∈ out.sent, s.cmd = "blink.submit") ∧
      (⟨false, 0, 0, example_signature⟩ : pending_signature) ∈
        (process_blink_signatures example_config example_member_rejecting
          example_signature_core call).recorded := by
  obtain ⟨out, call, hrun, hprocess, hsigned, hsent, hbtx, _, _, _, hown⟩ :=
    C15_invalid_tx_signed_rejected example_config example_member_rejecting
      example_signature_core [] (example_submit 42 645) _ 42 100 645 645 "tx" example_tx_hash
      [⟨[101, 102, 103], []⟩, ⟨[111, 112, 113], []⟩] ⟨4, "tx"⟩
      rfl rfl rfl (by decide) rfl (by decide) (by decide) rfl rfl (by decide)
      (by intro entry hf; cases hf) rfl (by decide) rfl (by decide) rfl (by decide)
      (Or.inr rfl)
  have hrec := (hown 0 (by decide) (by decide)).2 example_signature_core_one_shot
    (by rw [hbtx]; rfl) (by rw [hbtx]; rfl) (by intro y hy; cases hy)
  refine ⟨out, call, hrun, hprocess, ?_, hsent, ?_⟩
  · rw [hsigned, hbtx]
    rfl
  · exact hrec.1

/-! ## Inbound pulse messages -/

theorem except_bind_ok {α β : Type} (x : Except String α) (f : α → Except String β) (b : β) :
    x.bind f = Except.ok b ↔ ∃ a, x = Except.ok a ∧ f a = Except.ok b := by
  cases x with
  | error e =>
    constructor
    · intro h; cases h
    · rintro ⟨a, h, _⟩; cases h
  | ok a =>
    constructor
    · intro h; exact ⟨a, rfl, h⟩
    · rintro ⟨a1, h, hf⟩
      injection h with h
      rw [h]; exact hf

theorem except_do_ok {α β : Type} (x : Except String α) (f : α → Except String β) (b : β) :
    (x >>= f) = Except.ok b ↔ ∃ a, x = Except.ok a ∧ f a = Except.ok b :=
  except_bind_ok x f b

theorem except_pure_ok {α : Type} (a b : α) :
    (pure a : Except String α) = Except.ok b ↔ a = b := by
  constructor
  · intro h; injection h
  · intro h; rw [h]; rfl

theorem pulse_required_ok (pre : String) (data : bt_dict) (key : String) (v : bt_value) :
    pulse_required pre data key = Except.ok v ↔ data.find key = some v := by
  unfold pulse_required
  cases data.find key with
  | none =>
    constructor
    · intro h; cases h
    · intro h; cases h
  | some w =>
    constructor
    · intro h; injection h with h; rw [h]
    · intro h; injection h with h; rw [h]

theorem consume_dict_string_ok (v : bt_value) (s : String) :
    consume_dict_string v = Except.ok s ↔ v = bt_value.str s := by
  cases v with
  | int n => constructor <;> intro h <;> cases h
  | list l => constructor <;> intro h <;> cases h
  | str t =>
    constructor
    · intro h
      injection h with h
      rw [h]
    · intro h
      injection h with h
      rw [h]
      rfl

theorem consume_dict_integer_ok (lo hi : Int) (v : bt_value) (n : Int) :
    consume_dict_integer lo hi v = Except.ok n ↔ v = bt_value.int n ∧ lo ≤ n ∧ n ≤ hi := by
  cases v with
  | str t =>
    constructor
    · intro h; cases h
    · rintro ⟨h, _⟩; cases h
  | list l =>
    constructor
    · intro h; cases h
    · rintro ⟨h, _⟩; cases h
  | int k =>
    show (if lo ≤ k ∧ k ≤ hi then Except.ok k else Except.error "integer out of range") =
      Except.ok n ↔ _
    by_cases hr : lo ≤ k ∧ k ≤ hi
    · rw [if_pos hr]
      constructor
      · intro h
        injection h with h
        rw [← h]
        exact ⟨rfl, hr⟩
      · rintro ⟨h, _⟩
        injection h with h
        rw [h]
    · rw [if_neg hr]
      constructor
      · intro h; cases h
      · rintro ⟨h, hr2⟩
        injection h with h
        rw [h] at hr
        exact absurd hr2 hr

theorem convert_signature_ok (sig_str s : String) :
    convert_string_view_bytes_to_signature sig_str = Except.ok s ↔
      sig_str.length = SIGNATURE_SIZE ∧ sig_str ≠ signature_null ∧ s = sig_str := by
  unfold convert_string_view_bytes_to_signature
  by_cases h1 : sig_str.length ≠ SIGNATURE_SIZE
  · rw [if_pos h1]
    constructor
    · intro h; cases h
    · rintro ⟨h, _⟩; exact absurd h h1
  · rw [if_neg h1]
    by_cases h2 : sig_str = signature_null
    · rw [if_pos h2]
      constructor
      · intro h; cases h
      · rintro ⟨_, h, _⟩; exact absurd h2 h
    · rw [if_neg h2]
      constructor
      · intro h
        injection h with h
        exact ⟨not_not.mp h1, h2, h.symm⟩
      · rintro ⟨_, _, h⟩
        rw [h]

theorem pulse_signature_ok (pre : String) (data : bt_dict) (s : String) :
    pulse_signature pre data = Except.ok s ↔
      data.find "s" = some (bt_value.str s) ∧ s.length = SIGNATURE_SIZE ∧ s ≠ signature_null := by
  unfold pulse_signature
  show (pulse_required pre data "s").bind (fun v => (consume_dict_string v).bind
    (fun sig_str => convert_string_view_bytes_to_signature sig_str)) = Except.ok s ↔ _
  simp only [except_bind_ok, pulse_required_ok, consume_dict_string_ok, convert_signature_ok]
  constructor
  · rintro ⟨v, hv, t, ht, hl, hn, hst⟩
    rw [hst, hv, ht]
    exact ⟨rfl, hl, hn⟩
  · rintro ⟨hv, hl, hn⟩
    exact ⟨_, hv, s, rfl, hl, hn, rfl⟩

theorem pulse_position_ok (pre : String) (data : bt_dict) (q : Int) :
    pulse_position pre data = Except.ok q ↔
      data.find "q" = some (bt_value.int q) ∧ -2147483648 ≤ q ∧ q ≤ 2147483647 := by
  unfold pulse_position
  show (pulse_required pre data "q").bind
    (fun v => consume_dict_integer (-2147483648) 2147483647 v) = Except.ok q ↔ _
  simp only [except_bind_ok, pulse_required_ok, consume_dict_integer_ok]
  constructor
  · rintro ⟨v, hv, hq, h1, h2⟩
    rw [hv, hq]
    exact ⟨rfl, h1, h2⟩
  · rintro ⟨hv, h1, h2⟩
    exact ⟨_, hv, rfl, h1, h2⟩

theorem pulse_template_blob_ok (data : bt_dict) (t : String) :
    pulse_template_blob data = Except.ok t ↔ data.find "t" = some (bt_value.str t) := by
  unfold pulse_template_blob
  cases data.find "t" with
  | none =>
    constructor
    · intro h; cases h
    · intro h; cases h
  | some v =>
    rw [show (match some v with
      | some v => consume_dict_string v
      | none => Except.error "Invalid pulse block template: missing required field 'q'") =
        consume_dict_string v from rfl, consume_dict_string_ok]
    constructor
    · intro h; rw [h]
    · intro h; injection h

theorem pulse_fixed_size_ok (text : String) (size : Nat) (str s : String) :
    pulse_fixed_size text size str = Except.ok s ↔ str.length = size ∧ s = str := by
  unfold pulse_fixed_size
  by_cases hl : str.length ≠ size
  · rw [if_pos hl]
    constructor
    · intro h; cases h
    · rintro ⟨h, _⟩; exact absurd h hl
  · rw [if_neg hl]
    constructor
    · intro h
      injection h with h
      exact ⟨not_not.mp hl, h.symm⟩
    · rintro ⟨_, h⟩
      rw [h]

theorem handle_pulse_participation_bit_ok (m : Message) (job : pulse_job) :
    handle_pulse_participation_bit_or_bitset m false = Except.ok job ↔
      ∃ data q s, m.data = [data] ∧
        (data.find "q" = some (bt_value.int q) ∧ -2147483648 ≤ q ∧ q ≤ 2147483647) ∧
        (data.find "s" = some (bt_value.str s) ∧ s.length = SIGNATURE_SIZE ∧
          s ≠ signature_null) ∧
        job = ⟨pulse_message_type.handshake, q, 0, s, "", "", ""⟩ := by
  unfold handle_pulse_participation_bit_or_bitset
  rcases hm : m.data with _ | ⟨data, _ | ⟨d2, rest⟩⟩
  · constructor
    · intro h; cases h
    · rintro ⟨_, _, _, h, _⟩; cases h
  · simp only [except_do_ok, except_pure_ok, Bool.false_eq_true, if_false, if_true,
      pulse_position_ok, pulse_signature_ok]
    constructor
    · rintro ⟨q, hq, s, hs, hj⟩
      exact ⟨data, q, s, rfl, hq, hs, hj.symm⟩
    · rintro ⟨d, q, s, hd, hq, hs, hj⟩
      injection hd with hd
      subst hd
      exact ⟨q, hq, s, hs, by rw [hj]⟩
  · constructor
    · intro h; cases h
    · rintro ⟨_, _, _, h, _⟩
      injection h with _ h
      cases h

theorem handle_pulse_participation_bitset_ok (m : Message) (job : pulse_job) :
    handle_pulse_participation_bit_or_bitset m true = Except.ok job ↔
      ∃ data b q s, m.data = [data] ∧
        (data.find "b" = some (bt_value.int b) ∧ 0 ≤ b ∧ b ≤ 65535) ∧
        (data.find "q" = some (bt_value.int q) ∧ -2147483648 ≤ q ∧ q ≤ 2147483647) ∧
        (data.find "s" = some (bt_value.str s) ∧ s.length = SIGNATURE_SIZE ∧
          s ≠ signature_null) ∧
        job = ⟨pulse_message_type.handshake_bitset, q, b, s, "", "", ""⟩ := by
  unfold handle_pulse_participation_bit_or_bitset
  rcases hm : m.data with _ | ⟨data, _ | ⟨d2, rest⟩⟩
  · constructor
    · intro h; cases h
    · rintro ⟨_, _, _, _, h, _⟩; cases h
  · simp only [except_do_ok, except_pure_ok, Bool.false_eq_true, if_false, if_true,
      pulse_position_ok, pulse_signature_ok, pulse_required_ok,
      consume_dict_integer_ok]
    constructor
    · rintro ⟨v, hv, b, ⟨hb, hb1, hb2⟩, q, hq, s, hs, hj⟩
      rw [hb] at hv
      exact ⟨data, b, q, s, rfl, ⟨hv, hb1, hb2⟩, hq, hs, hj.symm⟩
    · rintro ⟨d, b, q, s, hd, ⟨hv, hb1, hb2⟩, hq, hs, hj⟩
      injection hd with hd
      subst hd
      exact ⟨_, hv, b, ⟨rfl, hb1, hb2⟩, q, hq, s, hs, by rw [hj]⟩
  · constructor
    · intro h; cases h
    · rintro ⟨_, _, _, _, h, _⟩
      injection h with _ h
      cases h

theorem handle_pulse_block_template_ok (m : Message) (job : pulse_job) :
    handle_pulse_block_template m = Except.ok job ↔
      ∃ data s t, m.data = [data] ∧
        (data.find "s" = some (bt_value.str s) ∧ s.length = SIGNATURE_SIZE ∧
          s ≠ signature_null) ∧
        data.find "t" = some (bt_value.str t) ∧
        job = ⟨pulse_message_type.block_template, 0, 0, s, "", "", t⟩ := by
  unfold handle_pulse_block_template
  rcases hm : m.data with _ | ⟨data, _ | ⟨d2, rest⟩⟩
  · constructor
    · intro h; cases h
    · rintro ⟨_, _, _, h, _⟩; cases h
  · simp only [except_do_ok, except_pure_ok, pulse_signature_ok, pulse_template_blob_ok]
    constructor
    · rintro ⟨s, hs, t, ht, hj⟩
      exact ⟨data, s, t, rfl, hs, ht, hj.symm⟩
    · rintro ⟨d, s, t, hd, hs, ht, hj⟩
      injection hd with hd
      subst hd
      exact ⟨s, hs, t, ht, by rw [hj]⟩
  · constructor
    · intro h; cases h
    · rintro ⟨_, _, _, h, _⟩
      injection h with _ h
      cases h

theorem handle_pulse_random_value_hash_ok (m : Message) (job : pulse_job) :
    handle_pulse_random_value_hash m = Except.ok job ↔
      ∃ data h q s, m.data = [data] ∧
        (data.find "#" = some (bt_value.str h) ∧ h.length = 32) ∧
        (data.find "q" = some (bt_value.int q) ∧ -2147483648 ≤ q ∧ q ≤ 2147483647) ∧
        (data.find "s" = some (bt_value.str s) ∧ s.length = SIGNATURE_SIZE ∧
          s ≠ signature_null) ∧
        job = ⟨pulse_message_type.random_value_hash, q, 0, s, h, "", ""⟩ := by
  unfold handle_pulse_random_value_hash
  rcases hm : m.data with _ | ⟨data, _ | ⟨d2, rest⟩⟩
  · constructor
    · intro h; cases h
    · rintro ⟨_, _, _, _, h, _⟩; cases h
  · simp only [except_do_ok, except_pure_ok, pulse_position_ok, pulse_signature_ok,
      pulse_required_ok, consume_dict_string_ok, pulse_fixed_size_ok]
    constructor
    · rintro ⟨v, hv, str, hstr, h, ⟨hl, hh⟩, q, hq, s, hs, hj⟩
      rw [hstr] at hv
      subst hh
      exact ⟨data, h, q, s, rfl, ⟨hv, hl⟩, hq, hs, hj.symm⟩
    · rintro ⟨d, str, q, s, hd, ⟨hv, hl⟩, hq, hs, hj⟩
      injection hd with hd
      subst hd
      exact ⟨_, hv, str, rfl, str, ⟨hl, rfl⟩, q, hq, s, hs, by rw [hj]⟩
  · constructor
    · intro h; cases h
    · rintro ⟨_, _, _, _, h, _⟩
      injection h with _ h
      cases h

theorem handle_pulse_random_value_ok (value_size : Nat) (m : Message) (job : pulse_job) :
    handle_pulse_random_value value_size m = Except.ok job ↔
      ∃ data q r s, m.data = [data] ∧
        (data.find "q" = some (bt_value.int q) ∧ -2147483648 ≤ q ∧ q ≤ 2147483647) ∧
        (data.find "r" = some (bt_value.str r) ∧ r.length = value_size) ∧
        (data.find "s" = some (bt_value.str s) ∧ s.length = SIGNATURE_SIZE ∧
          s ≠ signature_null) ∧
        job = ⟨pulse_message_type.random_value, q, 0, s, "", r, ""⟩ := by
  unfold handle_pulse_random_value
  rcases hm : m.data with _ | ⟨data, _ | ⟨d2, rest⟩⟩
  · constructor
    · intro h; cases h
    · rintro ⟨_, _, _, _, h, _⟩; cases h
  · simp only [except_do_ok, except_pure_ok, pulse_position_ok, pulse_signature_ok,
      pulse_required_ok, consume_dict_string_ok, pulse_fixed_size_ok]
    constructor
    · rintro ⟨q, hq, v, hv, str, hstr, r, ⟨hl, hr⟩, s, hs, hj⟩
      rw [hstr] at hv
      subst hr
      exact ⟨data, q, r, s, rfl, hq, ⟨hv, hl⟩, hs, hj.symm⟩
    · rintro ⟨d, q, str, s, hd, hq, ⟨hv, hl⟩, hs, hj⟩
      injection hd with hd
      subst hd
      exact ⟨q, hq, _, hv, str, rfl, str, ⟨hl, rfl⟩, s, hs, by rw [hj]⟩
  · constructor
    · intro h; cases h
    · rintro ⟨_, _, _, _, h, _⟩
      injection h with _ h
      cases h

theorem except_ok_or_error {α : Type} (x : Except String α) :
    (∃ a, x = Except.ok a) ∨ (∃ e, x = Except.error e) := by
  cases x with
  | ok a => exact Or.inl ⟨a, rfl⟩
  | error e => exact Or.inr ⟨e, rfl⟩
/-- C21 (counterexample): a `pulse.validator_bit` message with a valid signature is handed
to the pulse handler with quorum position `-1`, and another with position `60000`: the
inbound handlers do not compare the position with zero or with a quorum size. -/
theorem C21_counterexample_position_unchecked :
    handle_pulse_participation_bit_or_bitset (example_validator_bit (-1)) false =
        Except.ok ⟨pulse_message_type.handshake, -1, 0, example_signature, "", "", ""⟩ ∧
      ¬ (0 ≤ (-1 : Int)) ∧
      handle_pulse_participation_bit_or_bitset (example_validator_bit 60000) false =
        Except.ok ⟨pulse_message_type.handshake, 60000, 0, example_signature, "", "", ""⟩ := by
  refine ⟨rfl, by decide, rfl⟩

/-- C21 (amended): each inbound pulse handler hands a job to the pulse handler exactly when
the message has one data entry in which every required field of the command is present with
the right kind of value, the signature has exactly `SIGNATURE_SIZE` bytes and is not null, the
random value hash has exactly 32 bytes, the random value has exactly
`sizeof(pulse_random_value)` bytes, the bitset fits 16 bits and the quorum position fits a
32-bit signed integer; the job carries the values read. In every other case the handler ends
with an error and no job. The position is not compared with a quorum. -/
theorem C21_pulse_inbound_validation (value_size : Nat) (m : Message) (job : pulse_job) :
    (handle_pulse_participation_bit_or_bitset m false = Except.ok job ↔
      ∃ data q s, m.data = [data] ∧
        (data.find "q" = some (bt_value.int q) ∧ -2147483648 ≤ q ∧ q ≤ 2147483647) ∧
        (data.find "s" = some (bt_value.str s) ∧ s.length = SIGNATURE_SIZE ∧
          s ≠ signature_null) ∧
        job = ⟨pulse_message_type.handshake, q, 0, s, "", "", ""⟩) ∧
    (handle_pulse_participation_bit_or_bitset m true = Except.ok job ↔
      ∃ data b q s, m.data = [data] ∧
        (data.find "b" = some (bt_value.int b) ∧ 0 ≤ b ∧ b ≤ 65535) ∧
        (data.find "q" = some (bt_value.int q) ∧ -2147483648 ≤ q ∧ q ≤ 2147483647) ∧
        (data.find "s" = some (bt_value.str s) ∧ s.length = SIGNATURE_SIZE ∧
          s ≠ signature_null) ∧
        job = ⟨pulse_message_type.handshake_bitset, q, b, s, "", "", ""⟩) ∧
    (handle_pulse_block_template m = Except.ok job ↔
      ∃ data s t, m.data = [data] ∧
        (data.find "s" = some (bt_value.str s) ∧ s.length = SIGNATURE_SIZE ∧
          s ≠ signature_null) ∧
        data.find "t" = some (bt_value.str t) ∧
        job = ⟨pulse_message_type.block_template, 0, 0, s, "", "", t⟩) ∧
    (handle_pulse_random_value_hash m = Except.ok job ↔
      ∃ data h q s, m.data = [data] ∧
        (data.find "#" = some (bt_value.str h) ∧ h.length = 32) ∧
        (data.find "q" = some (bt_value.int q) ∧ -2147483648 ≤ q ∧ q ≤ 2147483647) ∧
        (data.find "s" = some (bt_value.str s) ∧ s.length = SIGNATURE_SIZE ∧
          s ≠ signature_null) ∧
        job = ⟨pulse_message_type.random_value_hash, q, 0, s, h, "", ""⟩) ∧
    (handle_pulse_random_value value_size m = Except.ok job ↔
      ∃ data q r s, m.data = [data] ∧
        (data.find "q" = some (bt_value.int q) ∧ -2147483648 ≤ q ∧ q ≤ 2147483647) ∧
        (data.find "r" = some (bt_value.str r) ∧ r.length = value_size) ∧
        (data.find "s" = some (bt_value.str s) ∧ s.length = SIGNATURE_SIZE ∧
          s ≠ signature_null) ∧
        job = ⟨pulse_message_type.random_value, q, 0, s, "", r, ""⟩) ∧
    ((∃ e, handle_pulse_participation_bit_or_bitset m false = Except.error e) ∨
      ∃ j, handle_pulse_participation_bit_or_bitset m false = Except.ok j) ∧
    ((∃ e, handle_pulse_participation_bit_or_bitset m true = Except.error e) ∨
      ∃ j, handle_pulse_participation_bit_or_bitset m true = Except.ok j) ∧
    ((∃ e, handle_pulse_block_template m = Except.error e) ∨
      ∃ j, handle_pulse_block_template m = Except.ok j) ∧
    ((∃ e, handle_pulse_random_value_hash m = Except.error e) ∨
      ∃ j, handle_pulse_random_value_hash m = Except.ok j) ∧
    ((∃ e, handle_pulse_random_value value_size m = Except.error e) ∨
      ∃ j, handle_pulse_random_value value_size m = Except.ok j) :=
  ⟨handle_pulse_participation_bit_ok m job, handle_pulse_participation_bitset_ok m job,
    handle_pulse_block_template_ok m job, handle_pulse_random_value_hash_ok m job,
    handle_pulse_random_value_ok value_size m job,
    (except_ok_or_error _).symm, (except_ok_or_error _).symm, (except_ok_or_error _).symm,
    (except_ok_or_error _).symm, (except_ok_or_error _).symm⟩

theorem pulse_inbound_examples :
    handle_pulse_random_value 32
        ⟨ConnectionID.of_pubkey (example_x25519 102),
          [[("q", bt_value.int 1), ("r", bt_value.str "short"),
            ("s", bt_value.str example_signature)]]⟩ =
      Except.error "Invalid data size: 5" ∧
    handle_pulse_block_template
        ⟨ConnectionID.of_pubkey (example_x25519 102),
          [[("s", bt_value.str example_signature)]]⟩ =
      Except.error "Invalid pulse block template: missing required field 'q'" ∧
    handle_pulse_participation_bit_or_bitset
        ⟨ConnectionID.of_pubkey (example_x25519 102),
          [[("q", bt_value.int 1), ("s", bt_value.str signature_null)]]⟩ false =
      Except.error "Invalid signature data: null signature given" := by
  refine ⟨rfl, rfl, rfl⟩

/-! ## Obligation vote relay -/

theorem find_my_position_nonneg_iff (my_pubkey : public_key) (v : List public_key) :
    0 ≤ find_my_position my_pubkey v ↔ my_pubkey ∈ v := by
  unfold find_my_position
  have hgen : ∀ n : Nat,
      ((List.range n).foldl
          (fun (my_pos : Int) i => if v.get? i = some my_pubkey then (i : Int) else my_pos)
          (-1) = -1 ∧ ∀ i, i < n → v.get? i ≠ some my_pubkey) ∨
      (0 ≤ (List.range n).foldl
          (fun (my_pos : Int) i => if v.get? i = some my_pubkey then (i : Int) else my_pos) (-1) ∧
        ∃ i, i < n ∧ v.get? i = some my_pubkey) := by
    intro n
    induction n with
    | zero =>
      left
      exact ⟨rfl, fun i hi => absurd hi (Nat.not_lt_zero i)⟩
    | succ n ih =>
      rw [List.range_succ, List.foldl_append, List.foldl_cons, List.foldl_nil]
      by_cases hv : v.get? n = some my_pubkey
      · rw [if_pos hv]
        right
        exact ⟨Int.ofNat_nonneg n, n, Nat.lt_succ_self n, hv⟩
      · rw [if_neg hv]
        rcases ih with ⟨h1, h2⟩ | ⟨h1, i, hi, h2⟩
        · left
          refine ⟨h1, fun i hi => ?_⟩
          rcases Nat.lt_succ_iff_lt_or_eq.mp hi with h | h
          · exact h2 i h
          · rw [h]; exact hv
        · right
          exact ⟨h1, i, Nat.lt_succ_of_lt hi, h2⟩
  constructor
  · intro h
    rcases hgen v.length with ⟨h1, _⟩ | ⟨_, i, _, h2⟩
    · rw [h1] at h
      exact absurd h (by decide)
    · exact List.get?_mem h2
  · intro h
    rcases hgen v.length with ⟨_, h2⟩ | ⟨h1, _⟩
    · obtain ⟨i, hi, hget⟩ := List.getElem_of_mem h
      exfalso
      apply h2 i hi
      rw [List.get?_eq_getElem?, List.getElem?_eq_getElem hi, hget]
    · exact h1

/-- The relay on a batch of four votes by the member `101`: the vote of another type, the
vote at a height whose quorum does not hold `101` and the vote whose quorum is below the
minimum are skipped; the two other votes are reported in input order. -/
theorem relay_obligation_votes_example :
    (relay_obligation_votes example_config example_vote_enums (example_member 100)
        (fun _ => 3)
        [example_vote 100, { example_vote 100 with type := 1 }, example_vote 200,
          { example_vote 100 with index_in_group := 7 }]).relayed_votes =
      [example_vote 100, { example_vote 100 with index_in_group := 7 }] ∧
    (relay_obligation_votes example_config example_vote_enums (example_member 100)
        (fun _ => 4) [example_vote 100]).relayed_votes = [] := by
  refine ⟨by decide, by decide⟩

/-! ## Inter-quorum edges -/

theorem peer_info.compute_validator_peers_step_edges (cm : conn_matrix) (quorums : List quorum)
    (p : peer_info) (i : Nat) (hpos : 0 ≤ p.my_position.getD i (-1)) :
    peer_info.compute_validator_peers_step cm quorums p i =
      (strong_inter_quorum_edges quorums p.my_position i).foldl
        (fun acc e => acc.add_peer_at (quorums.getD e.1 ⟨[], []⟩).validators e.2 true)
        (p.intra_quorum_peers cm (quorums.getD i ⟨[], []⟩).validators
          (p.my_position.getD i (-1))) := by
  unfold peer_info.compute_validator_peers_step strong_inter_quorum_edges
    peer_info.intra_quorum_peers
  dsimp only
  rw [if_neg (not_lt.mpr hpos), if_neg (not_lt.mpr hpos)]
  split_ifs <;> rfl

theorem peer_info.compute_validator_peers_step_skip (cm : conn_matrix) (quorums : List quorum)
    (p : peer_info) (i : Nat) (hneg : p.my_position.getD i (-1) < 0) :
    peer_info.compute_validator_peers_step cm quorums p i = p ∧
      strong_inter_quorum_edges quorums p.my_position i = [] := by
  unfold peer_info.compute_validator_peers_step strong_inter_quorum_edges
  dsimp only
  rw [if_pos hneg, if_pos hneg]
  exact ⟨rfl, rfl⟩

theorem strong_inter_quorum_edges_pair_first (Q Q' : quorum) (a b : Int) (ha : 0 ≤ a) :
    strong_inter_quorum_edges [Q, Q'] [a, b] 0 =
      if b < 0 ∧ ((min Q.validators.length Q'.validators.length / 2 : Nat) : Int) ≤ a ∧
          a < ((min Q.validators.length Q'.validators.length / 2 : Nat) : Int) * 2 then
        [(1, (a - ((min Q.validators.length Q'.validators.length / 2 : Nat) : Int)).toNat)]
      else [] := by
  unfold strong_inter_quorum_edges
  simp only [List.getD_cons_zero, List.getD_cons_succ, List.length_cons, List.length_nil,
    zero_add, Nat.lt_irrefl, false_and, if_false, List.append_nil, if_neg (not_lt.mpr ha)]
  by_cases hb : b < 0
  · by_cases hc : ((min Q.validators.length Q'.validators.length / 2 : Nat) : Int) ≤ a ∧
        a < ((min Q.validators.length Q'.validators.length / 2 : Nat) : Int) * 2
    · simp [hb, hc]
    · simp [hb, hc]
  · simp [hb]

theorem strong_inter_quorum_edges_pair_second (Q Q' : quorum) (a b : Int) (hb : 0 ≤ b) :
    strong_inter_quorum_edges [Q, Q'] [a, b] 1 =
      if a < 0 ∧ b < ((min Q'.validators.length Q.validators.length / 2 : Nat) : Int) then
        [(0, (((min Q'.validators.length Q.validators.length / 2 : Nat) : Int) + b).toNat)]
      else [] := by
  unfold strong_inter_quorum_edges
  simp only [List.getD_cons_zero, List.getD_cons_succ, List.length_cons, List.length_nil,
    zero_add, Nat.lt_irrefl, false_and, if_false, List.nil_append, if_neg (not_lt.mpr hb)]
  by_cases ha : a < 0
  · by_cases hc : b < ((min Q'.validators.length Q.validators.length / 2 : Nat) : Int)
    · simp [ha, hc]
    · simp [ha, hc]
  · simp [ha]

theorem next_target_bound (n m : Nat) (p : Int)
    (h1 : ((min n m / 2 : Nat) : Int) ≤ p) (h2 : p < ((min n m / 2 : Nat) : Int) * 2) :
    (p - ((min n m / 2 : Nat) : Int)).toNat < m := by
  omega

theorem prev_target_bound (n m : Nat) (p : Int) (h0 : 0 ≤ p)
    (h : p < ((min n m / 2 : Nat) : Int)) :
    (((min n m / 2 : Nat) : Int) + p).toNat < m := by
  omega

theorem strong_inter_quorum_edges_bounds (quorums : List quorum) (my_position : List Int)
    (i : Nat) (e : Nat × Nat) (he : e ∈ strong_inter_quorum_edges quorums my_position i) :
    e.1 < quorums.length ∧ e.2 < (quorums.getD e.1 ⟨[], []⟩).validators.length := by
  have key : ∀ k j : Nat, j < (quorums.getD k ⟨[], []⟩).validators.length →
      k < quorums.length := by
    intro k j h
    by_contra hk
    rw [List.getD_eq_default _ _ (not_lt.mp hk)] at h
    exact Nat.not_lt_zero _ h
  suffices h2 : e.2 < (quorums.getD e.1 ⟨[], []⟩).validators.length from ⟨key _ _ h2, h2⟩
  unfold strong_inter_quorum_edges at he
  dsimp only at he
  by_cases h0 : my_position.getD i (-1) < 0
  · rw [if_pos h0] at he
    exact absurd he (List.not_mem_nil e)
  · rw [if_neg h0] at he
    rcases List.mem_append.mp he with h | h
    · split_ifs at h with h1 h3
      · rw [List.mem_singleton] at h
        subst h
        exact next_target_bound _ _ _ h3.1 h3.2
      · exact absurd h (List.not_mem_nil e)
      · exact absurd h (List.not_mem_nil e)
    · split_ifs at h with h1 h3
      · rw [List.mem_singleton] at h
        subst h
        exact prev_target_bound _ _ _ (not_lt.mp h0) h3
      · exact absurd h (List.not_mem_nil e)
      · exact absurd h (List.not_mem_nil e)
/-- C23: for the quorum pair `Q`, `Q'` and `half = min(|Q|, |Q'|) / 2`, the inter-quorum
`add_peer` calls of the planner are: for a node at position `a` of `Q` that is not in `Q'`,
one strong edge to `Q'[a - half]` exactly when `half ≤ a < 2 * half`, none otherwise; for a
node at position `b` of `Q'` that is not in `Q`, one strong edge to `Q[half + b]` exactly when
`b < half`, none otherwise; for a node in both quorums, none. Every target index is inside the
target quorum, whatever the sizes. The loop body of `compute_validator_peers` makes exactly
these calls, as strong peers, after the intra-quorum ones. -/
theorem C23_inter_quorum_edges (me : public_key) (Q Q' : quorum) :
    (me ∈ Q.validators → me ∉ Q'.validators →
      strong_inter_quorum_edges [Q, Q']
          [find_my_position me Q.validators, find_my_position me Q'.validators] 0 =
        (if ((min Q.validators.length Q'.validators.length / 2 : Nat) : Int) ≤
              find_my_position me Q.validators ∧
            find_my_position me Q.validators <
              2 * ((min Q.validators.length Q'.validators.length / 2 : Nat) : Int) then
          [(1, (find_my_position me Q.validators -
            ((min Q.validators.length Q'.validators.length / 2 : Nat) : Int)).toNat)]
        else []) ∧
      strong_inter_quorum_edges [Q, Q']
          [find_my_position me Q.validators, find_my_position me Q'.validators] 1 = []) ∧
    (me ∉ Q.validators → me ∈ Q'.validators →
      strong_inter_quorum_edges [Q, Q']
          [find_my_position me Q.validators, find_my_position me Q'.validators] 1 =
        (if find_my_position me Q'.validators <
              ((min Q.validators.length Q'.validators.length / 2 : Nat) : Int) then
          [(0, (((min Q.validators.length Q'.validators.length / 2 : Nat) : Int) +
            find_my_position me Q'.validators).toNat)]
        else []) ∧
      strong_inter_quorum_edges [Q, Q']
          [find_my_position me Q.validators, find_my_position me Q'.validators] 0 = []) ∧
    (me ∈ Q.validators → me ∈ Q'.validators →
      strong_inter_quorum_edges [Q, Q']
          [find_my_position me Q.validators, find_my_position me Q'.validators] 0 = [] ∧
      strong_inter_quorum_edges [Q, Q']
          [find_my_position me Q.validators, find_my_position me Q'.validators] 1 = []) ∧
    (∀ (i : Nat) (e : Nat × Nat),
      e ∈ strong_inter_quorum_edges [Q, Q']
          [find_my_position me Q.validators, find_my_position me Q'.validators] i →
        e.1 < 2 ∧ e.2 < ([Q, Q'].getD e.1 ⟨[], []⟩).validators.length) ∧
    (∀ (cm : conn_matrix) (p : peer_info) (i : Nat),
      p.my_position = [find_my_position me Q.validators, find_my_position me Q'.validators] →
      0 ≤ p.my_position.getD i (-1) →
        peer_info.compute_validator_peers_step cm [Q, Q'] p i =
          (strong_inter_quorum_edges [Q, Q'] p.my_position i).foldl
            (fun acc e => acc.add_peer_at ([Q, Q'].getD e.1 ⟨[], []⟩).validators e.2 true)
            (p.intra_quorum_peers cm ([Q, Q'].getD i ⟨[], []⟩).validators
              (p.my_position.getD i (-1)))) := by
  have hin : ∀ v : List public_key, me ∈ v → 0 ≤ find_my_position me v :=
    fun v h => (find_my_position_nonneg_iff me v).mpr h
  have hout : ∀ v : List public_key, me ∉ v → find_my_position me v < 0 :=
    fun v h => not_le.mp (fun h2 => h ((find_my_position_nonneg_iff me v).mp h2))
  have hmin : min Q'.validators.length Q.validators.length =
      min Q.validators.length Q'.validators.length := Nat.min_comm _ _
  refine ⟨fun h1 h2 => ⟨?_, ?_⟩, fun h1 h2 => ⟨?_, ?_⟩, fun h1 h2 => ⟨?_, ?_⟩, ?_, ?_⟩
  · rw [strong_inter_quorum_edges_pair_first Q Q' _ _ (hin _ h1)]
    by_cases hc : ((min Q.validators.length Q'.validators.length / 2 : Nat) : Int) ≤
          find_my_position me Q.validators ∧
        find_my_position me Q.validators <
          2 * ((min Q.validators.length Q'.validators.length / 2 : Nat) : Int)
    · rw [if_pos hc, if_pos ⟨hout _ h2, hc.1, by omega⟩]
    · rw [if_neg hc, if_neg (fun h => hc ⟨h.2.1, by omega⟩)]
  · exact (peer_info.compute_validator_peers_step_skip example_conn_matrix [Q, Q']
      ⟨[], [], 0, [find_my_position me Q.validators, find_my_position me Q'.validators], 0⟩ 1
      (hout _ h2)).2
  · rw [strong_inter_quorum_edges_pair_second Q Q' _ _ (hin _ h2), hmin]
    by_cases hc : find_my_position me Q'.validators <
        ((min Q.validators.length Q'.validators.length / 2 : Nat) : Int)
    · rw [if_pos hc, if_pos ⟨hout _ h1, hc⟩]
    · rw [if_neg hc, if_neg (fun h => hc h.2)]
  · exact (peer_info.compute_validator_peers_step_skip example_conn_matrix [Q, Q']
      ⟨[], [], 0, [find_my_position me Q.validators, find_my_position me Q'.validators], 0⟩ 0
      (hout _ h1)).2
  · rw [strong_inter_quorum_edges_pair_first Q Q' _ _ (hin _ h1),
      if_neg (fun h => absurd (hin _ h2) (not_le.mpr h.1))]
  · rw [strong_inter_quorum_edges_pair_second Q Q' _ _ (hin _ h2),
      if_neg (fun h => absurd (hin _ h1) (not_le.mpr h.1))]
  · intro i e he
    exact strong_inter_quorum_edges_bounds [Q, Q'] _ i e he
  · intro cm p i _ hpos
    exact peer_info.compute_validator_peers_step_edges cm [Q, Q'] p i hpos

/-- C23 (witness): the node `102` at position 1 of the first example quorum, with
`half = 1`, gets the single edge to index 0 of the second quorum; the node `111` at
position 0 of the second quorum gets the single edge to index 1 of the first. -/
theorem C23_inter_quorum_edges_witness :
    (102 ∈ example_first_quorum.validators ∧ 102 ∉ example_second_quorum.validators ∧
      strong_inter_quorum_edges [example_first_quorum, example_second_quorum]
        [find_my_position 102 example_first_quorum.validators,
          find_my_position 102 example_second_quorum.validators] 0 = [(1, 0)]) ∧
    (111 ∉ example_first_quorum.validators ∧ 111 ∈ example_second_quorum.validators ∧
      strong_inter_quorum_edges [example_first_quorum, example_second_quorum]
        [find_my_position 111 example_first_quorum.validators,
          find_my_position 111 example_second_quorum.validators] 1 = [(0, 1)]) :=
  ⟨⟨by decide, by decide,
      ((C23_inter_quorum_edges 102 example_first_quorum example_second_quorum).1
        (by decide) (by decide)).1.trans (by decide)⟩,
    ⟨by decide, by decide,
      ((C23_inter_quorum_edges 111 example_first_quorum example_second_quorum).2.1
        (by decide) (by decide)).1.trans (by decide)⟩⟩
theorem assoc_find_none_iff {α β : Type} [DecidableEq α] (l : List (α × β)) (key : α) :
    assoc_find l key = none ↔ key ∉ l.map Prod.fst := by
  induction l with
  | nil => simp [assoc_find]
  | cons kv rest ih =>
    obtain ⟨k, v⟩ := kv
    unfold assoc_find
    by_cases hk : k = key
    · simp [hk]
    · rw [if_neg hk, ih]
      simp [hk, Ne.symm hk, eq_comm]

theorem assoc_find_append_some {α β : Type} [DecidableEq α] (l l2 : List (α × β)) (key : α)
    (v : β) (h : assoc_find l key = some v) : assoc_find (l ++ l2) key = some v := by
  induction l with
  | nil => cases h
  | cons kv rest ih =>
    obtain ⟨k, w⟩ := kv
    rw [List.cons_append]
    unfold assoc_find at h ⊢
    by_cases hk : k = key
    · rw [if_pos hk] at h ⊢
      exact h
    · rw [if_neg hk] at h ⊢
      exact ih h

theorem assoc_find_append_none {α β : Type} [DecidableEq α] (l : List (α × β)) (key : α)
    (v : β) (h : assoc_find l key = none) : assoc_find (l ++ [(key, v)]) key = some v := by
  induction l with
  | nil => simp [assoc_find]
  | cons kv rest ih =>
    obtain ⟨k, w⟩ := kv
    rw [List.cons_append]
    unfold assoc_find at h ⊢
    by_cases hk : k = key
    · rw [if_pos hk] at h
      cases h
    · rw [if_neg hk] at h ⊢
      exact ih h

theorem assoc_replace_keys {α β : Type} [DecidableEq α] (l : List (α × β)) (key : α) (v : β) :
    (assoc_replace l key v).map Prod.fst = l.map Prod.fst := by
  unfold assoc_replace
  rw [List.map_map]
  apply List.map_congr_left
  intro kv _
  dsimp only [Function.comp]
  split <;> rfl

theorem assoc_replace_of_not_mem {α β : Type} [DecidableEq α] (l : List (α × β)) (key : α)
    (v : β) (h : key ∉ l.map Prod.fst) : assoc_replace l key v = l := by
  unfold assoc_replace
  conv_rhs => rw [← List.map_id l]
  apply List.map_congr_left
  intro kv hkv
  have hne : kv.1 ≠ key := fun he => h (he ▸ List.mem_map_of_mem Prod.fst hkv)
  rw [if_neg hne]
  rfl

theorem assoc_find_replace_self {α β : Type} [DecidableEq α] (l : List (α × β)) (key : α)
    (v w : β) (h : assoc_find l key = some w) : assoc_find (assoc_replace l key v) key = some v := by
  induction l with
  | nil => cases h
  | cons kv rest ih =>
    obtain ⟨k, u⟩ := kv
    unfold assoc_replace at ih ⊢
    rw [List.map_cons]
    unfold assoc_find at h
    by_cases hk : k = key
    · dsimp only
      rw [if_pos hk]
      unfold assoc_find
      rw [if_pos hk]
    · rw [if_neg hk] at h
      dsimp only
      rw [if_neg hk]
      unfold assoc_find
      rw [if_neg hk]
      exact ih h

theorem assoc_find_replace_ne {α β : Type} [DecidableEq α] (l : List (α × β)) (key x : α)
    (v : β) (h : x ≠ key) : assoc_find (assoc_replace l key v) x = assoc_find l x := by
  induction l with
  | nil => rfl
  | cons kv rest ih =>
    obtain ⟨k, u⟩ := kv
    unfold assoc_replace at ih ⊢
    rw [List.map_cons]
    dsimp only
    by_cases hk : k = key
    · rw [if_pos hk]
      unfold assoc_find
      rw [if_neg (fun he : k = x => h (he ▸ hk)), if_neg (fun he : k = x => h (he ▸ hk))]
      exact ih
    · rw [if_neg hk]
      unfold assoc_find
      by_cases hx : k = x
      · rw [if_pos hx, if_pos hx]
      · rw [if_neg hx, if_neg hx]
        exact ih

theorem strong_entries_append (l : List (String × String)) (x a : String) :
    strong_entries (l ++ [(x, a)]) = strong_entries l + (if a ≠ "" then 1 else 0) := by
  unfold strong_entries
  rw [List.filter_append, List.length_append]
  by_cases ha : a ≠ ""
  · rw [if_pos ha, List.filter_cons_of_pos (by simpa using ha)]
    rfl
  · rw [if_neg ha, List.filter_cons_of_neg (by simpa using ha)]
    rfl

theorem strong_entries_replace (l : List (String × String)) (x addr : String)
    (hnodup : (l.map Prod.fst).Nodup) (hfind : assoc_find l x = some "") (haddr : addr ≠ "") :
    strong_entries (assoc_replace l x addr) = strong_entries l + 1 := by
  induction l with
  | nil => cases hfind
  | cons kv rest ih =>
    obtain ⟨k, u⟩ := kv
    rw [List.map_cons, List.nodup_cons] at hnodup
    unfold assoc_find at hfind
    by_cases hk : k = x
    · rw [if_pos hk] at hfind
      injection hfind with hu
      have hrest : assoc_replace rest x addr = rest :=
        assoc_replace_of_not_mem rest x addr (hk ▸ hnodup.1)
      have hcons : assoc_replace ((k, u) :: rest) x addr = (k, addr) :: rest := by
        unfold assoc_replace at hrest ⊢
        rw [List.map_cons, hrest]
        dsimp only
        rw [if_pos hk]
      rw [hcons]
      unfold strong_entries
      rw [List.filter_cons_of_pos (by simpa using haddr),
        List.filter_cons_of_neg (by simp [hu])]
      rfl
    · rw [if_neg hk] at hfind
      have hcons : assoc_replace ((k, u) :: rest) x addr = (k, u) :: assoc_replace rest x addr := by
        unfold assoc_replace
        rw [List.map_cons]
        dsimp only
        rw [if_neg hk]
      rw [hcons]
      have ih2 := ih hnodup.2 hfind
      unfold strong_entries at ih2 ⊢
      by_cases hu : u ≠ ""
      · rw [List.filter_cons_of_pos (by simpa using hu), List.filter_cons_of_pos (by simpa using hu),
          List.length_cons, List.length_cons, ih2]
      · rw [List.filter_cons_of_neg (by simpa using hu), List.filter_cons_of_neg (by simpa using hu),
          ih2]
theorem connect_string_ne_empty (cfg : blink_config) (proof : proof_info) :
    connect_string cfg proof ≠ "" := by
  intro h
  have hlen := congrArg String.length h
  unfold connect_string at hlen
  rw [String.length_append, String.length_append, String.length_append] at hlen
  have h6 : "tcp://".length = 6 := by decide
  have h0 : "".length = 0 := by decide
  omega

theorem assoc_find_mem {α β : Type} [DecidableEq α] (l : List (α × β)) (key : α) (v : β)
    (h : assoc_find l key = some v) : (key, v) ∈ l := by
  induction l with
  | nil => cases h
  | cons kv rest ih =>
    obtain ⟨k, u⟩ := kv
    unfold assoc_find at h
    by_cases hk : k = key
    · rw [if_pos hk] at h
      injection h with hu
      rw [hk, hu]
      exact List.mem_cons_self _ _
    · rw [if_neg hk] at h
      exact List.mem_cons_of_mem _ (ih h)

theorem matrix_remote_addr (cfg : blink_config) (snl : service_node_list)
    (candidates : List public_key) (pk : public_key) (r : String × String)
    (h : assoc_find (candidates.filterMap (matrix_remote cfg snl)) pk = some r) :
    r.2 ≠ "" := by
  have hmem := assoc_find_mem _ _ _ h
  rw [List.mem_filterMap] at hmem
  obtain ⟨c, _, hc⟩ := hmem
  unfold matrix_remote at hc
  cases hip : snl.info_and_proof c with
  | none => rw [hip] at hc; cases hc
  | some ip =>
    obtain ⟨info, proof⟩ := ip
    rw [hip] at hc
    dsimp only at hc
    split at hc
    · injection hc with hc
      injection hc with _ hr
      rw [← hr]
      exact connect_string_ne_empty cfg proof
    · cases hc

/-- The state that the strong peer accounting keeps: the counter is the number of entries
with an address, the keys of `peers` are distinct, and every remote has an address. -/
theorem peer_info.add_peer_accounting (p : peer_info) (pubkey : public_key) (strong : Bool)
    (hcount : p.strong_peers = (strong_entries p.peers : Int))
    (hnodup : (p.peers.map Prod.fst).Nodup)
    (hremotes : ∀ pk r, assoc_find p.remotes pk = some r → r.2 ≠ "") :
    (p.add_peer pubkey strong).1.strong_peers =
        (strong_entries (p.add_peer pubkey strong).1.peers : Int) ∧
      ((p.add_peer pubkey strong).1.peers.map Prod.fst).Nodup ∧
      (p.add_peer pubkey strong).1.remotes = p.remotes := by
  unfold peer_info.add_peer
  cases hr : assoc_find p.remotes pubkey with
  | none => exact ⟨hcount, hnodup, rfl⟩
  | some r =>
    obtain ⟨x25519, addr⟩ := r
    have haddr : addr ≠ "" := hremotes pubkey (x25519, addr) hr
    dsimp only
    cases hf : assoc_find p.peers x25519 with
    | some existing =>
      dsimp only
      by_cases hc : strong = true ∧ existing = ""
      · rw [if_pos hc]
        dsimp only
        refine ⟨?_, ?_, rfl⟩
        · rw [strong_entries_replace p.peers x25519 addr hnodup (hc.2 ▸ hf) haddr, hcount]
          push_cast
          rfl
        · rw [assoc_replace_keys]
          exact hnodup
      · rw [if_neg hc]
        exact ⟨hcount, hnodup, rfl⟩
    | none =>
      dsimp only
      have hkeys : ∀ a : String, ((p.peers ++ [(x25519, a)]).map Prod.fst).Nodup := by
        intro a
        rw [List.map_append, List.map_cons, List.map_nil]
        exact List.Nodup.append hnodup (List.nodup_singleton _)
          (List.disjoint_singleton.mpr ((assoc_find_none_iff _ _).mp hf))
      cases strong with
      | true =>
        rw [if_pos rfl, if_pos rfl]
        refine ⟨?_, hkeys _, rfl⟩
        rw [strong_entries_append, if_pos haddr, hcount]
        push_cast
        rfl
      | false =>
        rw [if_neg Bool.false_ne_true, if_neg Bool.false_ne_true]
        refine ⟨?_, hkeys _, rfl⟩
        rw [strong_entries_append, if_neg (not_not.mpr rfl), hcount]
        rfl

theorem peer_info.add_peers_accounting (calls : List (public_key × Bool)) (p : peer_info)
    (hcount : p.strong_peers = (strong_entries p.peers : Int))
    (hnodup : (p.peers.map Prod.fst).Nodup)
    (hremotes : ∀ pk r, assoc_find p.remotes pk = some r → r.2 ≠ "") :
    (p.add_peers calls).strong_peers = (strong_entries (p.add_peers calls).peers : Int) ∧
      ((p.add_peers calls).peers.map Prod.fst).Nodup ∧
      (p.add_peers calls).remotes = p.remotes := by
  induction calls generalizing p with
  | nil => exact ⟨hcount, hnodup, rfl⟩
  | cons c rest ih =>
    have hstep := peer_info.add_peer_accounting p c.1 c.2 hcount hnodup hremotes
    have hnext := ih (p.add_peer c.1 c.2).1 hstep.1 hstep.2.1
      (fun pk r h => hremotes pk r (hstep.2.2 ▸ h))
    unfold peer_info.add_peers at hnext ⊢
    rw [List.foldl_cons]
    exact ⟨hnext.1, hnext.2.1, hnext.2.2.trans hstep.2.2⟩

theorem peer_info.add_peer_strong_effect (p : peer_info) (pubkey : public_key)
    (x25519 addr : String) (hr : assoc_find p.remotes pubkey = some (x25519, addr)) :
    ((assoc_find p.peers x25519 = none ∨ assoc_find p.peers x25519 = some "") →
      (p.add_peer pubkey true).1.strong_peers = p.strong_peers + 1 ∧
      assoc_find (p.add_peer pubkey true).1.peers x25519 = some addr ∧
      (p.add_peer pubkey true).2 = true) ∧
    (∀ a, assoc_find p.peers x25519 = some a → a ≠ "" →
      p.add_peer pubkey true = (p, false)) := by
  unfold peer_info.add_peer
  rw [hr]
  dsimp only
  constructor
  · rintro (hf | hf)
    · rw [hf]
      dsimp only
      rw [if_pos rfl, if_pos rfl]
      exact ⟨rfl, assoc_find_append_none _ _ _ hf, rfl⟩
    · rw [hf]
      dsimp only
      rw [if_pos ⟨rfl, rfl⟩]
      exact ⟨rfl, assoc_find_replace_self _ _ _ _ hf, rfl⟩
  · intro a hf ha
    rw [hf]
    dsimp only
    rw [if_neg (fun h => ha h.2)]

theorem peer_info.add_peer_weak_effect (p : peer_info) (pubkey : public_key) :
    (p.add_peer pubkey false).1.strong_peers = p.strong_peers ∧
      (∀ x a, assoc_find p.peers x = some a →
        assoc_find (p.add_peer pubkey false).1.peers x = some a) := by
  unfold peer_info.add_peer
  cases assoc_find p.remotes pubkey with
  | none => exact ⟨rfl, fun x a h => h⟩
  | some r =>
    obtain ⟨x25519, addr⟩ := r
    dsimp only
    cases hf : assoc_find p.peers x25519 with
    | some existing =>
      dsimp only
      rw [if_neg (fun h => Bool.false_ne_true h.1)]
      exact ⟨rfl, fun x a h => h⟩
    | none =>
      dsimp only
      rw [if_neg Bool.false_ne_true, if_neg Bool.false_ne_true]
      exact ⟨rfl, fun x a h => assoc_find_append_some _ _ _ _ h⟩

theorem peer_info.add_peer_keeps_strong (p : peer_info) (pubkey : public_key) (strong : Bool)
    (x a : String) (hf : assoc_find p.peers x = some a) (ha : a ≠ "") :
    assoc_find (p.add_peer pubkey strong).1.peers x = some a := by
  unfold peer_info.add_peer
  cases assoc_find p.remotes pubkey with
  | none => exact hf
  | some r =>
    obtain ⟨x25519, addr⟩ := r
    dsimp only
    cases hf2 : assoc_find p.peers x25519 with
    | some existing =>
      dsimp only
      by_cases hc : strong = true ∧ existing = ""
      · rw [if_pos hc]
        dsimp only
        have hne : x ≠ x25519 := by
          intro he
          rw [he, hf2] at hf
          injection hf with hf
          exact ha (hf ▸ hc.2)
        rw [assoc_find_replace_ne _ _ _ _ hne]
        exact hf
      · rw [if_neg hc]
        exact hf
    | none =>
      dsimp only
      split
      · exact assoc_find_append_some _ _ _ _ hf
      · exact assoc_find_append_some _ _ _ _ hf
/-- C24: after any sequence of `add_peer` calls from the empty `peers` with
`strong_peers = 0`, over remotes looked up by the constructor, `strong_peers` is the number
of entries of `peers` with a non-empty address and the keys are distinct. A strong call for
a remote counts once, when the entry is new or weak, and then stores the remote's address,
which is not empty; a strong call for an entry that is already strong changes nothing; a
weak call never changes the counter; no call changes an entry that has an address. -/
theorem C24_strong_peers_counter (cfg : blink_config) (snl : service_node_list)
    (need_remotes : List public_key) (my_position : List Int) (my_position_count : Int)
    (calls : List (public_key × Bool)) :
    ((peer_info.start cfg snl need_remotes my_position my_position_count).add_peers
        calls).strong_peers =
      (strong_entries ((peer_info.start cfg snl need_remotes my_position
        my_position_count).add_peers calls).peers : Int) ∧
    (((peer_info.start cfg snl need_remotes my_position my_position_count).add_peers
        calls).peers.map Prod.fst).Nodup ∧
    (∀ (pubkey : public_key) (x25519 addr : String),
      assoc_find ((peer_info.start cfg snl need_remotes my_position my_position_count).add_peers
        calls).remotes pubkey = some (x25519, addr) →
      addr ≠ "" ∧
      ((assoc_find ((peer_info.start cfg snl need_remotes my_position
            my_position_count).add_peers calls).peers x25519 = none ∨
          assoc_find ((peer_info.start cfg snl need_remotes my_position
            my_position_count).add_peers calls).peers x25519 = some "") →
        ((((peer_info.start cfg snl need_remotes my_position my_position_count).add_peers
            calls).add_peer pubkey true).1.strong_peers =
          ((peer_info.start cfg snl need_remotes my_position my_position_count).add_peers
            calls).strong_peers + 1 ∧
        assoc_find ((((peer_info.start cfg snl need_remotes my_position
          my_position_count).add_peers calls).add_peer pubkey true).1.peers) x25519 =
            some addr)) ∧
      (∀ a, assoc_find ((peer_info.start cfg snl need_remotes my_position
            my_position_count).add_peers calls).peers x25519 = some a → a ≠ "" →
        ((peer_info.start cfg snl need_remotes my_position my_position_count).add_peers
            calls).add_peer pubkey true =
          (((peer_info.start cfg snl need_remotes my_position my_position_count).add_peers
            calls), false))) ∧
    (∀ pubkey : public_key,
      (((peer_info.start cfg snl need_remotes my_position my_position_count).add_peers
          calls).add_peer pubkey false).1.strong_peers =
        ((peer_info.start cfg snl need_remotes my_position my_position_count).add_peers
          calls).strong_peers) ∧
    (∀ (pubkey : public_key) (strong : Bool) (x a : String),
      assoc_find ((peer_info.start cfg snl need_remotes my_position my_position_count).add_peers
        calls).peers x = some a → a ≠ "" →
      assoc_find ((((peer_info.start cfg snl need_remotes my_position
        my_position_count).add_peers calls).add_peer pubkey strong).1.peers) x = some a) := by
  have hstart : ∀ pk r,
      assoc_find (peer_info.start cfg snl need_remotes my_position my_position_count).remotes
        pk = some r → r.2 ≠ "" :=
    fun pk r h => matrix_remote_addr cfg snl need_remotes pk r h
  have hacc := peer_info.add_peers_accounting calls
    (peer_info.start cfg snl need_remotes my_position my_position_count) rfl
    List.nodup_nil hstart
  refine ⟨hacc.1, hacc.2.1, ?_, ?_, ?_⟩
  · intro pubkey x25519 addr hr
    have heff := peer_info.add_peer_strong_effect _ pubkey x25519 addr hr
    refine ⟨hstart pubkey (x25519, addr) (hacc.2.2 ▸ hr), fun h => ?_, heff.2⟩
    exact ⟨(heff.1 h).1, (heff.1 h).2.1⟩
  · intro pubkey
    exact (peer_info.add_peer_weak_effect _ pubkey).1
  · intro pubkey strong x a hf ha
    exact peer_info.add_peer_keeps_strong _ pubkey strong x a hf ha

/-- C24 (witness): a weak add of `102`, its upgrade, a second strong add and a weak add of
`103` leave one strong entry and the counter at 1; one more strong add of `102` changes
nothing. -/
theorem C24_strong_peers_counter_witness :
    ((peer_info.start example_config example_snl [102, 103] [0] 1).add_peers
        [(102, false), (102, true), (102, true), (103, false)]).strong_peers = 1 ∧
    ((peer_info.start example_config example_snl [102, 103] [0] 1).add_peers
        [(102, false), (102, true), (102, true), (103, false)]).peers =
      [(example_x25519 102, "tcp://127.0.0.1:22020"), (example_x25519 103, "")] ∧
    ((peer_info.start example_config example_snl [102, 103] [0] 1).add_peers
        [(102, false), (102, true), (102, true), (103, false)]).add_peer 102 true =
      (((peer_info.start example_config example_snl [102, 103] [0] 1).add_peers
        [(102, false), (102, true), (102, true), (103, false)]), false) :=
  ⟨(C24_strong_peers_counter example_config example_snl [102, 103] [0] 1
      [(102, false), (102, true), (102, true), (103, false)]).1.trans (by decide),
    by decide,
    ((C24_strong_peers_counter example_config example_snl [102, 103] [0] 1
      [(102, false), (102, true), (102, true), (103, false)]).2.2.1 102 (example_x25519 102)
        "tcp://127.0.0.1:22020" (by decide)).2.2 "tcp://127.0.0.1:22020" (by decide)
        (by decide)⟩

/-! ## Decision transitions -/

theorem process_blink_signatures_fields (cfg : blink_config) (core : member_core)
    (sc : signature_core) (a : process_blink_signatures_args) :
    (process_blink_signatures cfg core sc a).btx =
        (add_signatures sc a.btx (verified_signatures core sc a)).1 ∧
      (process_blink_signatures cfg core sc a).recorded =
        (add_signatures sc a.btx (verified_signatures core sc a)).2 ∧
      (process_blink_signatures cfg core sc a).became_approved =
        (decide ((add_signatures sc a.btx (verified_signatures core sc a)).2 ≠ [] ∧
            core.approved a.btx = false ∧
            (!core.approved a.btx && core.rejected a.btx) = false) &&
          core.approved (add_signatures sc a.btx (verified_signatures core sc a)).1) ∧
      (process_blink_signatures cfg core sc a).became_rejected =
        (decide ((add_signatures sc a.btx (verified_signatures core sc a)).2 ≠ [] ∧
            core.approved a.btx = false ∧
            (!core.approved a.btx && core.rejected a.btx) = false) &&
          !core.approved (add_signatures sc a.btx (verified_signatures core sc a)).1 &&
          core.rejected (add_signatures sc a.btx (verified_signatures core sc a)).1) := by
  unfold process_blink_signatures verified_signatures
  dsimp only
  by_cases h1 : a.signatures.filter (signature_slot_open sc a.btx a.blink_quorums) = []
  · rw [if_pos h1, h1]
    simp [add_signatures]
  · rw [if_neg h1]
    by_cases h2 : (a.signatures.filter (signature_slot_open sc a.btx a.blink_quorums)).filter
        (signature_verifies core sc a.btx a.blink_quorums) = []
    · rw [if_pos h2, h2]
      simp [add_signatures]
    · rw [if_neg h2]
      split
      · rename_i h3
        rw [h3]
        simp
      · exact ⟨rfl, rfl, rfl, rfl⟩
theorem relay_to_peers_no_decision (p : peer_info) (data : bt_dict) :
    (p.relay_to_peers "quorum.blink_sign" data).filter is_decision_reply = [] := by
  unfold peer_info.relay_to_peers
  rw [List.filter_eq_nil_iff]
  intro m hm
  rw [List.mem_map] at hm
  obtain ⟨peer, _, hpeer⟩ := hm
  rw [← hpeer]
  split <;> simp [is_decision_reply]

theorem process_blink_signatures_replies (cfg : blink_config) (core : member_core)
    (sc : signature_core) (a : process_blink_signatures_args) :
    (process_blink_signatures cfg core sc a).sent.filter is_decision_reply =
      if (process_blink_signatures cfg core sc a).recorded ≠ [] ∧ a.reply_tag ≠ 0 ∧
          a.reply_conn.valid = true then
        if (process_blink_signatures cfg core sc a).became_approved = true then
          [⟨a.reply_conn, "bl.good", [("!", bt_value.int a.reply_tag)], send_option.optional⟩]
        else if (process_blink_signatures cfg core sc a).became_rejected = true then
          [⟨a.reply_conn, "bl.bad", [("!", bt_value.int a.reply_tag)], send_option.optional⟩]
        else []
      else [] := by
  unfold process_blink_signatures
  dsimp only
  by_cases h1 : a.signatures.filter (signature_slot_open sc a.btx a.blink_quorums) = []
  · rw [if_pos h1]
    simp
  · rw [if_neg h1]
    by_cases h2 : (a.signatures.filter (signature_slot_open sc a.btx a.blink_quorums)).filter
        (signature_verifies core sc a.btx a.blink_quorums) = []
    · rw [if_pos h2]
      simp
    · rw [if_neg h2]
      split
      · simp
      · rename_i h3
        dsimp only
        rw [List.filter_append, relay_to_peers_no_decision, List.nil_append]
        simp only [ne_eq, h3, not_false_eq_true, true_and]
        split_ifs <;> simp [is_decision_reply]

theorem add_signatures_persists (core : member_core) (sc : signature_core)
    (hp : decision_persists core sc) (l : List pending_signature) (b : blink_tx) :
    (core.approved b = true → core.approved (add_signatures sc b l).1 = true) ∧
      (core.rejected b = true → core.rejected (add_signatures sc b l).1 = true) := by
  induction l generalizing b with
  | nil => exact ⟨fun h => h, fun h => h⟩
  | cons s rest ih =>
    cases hadd : sc.add_prechecked_signature b s.subquorum s.position s.approval s.signature with
    | none =>
      simp only [add_signatures, hadd]
      exact ih b
    | some b1 =>
      simp only [add_signatures, hadd]
      have h1 := hp b _ _ _ _ b1 hadd
      exact ⟨fun h => (ih b1).1 (h1.1 h), fun h => (ih b1).2 (h1.2 h)⟩

theorem process_blink_signatures_detected (cfg : blink_config) (core : member_core)
    (sc : signature_core) (a : process_blink_signatures_args)
    (hd : (process_blink_signatures cfg core sc a).detected = true) :
    core.approved a.btx = false ∧ core.rejected a.btx = false ∧
      (process_blink_signatures cfg core sc a).recorded ≠ [] ∧
      (core.approved (process_blink_signatures cfg core sc a).btx = true ∨
        core.rejected (process_blink_signatures cfg core sc a).btx = true) := by
  have hf := process_blink_signatures_fields cfg core sc a
  unfold process_outcome.detected at hd
  rw [hf.2.2.1, hf.2.2.2] at hd
  rw [hf.1, hf.2.1]
  cases hA : core.approved a.btx <;> cases hR : core.rejected a.btx <;>
    cases hA1 : core.approved (add_signatures sc a.btx (verified_signatures core sc a)).1 <;>
    cases hR1 : core.rejected (add_signatures sc a.btx (verified_signatures core sc a)).1 <;>
    simp [hA, hR, hA1, hR1] at hd ⊢ <;> exact hd

theorem process_blink_signatures_not_both (cfg : blink_config) (core : member_core)
    (sc : signature_core) (a : process_blink_signatures_args) :
    ¬ ((process_blink_signatures cfg core sc a).became_approved = true ∧
      (process_blink_signatures cfg core sc a).became_rejected = true) := by
  have hf := process_blink_signatures_fields cfg core sc a
  rw [hf.2.2.1, hf.2.2.2]
  cases core.approved (add_signatures sc a.btx (verified_signatures core sc a)).1 <;> simp

theorem process_blink_signatures_persists (cfg : blink_config) (core : member_core)
    (sc : signature_core) (hp : decision_persists core sc) (a : process_blink_signatures_args)
    (hdec : core.approved a.btx = true ∨ core.rejected a.btx = true) :
    (core.approved (process_blink_signatures cfg core sc a).btx = true ∨
        core.rejected (process_blink_signatures cfg core sc a).btx = true) ∧
      (process_blink_signatures cfg core sc a).detected = false := by
  have hf := process_blink_signatures_fields cfg core sc a
  have hpers := add_signatures_persists core sc hp (verified_signatures core sc a) a.btx
  constructor
  · rw [hf.1]
    rcases hdec with h | h
    · exact Or.inl (hpers.1 h)
    · exact Or.inr (hpers.2 h)
  · cases hdet : (process_blink_signatures cfg core sc a).detected with
    | false => rfl
    | true =>
      have h := process_blink_signatures_detected cfg core sc a hdet
      rcases hdec with h2 | h2
      · rw [h.1] at h2; cases h2
      · rw [h.2.1] at h2; cases h2
theorem process_blink_signatures_sequence_mem (cfg : blink_config) (core : member_core)
    (sc : signature_core) (calls : List process_blink_signatures_args) (btx : blink_tx)
    (o : process_outcome) (ho : o ∈ process_blink_signatures_sequence cfg core sc btx calls) :
    ∃ a, o = process_blink_signatures cfg core sc a := by
  induction calls generalizing btx with
  | nil => cases ho
  | cons a rest ih =>
    unfold process_blink_signatures_sequence at ho
    rcases List.mem_cons.mp ho with h | h
    · exact ⟨_, h⟩
    · exact ih _ h

theorem process_blink_signatures_silent (cfg : blink_config) (core : member_core)
    (sc : signature_core) (a : process_blink_signatures_args)
    (hd : (process_blink_signatures cfg core sc a).detected = false) :
    (process_blink_signatures cfg core sc a).sent.filter is_decision_reply = [] := by
  rw [process_blink_signatures_replies]
  unfold process_outcome.detected at hd
  rw [Bool.or_eq_false_iff] at hd
  rw [hd.1, hd.2]
  simp

theorem process_blink_signatures_one_reply (cfg : blink_config) (core : member_core)
    (sc : signature_core) (a : process_blink_signatures_args) :
    ((process_blink_signatures cfg core sc a).sent.filter is_decision_reply).length ≤ 1 := by
  rw [process_blink_signatures_replies]
  split_ifs <;> simp

theorem process_blink_signatures_sequence_decided (cfg : blink_config) (core : member_core)
    (sc : signature_core) (hp : decision_persists core sc)
    (calls : List process_blink_signatures_args) (btx : blink_tx)
    (hdec : core.approved btx = true ∨ core.rejected btx = true) :
    (process_blink_signatures_sequence cfg core sc btx calls).filter
        process_outcome.detected = [] ∧
      ((process_blink_signatures_sequence cfg core sc btx calls).flatMap
        (fun o => o.sent)).filter is_decision_reply = [] := by
  induction calls generalizing btx with
  | nil => exact ⟨rfl, rfl⟩
  | cons a rest ih =>
    have hstep := process_blink_signatures_persists cfg core sc hp { a with btx := btx } hdec
    have hrest := ih _ hstep.1
    unfold process_blink_signatures_sequence
    constructor
    · rw [List.filter_cons_of_neg (by rw [hstep.2]; exact Bool.false_ne_true)]
      exact hrest.1
    · rw [List.flatMap_cons, List.filter_append,
        process_blink_signatures_silent cfg core sc _ hstep.2, List.nil_append]
      exact hrest.2

theorem process_blink_signatures_sequence_once (cfg : blink_config) (core : member_core)
    (sc : signature_core) (hp : decision_persists core sc)
    (calls : List process_blink_signatures_args) (btx : blink_tx) :
    ((process_blink_signatures_sequence cfg core sc btx calls).filter
        process_outcome.detected).length ≤ 1 ∧
      (((process_blink_signatures_sequence cfg core sc btx calls).flatMap
        (fun o => o.sent)).filter is_decision_reply).length ≤ 1 := by
  induction calls generalizing btx with
  | nil => exact ⟨Nat.zero_le _, Nat.zero_le _⟩
  | cons a rest ih =>
    unfold process_blink_signatures_sequence
    rw [List.flatMap_cons, List.filter_append, List.length_append]
    cases hdet : (process_blink_signatures cfg core sc { a with btx := btx }).detected with
    | false =>
      rw [List.filter_cons_of_neg (by rw [hdet]; exact Bool.false_ne_true),
        process_blink_signatures_silent cfg core sc _ hdet, List.length_nil, Nat.zero_add]
      exact ih _
    | true =>
      have hnow := process_blink_signatures_detected cfg core sc _ hdet
      have hrest := process_blink_signatures_sequence_decided cfg core sc hp rest _ hnow.2.2.2
      rw [List.filter_cons_of_pos hdet, hrest.1, hrest.2, List.length_nil, Nat.add_zero]
      exact ⟨Nat.le_refl _, process_blink_signatures_one_reply cfg core sc _⟩

theorem example_decision_persists :
    decision_persists (example_member 100) example_signature_core := by
  intro b q p a s b1 hadd
  have hadd1 : (if (if p < 0 then signature_status.rejected
      else (b.sigs.getD q []).getD p.toNat signature_status.rejected) = signature_status.none
    then some ({ b with sigs := b.sigs.set q ((b.sigs.getD q []).set p.toNat
      (if a then signature_status.approved else signature_status.rejected)) } : blink_tx)
    else none) = some b1 := hadd
  by_cases hfree : (if p < 0 then signature_status.rejected
      else (b.sigs.getD q []).getD p.toNat signature_status.rejected) = signature_status.none
  · rw [if_pos hfree] at hadd1
    injection hadd1 with hb1
    have hp : ¬ p < 0 := by
      intro hp
      rw [if_pos hp] at hfree
      cases hfree
    rw [if_neg hp] at hfree
    have hhead : ∀ st : signature_status, st ≠ signature_status.none →
        b.sigs.head? = some [st] → b1.sigs.head? = some [st] := by
      intro st hst hh
      rw [← hb1]
      dsimp only
      cases hs : b.sigs with
      | nil => rw [hs] at hh; cases hh
      | cons x t =>
        rw [hs] at hh hfree
        injection hh with hx
        cases q with
        | succ q1 => rw [List.set_cons_succ, List.head?_cons, hx]
        | zero =>
          exfalso
          rw [List.getD_cons_zero, hx] at hfree
          cases hn : p.toNat with
          | zero =>
            rw [hn, List.getD_cons_zero] at hfree
            exact hst hfree
          | succ n =>
            rw [hn, List.getD_cons_succ] at hfree
            cases n <;> cases hfree
    constructor
    · intro h
      have h1 : b.sigs.head? = some [signature_status.approved] := of_decide_eq_true h
      exact decide_eq_true (hhead _ (by decide) h1)
    · intro h
      have h1 : b.sigs.head? = some [signature_status.rejected] := of_decide_eq_true h
      exact decide_eq_true (hhead _ (by decide) h1)
  · rw [if_neg hfree] at hadd1
    cases hadd1
/-- C25: if storing a signature never reverts `approved` or `rejected`, then over any
sequence of `process_blink_signatures` calls on one blink tx at most one call sets a
transition flag and at most one decision reply is sent; no call sets both flags; a call sets
neither flag when the blink tx is approved or rejected at entry or when it records no new
signature; and a `bl.good` or `bl.bad` is sent only by a call that set a flag, only when
`reply_tag` is not zero and `reply_conn` is set, and only to `reply_conn`. -/
theorem C25_single_decision_transition (cfg : blink_config) (core : member_core)
    (sc : signature_core) (hp : decision_persists core sc) (btx : blink_tx)
    (calls : List process_blink_signatures_args) :
    ((process_blink_signatures_sequence cfg core sc btx calls).filter
        process_outcome.detected).length ≤ 1 ∧
    (((process_blink_signatures_sequence cfg core sc btx calls).flatMap
        (fun o => o.sent)).filter is_decision_reply).length ≤ 1 ∧
    (∀ o ∈ process_blink_signatures_sequence cfg core sc btx calls,
      ¬ (o.became_approved = true ∧ o.became_rejected = true)) ∧
    (∀ a : process_blink_signatures_args,
      (core.approved a.btx = true ∨ core.rejected a.btx = true ∨
          (process_blink_signatures cfg core sc a).recorded = []) →
        (process_blink_signatures cfg core sc a).became_approved = false ∧
        (process_blink_signatures cfg core sc a).became_rejected = false) ∧
    (∀ (a : process_blink_signatures_args) (m : Sent),
      m ∈ (process_blink_signatures cfg core sc a).sent → is_decision_reply m = true →
        (process_blink_signatures cfg core sc a).detected = true ∧ a.reply_tag ≠ 0 ∧
        a.reply_conn.valid = true ∧ m.dest = a.reply_conn ∧
        (m.cmd = "bl.good" ↔ (process_blink_signatures cfg core sc a).became_approved = true)) := by
  have honce := process_blink_signatures_sequence_once cfg core sc hp calls btx
  refine ⟨honce.1, honce.2, ?_, ?_, ?_⟩
  · intro o ho
    obtain ⟨a, ha⟩ := process_blink_signatures_sequence_mem cfg core sc calls btx o ho
    rw [ha]
    exact process_blink_signatures_not_both cfg core sc a
  · intro a hcase
    cases hdet : (process_blink_signatures cfg core sc a).detected with
    | false =>
      unfold process_outcome.detected at hdet
      exact Bool.or_eq_false_iff.mp hdet
    | true =>
      have h := process_blink_signatures_detected cfg core sc a hdet
      rcases hcase with h2 | h2 | h2
      · rw [h.1] at h2; cases h2
      · rw [h.2.1] at h2; cases h2
      · exact absurd h2 h.2.2.1
  · intro a m hm hdec
    have hmem : m ∈ (process_blink_signatures cfg core sc a).sent.filter is_decision_reply :=
      List.mem_filter.mpr ⟨hm, hdec⟩
    rw [process_blink_signatures_replies] at hmem
    have hnb := process_blink_signatures_not_both cfg core sc a
    unfold process_outcome.detected
    split_ifs at hmem with h1 h2 h3
    · rw [List.mem_singleton] at hmem
      rw [hmem, h2]
      exact ⟨rfl, h1.2.1, h1.2.2, rfl, by simp⟩
    · rw [List.mem_singleton] at hmem
      rw [hmem, h3, Bool.not_eq_true _ |>.mp h2]
      exact ⟨rfl, h1.2.1, h1.2.2, rfl, by simp⟩
    · exact absurd hmem (List.not_mem_nil m)
    · exact absurd hmem (List.not_mem_nil m)

/-- C25 (witness): on the open example blink tx, the call that brings the approval of slot
`(0, 0)` detects the approval and sends `bl.good` to the submitter; the next call records a
signature of the other subquorum and detects nothing. -/
theorem C25_single_decision_transition_witness :
    decision_persists (example_member 100) example_signature_core ∧
    ((process_blink_signatures_sequence example_config (example_member 100)
        example_signature_core example_open_btx
        [example_process_args 0, example_process_args 1]).filter
          process_outcome.detected).length ≤ 1 ∧
    (process_blink_signatures_sequence example_config (example_member 100)
        example_signature_core example_open_btx
        [example_process_args 0, example_process_args 1]).map
          (fun o => (o.became_approved, o.became_rejected, o.recorded.length,
            (o.sent.filter is_decision_reply).map (fun m => (m.dest, m.cmd)))) =
      [(true, false, 1, [(example_submitter, "bl.good")]), (false, false, 1, [])] :=
  ⟨example_decision_persists,
    (C25_single_decision_transition example_config (example_member 100) example_signature_core
      example_decision_persists example_open_btx
      [example_process_args 0, example_process_args 1]).1,
    by decide⟩

/-! ## Recorded and relayed signatures -/

theorem add_signatures_sublist (sc : signature_core) (l : List pending_signature)
    (b : blink_tx) : (add_signatures sc b l).2.Sublist l := by
  induction l generalizing b with
  | nil => exact List.Sublist.refl _
  | cons s rest ih =>
    cases hadd : sc.add_prechecked_signature b s.subquorum s.position s.approval s.signature with
    | none =>
      simp only [add_signatures, hadd]
      exact List.Sublist.cons _ (ih b)
    | some b1 =>
      simp only [add_signatures, hadd]
      exact List.Sublist.cons₂ _ (ih b1)

theorem signature_slot_open_spec (sc : signature_core) (btx : blink_tx)
    (blink_quorums : quorum_array) (s : pending_signature)
    (h : signature_slot_open sc btx blink_quorums s = true) :
    0 ≤ s.position ∧
      s.position < ((quorum_validators blink_quorums s.subquorum).length : Int) ∧
      sc.get_signature_status btx s.subquorum s.position = signature_status.none := by
  unfold signature_slot_open at h
  by_cases hr : s.position < 0 ∨
      s.position ≥ ((quorum_validators blink_quorums s.subquorum).length : Int)
  · rw [if_pos hr] at h; cases h
  · rw [if_neg hr] at h
    by_cases hs : sc.get_signature_status btx s.subquorum s.position ≠ signature_status.none
    · rw [if_pos hs] at h; cases h
    · exact ⟨not_lt.mp (fun h1 => hr (Or.inl h1)), not_le.mp (fun h1 => hr (Or.inr h1)),
        not_not.mp hs⟩

theorem process_blink_signatures_sent (cfg : blink_config) (core : member_core)
    (sc : signature_core) (a : process_blink_signatures_args) :
    ((process_blink_signatures cfg core sc a).recorded = [] →
      (process_blink_signatures cfg core sc a).sent = []) ∧
    (∀ m ∈ (process_blink_signatures cfg core sc a).sent, m.cmd = "quorum.blink_sign" →
      m.data = blink_sign_data sc (process_blink_signatures cfg core sc a).btx a.quorum_checksum
        (process_blink_signatures cfg core sc a).recorded) := by
  unfold process_blink_signatures
  dsimp only
  by_cases h1 : a.signatures.filter (signature_slot_open sc a.btx a.blink_quorums) = []
  · rw [if_pos h1]
    exact ⟨fun _ => rfl, fun m hm => absurd hm (List.not_mem_nil m)⟩
  · rw [if_neg h1]
    by_cases h2 : (a.signatures.filter (signature_slot_open sc a.btx a.blink_quorums)).filter
        (signature_verifies core sc a.btx a.blink_quorums) = []
    · rw [if_pos h2]
      exact ⟨fun _ => rfl, fun m hm => absurd hm (List.not_mem_nil m)⟩
    · rw [if_neg h2]
      split
      · exact ⟨fun _ => rfl, fun m hm => absurd hm (List.not_mem_nil m)⟩
      · rename_i h3
        dsimp only
        refine ⟨fun h => absurd h h3, fun m hm hcmd => ?_⟩
        rcases List.mem_append.mp hm with h | h
        · unfold peer_info.relay_to_peers at h
          rw [List.mem_map] at h
          obtain ⟨peer, _, hpeer⟩ := h
          rw [← hpeer]
          split <;> rfl
        · exfalso
          split_ifs at h
          · rw [List.mem_singleton] at h
            rw [h] at hcmd
            exact absurd hcmd (by simp)
          · rw [List.mem_singleton] at h
            rw [h] at hcmd
            exact absurd hcmd (by simp)
          · exact absurd h (List.not_mem_nil m)
          · exact absurd h (List.not_mem_nil m)

theorem process_blink_signatures_recorded_mem (cfg : blink_config) (core : member_core)
    (sc : signature_core) (a : process_blink_signatures_args) (x : pending_signature)
    (hx : x ∈ (process_blink_signatures cfg core sc a).recorded) :
    x ∈ a.signatures ∧ signature_slot_open sc a.btx a.blink_quorums x = true ∧
      signature_verifies core sc a.btx a.blink_quorums x = true := by
  rw [(process_blink_signatures_fields cfg core sc a).2.1] at hx
  have hv := (add_signatures_sublist sc (verified_signatures core sc a) a.btx).subset hx
  unfold verified_signatures at hv
  have h2 := List.mem_filter.mp hv
  have h1 := List.mem_filter.mp h2.1
  exact ⟨h1.1, h1.2, h2.2⟩

/-- C26: in a call whose input signatures all name a subquorum below `NUM_BLINK_QUORUMS`,
every lookup `blink_quorums[qi]` and `validators[position]` is in range; every recorded
signature is one of the input, has `0 ≤ position < |validators|`, went to a slot that was
empty, and verifies against `hash(approval)` under the key of `validators[position]`; every
relayed `quorum.blink_sign` carries the lists `i`, `p`, `r`, `s` of the recorded signatures,
each as long as the number of recorded signatures; and nothing is sent when no signature is
recorded. -/
theorem C26_recorded_signatures_sound (cfg : blink_config) (core : member_core)
    (sc : signature_core) (a : process_blink_signatures_args)
    (hquorums : a.blink_quorums.length = NUM_BLINK_QUORUMS)
    (hsub : ∀ s ∈ a.signatures, s.subquorum < NUM_BLINK_QUORUMS) :
    (∀ s ∈ a.signatures, s.subquorum < a.blink_quorums.length) ∧
    (∀ s ∈ a.signatures.filter (signature_slot_open sc a.btx a.blink_quorums),
      s.position.toNat < (quorum_validators a.blink_quorums s.subquorum).length) ∧
    (∀ x ∈ (process_blink_signatures cfg core sc a).recorded,
      x ∈ a.signatures ∧ 0 ≤ x.position ∧
      x.position < ((quorum_validators a.blink_quorums x.subquorum).length : Int) ∧
      sc.get_signature_status a.btx x.subquorum x.position = signature_status.none ∧
      ∃ h : x.position.toNat < (quorum_validators a.blink_quorums x.subquorum).length,
        sc.check_signature (core.hash a.btx x.approval)
          ((quorum_validators a.blink_quorums x.subquorum).get ⟨x.position.toNat, h⟩)
          x.signature = true) ∧
    (∀ m ∈ (process_blink_signatures cfg core sc a).sent, m.cmd = "quorum.blink_sign" →
      ∀ key ∈ ["i", "p", "r", "s"], ∃ l, bt_dict.find m.data key = some (bt_value.list l) ∧
        l.length = (process_blink_signatures cfg core sc a).recorded.length) ∧
    (∀ m ∈ (process_blink_signatures cfg core sc a).sent, m.cmd = "quorum.blink_sign" →
      m.data = blink_sign_data sc (process_blink_signatures cfg core sc a).btx a.quorum_checksum
        (process_blink_signatures cfg core sc a).recorded) ∧
    ((process_blink_signatures cfg core sc a).recorded = [] →
      (process_blink_signatures cfg core sc a).sent = []) := by
  have hsent := process_blink_signatures_sent cfg core sc a
  have hrange : ∀ s : pending_signature,
      signature_slot_open sc a.btx a.blink_quorums s = true →
        s.position.toNat < (quorum_validators a.blink_quorums s.subquorum).length := by
    intro s hs
    have h := signature_slot_open_spec sc a.btx a.blink_quorums s hs
    omega
  refine ⟨fun s hs => hquorums ▸ hsub s hs, fun s hs => hrange s (List.mem_filter.mp hs).2,
    ?_, ?_, hsent.2, hsent.1⟩
  · intro x hx
    have h := process_blink_signatures_recorded_mem cfg core sc a x hx
    have hopen := signature_slot_open_spec sc a.btx a.blink_quorums x h.2.1
    refine ⟨h.1, hopen.1, hopen.2.1, hopen.2.2, hrange x h.2.1, ?_⟩
    have hv := h.2.2
    unfold signature_verifies at hv
    rw [List.getD_eq_getElem _ _ (hrange x h.2.1)] at hv
    exact hv
  · intro m hm hcmd key hkey
    rw [hsent.2 m hm hcmd]
    simp only [List.mem_cons, List.mem_singleton, List.not_mem_nil, or_false] at hkey
    rcases hkey with h | h | h | h <;> rw [h]
    · exact ⟨_, rfl, List.length_map _ _⟩
    · exact ⟨_, rfl, List.length_map _ _⟩
    · exact ⟨_, rfl, List.length_map _ _⟩
    · exact ⟨_, rfl, List.length_map _ _⟩

/-- C26 (witness): the call that brings the approval of slot `(0, 0)` to the open example
blink tx records it and relays it with lists of length one. -/
theorem C26_recorded_signatures_sound_witness :
    (example_process_args 0).blink_quorums.length = NUM_BLINK_QUORUMS ∧
    (∀ s ∈ (example_process_args 0).signatures, s.subquorum < NUM_BLINK_QUORUMS) ∧
    (process_blink_signatures example_config (example_member 100) example_signature_core
      (example_process_args 0)).recorded = [⟨true, 0, 0, example_signature⟩] ∧
    (∀ x ∈ (process_blink_signatures example_config (example_member 100)
        example_signature_core (example_process_args 0)).recorded,
      x ∈ (example_process_args 0).signatures ∧ 0 ≤ x.position ∧
      x.position < ((quorum_validators (example_process_args 0).blink_quorums
        x.subquorum).length : Int)) :=
  ⟨by decide, by decide, by decide,
    fun x hx =>
      ⟨((C26_recorded_signatures_sound example_config (example_member 100)
          example_signature_core (example_process_args 0) (by decide) (by decide)).2.2.1
            x hx).1,
        ((C26_recorded_signatures_sound example_config (example_member 100)
          example_signature_core (example_process_args 0) (by decide) (by decide)).2.2.1
            x hx).2.1,
        ((C26_recorded_signatures_sound example_config (example_member 100)
          example_signature_core (example_process_args 0) (by decide) (by decide)).2.2.1
            x hx).2.2.1⟩⟩

/-! ## Reply connection of an accepted submission -/

/-- C27. The submission of the external submitter `example_submitter`, with tag 7, reaches
the member 101 while three approvals wait in the cache, so that the member's own approval
completes the decision. The cache entry keeps the submitter's connection as `reply_conn`,
but `process_blink_signatures` is given the service-node connection id built from
`m.conn.pubkey()`, which is another connection, and the `bl.good` goes there. In every
accepted submission the reply connection passed on is the one built from the pubkey; it is
the connection of arrival exactly when that one is a service-node connection id. -/
theorem C27_reply_conn_built_from_pubkey :
    (∃ out call,
      handle_blink example_config example_member_counting example_cache_waiting
        (example_submit 7 645) = Except.ok out ∧
      out.process = some call ∧
      (out.blinks.find (100, example_tx_hash)).map (fun e => (e.reply_tag, e.reply_conn)) =
        some (7, example_submitter) ∧
      call.reply_tag = 7 ∧
      call.reply_conn = ⟨-1, "wallet", ""⟩ ∧
      call.reply_conn ≠ example_submitter ∧
      (process_blink_signatures example_config example_member_counting example_signature_core
        call).became_approved = true ∧
      (process_blink_signatures example_config example_member_counting example_signature_core
        call).sent.filter is_decision_reply =
        [⟨⟨-1, "wallet", ""⟩, "bl.good", [("!", bt_value.int 7)], send_option.optional⟩]) ∧
    (∀ (core : member_core) (blinks : blink_cache) (m : Message) (tag blink_height checksum : Nat)
        (tx_data tx_hash_str : String) (blink_quorums : quorum_array) (pinfo : peer_info)
        (btx : blink_tx),
      (handle_blink_store core blinks m tag blink_height checksum tx_data tx_hash_str
          blink_quorums pinfo btx).process.map (fun c => (c.reply_conn, c.received_from)) =
        if ((blinks.get_or_default (blink_height, tx_hash_str)).btxptr.isSome) = true then none
        else some (ConnectionID.of_pubkey m.conn.pk, "")) ∧
    (∀ c : ConnectionID, ConnectionID.of_pubkey c.pk = c ↔ c.id = -1 ∧ c.route = "") := by
  refine ⟨⟨_, _, rfl, rfl, by decide, rfl, rfl, by decide, by decide, by decide⟩, ?_, ?_⟩
  · intro core blinks m tag blink_height checksum tx_data tx_hash_str blink_quorums pinfo btx
    unfold handle_blink_store
    dsimp only
    split <;> rfl
  · intro c
    obtain ⟨id, pk, route⟩ := c
    unfold ConnectionID.of_pubkey
    simp only [ConnectionID.mk.injEq, true_and]
    constructor
    · rintro ⟨h1, h2⟩
      exact ⟨h1.symm, h2.symm⟩
    · rintro ⟨h1, h2⟩
      exact ⟨h1.symm, h2.symm⟩

/-! ## Vote round trip -/

theorem bt_dict.at_ok (d : bt_dict) (key : String) (v : bt_value) :
    d.at key = Except.ok v ↔ d.find key = some v := by
  unfold bt_dict.at
  cases d.find key with
  | none =>
    constructor
    · intro h; cases h
    · intro h; cases h
  | some w =>
    constructor
    · intro h; injection h with h; rw [h]
    · intro h; injection h with h; rw [h]

theorem get_int_ok (max : Nat) (v : bt_value) (n : Nat) :
    get_int max v = Except.ok n ↔ v = bt_value.int (n : Int) ∧ n ≤ max := by
  cases v with
  | str t =>
    constructor
    · intro h; cases h
    · rintro ⟨h, _⟩; cases h
  | list l =>
    constructor
    · intro h; cases h
    · rintro ⟨h, _⟩; cases h
  | int k =>
    cases k with
    | negSucc j =>
      constructor
      · intro h; cases h
      · rintro ⟨h, _⟩
        injection h with h
        cases h
    | ofNat j =>
      show (if j ≤ max then Except.ok j else Except.error "integer out of range") =
        Except.ok n ↔ _
      by_cases hr : j ≤ max
      · rw [if_pos hr]
        constructor
        · intro h
          injection h with h
          rw [← h]
          exact ⟨rfl, hr⟩
        · rintro ⟨h, _⟩
          injection h with h
          rw [Int.ofNat_inj.mp h]
      · rw [if_neg hr]
        constructor
        · intro h; cases h
        · rintro ⟨h, hr2⟩
          injection h with h
          rw [Int.ofNat_inj.mp h] at hr
          exact absurd hr2 hr

theorem get_int_u64_ok (v : bt_value) (n : Nat) :
    get_int_u64 v = Except.ok n ↔ v = bt_value.int (n : Int) ∧ n < U64 := by
  cases v with
  | str t =>
    constructor
    · intro h; cases h
    · rintro ⟨h, _⟩; cases h
  | list l =>
    constructor
    · intro h; cases h
    · rintro ⟨h, _⟩; cases h
  | int k =>
    cases k with
    | negSucc j =>
      constructor
      · intro h; cases h
      · rintro ⟨h, _⟩
        injection h with h
        cases h
    | ofNat j =>
      show (if j < U64 then Except.ok j else Except.error "integer out of range") =
        Except.ok n ↔ _
      by_cases hr : j < U64
      · rw [if_pos hr]
        constructor
        · intro h
          injection h with h
          rw [← h]
          exact ⟨rfl, hr⟩
        · rintro ⟨h, _⟩
          injection h with h
          rw [Int.ofNat_inj.mp h]
      · rw [if_neg hr]
        constructor
        · intro h; cases h
        · rintro ⟨h, hr2⟩
          injection h with h
          rw [Int.ofNat_inj.mp h] at hr
          exact absurd hr2 hr

theorem get_string_ok (v : bt_value) (s : String) :
    get_string v = Except.ok s ↔ v = bt_value.str s := by
  cases v with
  | int n => constructor <;> intro h <;> cases h
  | list l => constructor <;> intro h <;> cases h
  | str t =>
    constructor
    · intro h
      injection h with h
      rw [h]
    · intro h
      injection h with h
      rw [h]
      rfl

theorem ite_error_ok {α : Type} (c : Prop) [Decidable c] (e : String) (x : Except String α)
    (a : α) : (if c then Except.error e else x) = Except.ok a ↔ ¬ c ∧ x = Except.ok a := by
  by_cases h : c
  · rw [if_pos h]
    constructor
    · intro h2; cases h2
    · rintro ⟨h2, _⟩; exact absurd h h2
  · rw [if_neg h]
    exact ⟨fun h2 => ⟨h, h2⟩, fun h2 => h2.2⟩

theorem ite_ok_error {α : Type} (c : Prop) [Decidable c] (e : String) (x a : α) :
    (if c then Except.ok x else (Except.error e : Except String α)) = Except.ok a ↔
      c ∧ x = a := by
  by_cases h : c
  · rw [if_pos h]
    constructor
    · intro h2; injection h2 with h2; exact ⟨h, h2⟩
    · rintro ⟨_, h2⟩; rw [h2]
  · rw [if_neg h]
    constructor
    · intro h2; cases h2
    · rintro ⟨h2, _⟩; exact absurd h2 h

theorem get_enum_ok (count max : Nat) (d : bt_dict) (key : String) (n : Nat) :
    get_enum count max d key = Except.ok n ↔
      d.find key = some (bt_value.int (n : Int)) ∧ n ≤ max ∧ n < count := by
  unfold get_enum
  simp only [except_do_ok, bt_dict.at_ok, get_int_ok, ite_ok_error]
  constructor
  · rintro ⟨v, hv, r, ⟨hr, hmax⟩, hc, hrn⟩
    subst hrn
    rw [hr] at hv
    exact ⟨hv, hmax, hc⟩
  · rintro ⟨hv, hmax, hc⟩
    exact ⟨_, hv, n, ⟨rfl, hmax⟩, hc, rfl⟩
theorem ite_except_ok {α : Type} (c : Prop) [Decidable c] (x y : Except String α) (a : α) :
    (if c then x else y) = Except.ok a ↔ (c ∧ x = Except.ok a) ∨ (¬ c ∧ y = Except.ok a) := by
  by_cases h : c
  · rw [if_pos h]
    exact ⟨fun h2 => Or.inl ⟨h, h2⟩, fun h2 => h2.elim (fun h3 => h3.2) (fun h3 => absurd h h3.1)⟩
  · rw [if_neg h]
    exact ⟨fun h2 => Or.inr ⟨h, h2⟩, fun h2 => h2.elim (fun h3 => absurd h3.1 h) (fun h3 => h3.2)⟩

theorem deserialize_vote_ok (E : vote_enums) (d : bt_dict) (vote : quorum_vote_t) :
    deserialize_vote E d = Except.ok vote ↔
      (d.find "v" = some (bt_value.int (vote.version : Int)) ∧ vote.version ≤ 255) ∧
      (d.find "t" = some (bt_value.int (vote.type : Int)) ∧ vote.type ≤ E.quorum_type_max ∧
        vote.type < E.quorum_type_count) ∧
      (d.find "h" = some (bt_value.int (vote.block_height : Int)) ∧ vote.block_height < U64) ∧
      (d.find "g" = some (bt_value.int (vote.group : Int)) ∧ vote.group ≤ E.quorum_group_max ∧
        vote.group < E.quorum_group_count) ∧
      vote.group ≠ E.group_invalid ∧
      (d.find "i" = some (bt_value.int (vote.index_in_group : Int)) ∧
        vote.index_in_group ≤ 65535) ∧
      (d.find "s" = some (bt_value.str vote.signature) ∧
        vote.signature.length = SIGNATURE_SIZE) ∧
      ((vote.type = E.checkpointing ∧ d.find "bh" = some (bt_value.str vote.block_hash) ∧
          vote.block_hash.length = 32 ∧ vote.worker_index = 0 ∧ vote.state = 0) ∨
        (vote.type ≠ E.checkpointing ∧
          (d.find "wi" = some (bt_value.int (vote.worker_index : Int)) ∧
            vote.worker_index ≤ 65535) ∧
          (d.find "sc" = some (bt_value.int (vote.state : Int)) ∧
            vote.state ≤ E.new_state_max ∧ vote.state < E.new_state_count) ∧
          vote.block_hash = "")) := by
  unfold deserialize_vote
  simp only [except_do_ok, bt_dict.at_ok, get_int_ok, get_int_u64_ok, get_string_ok, get_enum_ok,
    ite_except_ok, reduceCtorEq, and_false, false_or, ne_eq, not_not]
  obtain ⟨version, type, block_height, group, index_in_group, signature, block_hash,
    worker_index, state⟩ := vote
  simp only [Except.ok.injEq, quorum_vote_t.mk.injEq]
  constructor
  · rintro ⟨v, hv, n1, ⟨hv1, hv2⟩, t, ht, hh, hh0, n3, ⟨hh1, hh2⟩, g, hg, hgi, i, hi, n6,
      ⟨hi1, hi2⟩, sv, hs, sg, hs1, hs2, hrest⟩
    subst hv1 hh1 hi1 hs1
    rcases hrest with ⟨hc, b, hb, bh, hb1, hb2, e1, e2, e3, e4, e5, e6, e7, e8, e9⟩ |
      ⟨hc, w, hw, n10, ⟨hw1, hw2⟩, st, hst, e1, e2, e3, e4, e5, e6, e7, e8, e9⟩
    · subst hb1 e1 e2 e3 e4 e5 e6 e7 e8 e9
      exact ⟨⟨hv, hv2⟩, ht, ⟨hh0, hh2⟩, hg, hgi, ⟨hi, hi2⟩, ⟨hs, hs2⟩,
        Or.inl ⟨hc, hb, hb2, rfl, rfl⟩⟩
    · subst hw1 e1 e2 e3 e4 e5 e6 e7 e8 e9
      exact ⟨⟨hv, hv2⟩, ht, ⟨hh0, hh2⟩, hg, hgi, ⟨hi, hi2⟩, ⟨hs, hs2⟩,
        Or.inr ⟨hc, ⟨hw, hw2⟩, hst, rfl⟩⟩
  · rintro ⟨⟨hv, hv2⟩, ht, ⟨hh0, hh2⟩, hg, hgi, ⟨hi, hi2⟩, ⟨hs, hs2⟩, hrest⟩
    refine ⟨_, hv, version, ⟨rfl, hv2⟩, type, ht, _, hh0, block_height, ⟨rfl, hh2⟩, group, hg,
      hgi, _, hi, index_in_group, ⟨rfl, hi2⟩, _, hs, signature, rfl, hs2, ?_⟩
    rcases hrest with ⟨hc, hb, hb2, e1, e2⟩ | ⟨hc, ⟨hw, hw2⟩, hst, e1⟩
    · exact Or.inl ⟨hc, _, hb, block_hash, rfl, hb2, rfl, rfl, rfl, rfl, rfl, rfl, rfl,
        e1.symm, e2.symm⟩
    · exact Or.inr ⟨hc, _, hw, worker_index, ⟨rfl, hw2⟩, state, hst, rfl, rfl, rfl, rfl, rfl,
        rfl, e1.symm, rfl, rfl⟩
theorem serialize_vote_find (E : vote_enums) (vote : quorum_vote_t) :
    (serialize_vote E vote).find "v" = some (bt_value.int (vote.version : Int)) ∧
    (serialize_vote E vote).find "t" = some (bt_value.int ((vote.type % 256 : Nat) : Int)) ∧
    (serialize_vote E vote).find "h" = some (bt_value.int (vote.block_height : Int)) ∧
    (serialize_vote E vote).find "g" = some (bt_value.int ((vote.group % 256 : Nat) : Int)) ∧
    (serialize_vote E vote).find "i" = some (bt_value.int (vote.index_in_group : Int)) ∧
    (serialize_vote E vote).find "s" = some (bt_value.str vote.signature) ∧
    (vote.type = E.checkpointing →
      (serialize_vote E vote).find "bh" = some (bt_value.str vote.block_hash)) ∧
    (vote.type ≠ E.checkpointing →
      (serialize_vote E vote).find "wi" = some (bt_value.int (vote.worker_index : Int)) ∧
      (serialize_vote E vote).find "sc" = some (bt_value.int (vote.state : Int))) := by
  unfold serialize_vote
  by_cases hc : vote.type = E.checkpointing
  · rw [if_pos hc]
    exact ⟨rfl, rfl, rfl, rfl, rfl, rfl, fun _ => rfl, fun h => absurd hc h⟩
  · rw [if_neg hc]
    exact ⟨rfl, rfl, rfl, rfl, rfl, rfl, fun h => absurd h hc, fun _ => ⟨rfl, rfl⟩⟩

/-- C29: for a vote whose members are in the ranges of their types, whose type is a valid
quorum type, whose group is a valid group other than `invalid` and, when the type is not
`checkpointing`, whose state is a valid `new_state`, `deserialize_vote` of the dictionary
that `serialize_vote` builds succeeds with a vote equal in version, type, block height,
group, index in group and signature, and in the block hash for a checkpointing vote or in
the worker index and state otherwise. A dictionary whose group is `invalid`, whose `t` or `g`
is not a valid enum value, whose `sc` is not one in a non-checkpointing vote, whose signature
has another size than `SIGNATURE_SIZE`, or whose block hash in a checkpointing vote has
another size than 32, is rejected with an error. -/
theorem C29_vote_round_trip (E : vote_enums) (vote : quorum_vote_t) (hE : E.fits)
    (hrange : vote.in_range E) (htype : vote.type < E.quorum_type_count)
    (hgroup : vote.group < E.quorum_group_count) (hvalid : vote.group ≠ E.group_invalid)
    (hstate : vote.type ≠ E.checkpointing → vote.state < E.new_state_count) :
    (∃ w, deserialize_vote E (serialize_vote E vote) = Except.ok w ∧
      w.version = vote.version ∧ w.type = vote.type ∧ w.block_height = vote.block_height ∧
      w.group = vote.group ∧ w.index_in_group = vote.index_in_group ∧
      w.signature = vote.signature ∧
      (vote.type = E.checkpointing → w.block_hash = vote.block_hash) ∧
      (vote.type ≠ E.checkpointing →
        w.worker_index = vote.worker_index ∧ w.state = vote.state)) ∧
    (∀ d : bt_dict, d.find "g" = some (bt_value.int (E.group_invalid : Int)) →
      ∃ e, deserialize_vote E d = Except.error e) ∧
    (∀ (d : bt_dict) (n : Int), d.find "t" = some (bt_value.int n) →
      ¬ (0 ≤ n ∧ n < (E.quorum_type_count : Int)) →
      ∃ e, deserialize_vote E d = Except.error e) ∧
    (∀ (d : bt_dict) (n : Int), d.find "g" = some (bt_value.int n) →
      ¬ (0 ≤ n ∧ n < (E.quorum_group_count : Int)) →
      ∃ e, deserialize_vote E d = Except.error e) ∧
    (∀ (d : bt_dict) (t n : Int), d.find "t" = some (bt_value.int t) →
      t ≠ (E.checkpointing : Int) → d.find "sc" = some (bt_value.int n) →
      ¬ (0 ≤ n ∧ n < (E.new_state_count : Int)) →
      ∃ e, deserialize_vote E d = Except.error e) ∧
    (∀ (d : bt_dict) (s : String), d.find "s" = some (bt_value.str s) →
      s.length ≠ SIGNATURE_SIZE → ∃ e, deserialize_vote E d = Except.error e) ∧
    (∀ (d : bt_dict) (b : String),
      d.find "t" = some (bt_value.int (E.checkpointing : Int)) →
      d.find "bh" = some (bt_value.str b) → b.length ≠ 32 →
      ∃ e, deserialize_vote E d = Except.error e) := by
  have hreject : ∀ d : bt_dict, (∀ w, deserialize_vote E d ≠ Except.ok w) →
      ∃ e, deserialize_vote E d = Except.error e := by
    intro d h
    rcases except_ok_or_error (deserialize_vote E d) with ⟨w, hw⟩ | he
    · exact absurd hw (h w)
    · exact he
  have hfind := serialize_vote_find E vote
  have ht256 : vote.type % 256 = vote.type := Nat.mod_eq_of_lt (by have := hE.2.1; omega)
  have hg256 : vote.group % 256 = vote.group := Nat.mod_eq_of_lt (by have := hE.2.2.2.1; omega)
  rw [ht256, hg256] at hfind
  obtain ⟨hr1, hr2, hr3, hr4, hr5, hr6⟩ := hrange
  refine ⟨?_, ?_, ?_, ?_, ?_, ?_, ?_⟩
  · by_cases hc : vote.type = E.checkpointing
    · refine ⟨{ vote with worker_index := 0, state := 0 }, ?_, rfl, rfl, rfl, rfl, rfl, rfl,
        fun _ => rfl, fun h => absurd hc h⟩
      rw [deserialize_vote_ok]
      exact ⟨⟨hfind.1, hr1⟩, ⟨hfind.2.1, Nat.le_trans (Nat.le_of_lt htype) hE.1, htype⟩, ⟨hfind.2.2.1, hr2⟩,
        ⟨hfind.2.2.2.1, Nat.le_trans (Nat.le_of_lt hgroup) hE.2.2.1, hgroup⟩, hvalid,
        ⟨hfind.2.2.2.2.1, hr3⟩, ⟨hfind.2.2.2.2.2.1, hr5⟩,
        Or.inl ⟨hc, hfind.2.2.2.2.2.2.1 hc, hr6 hc, rfl, rfl⟩⟩
    · refine ⟨{ vote with block_hash := "" }, ?_, rfl, rfl, rfl, rfl, rfl, rfl,
        fun h => absurd h hc, fun _ => ⟨rfl, rfl⟩⟩
      rw [deserialize_vote_ok]
      exact ⟨⟨hfind.1, hr1⟩, ⟨hfind.2.1, Nat.le_trans (Nat.le_of_lt htype) hE.1, htype⟩, ⟨hfind.2.2.1, hr2⟩,
        ⟨hfind.2.2.2.1, Nat.le_trans (Nat.le_of_lt hgroup) hE.2.2.1, hgroup⟩, hvalid,
        ⟨hfind.2.2.2.2.1, hr3⟩, ⟨hfind.2.2.2.2.2.1, hr5⟩,
        Or.inr ⟨hc, ⟨(hfind.2.2.2.2.2.2.2 hc).1, hr4⟩,
          ⟨(hfind.2.2.2.2.2.2.2 hc).2, Nat.le_trans (Nat.le_of_lt (hstate hc)) hE.2.2.2.2,
            hstate hc⟩, rfl⟩⟩
  · intro d hd
    apply hreject
    intro w hw
    rw [deserialize_vote_ok] at hw
    have h := hw.2.2.2.1.1
    rw [hd] at h
    injection h with h
    injection h with h
    exact hw.2.2.2.2.1 (Int.ofNat_inj.mp h).symm
  · intro d n hd hn
    apply hreject
    intro w hw
    rw [deserialize_vote_ok] at hw
    have h := hw.2.1.1
    rw [hd] at h
    injection h with h
    injection h with h
    have h3 := hw.2.1.2.2
    omega
  · intro d n hd hn
    apply hreject
    intro w hw
    rw [deserialize_vote_ok] at hw
    have h := hw.2.2.2.1.1
    rw [hd] at h
    injection h with h
    injection h with h
    have h3 := hw.2.2.2.1.2.2
    omega
  · intro d t n hd ht hsc hn
    apply hreject
    intro w hw
    rw [deserialize_vote_ok] at hw
    have h := hw.2.1.1
    rw [hd] at h
    injection h with h
    injection h with h
    rcases hw.2.2.2.2.2.2.2 with ⟨hc, _⟩ | ⟨_, _, ⟨h5, _, h6⟩, _⟩
    · rw [hc] at h
      exact ht h
    · rw [hsc] at h5
      injection h5 with h5
      injection h5 with h5
      omega
  · intro d s hd hs
    apply hreject
    intro w hw
    rw [deserialize_vote_ok] at hw
    have h := hw.2.2.2.2.2.2.1
    rw [hd] at h
    injection h.1 with h1
    injection h1 with h1
    rw [h1] at hs
    exact hs h.2
  · intro d b hd hb hlen
    apply hreject
    intro w hw
    rw [deserialize_vote_ok] at hw
    have h := hw.2.1.1
    rw [hd] at h
    injection h with h
    injection h with h
    rcases hw.2.2.2.2.2.2.2 with ⟨_, h5, h6, _⟩ | ⟨hc, _⟩
    · rw [hb] at h5
      injection h5 with h5
      injection h5 with h5
      rw [h5] at hlen
      exact hlen h6
    · exact hc (Int.ofNat_inj.mp h).symm

/-- C29 (witness): the round trip of the example obligations vote and of the example
checkpointing vote, both at height 100. -/
theorem C29_vote_round_trip_witness :
    (example_vote_enums.fits ∧ (example_vote 100).in_range example_vote_enums ∧
      (example_checkpoint_vote 100).in_range example_vote_enums) ∧
    deserialize_vote example_vote_enums (serialize_vote example_vote_enums (example_vote 100)) =
      Except.ok (example_vote 100) ∧
    (∃ w, deserialize_vote example_vote_enums
        (serialize_vote example_vote_enums (example_checkpoint_vote 100)) = Except.ok w ∧
      w.version = (example_checkpoint_vote 100).version ∧
      w.type = (example_checkpoint_vote 100).type ∧
      w.block_height = (example_checkpoint_vote 100).block_height ∧
      w.group = (example_checkpoint_vote 100).group ∧
      w.index_in_group = (example_checkpoint_vote 100).index_in_group ∧
      w.signature = (example_checkpoint_vote 100).signature ∧
      ((example_checkpoint_vote 100).type = example_vote_enums.checkpointing →
        w.block_hash = (example_checkpoint_vote 100).block_hash) ∧
      ((example_checkpoint_vote 100).type ≠ example_vote_enums.checkpointing →
        w.worker_index = (example_checkpoint_vote 100).worker_index ∧
        w.state = (example_checkpoint_vote 100).state)) :=
  ⟨⟨by decide, by decide, by decide⟩, rfl,
    (C29_vote_round_trip example_vote_enums (example_checkpoint_vote 100) (by decide)
      (by decide) (by decide) (by decide) (by decide) (by decide)).1⟩

/-! ## Portions arithmetic -/

theorem carry_add_exact (M X t : Nat) (hM : 0 < M) (ht : t < M) (hX : X + t < M * M) :
    (if X % M > M - 1 - t then (X / M + 1) % M else X / M) * M + (X % M + t) % M = X + t := by
  have hdiv := Nat.div_add_mod X M
  have hmod := Nat.mod_lt X hM
  by_cases hc : X % M > M - 1 - t
  · rw [if_pos hc]
    have hhi : X / M + 1 < M := by
      by_contra hge
      have h1 : M * M ≤ M * (X / M + 1) := Nat.mul_le_mul_left M (not_lt.mp hge)
      have h2 : M * (X / M + 1) = M * (X / M) + M := by ring
      omega
    rw [Nat.mod_eq_of_lt hhi]
    have hlo : (X % M + t) % M = X % M + t - M := by
      rw [Nat.mod_eq_sub_mod (by omega), Nat.mod_eq_of_lt (by omega)]
    rw [hlo]
    have h3 : (X / M + 1) * M = M * (X / M) + M := by ring
    omega
  · rw [if_neg hc]
    rw [Nat.mod_eq_of_lt (by omega : X % M + t < M)]
    have h3 : X / M * M = M * (X / M) := Nat.mul_comm _ _
    omega

theorem ceil_div_le (a s P : Nat) (hs : 0 < s) (ha : a ≤ s) : (a * P + (s - 1)) / s ≤ P := by
  have h1 : a * P + (s - 1) < (P + 1) * s := by
    have h2 : a * P ≤ s * P := Nat.mul_le_mul_right P ha
    have h3 : (P + 1) * s = s * P + s := by ring
    omega
  have h4 := (Nat.div_lt_iff_lt_mul hs).mpr h1
  omega

theorem ceil_div_spec (X s k : Nat) (hs : 0 < s) : (X + (s - 1)) / s ≤ k ↔ X ≤ k * s := by
  constructor
  · intro h
    by_contra hlt
    have h1 : k * s + 1 ≤ X := by omega
    have h2 : (k + 1) * s ≤ X + (s - 1) := by
      have h3 : (k + 1) * s = k * s + s := by ring
      omega
    have h4 := (Nat.le_div_iff_mul_le hs).mpr h2
    omega
  · intro h
    have h1 : X + (s - 1) < (k + 1) * s := by
      have h3 : (k + 1) * s = k * s + s := by ring
      omega
    have h4 := (Nat.div_lt_iff_lt_mul hs).mpr h1
    omega

theorem get_portions_to_make_amount_eq (s a P : Nat) (hs : 0 < s) (hs64 : s < U64)
    (ha : a ≤ s) (hP : P < U64) :
    get_portions_to_make_amount s a P = (a * P + (s - 1)) / s := by
  have hU : 0 < U64 := Nat.lt_of_le_of_lt (Nat.zero_le s) hs64
  have hsub : u64_sub s 1 = s - 1 := by
    unfold u64_sub
    rw [if_pos (Nat.succ_le_of_lt hs)]
  have hmax : u64_sub (U64 - 1) (s - 1) = U64 - 1 - (s - 1) := by
    unfold u64_sub
    rw [if_pos (by omega)]
  have hX : a * P + (s - 1) < U64 * U64 := by
    have h1 : a * P ≤ (U64 - 1) * (U64 - 1) := Nat.mul_le_mul (by omega) (by omega)
    have h2 : U64 * U64 = (U64 - 1) * (U64 - 1) + (U64 - 1) + (U64 - 1) + 1 := by
      obtain ⟨m, hm⟩ : ∃ m, U64 = m + 1 := ⟨U64 - 1, by omega⟩
      rw [hm]
      simp only [Nat.add_sub_cancel]
      ring
    omega
  unfold get_portions_to_make_amount mul128 div128_64 u64_add
  dsimp only
  rw [hsub, hmax, carry_add_exact U64 (a * P) (s - 1) hU (by omega) hX]
  exact Nat.mod_eq_of_lt (Nat.lt_of_le_of_lt (ceil_div_le a s P hs ha) hP)

theorem portions_to_amount_eq (P portions s : Nat) (hP : 0 < P) (hs64 : s < U64)
    (hportions : portions ≤ P) :
    portions_to_amount P portions s = s * portions / P := by
  have hU : 0 < U64 := Nat.lt_of_le_of_lt (Nat.zero_le s) hs64
  unfold portions_to_amount mul128 div128_64
  dsimp only
  rw [Nat.div_add_mod' (s * portions) U64]
  apply Nat.mod_eq_of_lt
  have h1 : s * portions ≤ s * P := Nat.mul_le_mul_left s hportions
  have h2 : s * portions / P ≤ s := by
    have h3 := Nat.div_le_div_right (c := P) h1
    rw [Nat.mul_div_cancel s hP] at h3
    exact h3
  omega
/-- C30: for a staking requirement `0 < s < 2^64`, an amount `a ≤ s` and a number of
portions `0 < P < 2^64`, `get_portions_to_make_amount s a P` is the ceiling of `a * P / s`
computed without any 64-bit wrap: it equals `(a * P + (s - 1)) / s` over the natural numbers
and is the least `k` with `a * P ≤ k * s`; and the portions returned make the amount:
`portions_to_amount` of them, with `STAKING_PORTIONS = P`, is at least `a`. -/
theorem C30_portions_ceiling (s a P : Nat) (hs : 0 < s) (hs64 : s < U64) (ha : a ≤ s)
    (hP : 0 < P) (hP64 : P < U64) :
    get_portions_to_make_amount s a P = (a * P + (s - 1)) / s ∧
    (∀ k : Nat, get_portions_to_make_amount s a P ≤ k ↔ a * P ≤ k * s) ∧
    a ≤ portions_to_amount P (get_portions_to_make_amount s a P) s := by
  have heq := get_portions_to_make_amount_eq s a P hs hs64 ha hP64
  have hceil : ∀ k : Nat, get_portions_to_make_amount s a P ≤ k ↔ a * P ≤ k * s := by
    intro k
    rw [heq]
    exact ceil_div_spec (a * P) s k hs
  refine ⟨heq, hceil, ?_⟩
  have hle : get_portions_to_make_amount s a P ≤ P := by
    rw [heq]
    exact ceil_div_le a s P hs ha
  rw [portions_to_amount_eq P _ s hP hs64 hle, Nat.le_div_iff_mul_le hP, Nat.mul_comm s]
  exact (hceil _).mp (Nat.le_refl _)

/-- C30 (witness): a quarter of a staking requirement of 15000 coins of `10^9` atomic units
with `P = 2^64 - 4`: the product does not fit 64 bits, the portions are a quarter of `P` and
make the amount. -/
theorem C30_portions_ceiling_witness :
    (0 < 15000000000000 ∧ 15000000000000 < U64 ∧ 3750000000000 ≤ 15000000000000 ∧
      0 < 18446744073709551612 ∧ 18446744073709551612 < U64 ∧
      U64 ≤ 3750000000000 * 18446744073709551612) ∧
    get_portions_to_make_amount 15000000000000 3750000000000 18446744073709551612 =
      4611686018427387903 ∧
    3750000000000 ≤ portions_to_amount 18446744073709551612
      (get_portions_to_make_amount 15000000000000 3750000000000 18446744073709551612)
      15000000000000 :=
  ⟨⟨by decide, by decide, by decide, by decide, by decide, by decide⟩,
    (C30_portions_ceiling 15000000000000 3750000000000 18446744073709551612 (by decide)
      (by decide) (by decide) (by decide) (by decide)).1.trans (by decide),
    (C30_portions_ceiling 15000000000000 3750000000000 18446744073709551612 (by decide)
      (by decide) (by decide) (by decide) (by decide)).2.2⟩

end quorumnet
